import Mathlib

/-!
# ORT-format tensor codec (`graph_flatbuffers_utils.cc`)

A shallow embedding of the tensor, sparse-tensor and OrtValue codecs of
`onnxruntime/core/graph/graph_flatbuffers_utils.cc`, followed by theorems about them.

Conventions of the embedding:

* a `Status`-returning function whose out-parameter is written only on success
  (`Save...`) returns `Except Status result`;
* a `Status`-returning function that mutates its out-parameter as it goes (`Load...`)
  takes the old value of the out-parameter and returns the status together with the
  new value;
* a flatbuffers table is the record of what its accessors return, an absent
  (null) field being `none`;
* a protobuf message is the record of its fields, an optional scalar field with a
  presence bit (`has_name`) being an `Option`;
* helpers that are declared outside the three source files are parameters of the
  functions that call them.
-/

namespace onnxruntime

/-! ## Status -/

/-- The status categories used by the two source files (`common::StatusCode`). -/
inductive StatusCode where
  | OK
  | FAIL
  | INVALID_ARGUMENT
  | NOT_IMPLEMENTED
  | EP_FAIL
  deriving DecidableEq

/-- The type `common::Status`: a category and a message. -/
structure Status where
  code : StatusCode
  msg : String
  deriving DecidableEq

/-- The value `Status::OK()`. -/
def Status.OK : Status := ⟨StatusCode.OK, ""⟩

/-- The method `Status::IsOK()`. -/
def Status.IsOK (s : Status) : Bool := decide (s.code = StatusCode.OK)

/-- The expression `ORT_MAKE_STATUS(ONNXRUNTIME, code, msg...)`. -/
def ORT_MAKE_STATUS (code : StatusCode) (msg : String) : Status := ⟨code, msg⟩

/-- Modelled from the spec: the status built by the macros `ORT_RETURN_IF` and
`ORT_RETURN_IF_NOT` (core/common, not among the source files) when their condition
fires. It is a failure carrying the message. The macros take no category argument and
the source files do not decide the category of the failure. The spec calls most of
these failures `Corrupt`, `InvalidState`, `NotFound` or `IOError`, none of which is a
category of `StatusCode`; they are given the generic failure category here, and the
statements about these guards use only that the status is not OK and what its message
is. The guard for which the spec names a category of `StatusCode` and for which the
category is stated has the definition `ORT_RETURN_IF_status_InvalidArgument`. -/
def ORT_RETURN_IF_status (msg : String) : Status := ORT_MAKE_STATUS StatusCode.FAIL msg

/-- Modelled from the spec: the status built by the guard
`ORT_RETURN_IF(nullptr == subgraph, ...)` of `SaveAttributeOrtFormat` when the subgraph
is null. The macro (core/common, not among the source files) takes no category
argument and the source files do not decide the category of the failure; the spec says
of this guard that the encoding "fails with `InvalidArgument` if null", so the status
is a failure of the category `INVALID_ARGUMENT` carrying the message. -/
def ORT_RETURN_IF_status_InvalidArgument (msg : String) : Status :=
  ORT_MAKE_STATUS StatusCode.INVALID_ARGUMENT msg

/-! ## Element-type tags -/

/-- Modelled from the spec: the fixed element-type enumeration
`ONNX_NAMESPACE::TensorProto_DataType`, whose declaration is not among the source
files; the numbering is that of the ONNX standard. `fbs::TensorDataType` has the same
members with the same values: the code converts between the two by `static_cast`
only. This member is the tag of an undefined element type. -/
def TensorProto_DataType_UNDEFINED : Int := 0
/-- Tag of 32-bit floats. -/
def TensorProto_DataType_FLOAT : Int := 1
/-- Tag of unsigned 8-bit integers. -/
def TensorProto_DataType_UINT8 : Int := 2
/-- Tag of signed 8-bit integers. -/
def TensorProto_DataType_INT8 : Int := 3
/-- Tag of unsigned 16-bit integers. -/
def TensorProto_DataType_UINT16 : Int := 4
/-- Tag of signed 16-bit integers. -/
def TensorProto_DataType_INT16 : Int := 5
/-- Tag of signed 32-bit integers. -/
def TensorProto_DataType_INT32 : Int := 6
/-- Tag of signed 64-bit integers. -/
def TensorProto_DataType_INT64 : Int := 7
/-- Tag of UTF-8 strings. -/
def TensorProto_DataType_STRING : Int := 8
/-- Tag of booleans. -/
def TensorProto_DataType_BOOL : Int := 9
/-- Tag of 16-bit floats. -/
def TensorProto_DataType_FLOAT16 : Int := 10
/-- Tag of 64-bit floats. -/
def TensorProto_DataType_DOUBLE : Int := 11
/-- Tag of unsigned 32-bit integers. -/
def TensorProto_DataType_UINT32 : Int := 12
/-- Tag of unsigned 64-bit integers. -/
def TensorProto_DataType_UINT64 : Int := 13
/-- Tag of 64-bit complex numbers. -/
def TensorProto_DataType_COMPLEX64 : Int := 14
/-- Tag of 128-bit complex numbers. -/
def TensorProto_DataType_COMPLEX128 : Int := 15
/-- Tag of bfloat16. -/
def TensorProto_DataType_BFLOAT16 : Int := 16
/-- Tag of the first reserved narrow float format. -/
def TensorProto_DataType_FLOAT8E4M3FN : Int := 17
/-- Tag of the second reserved narrow float format. -/
def TensorProto_DataType_FLOAT8E4M3FNUZ : Int := 18
/-- Tag of the third reserved narrow float format. -/
def TensorProto_DataType_FLOAT8E5M2 : Int := 19
/-- Tag of the fourth reserved narrow float format. -/
def TensorProto_DataType_FLOAT8E5M2FNUZ : Int := 20

/-- The member `fbs::TensorDataType::STRING`. -/
def fbs.TensorDataType.STRING : Int := TensorProto_DataType_STRING

/-- The members of the element-type enumeration, `UNDEFINED` to `FLOAT8E5M2FNUZ`. -/
def TensorDataType_values : List Int :=
  [TensorProto_DataType_UNDEFINED, TensorProto_DataType_FLOAT, TensorProto_DataType_UINT8,
   TensorProto_DataType_INT8, TensorProto_DataType_UINT16, TensorProto_DataType_INT16,
   TensorProto_DataType_INT32, TensorProto_DataType_INT64, TensorProto_DataType_STRING,
   TensorProto_DataType_BOOL, TensorProto_DataType_FLOAT16, TensorProto_DataType_DOUBLE,
   TensorProto_DataType_UINT32, TensorProto_DataType_UINT64, TensorProto_DataType_COMPLEX64,
   TensorProto_DataType_COMPLEX128, TensorProto_DataType_BFLOAT16,
   TensorProto_DataType_FLOAT8E4M3FN, TensorProto_DataType_FLOAT8E4M3FNUZ,
   TensorProto_DataType_FLOAT8E5M2, TensorProto_DataType_FLOAT8E5M2FNUZ]

/-- The four reserved narrow float formats. -/
def Float8_values : List Int :=
  [TensorProto_DataType_FLOAT8E4M3FN, TensorProto_DataType_FLOAT8E4M3FNUZ,
   TensorProto_DataType_FLOAT8E5M2, TensorProto_DataType_FLOAT8E5M2FNUZ]

/-! ## Wire records and in-memory records -/

/-- One byte (`uint8_t`). -/
abbrev Byte := Fin 256

/-- The type `Path` of the model path handed through to the unpacker. -/
abbrev Path := String

/-- A `flatbuffers::Vector<uint8_t>` as its accessors show it: `Data()` is the address
of its first byte in the buffer being read, `elems` its content. -/
structure fbs.ByteVector where
  Data : Int
  elems : List Byte
  deriving DecidableEq

/-- The method `flatbuffers::Vector::size()`. -/
def fbs.ByteVector.size (v : fbs.ByteVector) : Nat := v.elems.length

/-- The table `fbs::Tensor` as its accessors show it; `none` is a null pointer. The
tag is an `int32`-backed enum read without any range check. -/
structure fbs.Tensor where
  name : Option String
  doc_string : Option String
  dims : Option (List Int)
  data_type : Int
  raw_data : Option fbs.ByteVector
  string_data : Option (List String)
  deriving DecidableEq

/-- The table `fbs::SparseTensor` as its accessors show it. -/
structure fbs.SparseTensor where
  values : Option fbs.Tensor
  indices : Option fbs.Tensor
  dims : Option (List Int)
  deriving DecidableEq

/-- The enum `TensorProto_DataLocation`. -/
inductive TensorProto_DataLocation where
  | DEFAULT
  | EXTERNAL
  deriving DecidableEq

/-- The message `StringStringEntryProto`. -/
structure StringStringEntryProto where
  key : String
  value : String
  deriving DecidableEq

/-- The fields of the message `ONNX_NAMESPACE::TensorProto` that the codec touches. -/
structure TensorProto where
  name : Option String
  doc_string : Option String
  dims : List Int
  data_type : Int
  string_data : List String
  raw_data : Option (List Byte)
  data_location : TensorProto_DataLocation
  external_data : List StringStringEntryProto
  deriving DecidableEq

/-- A freshly constructed `TensorProto`. -/
def TensorProto.empty : TensorProto :=
  ⟨none, none, [], 0, [], none, TensorProto_DataLocation.DEFAULT, []⟩

instance : Inhabited TensorProto := ⟨TensorProto.empty⟩

/-- The method `TensorProto::Clear()`. -/
def TensorProto.Clear (_ : TensorProto) : TensorProto := TensorProto.empty

/-- The accessor `TensorProto::has_name()`. -/
def TensorProto.has_name (t : TensorProto) : Bool := t.name.isSome

/-- The accessor `TensorProto::name()`, empty when the field is not set. -/
def TensorProto.get_name (t : TensorProto) : String := t.name.getD ""

/-- The accessor `TensorProto::has_doc_string()`. -/
def TensorProto.has_doc_string (t : TensorProto) : Bool := t.doc_string.isSome

/-- The accessor `TensorProto::doc_string()`, empty when the field is not set. -/
def TensorProto.get_doc_string (t : TensorProto) : String := t.doc_string.getD ""

/-- The message `ONNX_NAMESPACE::SparseTensorProto`; a sub-message that was never
made present is `none`. -/
structure SparseTensorProto where
  values : Option TensorProto
  indices : Option TensorProto
  dims : List Int
  deriving DecidableEq

/-- A freshly constructed `SparseTensorProto`. -/
def SparseTensorProto.empty : SparseTensorProto := ⟨none, none, []⟩

instance : Inhabited SparseTensorProto := ⟨SparseTensorProto.empty⟩

/-- The accessor `SparseTensorProto::values()`: the default message when absent. -/
def SparseTensorProto.get_values (s : SparseTensorProto) : TensorProto :=
  s.values.getD TensorProto.empty

/-- The accessor `SparseTensorProto::indices()`: the default message when absent. -/
def SparseTensorProto.get_indices (s : SparseTensorProto) : TensorProto :=
  s.indices.getD TensorProto.empty

/-- The one flag of `OrtFormatLoadOptions` that the tensor codec reads. -/
structure OrtFormatLoadOptions where
  can_use_flatbuffer_for_initializers : Bool
  deriving DecidableEq

/-- Modelled from the spec: the constant `utils::kTensorProtoMemoryAddressTag`
(tensorprotoutils, not among the source files), the location text that marks an
address-location reference. No theorem depends on its text. -/
def kTensorProtoMemoryAddressTag : String := "*/_ORT_MEM_ADDR_/*"

/-- The `flatbuffers::FlatBufferBuilder` as far as the codec depends on it: where a
byte vector it creates will be found by a reader of the finished buffer. -/
structure FlatBufferBuilder where
  address_of : List Byte → Int

/-- The call `builder.CreateVector(data, size)` for bytes. -/
def FlatBufferBuilder.CreateVector (builder : FlatBufferBuilder) (bytes : List Byte) :
    fbs.ByteVector :=
  ⟨builder.address_of bytes, bytes⟩

/-- Modelled from the spec: `SaveStringToOrtFormat` (core/flatbuffers, not among the
source files), the optional-field encoder of the scalar codec: the string is written
when it is present and the field is left absent otherwise. -/
def SaveStringToOrtFormat (has_string : Bool) (src : String) : Option String :=
  if has_string then some src else none

/-- Modelled from the spec: the macro `LOAD_STR_FROM_ORT_FORMAT` (core/flatbuffers, not
among the source files), the optional-field decoder of the scalar codec: a present
wire string is stored in the field, an absent one leaves the field as it is. -/
def LOAD_STR_FROM_ORT_FORMAT (field : Option String) (fbs_str : Option String) :
    Option String :=
  match fbs_str with
  | some s => some s
  | none => field

/-- The helper `SaveDims`: the dimensions copied into an `int64` vector. -/
def SaveDims (dims : List Int) : List Int := dims

/-! ## Tensor codec -/

/-- The function `SaveInitializerOrtFormat`. `UnpackInitializerData`
(tensorprotoutils, not among the source files) is a parameter: it yields the raw
bytes of a non-string initializer or an error. -/
def SaveInitializerOrtFormat
    (UnpackInitializerData : TensorProto → Path → Except Status (List Byte))
    (builder : FlatBufferBuilder) (initializer : TensorProto) (model_path : Path) :
    Except Status fbs.Tensor :=
  let name := SaveStringToOrtFormat initializer.has_name initializer.get_name
  let doc_string := SaveStringToOrtFormat initializer.has_doc_string initializer.get_doc_string
  let dims := SaveDims initializer.dims
  let src_type := initializer.data_type
  let has_string_data : Bool := decide (src_type = TensorProto_DataType_STRING)
  if has_string_data then
    let string_data := initializer.string_data
    Except.ok ⟨name, doc_string, some dims, src_type, none, some string_data⟩
  else
    match UnpackInitializerData initializer model_path with
    | Except.error e => Except.error e
    | Except.ok unpacked_tensor =>
      let raw_data := builder.CreateVector unpacked_tensor
      Except.ok ⟨name, doc_string, some dims, src_type, some raw_data, none⟩

/-- The function `LoadInitializerOrtFormat`. -/
def LoadInitializerOrtFormat (fbs_tensor : fbs.Tensor) (initializer : TensorProto)
    (load_options : OrtFormatLoadOptions) : Status × TensorProto :=
  let initializer := initializer.Clear
  let initializer :=
    { initializer with name := LOAD_STR_FROM_ORT_FORMAT initializer.name fbs_tensor.name }
  let initializer :=
    { initializer with
      doc_string := LOAD_STR_FROM_ORT_FORMAT initializer.doc_string fbs_tensor.doc_string }
  match fbs_tensor.dims with
  | none =>
    (ORT_RETURN_IF_status "Missing dimensions for initializer. Invalid ORT format model.",
     initializer)
  | some fbs_dims =>
    let initializer := { initializer with dims := initializer.dims ++ fbs_dims }
    let fbs_data_type := fbs_tensor.data_type
    let initializer := { initializer with data_type := fbs_data_type }
    if fbs_data_type = fbs.TensorDataType.STRING then
      match fbs_tensor.string_data with
      | none =>
        (ORT_RETURN_IF_status "Missing string data for initializer. Invalid ORT format model.",
         initializer)
      | some fbs_str_data =>
        (Status.OK,
         { initializer with string_data := initializer.string_data ++ fbs_str_data })
    else
      match fbs_tensor.raw_data with
      | none =>
        (ORT_RETURN_IF_status "Missing raw data for initializer. Invalid ORT format model.",
         initializer)
      | some fbs_raw_data =>
        if load_options.can_use_flatbuffer_for_initializers && decide (fbs_raw_data.size > 127)
        then
          let initializer :=
            { initializer with data_location := TensorProto_DataLocation.EXTERNAL }
          let offset := fbs_raw_data.Data
          let initializer :=
            { initializer with
              external_data := initializer.external_data ++
                [⟨"location", kTensorProtoMemoryAddressTag⟩,
                 ⟨"offset", toString offset⟩,
                 ⟨"length", toString fbs_raw_data.size⟩] }
          (Status.OK, initializer)
        else
          (Status.OK, { initializer with raw_data := some fbs_raw_data.elems })

/-- The function `LoadSparseInitializerOrtFormat`. -/
def LoadSparseInitializerOrtFormat (fbs_sparse_tensor : fbs.SparseTensor)
    (initializer : SparseTensorProto) (load_options : OrtFormatLoadOptions) :
    Status × SparseTensorProto :=
  let loaded_initializer := SparseTensorProto.empty
  match fbs_sparse_tensor.values with
  | none =>
    (ORT_RETURN_IF_status "Missing values for sparse initializer. Invalid ORT format model.",
     initializer)
  | some fbs_values_tensor =>
    let r := LoadInitializerOrtFormat fbs_values_tensor loaded_initializer.get_values load_options
    let values_tensor := r.2
    let loaded_initializer := { loaded_initializer with values := some values_tensor }
    if !r.1.IsOK then (r.1, initializer)
    else if values_tensor.get_name = "" then
      (ORT_RETURN_IF_status
        "Missing name for SparseTensor initializer. Invalid ORT format model.", initializer)
    else
      match fbs_sparse_tensor.indices with
      | none =>
        (ORT_RETURN_IF_status
          ("Missing indicies for sparse initializer: " ++ "'" ++ values_tensor.get_name ++ "'" ++
            "Invalid ORT format model."), initializer)
      | some fbs_indicies_tensor =>
        let r2 := LoadInitializerOrtFormat fbs_indicies_tensor loaded_initializer.get_indices
          load_options
        let loaded_initializer := { loaded_initializer with indices := some r2.2 }
        if !r2.1.IsOK then (r2.1, initializer)
        else
          match fbs_sparse_tensor.dims with
          | none =>
            (ORT_RETURN_IF_status
              ("Missing dims for sparse initializer: " ++ "'" ++ values_tensor.get_name ++ "'" ++
                "Invalid ORT format model."), initializer)
          | some fbs_dims =>
            let loaded_initializer :=
              { loaded_initializer with dims := loaded_initializer.dims ++ fbs_dims }
            (Status.OK, loaded_initializer)

/-- The function `SaveSparseInitializerOrtFormat`: the values and then the indices are
saved by the tensor codec (an absent field reads as the default message), then the
dense shape as a dimension list. -/
def SaveSparseInitializerOrtFormat
    (UnpackInitializerData : TensorProto → Path → Except Status (List Byte))
    (builder : FlatBufferBuilder) (initializer : SparseTensorProto) (model_path : Path) :
    Except Status fbs.SparseTensor :=
  let values := initializer.get_values
  match SaveInitializerOrtFormat UnpackInitializerData builder values model_path with
  | Except.error e => Except.error e
  | Except.ok values_off =>
    let indicies := initializer.get_indices
    match SaveInitializerOrtFormat UnpackInitializerData builder indicies model_path with
    | Except.error e => Except.error e
    | Except.ok indicies_off =>
      let shape := SaveDims initializer.dims
      Except.ok ⟨some values_off, some indicies_off, some shape⟩

/-! ## OrtValue codec -/

/-- The class `OrtDevice` as far as the codec reads it: the device type. -/
structure OrtDevice where
  device_type : Int
  deriving DecidableEq

/-- The constant `OrtDevice::CPU`. -/
def OrtDevice.CPU : Int := 0
/-- The constant `OrtDevice::GPU`. -/
def OrtDevice.GPU : Int := 1
/-- The constant `OrtMemTypeCPUInput`. -/
def OrtMemTypeCPUInput : Int := -2
/-- The constant `OrtMemTypeCPUOutput`. -/
def OrtMemTypeCPUOutput : Int := -1
/-- The constant `OrtMemTypeDefault`. -/
def OrtMemTypeDefault : Int := 0

/-- The struct `OrtMemoryInfo` as far as the codec reads it. -/
structure OrtMemoryInfo where
  device : OrtDevice
  mem_type : Int
  deriving DecidableEq

/-- The value `OrtMemoryInfo{onnxruntime::CPU, OrtDeviceAllocator}`. -/
def cpu_alloc_info : OrtMemoryInfo := ⟨⟨OrtDevice.CPU⟩, OrtMemTypeDefault⟩

/-- Modelled from the spec: an element-type descriptor (`MLDataType`, declared outside
the source files): the element-type tag and the size of one element in bytes. -/
structure MLDataType where
  element_type : Int
  size : Nat
  deriving DecidableEq

/-- Modelled from the spec: the method `TensorShape::Size()` (declared outside the
source files), the element count of a shape. -/
def TensorShape_Size (dims : List Int) : Int :=
  if dims.any (fun d => decide (d < 0)) then -1 else dims.foldl (fun a d => a * d) 1

/-- Modelled from the spec: the class `onnxruntime::Tensor` (declared outside the
source files): element type, shape, the bytes of its buffer, and where it lives. -/
structure Tensor where
  dtype : MLDataType
  shape : List Int
  data : List Byte
  location : OrtMemoryInfo
  deriving DecidableEq

/-- The method `Tensor::SizeInBytes()`: element count times element size. -/
def Tensor.SizeInBytes (t : Tensor) : Nat := (TensorShape_Size t.shape).toNat * t.dtype.size

/-- The method `Tensor::IsDataTypeString()`. -/
def Tensor.IsDataTypeString (t : Tensor) : Bool :=
  decide (t.dtype.element_type = TensorProto_DataType_STRING)

/-- The method `Tensor::GetElementType()`. -/
def Tensor.GetElementType (t : Tensor) : Int := t.dtype.element_type

/-- The struct `OrtValue`: not initialised, holding a tensor, or holding a value of
another kind. -/
inductive OrtValue where
  | unset
  | tensor (t : Tensor)
  | non_tensor
  deriving DecidableEq

/-- The method `OrtValue::IsTensor()`. -/
def OrtValue.IsTensor : OrtValue → Bool
  | OrtValue.tensor _ => true
  | _ => false

/-- The class `DataTransferManager` as far as the codec calls it: `CopyTensor(src, dst)`
returns a status and the bytes it wrote into the buffer of `dst`. -/
structure DataTransferManager where
  CopyTensor : Tensor → Tensor → Status × List Byte

/-- A buffer of `n` bytes after `written` was copied into it: the buffer keeps its
size. -/
def buffer_after_write (n : Nat) (written : List Byte) : List Byte :=
  (written ++ List.replicate n (0 : Byte)).take n

/-- The function `SaveOrtValueOrtFormat`. -/
def SaveOrtValueOrtFormat (tensor_name : String) (ort_value : OrtValue)
    (data_transfer_manager : DataTransferManager) (builder : FlatBufferBuilder) :
    Except Status fbs.Tensor :=
  match ort_value with
  | OrtValue.tensor src_tensor =>
    let tensor_location := src_tensor.location
    -- the status of the device check is built and dropped
    let _dropped : Option Status :=
      if tensor_location.device.device_type ≠ OrtDevice.CPU ∧
          tensor_location.mem_type ≠ OrtMemTypeCPUInput ∧
          tensor_location.mem_type ≠ OrtMemTypeCPUOutput ∧
          tensor_location.device.device_type ≠ OrtDevice.GPU then
        some (ORT_MAKE_STATUS StatusCode.EP_FAIL
          ("Device type " ++ toString tensor_location.device.device_type ++
            " is not supported while saving a tensor to a checkpoint."))
      else none
    let tensor_data_buffer : List Byte := List.replicate src_tensor.SizeInBytes 0
    let dst_span_size := tensor_data_buffer.length
    if src_tensor.SizeInBytes ≠ dst_span_size then
      Except.error (ORT_RETURN_IF_status
        ("Size of src and dst buffer mismatch. Src size: " ++ toString src_tensor.SizeInBytes ++
          " Dst size: " ++ toString dst_span_size))
    else
      let dst_tensor : Tensor :=
        ⟨src_tensor.dtype, src_tensor.shape, tensor_data_buffer, cpu_alloc_info⟩
      let copied := data_transfer_manager.CopyTensor src_tensor dst_tensor
      if !copied.1.IsOK then Except.error copied.1
      else
        let dst_tensor := { dst_tensor with data := buffer_after_write dst_span_size copied.2 }
        if dst_tensor.IsDataTypeString then
          Except.error (ORT_RETURN_IF_status
            "TensorProto_DataType_STRING is not supported while saving a tensor to ORT format.")
        else
          let raw_data := builder.CreateVector dst_tensor.data
          Except.ok ⟨some tensor_name, some "", some (SaveDims dst_tensor.shape),
            dst_tensor.GetElementType, some raw_data, none⟩
  | _ =>
    Except.error (ORT_RETURN_IF_status "Only tensor OrtValues can be saved to a checkpoint.")

/-- The C++ element types at which `LoadOrtValueOrtFormat` instantiates `UnpackTensor`. -/
inductive ElemT where
  | float | bool | double | string | int8 | uint8 | int16 | uint16 | int32 | uint32
  | int64 | uint64
  deriving DecidableEq

/-- The `switch` of `LoadOrtValueOrtFormat` over the tag: the C++ element type at
which the case of that tag instantiates `unpack_tensor_with_type`, and `none` for the
tags that fall to the `default` label (FLOAT16, BFLOAT16, the four FLOAT8 formats and
everything else). The cases are in the order of the source. -/
def LoadOrtValueOrtFormat_switch (tensor_data_type : Int) : Option ElemT :=
  if tensor_data_type = TensorProto_DataType_FLOAT then some ElemT.float
  else if tensor_data_type = TensorProto_DataType_BOOL then some ElemT.bool
  else if tensor_data_type = TensorProto_DataType_DOUBLE then some ElemT.double
  else if tensor_data_type = TensorProto_DataType_STRING then some ElemT.string
  else if tensor_data_type = TensorProto_DataType_INT8 then some ElemT.int8
  else if tensor_data_type = TensorProto_DataType_UINT8 then some ElemT.uint8
  else if tensor_data_type = TensorProto_DataType_INT16 then some ElemT.int16
  else if tensor_data_type = TensorProto_DataType_UINT16 then some ElemT.uint16
  else if tensor_data_type = TensorProto_DataType_INT32 then some ElemT.int32
  else if tensor_data_type = TensorProto_DataType_UINT32 then some ElemT.uint32
  else if tensor_data_type = TensorProto_DataType_INT64 then some ElemT.int64
  else if tensor_data_type = TensorProto_DataType_UINT64 then some ElemT.uint64
  else none

/-- Modelled from the spec: the tags for which the lookup
`DataTypeImpl::TensorTypeFromONNXEnum` (core/framework, not among the source files) has
a tensor type. The spec describes the lookup as one table from the element-type tag,
"one of a fixed enumeration", to the element type, in which the reserved formats are
"represented in the enumeration". The tags of the enumeration are those that the
`switch` of `LoadOrtValueOrtFormat` names by a case label: the twelve with a case of
their own (integers of 8 to 64 bits, float32, float64, bool, string), and FLOAT16,
BFLOAT16 and the four reserved FLOAT8 formats, whose labels stand before `default`.
The tag `UNDEFINED`, the two complex types and every value that is not a member of the
enumeration have no entry. `LoadOrtValueOrtFormat` uses the result of the lookup at
once (`->GetElementType()`), with no test of it, so on a tag without an entry the call
returns no status. -/
def TensorTypeFromONNXEnum_tags : List Int :=
  [TensorProto_DataType_FLOAT, TensorProto_DataType_BOOL, TensorProto_DataType_DOUBLE,
   TensorProto_DataType_STRING, TensorProto_DataType_INT8, TensorProto_DataType_UINT8,
   TensorProto_DataType_INT16, TensorProto_DataType_UINT16, TensorProto_DataType_INT32,
   TensorProto_DataType_UINT32, TensorProto_DataType_INT64, TensorProto_DataType_UINT64,
   TensorProto_DataType_FLOAT16, TensorProto_DataType_BFLOAT16,
   TensorProto_DataType_FLOAT8E4M3FN, TensorProto_DataType_FLOAT8E4M3FNUZ,
   TensorProto_DataType_FLOAT8E5M2, TensorProto_DataType_FLOAT8E5M2FNUZ]

/-- The function `LoadOrtValueOrtFormat`. Two helpers declared outside the source
files are parameters: `TensorTypeFromONNXEnum` (tag to element-type descriptor, asked
only for the tags of `TensorTypeFromONNXEnum_tags`) and `UnpackTensor` (element type,
proto carrying the tag, raw bytes, expected element count; it returns a status and the
bytes written to the destination). The result is `none` where the call returns no
status: the lookup, which runs before the `switch`, has no type for the tag, or the
code dereferences the null `raw_data()` of a tensor without raw payload. Otherwise it
is the status with the new values of `tensor_name` and `ort_value`. -/
def LoadOrtValueOrtFormat
    (TensorTypeFromONNXEnum : Int → MLDataType)
    (UnpackTensor : ElemT → TensorProto → List Byte → Int → Status × List Byte)
    (fbs_tensor : fbs.Tensor) (tensor_name : String) (ort_value : OrtValue) :
    Option (Status × String × OrtValue) :=
  match fbs_tensor.name with
  | none =>
    some (ORT_RETURN_IF_status
      "Checkpoint is invalid. Expected: A valid tensor name. Acutal: nullptr.",
      tensor_name, ort_value)
  | some fbs_tensor_name =>
    let tensor_name := fbs_tensor_name
    match fbs_tensor.dims with
    | none =>
      some (ORT_RETURN_IF_status
        "Checkpoint is invalid. Expected: Valid tensor dims. Acutal: nullptr.",
        tensor_name, ort_value)
    | some tensor_dims =>
      let tensor_data_type := fbs_tensor.data_type
      -- DataTypeImpl::TensorTypeFromONNXEnum(...)->GetElementType()
      if tensor_data_type ∉ TensorTypeFromONNXEnum_tags then none
      else
        let tensor_dtype := TensorTypeFromONNXEnum tensor_data_type
        let dst_shape := tensor_dims
        let unused_tensor_proto := { TensorProto.empty with data_type := tensor_data_type }
        match LoadOrtValueOrtFormat_switch tensor_data_type with
        | some T =>
          -- unpack_tensor_with_type<T>()
          match fbs_tensor.raw_data with
          | none => none
          | some raw =>
            let r :=
              UnpackTensor T unused_tensor_proto raw.elems (TensorShape_Size dst_shape)
            if !r.1.IsOK then some (r.1, tensor_name, ort_value)
            else
              let dst_tensor : Tensor := ⟨tensor_dtype, dst_shape, r.2, cpu_alloc_info⟩
              some (Status.OK, tensor_name, OrtValue.tensor dst_tensor)
        | none =>
          some (ORT_MAKE_STATUS StatusCode.NOT_IMPLEMENTED
            ("Cannot unpack tensor with type " ++ toString tensor_data_type),
            tensor_name, ort_value)

/-! ## Attribute codec -/

/-- Modelled from the spec: the attribute-type enumeration
`ONNX_NAMESPACE::AttributeProto_AttributeType`, whose declaration is not among the
source files; the numbering is that of the ONNX standard. `fbs::AttributeType` has the
same numbering up to `SPARSE_TENSORS`: the code converts between the two by
`static_cast` only. This member is the tag of an undefined attribute type. -/
def AttributeProto_AttributeType_UNDEFINED : Int := 0
/-- Tag of a float attribute. -/
def AttributeProto_AttributeType_FLOAT : Int := 1
/-- Tag of an integer attribute. -/
def AttributeProto_AttributeType_INT : Int := 2
/-- Tag of a string attribute. -/
def AttributeProto_AttributeType_STRING : Int := 3
/-- Tag of a tensor attribute. -/
def AttributeProto_AttributeType_TENSOR : Int := 4
/-- Tag of a graph attribute. -/
def AttributeProto_AttributeType_GRAPH : Int := 5
/-- Tag of a float-list attribute. -/
def AttributeProto_AttributeType_FLOATS : Int := 6
/-- Tag of an integer-list attribute. -/
def AttributeProto_AttributeType_INTS : Int := 7
/-- Tag of a string-list attribute. -/
def AttributeProto_AttributeType_STRINGS : Int := 8
/-- Tag of a tensor-list attribute. -/
def AttributeProto_AttributeType_TENSORS : Int := 9
/-- Tag of a graph-list attribute. -/
def AttributeProto_AttributeType_GRAPHS : Int := 10
/-- Tag of a sparse-tensor attribute. -/
def AttributeProto_AttributeType_SPARSE_TENSOR : Int := 11
/-- Tag of a sparse-tensor-list attribute. -/
def AttributeProto_AttributeType_SPARSE_TENSORS : Int := 12

/-- The nine attribute kinds that the codec handles, FLOAT to TENSORS. -/
def AttributeType_nine_kinds : List Int :=
  [AttributeProto_AttributeType_FLOAT, AttributeProto_AttributeType_INT,
   AttributeProto_AttributeType_STRING, AttributeProto_AttributeType_TENSOR,
   AttributeProto_AttributeType_GRAPH, AttributeProto_AttributeType_FLOATS,
   AttributeProto_AttributeType_INTS, AttributeProto_AttributeType_STRINGS,
   AttributeProto_AttributeType_TENSORS]

/-- A `float` as its bit pattern; the codec only copies floats. -/
structure f32 where
  bits : Nat
  deriving DecidableEq

/-- The float `0.0f`, the default of a float field. -/
def f32.zero : f32 := ⟨0⟩

/-- The float `-0.0f`: only the sign bit is set. -/
def f32.negative_zero : f32 := ⟨2147483648⟩

/-- What a scalar float field holds after the generated `add_...(float)` method of a
table builder wrote a value, as the accessor of the field reads it. The method is
`FlatBufferBuilder::AddElement<float>(field, e, 0.0f)` (flatbuffers, not among the
source files; the source files never ask a builder to force defaults): a value that
compares equal to the default `0.0f` is not stored, and the accessor of a field that is
not stored returns the default. The floats that compare equal to `0.0f` are `0.0f` and
`-0.0f`, so `-0.0f` reads back as `0.0f` and every other value as it is. -/
def AddElement_float (e : f32) : f32 :=
  if e = f32.negative_zero then f32.zero else e

/-- Modelled from the spec: the table `fbs::Graph` written and read by the external
graph serializer; for the codec it is an opaque reference. -/
structure fbs.Graph where
  ref : Nat
  deriving DecidableEq

/-- Modelled from the spec: the class `onnxruntime::Graph` of the host object model;
for the codec it is opaque. -/
structure Graph where
  content : List String
  deriving DecidableEq

/-- Modelled from the spec: the class `onnxruntime::Node` of the host object model;
for the codec it is opaque. -/
structure Node where
  index : Nat
  deriving DecidableEq

/-- The class `logging::Logger`, handed through to the graph deserializer. -/
structure logging.Logger where
  id : Nat
  deriving DecidableEq

/-- The fields of the message `ONNX_NAMESPACE::GraphProto` that matter to the codec:
the name and the nodes. -/
structure GraphProto where
  name : Option String
  node : List String
  deriving DecidableEq

/-- A freshly constructed `GraphProto`. -/
def GraphProto.empty : GraphProto := ⟨none, []⟩

/-- The table `fbs::Attribute` as its accessors show it: scalar fields read as their
default when not stored, `none` is a null pointer, and a vector of tables or strings may
hold null elements. -/
structure fbs.Attribute where
  name : Option String
  doc_string : Option String
  type : Int
  f : f32
  i : Int
  s : Option String
  t : Option fbs.Tensor
  g : Option fbs.Graph
  floats : Option (List f32)
  ints : Option (List Int)
  strings : Option (List (Option String))
  tensors : Option (List (Option fbs.Tensor))
  deriving DecidableEq

/-- The table that a fresh `fbs::AttributeBuilder` finishes when nothing was added. -/
def fbs.Attribute.empty : fbs.Attribute :=
  ⟨none, none, 0, f32.zero, 0, none, none, none, none, none, none, none⟩

/-- The fields of the message `ONNX_NAMESPACE::AttributeProto` that the codec touches;
an optional field with a presence bit is an `Option`. -/
structure AttributeProto where
  name : Option String
  doc_string : Option String
  type : Int
  f : Option f32
  i : Option Int
  s : Option String
  t : Option TensorProto
  g : Option GraphProto
  floats : List f32
  ints : List Int
  strings : List String
  tensors : List TensorProto
  deriving DecidableEq

/-- A freshly constructed `AttributeProto`. -/
def AttributeProto.empty : AttributeProto :=
  ⟨none, none, 0, none, none, none, none, none, [], [], [], []⟩

instance : Inhabited AttributeProto := ⟨AttributeProto.empty⟩

/-- The method `AttributeProto::Clear()`. -/
def AttributeProto.Clear (_ : AttributeProto) : AttributeProto := AttributeProto.empty

/-- The accessor `AttributeProto::has_name()`. -/
def AttributeProto.has_name (a : AttributeProto) : Bool := a.name.isSome

/-- The accessor `AttributeProto::name()`, empty when the field is not set. -/
def AttributeProto.get_name (a : AttributeProto) : String := a.name.getD ""

/-- The accessor `AttributeProto::has_doc_string()`. -/
def AttributeProto.has_doc_string (a : AttributeProto) : Bool := a.doc_string.isSome

/-- The accessor `AttributeProto::doc_string()`, empty when the field is not set. -/
def AttributeProto.get_doc_string (a : AttributeProto) : String := a.doc_string.getD ""

/-- The accessor `AttributeProto::f()`, zero when the field is not set. -/
def AttributeProto.get_f (a : AttributeProto) : f32 := a.f.getD f32.zero

/-- The accessor `AttributeProto::i()`, zero when the field is not set. -/
def AttributeProto.get_i (a : AttributeProto) : Int := a.i.getD 0

/-- The accessor `AttributeProto::s()`, empty when the field is not set. -/
def AttributeProto.get_s (a : AttributeProto) : String := a.s.getD ""

/-- The accessor `AttributeProto::t()`, the default message when the field is not set. -/
def AttributeProto.get_t (a : AttributeProto) : TensorProto := a.t.getD TensorProto.empty

/-- The accessor `AttributeProto::mutable_g()` followed by a change of the graph: the
field is made present first. -/
def AttributeProto.mutable_g (a : AttributeProto) (change : GraphProto → GraphProto) :
    AttributeProto :=
  { a with g := some (change (a.g.getD GraphProto.empty)) }

/-- The macro `GET_FBS_ATTR`: a new attribute table with name, doc string and type,
and then the one payload field that `add_data` adds. -/
def GET_FBS_ATTR (name doc_string : Option String) (type : Int)
    (add_data : fbs.Attribute → fbs.Attribute) : fbs.Attribute :=
  add_data { fbs.Attribute.empty with name := name, doc_string := doc_string, type := type }

/-- The loop of the TENSORS case of `SaveAttributeOrtFormat`: every tensor is saved in
turn and its record pushed onto `fbs_tensors_vec`; the first error is returned. -/
def SaveAttributeOrtFormat_tensors
    (UnpackInitializerData : TensorProto → Path → Except Status (List Byte))
    (builder : FlatBufferBuilder) (model_path : Path) :
    List TensorProto → List fbs.Tensor → Except Status (List fbs.Tensor)
  | [], fbs_tensors_vec => Except.ok fbs_tensors_vec
  | tensor :: rest, fbs_tensors_vec =>
    match SaveInitializerOrtFormat UnpackInitializerData builder tensor model_path with
    | Except.error e => Except.error e
    | Except.ok fbs_tensor =>
      SaveAttributeOrtFormat_tensors UnpackInitializerData builder model_path rest
        (fbs_tensors_vec ++ [fbs_tensor])

/-- The function `SaveAttributeOrtFormat`. Three helpers declared outside the source
files are parameters: `UnpackInitializerData`, the graph serializer
`Graph::SaveToOrtFormat`, and `fbs::EnumNameAttributeType` (the text of a type tag).
`subgraph` is `none` for a null pointer. The float of a FLOAT attribute is written by
`add_f`, see `AddElement_float`. -/
def SaveAttributeOrtFormat
    (UnpackInitializerData : TensorProto → Path → Except Status (List Byte))
    (Graph_SaveToOrtFormat : Graph → Except Status fbs.Graph)
    (EnumNameAttributeType : Int → String)
    (builder : FlatBufferBuilder) (attr_proto : AttributeProto) (model_path : Path)
    (subgraph : Option Graph) : Except Status fbs.Attribute :=
  let name := SaveStringToOrtFormat attr_proto.has_name attr_proto.get_name
  let doc_string := SaveStringToOrtFormat attr_proto.has_doc_string attr_proto.get_doc_string
  let type := attr_proto.type
  if type = AttributeProto_AttributeType_FLOAT then
    Except.ok (GET_FBS_ATTR name doc_string type
      (fun a => { a with f := AddElement_float attr_proto.get_f }))
  else if type = AttributeProto_AttributeType_INT then
    Except.ok (GET_FBS_ATTR name doc_string type (fun a => { a with i := attr_proto.get_i }))
  else if type = AttributeProto_AttributeType_STRING then
    let s := attr_proto.get_s
    Except.ok (GET_FBS_ATTR name doc_string type (fun a => { a with s := some s }))
  else if type = AttributeProto_AttributeType_TENSOR then
    match SaveInitializerOrtFormat UnpackInitializerData builder attr_proto.get_t model_path with
    | Except.error e => Except.error e
    | Except.ok fbs_tensor =>
      Except.ok (GET_FBS_ATTR name doc_string type (fun a => { a with t := some fbs_tensor }))
  else if type = AttributeProto_AttributeType_GRAPH then
    match subgraph with
    | none =>
      Except.error
        (ORT_RETURN_IF_status_InvalidArgument
          "Graph attribute value was null. Invalid ORT format model.")
    | some subgraph =>
      match Graph_SaveToOrtFormat subgraph with
      | Except.error e => Except.error e
      | Except.ok fbs_graph =>
        Except.ok (GET_FBS_ATTR name doc_string type (fun a => { a with g := some fbs_graph }))
  else if type = AttributeProto_AttributeType_FLOATS then
    let floats := attr_proto.floats
    Except.ok (GET_FBS_ATTR name doc_string type (fun a => { a with floats := some floats }))
  else if type = AttributeProto_AttributeType_INTS then
    let ints := attr_proto.ints
    Except.ok (GET_FBS_ATTR name doc_string type (fun a => { a with ints := some ints }))
  else if type = AttributeProto_AttributeType_STRINGS then
    let strings := attr_proto.strings.map some
    Except.ok (GET_FBS_ATTR name doc_string type (fun a => { a with strings := some strings }))
  else if type = AttributeProto_AttributeType_TENSORS then
    match SaveAttributeOrtFormat_tensors UnpackInitializerData builder model_path
        attr_proto.tensors [] with
    | Except.error e => Except.error e
    | Except.ok fbs_tensors_vec =>
      let tensors := fbs_tensors_vec.map some
      Except.ok (GET_FBS_ATTR name doc_string type (fun a => { a with tensors := some tensors }))
  else
    Except.error (ORT_MAKE_STATUS StatusCode.INVALID_ARGUMENT
      ("SaveAttributeOrtFormat: Unsupported attribute type: " ++ EnumNameAttributeType type))

/-- The loop of the STRINGS case of `LoadAttributeOrtFormat`: the strings are added in
order; a null element stops the loop with an error, what was added so far stays. -/
def LoadAttributeOrtFormat_strings :
    List (Option String) → List String → Status × List String
  | [], strings => (Status.OK, strings)
  | none :: _, strings =>
    (ORT_RETURN_IF_status "Null string in strings attribute. Invalid ORT format model.",
     strings)
  | some fbs_str :: rest, strings => LoadAttributeOrtFormat_strings rest (strings ++ [fbs_str])

/-- The loop of the TENSORS case of `LoadAttributeOrtFormat`: every tensor is decoded
into a newly added element; a null element or a failing decode stops the loop with an
error, what was added so far stays. -/
def LoadAttributeOrtFormat_tensors (load_options : OrtFormatLoadOptions) :
    List (Option fbs.Tensor) → List TensorProto → Status × List TensorProto
  | [], tensors => (Status.OK, tensors)
  | none :: _, tensors =>
    (ORT_RETURN_IF_status "Null tensor in tensors attribute. Invalid ORT format model.",
     tensors)
  | some fbs_tensor :: rest, tensors =>
    let r := LoadInitializerOrtFormat fbs_tensor TensorProto.empty load_options
    let tensors := tensors ++ [r.2]
    if !r.1.IsOK then (r.1, tensors)
    else LoadAttributeOrtFormat_tensors load_options rest tensors

/-- The function `LoadAttributeOrtFormat`. The graph deserializer
`Graph::LoadFromOrtFormat` (declared outside the source files) is a parameter: from the
wire graph, the owning graph and node, the options, the logger and the old value of
`sub_graph` it gives a status and the new value of `sub_graph`. The result is the
status with the new values of `attr_proto` and `sub_graph`. -/
def LoadAttributeOrtFormat
    (Graph_LoadFromOrtFormat : fbs.Graph → Graph → Node → OrtFormatLoadOptions →
      logging.Logger → Option Graph → Status × Option Graph)
    (fbs_attr : fbs.Attribute) (attr_proto : AttributeProto) (sub_graph : Option Graph)
    (graph : Graph) (node : Node) (load_options : OrtFormatLoadOptions)
    (logger : logging.Logger) : Status × AttributeProto × Option Graph :=
  let attr_proto := attr_proto.Clear
  let attr_proto :=
    { attr_proto with name := LOAD_STR_FROM_ORT_FORMAT attr_proto.name fbs_attr.name }
  let attr_proto :=
    { attr_proto with
      doc_string := LOAD_STR_FROM_ORT_FORMAT attr_proto.doc_string fbs_attr.doc_string }
  let type := fbs_attr.type
  let attr_proto := { attr_proto with type := type }
  if type = AttributeProto_AttributeType_FLOAT then
    (Status.OK, { attr_proto with f := some fbs_attr.f }, sub_graph)
  else if type = AttributeProto_AttributeType_INT then
    (Status.OK, { attr_proto with i := some fbs_attr.i }, sub_graph)
  else if type = AttributeProto_AttributeType_STRING then
    match fbs_attr.s with
    | none =>
      (ORT_RETURN_IF_status "Null string attribute. Invalid ORT format model.",
       attr_proto, sub_graph)
    | some fbs_str => (Status.OK, { attr_proto with s := some fbs_str }, sub_graph)
  else if type = AttributeProto_AttributeType_TENSOR then
    match fbs_attr.t with
    | none =>
      (ORT_RETURN_IF_status "Null tensor attribute. Invalid ORT format model.",
       attr_proto, sub_graph)
    | some fbs_tensor =>
      let r := LoadInitializerOrtFormat fbs_tensor attr_proto.get_t load_options
      let attr_proto := { attr_proto with t := some r.2 }
      if !r.1.IsOK then (r.1, attr_proto, sub_graph) else (Status.OK, attr_proto, sub_graph)
  else if type = AttributeProto_AttributeType_GRAPH then
    match fbs_attr.g with
    | none =>
      (ORT_RETURN_IF_status "Null graph attribute. Invalid ORT format model.",
       attr_proto, sub_graph)
    | some fbs_graph =>
      let attr_proto := attr_proto.mutable_g (fun g =>
        { g with name := some "Empty graph proto from deserialization of ORT format model" })
      let r := Graph_LoadFromOrtFormat fbs_graph graph node load_options logger sub_graph
      if !r.1.IsOK then (r.1, attr_proto, r.2) else (Status.OK, attr_proto, r.2)
  else if type = AttributeProto_AttributeType_FLOATS then
    match fbs_attr.floats with
    | none =>
      (ORT_RETURN_IF_status "Null floats attribute. Invalid ORT format model.",
       attr_proto, sub_graph)
    | some fbs_floats =>
      (Status.OK, { attr_proto with floats := attr_proto.floats ++ fbs_floats }, sub_graph)
  else if type = AttributeProto_AttributeType_INTS then
    match fbs_attr.ints with
    | none =>
      (ORT_RETURN_IF_status "Null ints attribute. Invalid ORT format model.",
       attr_proto, sub_graph)
    | some fbs_ints =>
      (Status.OK, { attr_proto with ints := attr_proto.ints ++ fbs_ints }, sub_graph)
  else if type = AttributeProto_AttributeType_STRINGS then
    match fbs_attr.strings with
    | none =>
      (ORT_RETURN_IF_status "Null strings attribute. Invalid ORT format model.",
       attr_proto, sub_graph)
    | some fbs_strings =>
      let r := LoadAttributeOrtFormat_strings fbs_strings attr_proto.strings
      let attr_proto := { attr_proto with strings := r.2 }
      if !r.1.IsOK then (r.1, attr_proto, sub_graph) else (Status.OK, attr_proto, sub_graph)
  else if type = AttributeProto_AttributeType_TENSORS then
    match fbs_attr.tensors with
    | none =>
      (ORT_RETURN_IF_status "Null tensors attribute. Invalid ORT format model.",
       attr_proto, sub_graph)
    | some fbs_tensors =>
      let r := LoadAttributeOrtFormat_tensors load_options fbs_tensors attr_proto.tensors
      let attr_proto := { attr_proto with tensors := r.2 }
      if !r.1.IsOK then (r.1, attr_proto, sub_graph) else (Status.OK, attr_proto, sub_graph)
  else
    (Status.OK, attr_proto, sub_graph)

/-! ## Checkpoint assembler (`checkpoint.cc`): wire tables and containers -/

/-- The table `fbs::ModuleState` as its accessors show it. -/
structure fbs.ModuleState where
  requires_grad : Option (List (Option fbs.Tensor))
  frozen_params : Option (List (Option fbs.Tensor))
  deriving DecidableEq

/-- The table `fbs::ParameterOptimizerState` as its accessors show it. -/
structure fbs.ParameterOptimizerState where
  param_name : Option String
  momentums : Option (List (Option fbs.Tensor))
  deriving DecidableEq

/-- The table `fbs::OptimizerGroup` as its accessors show it. -/
structure fbs.OptimizerGroup where
  group_name : Option String
  step : Int
  initial_learning_rate : f32
  optimizer_states : Option (List (Option fbs.ParameterOptimizerState))
  deriving DecidableEq

/-- The table `fbs::IntProperty` as its accessors show it. -/
structure fbs.IntProperty where
  name : Option String
  value : Int
  deriving DecidableEq

/-- The table `fbs::FloatProperty` as its accessors show it. -/
structure fbs.FloatProperty where
  name : Option String
  value : f32
  deriving DecidableEq

/-- The table `fbs::StringProperty` as its accessors show it. -/
structure fbs.StringProperty where
  name : Option String
  value : Option String
  deriving DecidableEq

/-- The table `fbs::PropertyBag` as its accessors show it. -/
structure fbs.PropertyBag where
  ints : Option (List (Option fbs.IntProperty))
  floats : Option (List (Option fbs.FloatProperty))
  strings : Option (List (Option fbs.StringProperty))
  deriving DecidableEq

/-- The root table `fbs::Checkpoint` as its accessors show it. -/
structure fbs.Checkpoint where
  module_state : Option fbs.ModuleState
  optimizer_groups : Option (List (Option fbs.OptimizerGroup))
  property_bag : Option fbs.PropertyBag
  deriving DecidableEq

/-- The type `PathString` of a checkpoint path. -/
abbrev PathString := String

/-- An `InlinedHashMap<std::string, V>`: its entries in the order in which a range-for
visits them. C++ leaves that order unspecified; here a new key goes to the end. The keys
of a map are pairwise distinct. -/
abbrev InlinedHashMap (V : Type) := List (String × V)

/-- The keys of a map, in iteration order. -/
def InlinedHashMap.keys {V : Type} (m : InlinedHashMap V) : List String := m.map Prod.fst

/-- The method `find`: the value stored under a key, if any. -/
def InlinedHashMap.find {V : Type} (m : InlinedHashMap V) (k : String) : Option V :=
  match m with
  | [] => none
  | (k2, v) :: rest => if k2 = k then some v else InlinedHashMap.find rest k

/-- The method `emplace`: a new entry is added only when the key is not present yet;
an existing entry is left as it is. -/
def InlinedHashMap.emplace {V : Type} (m : InlinedHashMap V) (k : String) (v : V) :
    InlinedHashMap V :=
  if (InlinedHashMap.find m k).isSome then m else m ++ [(k, v)]

/-- The value under a key is replaced by its image under `f`; other entries and the
order stay. This is a write through a reference or pointer to the mapped value. -/
def InlinedHashMap.modify {V : Type} (m : InlinedHashMap V) (k : String) (f : V → V) :
    InlinedHashMap V :=
  m.map (fun e => if e.1 = k then (e.1, f e.2) else e)

/-- A `std::set<std::string>`: its elements in ascending order, without repetition. -/
abbrev std_set := List String

/-- The method `std::set::emplace`: the element is inserted at its place in the order
unless it is present already. -/
def std_set.emplace (s : std_set) (x : String) : std_set :=
  if x ∈ s then s else List.orderedInsert (fun a b => a ≤ b) x s

/-- The algorithm `std::set_intersection` on two ascending ranges, writing through a
`back_inserter` into an empty vector. -/
def std_set_intersection : List String → List String → List String
  | [], _ => []
  | _ :: _, [] => []
  | a :: as, b :: bs =>
    if a < b then std_set_intersection as (b :: bs)
    else if b < a then std_set_intersection (a :: as) bs
    else a :: std_set_intersection as bs
termination_by l1 l2 => l1.length + l2.length

/-! ## Checkpoint assembler: the tensor-list save entry point -/

/-- The function `Save::ToFile`. The file stream is a parameter: `ofstream_write` tells
whether the stream is good after the buffer was written to the path. -/
def Save.ToFile (ofstream_write : PathString → fbs.Checkpoint → Bool)
    (checkpoint_path : PathString) (buffer : fbs.Checkpoint) : Status :=
  if ofstream_write checkpoint_path buffer then Status.OK
  else ORT_RETURN_IF_status ("Failed to save ORT format model to file: " ++ checkpoint_path)

/-- The lambda `check_unique` of `Save::FromTensorProtos`: the names are added to the
set one by one; a name that is in the set already stops the loop with an error. The
result is the status and the set. -/
def Save.FromTensorProtos.check_unique :
    List TensorProto → std_set → Status × std_set
  | [], unique_names => (Status.OK, unique_names)
  | tensor_proto :: rest, unique_names =>
    if tensor_proto.get_name ∈ unique_names then
      (ORT_RETURN_IF_status ("Duplicated tensor proto named " ++ tensor_proto.get_name),
       unique_names)
    else Save.FromTensorProtos.check_unique rest (unique_names.emplace tensor_proto.get_name)

/-- The name validation at the head of `Save::FromTensorProtos`: `check_unique` on
either list, then the intersection of the two name sets must be empty. -/
def Save.FromTensorProtos.check_names (trainable_tensor_protos : List TensorProto)
    (non_trainable_tensor_protos : List TensorProto) : Status :=
  let r1 := Save.FromTensorProtos.check_unique trainable_tensor_protos []
  if !r1.1.IsOK then r1.1
  else
    let r2 := Save.FromTensorProtos.check_unique non_trainable_tensor_protos []
    if !r2.1.IsOK then r2.1
    else
      let inter_sec := std_set_intersection r1.2 r2.2
      if !inter_sec.isEmpty then
        ORT_RETURN_IF_status
          "Tensor name exists in both trainable param list and non-trainable param list."
      else Status.OK

/-- The number of values of `size_t`. -/
def size_t_range : Nat := 2 ^ 64

/-- The builder capacity that `Save::FromTensorProtos` computes, in `size_t` arithmetic:
the byte sizes are summed, the sum is raised to at least `m_bytes` and then aligned
upwards to a multiple of `m_bytes`. `TensorProto::ByteSizeLong` (protobuf) is a
parameter. -/
def Save.FromTensorProtos.fbs_buffer_size (ByteSizeLong : TensorProto → Nat)
    (trainable_tensor_protos : List TensorProto)
    (non_trainable_tensor_protos : List TensorProto) : Nat :=
  let m_bytes : Nat := 1024 * 1024
  let fbs_buffer_size : Nat := 0
  let fbs_buffer_size := trainable_tensor_protos.foldl
    (fun acc tensor_proto => (acc + ByteSizeLong tensor_proto) % size_t_range) fbs_buffer_size
  let fbs_buffer_size := non_trainable_tensor_protos.foldl
    (fun acc tensor_proto => (acc + ByteSizeLong tensor_proto) % size_t_range) fbs_buffer_size
  let fbs_buffer_size := max fbs_buffer_size m_bytes
  (((fbs_buffer_size + m_bytes - 1) % size_t_range) / m_bytes) * m_bytes % size_t_range

/-- The lambda `tensor_protos_to_fbs_tensors` of `Save::FromTensorProtos`: the tensors
are saved in order with an empty model path; the first error is returned. -/
def Save.FromTensorProtos.tensor_protos_to_fbs_tensors
    (UnpackInitializerData : TensorProto → Path → Except Status (List Byte))
    (builder : FlatBufferBuilder) :
    List TensorProto → List fbs.Tensor → Status × List fbs.Tensor
  | [], fbs_tensors => (Status.OK, fbs_tensors)
  | tensor_proto :: rest, fbs_tensors =>
    match SaveInitializerOrtFormat UnpackInitializerData builder tensor_proto "" with
    | Except.error e => (e, fbs_tensors)
    | Except.ok fbs_tensor =>
      Save.FromTensorProtos.tensor_protos_to_fbs_tensors UnpackInitializerData builder rest
        (fbs_tensors ++ [fbs_tensor])

/-- The function `Save::FromTensorProtos`. Parameters stand for what is declared
outside the source files: the unpacker, `ByteSizeLong`, the constructor of the builder
from a capacity, and the file stream. The result is the status and the checkpoint
whose buffer was handed to the file stream, `none` when the function returned before
writing. -/
def Save.FromTensorProtos
    (UnpackInitializerData : TensorProto → Path → Except Status (List Byte))
    (ByteSizeLong : TensorProto → Nat) (new_builder : Nat → FlatBufferBuilder)
    (ofstream_write : PathString → fbs.Checkpoint → Bool)
    (trainable_tensor_protos : List TensorProto)
    (non_trainable_tensor_protos : List TensorProto) (checkpoint_path : PathString) :
    Status × Option fbs.Checkpoint :=
  let names := Save.FromTensorProtos.check_names trainable_tensor_protos
    non_trainable_tensor_protos
  if !names.IsOK then (names, none)
  else
    let fbs_buffer_size := Save.FromTensorProtos.fbs_buffer_size ByteSizeLong
      trainable_tensor_protos non_trainable_tensor_protos
    let builder := new_builder fbs_buffer_size
    let r1 := Save.FromTensorProtos.tensor_protos_to_fbs_tensors UnpackInitializerData builder
      trainable_tensor_protos []
    if !r1.1.IsOK then (r1.1, none)
    else
      let r2 := Save.FromTensorProtos.tensor_protos_to_fbs_tensors UnpackInitializerData
        builder non_trainable_tensor_protos []
      if !r2.1.IsOK then (r2.1, none)
      else
        let fbs_module_state : fbs.ModuleState :=
          ⟨some (r1.2.map some), some (r2.2.map some)⟩
        let checkpoint : fbs.Checkpoint := ⟨some fbs_module_state, some [], none⟩
        let written := Save.ToFile ofstream_write checkpoint_path checkpoint
        if !written.IsOK then (written, some checkpoint) else (Status.OK, some checkpoint)

/-! ## Checkpoint assembler: the property bag -/

/-- The type `PropertyDataType`, a `std::variant` over `int64_t`, `float` and
`std::string`; `valueless` is a variant that holds none of the three. -/
inductive PropertyDataType where
  | int64 (value : Int)
  | float (value : f32)
  | string (value : String)
  | valueless
  deriving DecidableEq

/-- Modelled from the spec: the class `PropertyBag` (declared outside the source
files), a mapping from name to property value with unique names, visited in the order
of its entries. -/
structure PropertyBag where
  named_properties : InlinedHashMap PropertyDataType
  deriving DecidableEq

/-- Modelled from the spec: the method `PropertyBag::AddProperty`: a later insertion
under a name that is present overwrites the earlier value (last write wins), a new
name is added. -/
def PropertyBag.AddProperty (bag : PropertyBag) (name : String) (val : PropertyDataType) :
    PropertyBag :=
  if (InlinedHashMap.find bag.named_properties name).isSome then
    ⟨InlinedHashMap.modify bag.named_properties name (fun _ => val)⟩
  else ⟨bag.named_properties ++ [(name, val)]⟩

/-- The three vectors that the loop of `Save::FromPropertyBag` fills. -/
structure Save.FromPropertyBag.vectors where
  ints : List fbs.IntProperty
  floats : List fbs.FloatProperty
  strings : List fbs.StringProperty
  deriving DecidableEq

/-- The loop of `Save::FromPropertyBag`: every entry goes to the vector of its
alternative; an entry that holds none of the three stops the loop with an error. The
value of a float property is written by `add_value`, see `AddElement_float`. -/
def Save.FromPropertyBag.loop :
    List (String × PropertyDataType) → Save.FromPropertyBag.vectors →
      Except Status Save.FromPropertyBag.vectors
  | [], v => Except.ok v
  | (name, PropertyDataType.int64 value) :: rest, v =>
    Save.FromPropertyBag.loop rest { v with ints := v.ints ++ [⟨some name, value⟩] }
  | (name, PropertyDataType.float value) :: rest, v =>
    Save.FromPropertyBag.loop rest
      { v with floats := v.floats ++ [⟨some name, AddElement_float value⟩] }
  | (name, PropertyDataType.string value) :: rest, v =>
    Save.FromPropertyBag.loop rest
      { v with strings := v.strings ++ [⟨some name, some value⟩] }
  | (_, PropertyDataType.valueless) :: _, _ =>
    Except.error (ORT_MAKE_STATUS StatusCode.INVALID_ARGUMENT
      "Unknown property type encountered in the property bag.")

/-- The function `Save::FromPropertyBag`. -/
def Save.FromPropertyBag (property_bag : PropertyBag) : Except Status fbs.PropertyBag :=
  match Save.FromPropertyBag.loop property_bag.named_properties ⟨[], [], []⟩ with
  | Except.error e => Except.error e
  | Except.ok v =>
    Except.ok ⟨some (v.ints.map some), some (v.floats.map some), some (v.strings.map some)⟩

/-- The loop of `Load::ToPropertyBag` over the int properties. The result is `none`
where the code dereferences a null element or a null name. -/
def Load.ToPropertyBag.ints :
    List (Option fbs.IntProperty) → PropertyBag → Option PropertyBag
  | [], property_bag => some property_bag
  | none :: _, _ => none
  | some int_property :: rest, property_bag =>
    match int_property.name with
    | none => none
    | some name =>
      Load.ToPropertyBag.ints rest
        (property_bag.AddProperty name (PropertyDataType.int64 int_property.value))

/-- The loop of `Load::ToPropertyBag` over the float properties. -/
def Load.ToPropertyBag.floats :
    List (Option fbs.FloatProperty) → PropertyBag → Option PropertyBag
  | [], property_bag => some property_bag
  | none :: _, _ => none
  | some float_property :: rest, property_bag =>
    match float_property.name with
    | none => none
    | some name =>
      Load.ToPropertyBag.floats rest
        (property_bag.AddProperty name (PropertyDataType.float float_property.value))

/-- The loop of `Load::ToPropertyBag` over the string properties. -/
def Load.ToPropertyBag.strings :
    List (Option fbs.StringProperty) → PropertyBag → Option PropertyBag
  | [], property_bag => some property_bag
  | none :: _, _ => none
  | some string_property :: rest, property_bag =>
    match string_property.name, string_property.value with
    | some name, some value =>
      Load.ToPropertyBag.strings rest
        (property_bag.AddProperty name (PropertyDataType.string value))
    | _, _ => none

/-- The function `Load::ToPropertyBag`. The result is `none` where the code
dereferences a null pointer, otherwise the status and the new value of the bag. -/
def Load.ToPropertyBag (fbs_property_bag : Option fbs.PropertyBag)
    (property_bag : PropertyBag) : Option (Status × PropertyBag) :=
  match fbs_property_bag with
  | none => some (Status.OK, property_bag)
  | some fbs_bag =>
    let after_ints : Option PropertyBag :=
      match fbs_bag.ints with
      | none => some property_bag
      | some ints => Load.ToPropertyBag.ints ints property_bag
    match after_ints with
    | none => none
    | some property_bag =>
      let after_floats : Option PropertyBag :=
        match fbs_bag.floats with
        | none => some property_bag
        | some floats => Load.ToPropertyBag.floats floats property_bag
      match after_floats with
      | none => none
      | some property_bag =>
        let after_strings : Option PropertyBag :=
          match fbs_bag.strings with
          | none => some property_bag
          | some strings => Load.ToPropertyBag.strings strings property_bag
        match after_strings with
        | none => none
        | some property_bag => some (Status.OK, property_bag)

/-! ## Checkpoint assembler: module state and optimizer state -/

/-- The function `FlatbufferTensorsFromOrtValues`: the entries of the map are saved in
iteration order and the records appended to `flatbuffer_tensors`; the first error is
returned, what was appended so far stays. -/
def FlatbufferTensorsFromOrtValues (data_transfer_manager : DataTransferManager)
    (builder : FlatBufferBuilder) :
    InlinedHashMap OrtValue → List fbs.Tensor → Status × List fbs.Tensor
  | [], flatbuffer_tensors => (Status.OK, flatbuffer_tensors)
  | (name, ort_value) :: rest, flatbuffer_tensors =>
    match SaveOrtValueOrtFormat name ort_value data_transfer_manager builder with
    | Except.error e => (e, flatbuffer_tensors)
    | Except.ok fbs_tensor =>
      FlatbufferTensorsFromOrtValues data_transfer_manager builder rest
        (flatbuffer_tensors ++ [fbs_tensor])

/-- The loop of `OrtValuesFromFlatbufferTensors`: every tensor is materialized into a
fresh name and value and then `emplace`d, so a name that is in the map already keeps
its old value. The result is `none` where `LoadOrtValueOrtFormat` returns no
status. -/
def OrtValuesFromFlatbufferTensors.loop
    (TensorTypeFromONNXEnum : Int → MLDataType)
    (UnpackTensor : ElemT → TensorProto → List Byte → Int → Status × List Byte) :
    List (Option fbs.Tensor) → InlinedHashMap OrtValue →
      Option (Status × InlinedHashMap OrtValue)
  | [], name_to_ort_value => some (Status.OK, name_to_ort_value)
  | none :: _, name_to_ort_value =>
    some (ORT_RETURN_IF_status
      "Encountered a nullptr flatbuffer tensor. Checkpoint file is invalid.",
      name_to_ort_value)
  | some fbs_tensor :: rest, name_to_ort_value =>
    match LoadOrtValueOrtFormat TensorTypeFromONNXEnum UnpackTensor fbs_tensor ""
        OrtValue.unset with
    | none => none
    | some r =>
      if !r.1.IsOK then some (r.1, name_to_ort_value)
      else
        OrtValuesFromFlatbufferTensors.loop TensorTypeFromONNXEnum UnpackTensor rest
          (InlinedHashMap.emplace name_to_ort_value r.2.1 r.2.2)

/-- The function `OrtValuesFromFlatbufferTensors`. -/
def OrtValuesFromFlatbufferTensors
    (TensorTypeFromONNXEnum : Int → MLDataType)
    (UnpackTensor : ElemT → TensorProto → List Byte → Int → Status × List Byte)
    (flatbuffer_tensors : Option (List (Option fbs.Tensor)))
    (name_to_ort_value : InlinedHashMap OrtValue) :
    Option (Status × InlinedHashMap OrtValue) :=
  match flatbuffer_tensors with
  | none =>
    some (ORT_RETURN_IF_status
      ("Expected: Both trainable and non trainable tensors must exist." ++
        " Actual: Encountered a nullptr. Checkpoint file is invalid"),
      name_to_ort_value)
  | some tensors =>
    OrtValuesFromFlatbufferTensors.loop TensorTypeFromONNXEnum UnpackTensor tensors
      name_to_ort_value

/-- Modelled from the spec: the class `Parameter` (declared outside the source files):
a name, the tensor value and the requires-gradient flag, as its constructor takes
them. -/
structure Parameter where
  name : String
  data : OrtValue
  requires_grad : Bool
  deriving DecidableEq

/-- The method `Parameter::RequiresGrad()`. -/
def Parameter.RequiresGrad (p : Parameter) : Bool := p.requires_grad

/-- The method `Parameter::Data()`. -/
def Parameter.Data (p : Parameter) : OrtValue := p.data

/-- Modelled from the spec: the struct `ModuleCheckpointState` (declared outside the
source files): the named parameters and the data-transfer manager, `none` for a null
pointer. -/
structure ModuleCheckpointState where
  named_parameters : InlinedHashMap Parameter
  train_session_data_transfer_mgr : Option DataTransferManager

/-- Modelled from the spec: the struct `GroupOptimizerState` (declared outside the
source files): initial learning rate, step, and per parameter the named momentum
tensors. -/
structure GroupOptimizerState where
  initial_lr : f32
  step : Int
  param_named_optimizer_states : InlinedHashMap (InlinedHashMap OrtValue)
  deriving DecidableEq

/-- A freshly constructed `GroupOptimizerState`; the loader overwrites both scalars
right after it makes one. -/
def GroupOptimizerState.fresh : GroupOptimizerState := ⟨f32.zero, 0, []⟩

/-- Modelled from the spec: the struct `OptimizerCheckpointState` (declared outside the
source files): the named groups and the data-transfer manager, `none` for a null
pointer. -/
structure OptimizerCheckpointState where
  group_named_optimizer_states : InlinedHashMap GroupOptimizerState
  optimizer_session_data_transfer_mgr : Option DataTransferManager

/-- The loop of `Save::FromModuleState` that sorts the parameters into the two maps
`requires_grad` and `frozen_params` by their flag. -/
def Save.FromModuleState.partition :
    List (String × Parameter) → InlinedHashMap OrtValue × InlinedHashMap OrtValue →
      InlinedHashMap OrtValue × InlinedHashMap OrtValue
  | [], maps => maps
  | (name, value) :: rest, maps =>
    if value.RequiresGrad then
      Save.FromModuleState.partition rest (InlinedHashMap.emplace maps.1 name value.Data, maps.2)
    else
      Save.FromModuleState.partition rest (maps.1, InlinedHashMap.emplace maps.2 name value.Data)

/-- The function `Save::FromModuleState`. -/
def Save.FromModuleState (module_state : ModuleCheckpointState) (builder : FlatBufferBuilder) :
    Except Status fbs.ModuleState :=
  if module_state.named_parameters.isEmpty then
    Except.ok ⟨some [], some []⟩
  else
    match module_state.train_session_data_transfer_mgr with
    | none =>
      Except.error (ORT_RETURN_IF_status
        ("Cannot save module state to a checkpoint. Expected: A valid data transfer manager. "
          ++ "Actual: nullptr."))
    | some train_session_data_transfer_mgr =>
      let maps := Save.FromModuleState.partition module_state.named_parameters ([], [])
      let requires_grad := maps.1
      let frozen_params := maps.2
      let r1 := FlatbufferTensorsFromOrtValues train_session_data_transfer_mgr builder
        requires_grad []
      if !r1.1.IsOK then Except.error r1.1
      else
        let r2 := FlatbufferTensorsFromOrtValues train_session_data_transfer_mgr builder
          frozen_params []
        if !r2.1.IsOK then Except.error r2.1
        else Except.ok ⟨some (r1.2.map some), some (r2.2.map some)⟩

/-- The inner loop of `Save::FromOptimizerState` over the parameters of one group. -/
def Save.FromOptimizerState.params (data_transfer_manager : DataTransferManager)
    (builder : FlatBufferBuilder) :
    List (String × InlinedHashMap OrtValue) → List fbs.ParameterOptimizerState →
      Status × List fbs.ParameterOptimizerState
  | [], optimizer_states => (Status.OK, optimizer_states)
  | (param_name, param_optimizer_state) :: rest, optimizer_states =>
    let r := FlatbufferTensorsFromOrtValues data_transfer_manager builder
      param_optimizer_state []
    if !r.1.IsOK then (r.1, optimizer_states)
    else
      Save.FromOptimizerState.params data_transfer_manager builder rest
        (optimizer_states ++ [⟨some param_name, some (r.2.map some)⟩])

/-- The outer loop of `Save::FromOptimizerState` over the groups. The learning rate of
a group is written by `add_initial_learning_rate`, see `AddElement_float`. -/
def Save.FromOptimizerState.groups (data_transfer_manager : DataTransferManager)
    (builder : FlatBufferBuilder) :
    List (String × GroupOptimizerState) → List fbs.OptimizerGroup →
      Status × List fbs.OptimizerGroup
  | [], fbs_optimizer_groups => (Status.OK, fbs_optimizer_groups)
  | (group_name, group_optimizer_state) :: rest, fbs_optimizer_groups =>
    let r := Save.FromOptimizerState.params data_transfer_manager builder
      group_optimizer_state.param_named_optimizer_states []
    if !r.1.IsOK then (r.1, fbs_optimizer_groups)
    else
      Save.FromOptimizerState.groups data_transfer_manager builder rest
        (fbs_optimizer_groups ++
          [⟨some group_name, group_optimizer_state.step,
            AddElement_float group_optimizer_state.initial_lr, some (r.2.map some)⟩])

/-- The function `Save::FromOptimizerState`; the result is the status and the new value
of `fbs_optimizer_groups`. -/
def Save.FromOptimizerState (optimizer_state : OptimizerCheckpointState)
    (builder : FlatBufferBuilder) (fbs_optimizer_groups : List fbs.OptimizerGroup) :
    Status × List fbs.OptimizerGroup :=
  if optimizer_state.group_named_optimizer_states.isEmpty then
    (Status.OK, fbs_optimizer_groups)
  else
    match optimizer_state.optimizer_session_data_transfer_mgr with
    | none =>
      (ORT_RETURN_IF_status
        ("Cannot save optimizer state to a checkpoint. Expected: A valid data transfer manager. "
          ++ "Actual: nullptr."),
       fbs_optimizer_groups)
    | some optimizer_session_data_transfer_mgr =>
      Save.FromOptimizerState.groups optimizer_session_data_transfer_mgr builder
        optimizer_state.group_named_optimizer_states fbs_optimizer_groups

/-- The loops of `Load::ToModuleState` that `emplace` the loaded values as parameters
with the given flag. -/
def Load.ToModuleState.emplace_all (requires_grad : Bool) :
    List (String × OrtValue) → InlinedHashMap Parameter → InlinedHashMap Parameter
  | [], named_parameters => named_parameters
  | (name, value) :: rest, named_parameters =>
    Load.ToModuleState.emplace_all requires_grad rest
      (InlinedHashMap.emplace named_parameters name ⟨name, value, requires_grad⟩)

/-- The function `Load::ToModuleState`. The result is `none` where a null pointer is
dereferenced or `LoadOrtValueOrtFormat` returns no status, otherwise the status and the
new value of `module_state`. -/
def Load.ToModuleState
    (TensorTypeFromONNXEnum : Int → MLDataType)
    (UnpackTensor : ElemT → TensorProto → List Byte → Int → Status × List Byte)
    (fbs_module_state : Option fbs.ModuleState) (module_state : ModuleCheckpointState) :
    Option (Status × ModuleCheckpointState) :=
  match fbs_module_state with
  | none =>
    some (ORT_RETURN_IF_status
      ("Checkpoint is invalid. Expected: Valid checkpoint module state flatbuffer. " ++
        "Acutal: nullptr."), module_state)
  | some fbs_module_state =>
    let requires_grad := fbs_module_state.requires_grad
    match OrtValuesFromFlatbufferTensors TensorTypeFromONNXEnum UnpackTensor requires_grad []
    with
    | none => none
    | some r1 =>
      if !r1.1.IsOK then some (r1.1, module_state)
      else
        let trainable_params := r1.2
        let module_state :=
          { module_state with
            named_parameters :=
              Load.ToModuleState.emplace_all true trainable_params
                module_state.named_parameters }
        let frozen_params := fbs_module_state.frozen_params
        match OrtValuesFromFlatbufferTensors TensorTypeFromONNXEnum UnpackTensor frozen_params
          [] with
        | none => none
        | some r2 =>
          if !r2.1.IsOK then some (r2.1, module_state)
          else
            let non_trainable_params := r2.2
            some (Status.OK,
              { module_state with
                named_parameters :=
                  Load.ToModuleState.emplace_all false non_trainable_params
                    module_state.named_parameters })

/-- The inner loop of `Load::ToOptimizerState` over the parameter states of one group,
acting on the group that the iterator points to. `operator[]` makes an empty momentum
map for a new parameter name, and the tensors are loaded into the map found under the
name. -/
def Load.ToOptimizerState.params
    (TensorTypeFromONNXEnum : Int → MLDataType)
    (UnpackTensor : ElemT → TensorProto → List Byte → Int → Status × List Byte) :
    List (Option fbs.ParameterOptimizerState) → GroupOptimizerState →
      Option (Status × GroupOptimizerState)
  | [], group => some (Status.OK, group)
  | none :: _, _ => none
  | some parameter_optimizer_state :: rest, group =>
    match parameter_optimizer_state.param_name with
    | none => none
    | some param_name =>
      let momentums := parameter_optimizer_state.momentums
      let states := InlinedHashMap.emplace group.param_named_optimizer_states param_name []
      match OrtValuesFromFlatbufferTensors TensorTypeFromONNXEnum UnpackTensor momentums
          ((InlinedHashMap.find states param_name).getD []) with
      | none => none
      | some r =>
        let group :=
          { group with
            param_named_optimizer_states :=
              InlinedHashMap.modify states param_name (fun _ => r.2) }
        if !r.1.IsOK then some (r.1, group)
        else
          Load.ToOptimizerState.params TensorTypeFromONNXEnum UnpackTensor rest group

/-- The outer loop of `Load::ToOptimizerState` over the groups: `emplace` makes a new
group only for a new name, step and learning rate are written to the group found under
the name, and the parameter states are loaded into it. -/
def Load.ToOptimizerState.groups
    (TensorTypeFromONNXEnum : Int → MLDataType)
    (UnpackTensor : ElemT → TensorProto → List Byte → Int → Status × List Byte) :
    List (Option fbs.OptimizerGroup) → OptimizerCheckpointState →
      Option (Status × OptimizerCheckpointState)
  | [], optimizer_state => some (Status.OK, optimizer_state)
  | none :: _, _ => none
  | some optimizer_group :: rest, optimizer_state =>
    match optimizer_group.group_name with
    | none => none
    | some group_name =>
      let step := optimizer_group.step
      let initial_learning_rate := optimizer_group.initial_learning_rate
      let parameter_optimizer_states := optimizer_group.optimizer_states
      let groups := InlinedHashMap.emplace optimizer_state.group_named_optimizer_states
        group_name GroupOptimizerState.fresh
      let groups := InlinedHashMap.modify groups group_name
        (fun g => { g with step := step, initial_lr := initial_learning_rate })
      match parameter_optimizer_states with
      | none => none
      | some parameter_optimizer_states =>
        match Load.ToOptimizerState.params TensorTypeFromONNXEnum UnpackTensor
            parameter_optimizer_states
            ((InlinedHashMap.find groups group_name).getD GroupOptimizerState.fresh) with
        | none => none
        | some r =>
          let optimizer_state :=
            { optimizer_state with
              group_named_optimizer_states :=
                InlinedHashMap.modify groups group_name (fun _ => r.2) }
          if !r.1.IsOK then some (r.1, optimizer_state)
          else
            Load.ToOptimizerState.groups TensorTypeFromONNXEnum UnpackTensor rest
              optimizer_state

/-- The function `Load::ToOptimizerState`. The result is `none` where a null pointer is
dereferenced (the vector itself, a group, a group name, the parameter states, a
parameter name) or `LoadOrtValueOrtFormat` returns no status, otherwise the status and
the new value of `optimizer_state`. -/
def Load.ToOptimizerState
    (TensorTypeFromONNXEnum : Int → MLDataType)
    (UnpackTensor : ElemT → TensorProto → List Byte → Int → Status × List Byte)
    (optimizer_groups : Option (List (Option fbs.OptimizerGroup)))
    (optimizer_state : OptimizerCheckpointState) :
    Option (Status × OptimizerCheckpointState) :=
  match optimizer_groups with
  | none => none
  | some groups =>
    Load.ToOptimizerState.groups TensorTypeFromONNXEnum UnpackTensor groups optimizer_state

/-- A tensor value that the tensor codec carries through unchanged with the given
collaborators: it is a tensor resident on the host whose buffer has the size its shape
and element type call for, its element type is not string and is one of those that
`LoadOrtValueOrtFormat` materializes, the data-transfer manager copies its bytes, the
type lookup gives its element type back, and the unpacker returns the raw bytes. -/
def HostSupportedTensor (data_transfer_manager : DataTransferManager)
    (TensorTypeFromONNXEnum : Int → MLDataType)
    (UnpackTensor : ElemT → TensorProto → List Byte → Int → Status × List Byte)
    (v : OrtValue) : Prop :=
  ∃ (t : Tensor) (T : ElemT),
    v = OrtValue.tensor t ∧
    t.location = cpu_alloc_info ∧
    t.data.length = t.SizeInBytes ∧
    t.dtype.element_type ≠ TensorProto_DataType_STRING ∧
    LoadOrtValueOrtFormat_switch t.dtype.element_type = some T ∧
    (∀ dst, (data_transfer_manager.CopyTensor t dst).1.IsOK = true ∧
      (data_transfer_manager.CopyTensor t dst).2 = t.data) ∧
    TensorTypeFromONNXEnum t.dtype.element_type = t.dtype ∧
    (UnpackTensor T { TensorProto.empty with data_type := t.dtype.element_type } t.data
        (TensorShape_Size t.shape)).1.IsOK = true ∧
    (UnpackTensor T { TensorProto.empty with data_type := t.dtype.element_type } t.data
        (TensorShape_Size t.shape)).2 = t.data

/-- A group of optimizer state that the codec carries through unchanged with the given
collaborators: its parameter names are pairwise distinct and, for every parameter, the
momentum names are pairwise distinct and the momentum tensors are host tensors of
supported types. -/
def HostSupportedGroup (data_transfer_manager : DataTransferManager)
    (TensorTypeFromONNXEnum : Int → MLDataType)
    (UnpackTensor : ElemT → TensorProto → List Byte → Int → Status × List Byte)
    (g : GroupOptimizerState) : Prop :=
  (InlinedHashMap.keys g.param_named_optimizer_states).Nodup ∧
  ∀ p ∈ g.param_named_optimizer_states,
    (InlinedHashMap.keys p.2).Nodup ∧
    ∀ e ∈ p.2, HostSupportedTensor data_transfer_manager TensorTypeFromONNXEnum UnpackTensor e.2

/-- The wire record that `SaveOrtValueOrtFormat` makes of a named tensor. -/
def wire_of_tensor (builder : FlatBufferBuilder) (name : String) (v : OrtValue) : fbs.Tensor :=
  match v with
  | OrtValue.tensor t =>
    ⟨some name, some "", some t.shape, t.dtype.element_type,
      some (builder.CreateVector t.data), none⟩
  | _ => ⟨some name, some "", none, 0, none, none⟩

/-! ## Checkpoint assembler: reading a checkpoint file -/

/-- The collaborators of the checkpoint reader that are declared outside the source
files, for one state of the file system: `std::filesystem::exists`,
`Env::GetFileLength` (the status and the length), the read of a binary `std::ifstream`
that is asked for a number of bytes (whether the stream is good afterwards, and the
bytes it extracted), the generated verifier `fbs::VerifyCheckpointBuffer` on the bytes
of a buffer, and the generated root accessor `fbs::GetCheckpoint`, `none` for a null
pointer. -/
structure CheckpointFiles where
  filesystem_exists : PathString → Bool
  GetFileLength : PathString → Status × Nat
  ifstream_read : PathString → Nat → Bool × List Byte
  VerifyCheckpointBuffer : List Byte → Bool
  GetCheckpoint : List Byte → Option fbs.Checkpoint

/-- The method `std::vector<uint8_t>::resize`: the vector is cut or filled with zero
bytes to the new size. -/
def std_vector_resize (v : List Byte) (n : Nat) : List Byte :=
  (v ++ List.replicate n 0).take n

/-- The function `Load::FromFile`. The result is the status with the new values of
`checkpoint_bytes` and `checkpoint_span`. -/
def Load.FromFile (files : CheckpointFiles) (checkpoint_path : PathString)
    (checkpoint_bytes : List Byte) (checkpoint_span : List Byte) :
    Status × List Byte × List Byte :=
  if !files.filesystem_exists checkpoint_path then
    (ORT_RETURN_IF_status ("Checkpoint does not exist at provided path: " ++ checkpoint_path),
     checkpoint_bytes, checkpoint_span)
  else
    let length_status := files.GetFileLength checkpoint_path
    if !length_status.1.IsOK then (length_status.1, checkpoint_bytes, checkpoint_span)
    else
      let num_bytes := length_status.2
      let checkpoint_bytes := std_vector_resize checkpoint_bytes num_bytes
      let bytes_stream := files.ifstream_read checkpoint_path num_bytes
      let gcount := bytes_stream.2.length
      let checkpoint_bytes :=
        (bytes_stream.2 ++ checkpoint_bytes.drop gcount).take num_bytes
      if !bytes_stream.1 then
        (ORT_RETURN_IF_status
          ("Loading checkpoint from " ++ checkpoint_path ++ " failed. Only " ++
            toString gcount ++ "/" ++ toString num_bytes ++ " bytes could be read."),
         checkpoint_bytes, checkpoint_span)
      else
        let checkpoint_span := checkpoint_bytes
        if !files.VerifyCheckpointBuffer checkpoint_span then
          (ORT_RETURN_IF_status "Checkpoint verification failed.",
           checkpoint_bytes, checkpoint_span)
        else (Status.OK, checkpoint_bytes, checkpoint_span)

/-- The fields of the message `ONNX_NAMESPACE::ModelProto` that the loader touches: the
graph, `none` when it is not set, as the list of its initializers. -/
structure ModelProto where
  graph : Option (List TensorProto)
  deriving DecidableEq

/-- The initializers of the graph of a model, none when the graph is not set. -/
def ModelProto.get_initializer (model_proto : ModelProto) : List TensorProto :=
  model_proto.graph.getD []

/-- The method `InlinedHashMap::insert`: like `emplace`, an entry is added only when
the key is not present yet. -/
def InlinedHashMap.insert {V : Type} (m : InlinedHashMap V) (k : String) (v : V) :
    InlinedHashMap V :=
  InlinedHashMap.emplace m k v

/-- The loop of the lambda `flatbuffer_tensors_to_tensor_protos` of
`Load::ToModelProto`: every tensor is decoded into a fresh record with zero-copy off
and inserted under the name of the wire tensor. The result is `none` where a null
tensor or a null name is dereferenced. -/
def Load.ToModelProto.flatbuffer_tensors_to_tensor_protos.loop :
    List (Option fbs.Tensor) → InlinedHashMap TensorProto →
      Option (Status × InlinedHashMap TensorProto)
  | [], param_tensor_protos => some (Status.OK, param_tensor_protos)
  | none :: _, _ => none
  | some fbs_tensor :: rest, param_tensor_protos =>
    let tensor_proto := TensorProto.empty
    let load_options : OrtFormatLoadOptions := ⟨false⟩
    let r := LoadInitializerOrtFormat fbs_tensor tensor_proto load_options
    if !r.1.IsOK then some (r.1, param_tensor_protos)
    else
      match fbs_tensor.name with
      | none => none
      | some name =>
        Load.ToModelProto.flatbuffer_tensors_to_tensor_protos.loop rest
          (InlinedHashMap.insert param_tensor_protos name r.2)

/-- The lambda `flatbuffer_tensors_to_tensor_protos` of `Load::ToModelProto`: a null
list is taken as empty. -/
def Load.ToModelProto.flatbuffer_tensors_to_tensor_protos
    (flatbuffer_tensors : Option (List (Option fbs.Tensor)))
    (param_tensor_protos : InlinedHashMap TensorProto) :
    Option (Status × InlinedHashMap TensorProto) :=
  match flatbuffer_tensors with
  | none => some (Status.OK, param_tensor_protos)
  | some tensors =>
    Load.ToModelProto.flatbuffer_tensors_to_tensor_protos.loop tensors param_tensor_protos

/-- The last loop of `Load::ToModelProto` over the initializers of the model: an
initializer without a name stops the loop with an error, an initializer whose name is
not among the loaded tensors is passed over, and the others are overwritten by
`CopyFrom` with the loaded tensor. The result is the status and the initializers. -/
def Load.ToModelProto.copy_initializers (param_tensor_protos : InlinedHashMap TensorProto) :
    List TensorProto → Status × List TensorProto
  | [] => (Status.OK, [])
  | init :: rest =>
    if !init.has_name then
      (ORT_RETURN_IF_status
        "ModelProto is invalid. Expected: All initializers must have names.", init :: rest)
    else
      match InlinedHashMap.find param_tensor_protos init.get_name with
      | none =>
        let r := Load.ToModelProto.copy_initializers param_tensor_protos rest
        (r.1, init :: r.2)
      | some loaded =>
        let r := Load.ToModelProto.copy_initializers param_tensor_protos rest
        (r.1, loaded :: r.2)

/-- The function `Load::ToModelProto`. The result is `none` where a null pointer is
dereferenced, otherwise the status and the new value of `model_proto`. -/
def Load.ToModelProto (files : CheckpointFiles) (checkpoint_path : PathString)
    (model_proto : ModelProto) : Option (Status × ModelProto) :=
  let from_file := Load.FromFile files checkpoint_path [] []
  if !from_file.1.IsOK then some (from_file.1, model_proto)
  else
    let checkpoint_span := from_file.2.2
    match files.GetCheckpoint checkpoint_span with
    | none =>
      some (ORT_RETURN_IF_status
        "Checkpoint is invalid. Expected: Valid checkpoint flatbuffer. Acutal: nullptr.",
        model_proto)
    | some fbs_checkpoint =>
      match fbs_checkpoint.module_state with
      | none => some (Status.OK, model_proto)
      | some module_state =>
        match Load.ToModelProto.flatbuffer_tensors_to_tensor_protos
            module_state.requires_grad [] with
        | none => none
        | some r1 =>
          if !r1.1.IsOK then some (r1.1, model_proto)
          else
            match Load.ToModelProto.flatbuffer_tensors_to_tensor_protos
                module_state.frozen_params r1.2 with
            | none => none
            | some r2 =>
              if !r2.1.IsOK then some (r2.1, model_proto)
              else
                let r := Load.ToModelProto.copy_initializers r2.2 model_proto.get_initializer
                some (r.1, { model_proto with graph := some r.2 })

/-- Modelled from the spec: the struct `CheckpointState` (declared outside the source
files): the module state, the optimizer state and the property bag. -/
structure CheckpointState where
  module_checkpoint_state : ModuleCheckpointState
  optimizer_checkpoint_state : OptimizerCheckpointState
  property_bag : PropertyBag

/-- The function `Load::ToCheckpointState`. The result is `none` where a null pointer
is dereferenced or `LoadOrtValueOrtFormat` returns no status, otherwise the status and
the new value of `state`. -/
def Load.ToCheckpointState (files : CheckpointFiles)
    (TensorTypeFromONNXEnum : Int → MLDataType)
    (UnpackTensor : ElemT → TensorProto → List Byte → Int → Status × List Byte)
    (checkpoint_path : PathString) (state : CheckpointState) :
    Option (Status × CheckpointState) :=
  let from_file := Load.FromFile files checkpoint_path [] []
  if !from_file.1.IsOK then some (from_file.1, state)
  else
    let checkpoint_span := from_file.2.2
    match files.GetCheckpoint checkpoint_span with
    | none =>
      some (ORT_RETURN_IF_status
        "Checkpoint is invalid. Expected: Valid checkpoint flatbuffer. Acutal: nullptr.",
        state)
    | some fbs_checkpoint =>
      match Load.ToModuleState TensorTypeFromONNXEnum UnpackTensor
          fbs_checkpoint.module_state state.module_checkpoint_state with
      | none => none
      | some r1 =>
        let state := { state with module_checkpoint_state := r1.2 }
        if !r1.1.IsOK then some (r1.1, state)
        else
          match Load.ToOptimizerState TensorTypeFromONNXEnum UnpackTensor
              fbs_checkpoint.optimizer_groups state.optimizer_checkpoint_state with
          | none => none
          | some r2 =>
            let state := { state with optimizer_checkpoint_state := r2.2 }
            if !r2.1.IsOK then some (r2.1, state)
            else
              match Load.ToPropertyBag fbs_checkpoint.property_bag state.property_bag with
              | none => none
              | some r3 =>
                let state := { state with property_bag := r3.2 }
                if !r3.1.IsOK then some (r3.1, state)
                else some (Status.OK, state)

/-- The function `LoadCheckpoint`. -/
def LoadCheckpoint (files : CheckpointFiles)
    (TensorTypeFromONNXEnum : Int → MLDataType)
    (UnpackTensor : ElemT → TensorProto → List Byte → Int → Status × List Byte)
    (checkpoint_path : PathString) (checkpoint_states : CheckpointState) :
    Option (Status × CheckpointState) :=
  Load.ToCheckpointState files TensorTypeFromONNXEnum UnpackTensor checkpoint_path
    checkpoint_states

/-- The function `LoadCheckpointToModel`. -/
def LoadCheckpointToModel (files : CheckpointFiles) (checkpoint_path : PathString)
    (model_proto : ModelProto) : Option (Status × ModelProto) :=
  Load.ToModelProto files checkpoint_path model_proto

/-! ## Concrete records used as witnesses -/

/-- A wire tensor of unsigned bytes named `w` with `n` zero bytes of raw payload. -/
def wire_bytes (n : Nat) : fbs.Tensor :=
  ⟨some "w", none, some [(n : Int)], TensorProto_DataType_UINT8,
   some ⟨4096, List.replicate n 0⟩, none⟩

/-- A wire tensor of two strings. -/
def wire_strings : fbs.Tensor :=
  ⟨some "s", some "doc", some [2], TensorProto_DataType_STRING, none, some ["a", "bc"]⟩

/-- An unpacker that returns the raw bytes stored in the record. -/
def unpack_raw : TensorProto → Path → Except Status (List Byte) :=
  fun t _ => Except.ok (t.raw_data.getD [])

/-- A builder that places every vector at address 4096. -/
def builder_at_4096 : FlatBufferBuilder := ⟨fun _ => 4096⟩

/-- An in-memory record of three payload bytes. -/
def record_bytes : TensorProto :=
  ⟨some "w", some "weights", [3], TensorProto_DataType_UINT8, [], some [1, 2, 3],
   TensorProto_DataLocation.DEFAULT, []⟩

/-- A wire tensor of one byte whose tag, 99, is not a member of the enumeration. -/
def wire_unknown_tag : fbs.Tensor :=
  ⟨some "w", none, some [1], 99, some ⟨4096, [7]⟩, none⟩

/-- A wire tensor of one byte with the given name field. -/
def wire_named (n : Option String) : fbs.Tensor :=
  ⟨n, none, some [1], TensorProto_DataType_UINT8, some ⟨4096, [7]⟩, none⟩

/-- A wire tensor of one byte in the first reserved narrow float format. -/
def wire_float8 : fbs.Tensor :=
  ⟨some "f8", none, some [1], TensorProto_DataType_FLOAT8E4M3FN, some ⟨4096, [7]⟩, none⟩

/-- A type lookup that gives every tag a one-byte element. -/
def one_byte_types : Int → MLDataType := fun t => ⟨t, 1⟩

/-- An unpacker that copies the raw bytes. -/
def unpack_copy : ElemT → TensorProto → List Byte → Int → Status × List Byte :=
  fun _ _ raw _ => (Status.OK, raw)

/-- A string tensor value of two elements living on the CPU. -/
def string_tensor : Tensor :=
  ⟨⟨TensorProto_DataType_STRING, 8⟩, [2], List.replicate 16 0, cpu_alloc_info⟩

/-- A data-transfer manager whose copy succeeds and writes the source bytes. -/
def copying_manager : DataTransferManager := ⟨fun src _ => (Status.OK, src.data)⟩

/-- A wire sparse tensor with values, indices and dense shape. -/
def wire_sparse : fbs.SparseTensor :=
  ⟨some (wire_named (some "v")), some (wire_named none), some [4]⟩

/-- A graph serializer that succeeds with the reference 1. -/
def serializer_ok : Graph → Except Status fbs.Graph := fun _ => Except.ok ⟨1⟩

/-- A naming of attribute type tags that gives the text of the number. -/
def enum_name_number : Int → String := fun t => toString t

/-- An attribute of the given type with a name and nothing else. -/
def attr_of_type (type : Int) : AttributeProto :=
  { AttributeProto.empty with name := some "a", type := type }

/-- A wire attribute of the given type with a name and nothing else. -/
def wire_attr_of_type (type : Int) : fbs.Attribute :=
  { fbs.Attribute.empty with name := some "a", type := type }

/-- A graph deserializer that succeeds and delivers a graph made from the reference. -/
def deserializer_ok : fbs.Graph → Graph → Node → OrtFormatLoadOptions → logging.Logger →
    Option Graph → Status × Option Graph :=
  fun g _ _ _ _ _ => (Status.OK, some ⟨[toString g.ref]⟩)

/-- The placeholder that `LoadAttributeOrtFormat` leaves as the inline graph of a GRAPH
attribute. -/
def placeholder_graph : GraphProto :=
  ⟨some "Empty graph proto from deserialization of ORT format model", []⟩

/-- A tensor record that has only the given name. -/
def named_proto (n : String) : TensorProto := { TensorProto.empty with name := some n }

/-- A byte size that counts the raw payload bytes of a tensor record. -/
def raw_byte_size : TensorProto → Nat := fun t => (t.raw_data.getD []).length

/-- A file stream that is good after every write. -/
def stream_good : PathString → fbs.Checkpoint → Bool := fun _ _ => true

/-- Whether a property value holds an `int64_t`. -/
def PropertyDataType.isInt64 : PropertyDataType → Bool
  | PropertyDataType.int64 _ => true
  | _ => false

/-- Whether a property value holds a `float`. -/
def PropertyDataType.isFloat : PropertyDataType → Bool
  | PropertyDataType.float _ => true
  | _ => false

/-- Whether a property value holds a `std::string`. -/
def PropertyDataType.isString : PropertyDataType → Bool
  | PropertyDataType.string _ => true
  | _ => false

/-- A property value as a saved property bag gives it back: a float went through the
float field of its record, an integer and a string are kept as they are. -/
def PropertyDataType.stored : PropertyDataType → PropertyDataType
  | PropertyDataType.float value => PropertyDataType.float (AddElement_float value)
  | value => value

/-- A group as a saved optimizer state gives it back: the learning rate went through
the float field of the group record. -/
def GroupOptimizerState.stored (g : GroupOptimizerState) : GroupOptimizerState :=
  { g with initial_lr := AddElement_float g.initial_lr }

/-- A property bag with the one float property `z` that holds `-0.0f`. -/
def bag_negative_zero : PropertyBag :=
  ⟨[("z", PropertyDataType.float f32.negative_zero)]⟩

/-- A property bag with one int, one float and one string property. -/
def bag_three : PropertyBag :=
  ⟨[("epoch", PropertyDataType.int64 3), ("lr", PropertyDataType.float ⟨1008981770⟩),
    ("tag", PropertyDataType.string "best")]⟩

/-- The wire record that `Save::FromOptimizerState` makes of the momentum tensors of a
parameter. -/
def wire_of_param (builder : FlatBufferBuilder) (e : String × InlinedHashMap OrtValue) :
    fbs.ParameterOptimizerState :=
  ⟨some e.1, some ((e.2.map (fun x => wire_of_tensor builder x.1 x.2)).map some)⟩

/-- The wire record of a group with the name, the step, the learning rate and the
parameter records of the given group; `Save::FromOptimizerState` makes it of a group
whose learning rate is not `-0.0f`. -/
def wire_of_group (builder : FlatBufferBuilder) (e : String × GroupOptimizerState) :
    fbs.OptimizerGroup :=
  ⟨some e.1, e.2.step, e.2.initial_lr,
    some ((e.2.param_named_optimizer_states.map (wire_of_param builder)).map some)⟩

/-- A type lookup that gives every tag a four-byte element. -/
def four_byte_types : Int → MLDataType := fun t => ⟨t, 4⟩

/-- A float tensor of one element on the host with the given four bytes. -/
def float_tensor (b : Byte) : Tensor :=
  ⟨⟨TensorProto_DataType_FLOAT, 4⟩, [1], [b, 0, 0, 0], cpu_alloc_info⟩

/-- A module state with a trainable parameter `w` and a frozen parameter `b`. -/
def module_two : ModuleCheckpointState :=
  ⟨[("w", ⟨"w", OrtValue.tensor (float_tensor 1), true⟩),
    ("b", ⟨"b", OrtValue.tensor (float_tensor 2), false⟩)], some copying_manager⟩

/-- An optimizer state with the one group `group0` at step 5 with learning rate
`-0.0f` and no parameter. -/
def optimizer_negative_zero : OptimizerCheckpointState :=
  ⟨[("group0", ⟨f32.negative_zero, 5, []⟩)], some copying_manager⟩

/-- An optimizer state with the group `group0` at step 5 with learning rate 0.01 and
the parameter `w` with two momentum tensors. -/
def optimizer_one : OptimizerCheckpointState :=
  ⟨[("group0", ⟨⟨1008981770⟩, 5,
      [("w", [("momentum0", OrtValue.tensor (float_tensor 1)),
              ("momentum1", OrtValue.tensor (float_tensor 2))])]⟩)], some copying_manager⟩

/-- The value that a sequence of insertions leaves under a name when every insertion
overwrites: the value of the last insertion under that name, and `init`, the value
before the sequence, when there is none. -/
def last_write {V : Type} (insertions : List (String × V)) (name : String)
    (init : Option V) : Option V :=
  insertions.foldl (fun acc e => if e.1 = name then some e.2 else acc) init

/-- The insertions that `Load::ToPropertyBag` makes for three wire lists whose
properties all have a name (and the string properties a value): the int properties,
then the float properties, then the string properties, each list in wire order. -/
def ToPropertyBag_insertions (ints : List (String × Int)) (floats : List (String × f32))
    (strings : List (String × String)) : List (String × PropertyDataType) :=
  ints.map (fun e => (e.1, PropertyDataType.int64 e.2)) ++
    floats.map (fun e => (e.1, PropertyDataType.float e.2)) ++
    strings.map (fun e => (e.1, PropertyDataType.string e.2))

/-- The wire bag with the given named properties. -/
def wire_bag (ints : List (String × Int)) (floats : List (String × f32))
    (strings : List (String × String)) : fbs.PropertyBag :=
  ⟨some (ints.map (fun e => some ⟨some e.1, e.2⟩)),
   some (floats.map (fun e => some ⟨some e.1, e.2⟩)),
   some (strings.map (fun e => some ⟨some e.1, some e.2⟩))⟩

/-- The tensor found under a parameter name and a momentum name in the momentum maps
of a group, if any. -/
def lookup2 {V : Type} (params : InlinedHashMap (InlinedHashMap V)) (p m : String) :
    Option V :=
  (InlinedHashMap.find params p).bind (fun momentums => InlinedHashMap.find momentums m)

/-- Two optimizer groups that both have the name `g` and the parameter `w` with the
momentum `m`: the first at step 1 with the tensor of byte 1, the second at step 2 with
the tensor of byte 2. -/
def two_groups_same_name : List (Option fbs.OptimizerGroup) :=
  [some (wire_of_group builder_at_4096
      ("g", ⟨⟨1⟩, 1, [("w", [("m", OrtValue.tensor (float_tensor 1))])]⟩)),
   some (wire_of_group builder_at_4096
      ("g", ⟨⟨2⟩, 2, [("w", [("m", OrtValue.tensor (float_tensor 2))])]⟩))]

/-- The record that the tensor codec gives back for the record `x` when the unpacker
read `bytes` out of it: name, doc string, dims and element type of `x`, the strings of
`x` for the string element type and the bytes otherwise, and no external reference. -/
def decoded_record (x : TensorProto) (bytes : List Byte) : TensorProto :=
  if x.data_type = TensorProto_DataType_STRING then
    ⟨x.name, x.doc_string, x.dims, x.data_type, x.string_data, none,
      TensorProto_DataLocation.DEFAULT, []⟩
  else
    ⟨x.name, x.doc_string, x.dims, x.data_type, [], some bytes,
      TensorProto_DataLocation.DEFAULT, []⟩

/-- An in-memory sparse record: values named `w`, indices, and the dense shape 4. -/
def sparse_record : SparseTensorProto :=
  ⟨some record_bytes,
   some ⟨some "idx", none, [3], TensorProto_DataType_UINT8, [], some [0, 1, 3],
     TensorProto_DataLocation.DEFAULT, []⟩, [4]⟩

/-- A file system in which every path holds the three bytes 1, 2, 3, the verifier
answers `verified`, and the root of every buffer is `checkpoint`. -/
def checkpoint_files (verified : Bool) (checkpoint : fbs.Checkpoint) : CheckpointFiles :=
  ⟨fun _ => true, fun _ => (Status.OK, 3), fun _ _ => (true, [1, 2, 3]), fun _ => verified,
   fun _ => some checkpoint⟩

/-- A checkpoint state without parameters, groups and properties. -/
def CheckpointState.blank : CheckpointState := ⟨⟨[], none⟩, ⟨[], none⟩, ⟨[]⟩⟩

/-- A checkpoint whose module state holds the trainable tensor `w` of one byte and the
frozen tensor `unused` of one byte, and nothing else. -/
def checkpoint_two_tensors : fbs.Checkpoint :=
  ⟨some ⟨some [some (wire_named (some "w"))], some [some (wire_named (some "unused"))]⟩,
   none, none⟩

/-- A checkpoint whose module state holds the trainable tensor `w` of one byte and the
frozen tensor `unused` without dims, and nothing else. -/
def checkpoint_unmatched_no_dims : fbs.Checkpoint :=
  ⟨some ⟨some [some (wire_named (some "w"))],
     some [some { wire_named (some "unused") with dims := none }]⟩, none, none⟩

/-- A model with the two named initializers `w` and `b`. -/
def model_two_initializers : ModelProto :=
  ⟨some [record_bytes, named_proto "b"]⟩

/-- A checkpoint whose module state holds the trainable tensor `w` and a null frozen
list, and nothing else. -/
def checkpoint_half_module : fbs.Checkpoint :=
  ⟨some ⟨some [some (wire_of_tensor builder_at_4096 "w" (OrtValue.tensor (float_tensor 1)))],
     none⟩, none, none⟩

/-- A location on a device that is neither CPU nor GPU, in default memory. -/
def other_device_info : OrtMemoryInfo := ⟨⟨3⟩, OrtMemTypeDefault⟩

/-- The tags that have a case of their own in the `switch` of `LoadOrtValueOrtFormat`,
in the order of the source. -/
def materialized_element_types : List Int :=
  [TensorProto_DataType_FLOAT, TensorProto_DataType_BOOL, TensorProto_DataType_DOUBLE,
   TensorProto_DataType_STRING, TensorProto_DataType_INT8, TensorProto_DataType_UINT8,
   TensorProto_DataType_INT16, TensorProto_DataType_UINT16, TensorProto_DataType_INT32,
   TensorProto_DataType_UINT32, TensorProto_DataType_INT64, TensorProto_DataType_UINT64]

/-- The tags that the `switch` of `LoadOrtValueOrtFormat` names by a case label before
its `default` label without a case of their own, in the order of the source. -/
def unimplemented_element_types : List Int :=
  [TensorProto_DataType_FLOAT16, TensorProto_DataType_BFLOAT16,
   TensorProto_DataType_FLOAT8E4M3FN, TensorProto_DataType_FLOAT8E4M3FNUZ,
   TensorProto_DataType_FLOAT8E5M2, TensorProto_DataType_FLOAT8E5M2FNUZ]

/-- A 16-bit float tensor of one element on the host. -/
def half_tensor : Tensor :=
  ⟨⟨TensorProto_DataType_FLOAT16, 2⟩, [1], [0, 60], cpu_alloc_info⟩

/-- A checkpoint whose module state holds the trainable tensor `w` of 200 payload
bytes and a null frozen list. -/
def checkpoint_large_tensor : fbs.Checkpoint :=
  ⟨some ⟨some [some (wire_bytes 200)], none⟩, none, none⟩

/-- The bytes that the unpacker reads out of a record, none when it fails. -/
def unpacked_bytes (unpack : TensorProto → Path → Except Status (List Byte))
    (model_path : Path) (x : TensorProto) : List Byte :=
  match unpack x model_path with
  | Except.ok bytes => bytes
  | Except.error _ => []

/-- A FLOAT attribute named `a` whose value is `-0.0f`. -/
def attr_negative_zero : AttributeProto :=
  { AttributeProto.empty with
    name := some "a", type := AttributeProto_AttributeType_FLOAT,
    f := some f32.negative_zero }

/-- A TENSORS attribute with two tensor records. -/
def attr_tensors : AttributeProto :=
  { AttributeProto.empty with
    name := some "a", doc_string := some "two", type := AttributeProto_AttributeType_TENSORS,
    tensors := [record_bytes, { record_bytes with name := some "v" }] }

/-- The tensor record invariant of the data model: exactly one payload representation
is populated (strings for the string element type, raw bytes otherwise) and the record
is not an external reference. -/
def IsTensorRecord (x : TensorProto) : Prop :=
  x.data_location = TensorProto_DataLocation.DEFAULT ∧ x.external_data = [] ∧
  (x.data_type = TensorProto_DataType_STRING → x.raw_data = none) ∧
  (x.data_type ≠ TensorProto_DataType_STRING → x.string_data = [])

instance (x : TensorProto) : Decidable (IsTensorRecord x) := by
  unfold IsTensorRecord
  infer_instance

/-! ## Theorems -/

/-- The tags with a case of their own in the `switch` of `LoadOrtValueOrtFormat` are
tags for which the type lookup has a type. -/
theorem LoadOrtValueOrtFormat_switch_tags (tag : Int) (T : ElemT)
    (h : LoadOrtValueOrtFormat_switch tag = some T) : tag ∈ TensorTypeFromONNXEnum_tags := by
  by_contra hout
  simp only [TensorTypeFromONNXEnum_tags, List.mem_cons, List.mem_singleton,
    List.not_mem_nil, or_false, not_or] at hout
  obtain ⟨h1, h2, h3, h4, h5, h6, h7, h8, h9, h10, h11, h12, _⟩ := hout
  simp only [LoadOrtValueOrtFormat_switch, if_neg h1, if_neg h2, if_neg h3, if_neg h4,
    if_neg h5, if_neg h6, if_neg h7, if_neg h8, if_neg h9, if_neg h10, if_neg h11,
    if_neg h12] at h
  cases h

/-- The status `Status::OK()` is OK. -/
theorem Status_OK_IsOK : Status.OK.IsOK = true := rfl

/-- A status built by `ORT_RETURN_IF` is not OK. -/
theorem ORT_RETURN_IF_status_not_ok (msg : String) : (ORT_RETURN_IF_status msg).IsOK = false := by
  simp [ORT_RETURN_IF_status, ORT_MAKE_STATUS, Status.IsOK]

/-- What `LoadInitializerOrtFormat` returns for a non-string tensor with dims and raw
payload present. -/
theorem LoadInitializerOrtFormat_raw (w : fbs.Tensor) (init : TensorProto)
    (opts : OrtFormatLoadOptions) (d : List Int) (v : fbs.ByteVector)
    (hd : w.dims = some d) (ht : w.data_type ≠ fbs.TensorDataType.STRING)
    (hr : w.raw_data = some v) :
    LoadInitializerOrtFormat w init opts =
      if opts.can_use_flatbuffer_for_initializers = true ∧ v.size > 127 then
        (Status.OK,
          ⟨w.name, w.doc_string, d, w.data_type, [], none, TensorProto_DataLocation.EXTERNAL,
           [⟨"location", kTensorProtoMemoryAddressTag⟩, ⟨"offset", toString v.Data⟩,
            ⟨"length", toString v.size⟩]⟩)
      else
        (Status.OK,
          ⟨w.name, w.doc_string, d, w.data_type, [], some v.elems,
           TensorProto_DataLocation.DEFAULT, []⟩) := by
  have hn : LOAD_STR_FROM_ORT_FORMAT none w.name = w.name := by
    cases w.name <;> rfl
  have hdoc : LOAD_STR_FROM_ORT_FORMAT none w.doc_string = w.doc_string := by
    cases w.doc_string <;> rfl
  simp only [LoadInitializerOrtFormat, hd, hr, TensorProto.Clear, TensorProto.empty, hn, hdoc,
    if_neg ht, List.nil_append, Bool.and_eq_true, decide_eq_true_eq]

/-- What `LoadInitializerOrtFormat` returns for a string tensor with dims and string
data present. -/
theorem LoadInitializerOrtFormat_string (w : fbs.Tensor) (init : TensorProto)
    (opts : OrtFormatLoadOptions) (d : List Int) (l : List String)
    (hd : w.dims = some d) (ht : w.data_type = fbs.TensorDataType.STRING)
    (hs : w.string_data = some l) :
    LoadInitializerOrtFormat w init opts =
      (Status.OK,
        ⟨w.name, w.doc_string, d, w.data_type, l, none, TensorProto_DataLocation.DEFAULT, []⟩) := by
  have hn : LOAD_STR_FROM_ORT_FORMAT none w.name = w.name := by
    cases w.name <;> rfl
  have hdoc : LOAD_STR_FROM_ORT_FORMAT none w.doc_string = w.doc_string := by
    cases w.doc_string <;> rfl
  simp only [LoadInitializerOrtFormat, hd, hs, TensorProto.Clear, TensorProto.empty, hn, hdoc,
    if_pos ht, List.nil_append]

/-- When the dims are absent `LoadInitializerOrtFormat` fails. -/
theorem LoadInitializerOrtFormat_no_dims (w : fbs.Tensor) (init : TensorProto)
    (opts : OrtFormatLoadOptions) (hd : w.dims = none) :
    (LoadInitializerOrtFormat w init opts).1.IsOK = false := by
  simp only [LoadInitializerOrtFormat, hd, ORT_RETURN_IF_status_not_ok]

/-- What `SaveInitializerOrtFormat` returns when it succeeds. -/
theorem SaveInitializerOrtFormat_ok
    (unpack : TensorProto → Path → Except Status (List Byte)) (builder : FlatBufferBuilder)
    (x : TensorProto) (model_path : Path) (w : fbs.Tensor)
    (hsave : SaveInitializerOrtFormat unpack builder x model_path = Except.ok w) :
    w.name = x.name ∧ w.doc_string = x.doc_string ∧ w.dims = some x.dims ∧
    w.data_type = x.data_type ∧
    (x.data_type = TensorProto_DataType_STRING →
      w.string_data = some x.string_data ∧ w.raw_data = none) ∧
    (x.data_type ≠ TensorProto_DataType_STRING →
      ∃ bytes, unpack x model_path = Except.ok bytes ∧
        w.raw_data = some (builder.CreateVector bytes) ∧ w.string_data = none) := by
  have hn : SaveStringToOrtFormat x.has_name x.get_name = x.name := by
    cases h : x.name <;> simp [SaveStringToOrtFormat, TensorProto.has_name,
      TensorProto.get_name, h]
  have hdoc : SaveStringToOrtFormat x.has_doc_string x.get_doc_string = x.doc_string := by
    cases h : x.doc_string <;> simp [SaveStringToOrtFormat, TensorProto.has_doc_string,
      TensorProto.get_doc_string, h]
  unfold SaveInitializerOrtFormat at hsave
  simp only [hn, hdoc, SaveDims, decide_eq_true_eq] at hsave
  by_cases ht : x.data_type = TensorProto_DataType_STRING
  · rw [if_pos ht] at hsave
    injection hsave with hw
    subst hw
    simp [ht]
  · rw [if_neg ht] at hsave
    cases hu : unpack x model_path with
    | error e => rw [hu] at hsave; cases hsave
    | ok bytes =>
      rw [hu] at hsave
      injection hsave with hw
      subst hw
      simp [ht]

/-- Claim C1. Round trip of the tensor codec with zero-copy disabled: whenever
`SaveInitializerOrtFormat` produces a wire record from a tensor record `x`,
`LoadInitializerOrtFormat` with the zero-copy flag off decodes it successfully into a
record with the same name, doc string, dims and element type as `x`; for the string
element type it has the same strings in the same order, and otherwise its raw payload
is exactly the bytes that the unpacker read out of `x`; nothing is recorded as an
external reference. Hence, when `x` satisfies the record invariant and its raw bytes
are what the unpacker reads, the decoded record equals `x`. -/
theorem C1_tensor_roundtrip
    (unpack : TensorProto → Path → Except Status (List Byte)) (builder : FlatBufferBuilder)
    (x : TensorProto) (model_path : Path) (w : fbs.Tensor) (init : TensorProto)
    (hsave : SaveInitializerOrtFormat unpack builder x model_path = Except.ok w) :
    (LoadInitializerOrtFormat w init ⟨false⟩).1 = Status.OK ∧
    (LoadInitializerOrtFormat w init ⟨false⟩).2.name = x.name ∧
    (LoadInitializerOrtFormat w init ⟨false⟩).2.doc_string = x.doc_string ∧
    (LoadInitializerOrtFormat w init ⟨false⟩).2.dims = x.dims ∧
    (LoadInitializerOrtFormat w init ⟨false⟩).2.data_type = x.data_type ∧
    (LoadInitializerOrtFormat w init ⟨false⟩).2.data_location =
      TensorProto_DataLocation.DEFAULT ∧
    (LoadInitializerOrtFormat w init ⟨false⟩).2.external_data = [] ∧
    (x.data_type = TensorProto_DataType_STRING →
      (LoadInitializerOrtFormat w init ⟨false⟩).2.string_data = x.string_data ∧
      (LoadInitializerOrtFormat w init ⟨false⟩).2.raw_data = none) ∧
    (x.data_type ≠ TensorProto_DataType_STRING →
      ∃ bytes, unpack x model_path = Except.ok bytes ∧
        (LoadInitializerOrtFormat w init ⟨false⟩).2.raw_data = some bytes ∧
        (LoadInitializerOrtFormat w init ⟨false⟩).2.string_data = []) ∧
    (IsTensorRecord x →
      (∀ bytes, unpack x model_path = Except.ok bytes → x.raw_data = some bytes) →
      (LoadInitializerOrtFormat w init ⟨false⟩).2 = x) := by
  obtain ⟨hn, hdoc, hd, hty, hstr, hraw⟩ :=
    SaveInitializerOrtFormat_ok unpack builder x model_path w hsave
  by_cases ht : x.data_type = TensorProto_DataType_STRING
  · obtain ⟨hs, _⟩ := hstr ht
    have htw : w.data_type = fbs.TensorDataType.STRING := by rw [hty]; exact ht
    rw [LoadInitializerOrtFormat_string w init ⟨false⟩ x.dims x.string_data hd htw hs]
    refine ⟨rfl, hn, hdoc, rfl, hty, rfl, rfl, fun _ => ⟨rfl, rfl⟩, fun h => absurd ht h, ?_⟩
    rintro ⟨hloc, hext, hsr, _⟩ _
    cases x
    simp only at hn hdoc hty hloc hext ht
    simp_all
  · obtain ⟨bytes, hu, hr, _⟩ := hraw ht
    have htw : w.data_type ≠ fbs.TensorDataType.STRING := by rw [hty]; exact ht
    rw [LoadInitializerOrtFormat_raw w init ⟨false⟩ x.dims _ hd htw hr]
    refine ⟨by simp, by simp [hn], by simp [hdoc], by simp, by simp [hty], by simp, by simp,
      fun h => absurd h ht, fun _ => ⟨bytes, hu, by simp [FlatBufferBuilder.CreateVector],
        by simp⟩, ?_⟩
    rintro ⟨hloc, hext, _, hsr⟩ hb
    have hxr := hb bytes hu
    have hxs := hsr ht
    cases x
    simp only at hn hdoc hty hloc hext hxr hxs
    simp_all [FlatBufferBuilder.CreateVector]

/-- Witness of C1: the record `record_bytes` is saved, and loading the saved wire
record gives `record_bytes` back. -/
theorem C1_tensor_roundtrip_witness :
    SaveInitializerOrtFormat unpack_raw builder_at_4096 record_bytes "" =
      Except.ok ⟨some "w", some "weights", some [3], TensorProto_DataType_UINT8,
        some ⟨4096, [1, 2, 3]⟩, none⟩ ∧
    (LoadInitializerOrtFormat
        ⟨some "w", some "weights", some [3], TensorProto_DataType_UINT8,
          some ⟨4096, [1, 2, 3]⟩, none⟩ TensorProto.empty ⟨false⟩).1 = Status.OK ∧
    (LoadInitializerOrtFormat
        ⟨some "w", some "weights", some [3], TensorProto_DataType_UINT8,
          some ⟨4096, [1, 2, 3]⟩, none⟩ TensorProto.empty ⟨false⟩).2 = record_bytes := by
  have h := C1_tensor_roundtrip unpack_raw builder_at_4096 record_bytes ""
    ⟨some "w", some "weights", some [3], TensorProto_DataType_UINT8,
      some ⟨4096, [1, 2, 3]⟩, none⟩ TensorProto.empty rfl
  refine ⟨rfl, h.1, h.2.2.2.2.2.2.2.2.2 (by decide) ?_⟩
  intro bytes hu
  have hb : (Except.ok [1, 2, 3] : Except Status (List Byte)) = Except.ok bytes := hu
  injection hb with h3
  rw [← h3]
  rfl

/-- Claim C2. The zero-copy threshold: with zero-copy enabled, a non-string wire tensor
(dims present) with exactly 127 raw payload bytes decodes to an owned copy of the bytes
(raw data set, no external data location), and one with exactly 128 raw payload bytes
decodes to an aliasing reference (data location EXTERNAL with the three entries
location, offset, length, and no owned raw data). -/
theorem C2_zero_copy_threshold (w : fbs.Tensor) (init : TensorProto) (d : List Int)
    (v : fbs.ByteVector) (hd : w.dims = some d)
    (ht : w.data_type ≠ fbs.TensorDataType.STRING) (hr : w.raw_data = some v) :
    (v.size = 127 →
      (LoadInitializerOrtFormat w init ⟨true⟩).1 = Status.OK ∧
      (LoadInitializerOrtFormat w init ⟨true⟩).2.raw_data = some v.elems ∧
      (LoadInitializerOrtFormat w init ⟨true⟩).2.data_location =
        TensorProto_DataLocation.DEFAULT ∧
      (LoadInitializerOrtFormat w init ⟨true⟩).2.external_data = []) ∧
    (v.size = 128 →
      (LoadInitializerOrtFormat w init ⟨true⟩).1 = Status.OK ∧
      (LoadInitializerOrtFormat w init ⟨true⟩).2.raw_data = none ∧
      (LoadInitializerOrtFormat w init ⟨true⟩).2.data_location =
        TensorProto_DataLocation.EXTERNAL ∧
      (LoadInitializerOrtFormat w init ⟨true⟩).2.external_data =
        [⟨"location", kTensorProtoMemoryAddressTag⟩, ⟨"offset", toString v.Data⟩,
         ⟨"length", toString (128 : Nat)⟩]) := by
  rw [LoadInitializerOrtFormat_raw w init ⟨true⟩ d v hd ht hr]
  constructor
  · intro hs
    simp [hs]
  · intro hs
    simp [hs]

/-- Witness of C2: 127 zero bytes are copied, 128 zero bytes are referenced. -/
theorem C2_zero_copy_threshold_witness :
    (LoadInitializerOrtFormat (wire_bytes 127) TensorProto.empty ⟨true⟩).2.raw_data =
      some (List.replicate 127 0) ∧
    (LoadInitializerOrtFormat (wire_bytes 128) TensorProto.empty ⟨true⟩).2.data_location =
      TensorProto_DataLocation.EXTERNAL :=
  ⟨((C2_zero_copy_threshold (wire_bytes 127) TensorProto.empty [127]
      ⟨4096, List.replicate 127 0⟩ rfl (by decide) rfl).1
      (by simp [fbs.ByteVector.size])).2.1,
   ((C2_zero_copy_threshold (wire_bytes 128) TensorProto.empty [128]
      ⟨4096, List.replicate 128 0⟩ rfl (by decide) rfl).2
      (by simp [fbs.ByteVector.size])).2.2.1⟩

/-- Counterexample to C3 as stated: with zero-copy permitted, a raw payload of exactly
128 bytes (which does not exceed 128) is recorded as an address-location reference and
is not copied. -/
theorem C3_counterexample :
    (wire_bytes 128).dims = some [128] ∧
    (wire_bytes 128).data_type ≠ fbs.TensorDataType.STRING ∧
    (wire_bytes 128).raw_data = some ⟨4096, List.replicate 128 0⟩ ∧
    (⟨4096, List.replicate 128 0⟩ : fbs.ByteVector).size = 128 ∧
    ¬ ((⟨4096, List.replicate 128 0⟩ : fbs.ByteVector).size > 128) ∧
    (LoadInitializerOrtFormat (wire_bytes 128) TensorProto.empty ⟨true⟩).2.data_location =
      TensorProto_DataLocation.EXTERNAL ∧
    (LoadInitializerOrtFormat (wire_bytes 128) TensorProto.empty ⟨true⟩).2.raw_data = none := by
  have h := LoadInitializerOrtFormat_raw (wire_bytes 128) TensorProto.empty ⟨true⟩ [128]
    ⟨4096, List.replicate 128 0⟩ rfl (by decide) rfl
  refine ⟨rfl, by decide, rfl, by simp [fbs.ByteVector.size], by simp [fbs.ByteVector.size],
    ?_, ?_⟩
  · rw [h]; simp [fbs.ByteVector.size]
  · rw [h]; simp [fbs.ByteVector.size]

/-- Claim C3, amended. For every non-string wire tensor with dims and raw payload
present, `LoadInitializerOrtFormat` succeeds, and it records the payload as an
address-location reference (EXTERNAL, the three entries, no owned bytes) if and only if
zero-copy is permitted and the raw payload has at least 128 bytes (size greater than
127); in every other case (flag off, or at most 127 bytes) the raw bytes are copied
into an owned buffer and nothing external is recorded. -/
theorem C3_zero_copy_iff (w : fbs.Tensor) (init : TensorProto) (opts : OrtFormatLoadOptions)
    (d : List Int) (v : fbs.ByteVector) (hd : w.dims = some d)
    (ht : w.data_type ≠ fbs.TensorDataType.STRING) (hr : w.raw_data = some v) :
    (LoadInitializerOrtFormat w init opts).1 = Status.OK ∧
    (((LoadInitializerOrtFormat w init opts).2.data_location =
          TensorProto_DataLocation.EXTERNAL ∧
        (LoadInitializerOrtFormat w init opts).2.raw_data = none ∧
        (LoadInitializerOrtFormat w init opts).2.external_data =
          [⟨"location", kTensorProtoMemoryAddressTag⟩, ⟨"offset", toString v.Data⟩,
           ⟨"length", toString v.size⟩]) ↔
      (opts.can_use_flatbuffer_for_initializers = true ∧ 128 ≤ v.size)) ∧
    (¬ (opts.can_use_flatbuffer_for_initializers = true ∧ 128 ≤ v.size) →
      (LoadInitializerOrtFormat w init opts).2.raw_data = some v.elems ∧
      (LoadInitializerOrtFormat w init opts).2.data_location =
        TensorProto_DataLocation.DEFAULT ∧
      (LoadInitializerOrtFormat w init opts).2.external_data = []) := by
  rw [LoadInitializerOrtFormat_raw w init opts d v hd ht hr]
  by_cases hc : opts.can_use_flatbuffer_for_initializers = true ∧ v.size > 127
  · have hc2 : opts.can_use_flatbuffer_for_initializers = true ∧ 128 ≤ v.size :=
      ⟨hc.1, hc.2⟩
    rw [if_pos hc]
    exact ⟨rfl, ⟨fun _ => hc2, fun _ => ⟨rfl, rfl, rfl⟩⟩, fun h => absurd hc2 h⟩
  · have hc2 : ¬ (opts.can_use_flatbuffer_for_initializers = true ∧ 128 ≤ v.size) :=
      fun h => hc ⟨h.1, h.2⟩
    rw [if_neg hc]
    refine ⟨rfl, ⟨fun h => ?_, fun h => absurd h hc2⟩, fun _ => ⟨rfl, rfl, rfl⟩⟩
    exact absurd h.1 (by simp)

/-- Witness of the amended C3: 128 bytes with the flag on are referenced, and the same
bytes with the flag off are copied. -/
theorem C3_zero_copy_iff_witness :
    (LoadInitializerOrtFormat (wire_bytes 128) TensorProto.empty ⟨true⟩).1 = Status.OK ∧
    (LoadInitializerOrtFormat (wire_bytes 128) TensorProto.empty ⟨false⟩).2.raw_data =
      some (List.replicate 128 0) :=
  ⟨(C3_zero_copy_iff (wire_bytes 128) TensorProto.empty ⟨true⟩ [128]
      ⟨4096, List.replicate 128 0⟩ rfl (by decide) rfl).1,
   ((C3_zero_copy_iff (wire_bytes 128) TensorProto.empty ⟨false⟩ [128]
      ⟨4096, List.replicate 128 0⟩ rfl (by decide) rfl).2.2 (by simp)).1⟩

/-- Claim C4. For every wire tensor whose element type is string and whose string
data is present, whatever the zero-copy flag and whatever the size of the payload,
`LoadInitializerOrtFormat` never produces an external reference and never sets raw
bytes; it succeeds exactly when the dims are present, and then the result holds the
wire strings in order. -/
theorem C4_strings_always_copied (w : fbs.Tensor) (init : TensorProto)
    (opts : OrtFormatLoadOptions) (l : List String)
    (ht : w.data_type = fbs.TensorDataType.STRING) (hs : w.string_data = some l) :
    (LoadInitializerOrtFormat w init opts).2.data_location =
      TensorProto_DataLocation.DEFAULT ∧
    (LoadInitializerOrtFormat w init opts).2.external_data = [] ∧
    (LoadInitializerOrtFormat w init opts).2.raw_data = none ∧
    ((LoadInitializerOrtFormat w init opts).1.IsOK = true ↔ w.dims.isSome = true) ∧
    (∀ d, w.dims = some d →
      (LoadInitializerOrtFormat w init opts).1 = Status.OK ∧
      (LoadInitializerOrtFormat w init opts).2.string_data = l) := by
  cases hd : w.dims with
  | none =>
    have hfail := LoadInitializerOrtFormat_no_dims w init opts hd
    refine ⟨?_, ?_, ?_, by simp [hfail], fun d h => by cases h⟩ <;>
      simp [LoadInitializerOrtFormat, hd, TensorProto.Clear, TensorProto.empty]
  | some d =>
    rw [LoadInitializerOrtFormat_string w init opts d l hd ht hs]
    refine ⟨rfl, rfl, rfl, by simp [Status.IsOK, Status.OK], fun d2 h => ⟨rfl, rfl⟩⟩

/-- Witness of C4: two strings are copied with the zero-copy flag on. -/
theorem C4_strings_always_copied_witness :
    (LoadInitializerOrtFormat wire_strings TensorProto.empty ⟨true⟩).2.string_data =
      ["a", "bc"] :=
  ((C4_strings_always_copied wire_strings TensorProto.empty ⟨true⟩ ["a", "bc"] rfl rfl).2.2.2.2
    [2] rfl).2

/-- Claim C5. `LoadInitializerOrtFormat` returns an error for every wire tensor whose
dims field is absent, and for every wire tensor of non-string element type whose raw
payload is absent, for both values of the zero-copy flag. -/
theorem C5_missing_dims_or_raw (w : fbs.Tensor) (init : TensorProto)
    (opts : OrtFormatLoadOptions) :
    (w.dims = none → (LoadInitializerOrtFormat w init opts).1.IsOK = false) ∧
    (w.data_type ≠ fbs.TensorDataType.STRING → w.raw_data = none →
      (LoadInitializerOrtFormat w init opts).1.IsOK = false) := by
  refine ⟨LoadInitializerOrtFormat_no_dims w init opts, fun ht hr => ?_⟩
  cases hd : w.dims with
  | none => exact LoadInitializerOrtFormat_no_dims w init opts hd
  | some d =>
    simp only [LoadInitializerOrtFormat, hd, hr, if_neg ht, ORT_RETURN_IF_status_not_ok]

/-- Witness of C5: a tensor without dims and a byte tensor without raw payload. -/
theorem C5_missing_dims_or_raw_witness :
    (LoadInitializerOrtFormat ⟨some "w", none, none, TensorProto_DataType_UINT8,
        some ⟨4096, [1]⟩, none⟩ TensorProto.empty ⟨true⟩).1.IsOK = false ∧
    (LoadInitializerOrtFormat ⟨some "w", none, some [1], TensorProto_DataType_UINT8,
        none, none⟩ TensorProto.empty ⟨false⟩).1.IsOK = false :=
  ⟨(C5_missing_dims_or_raw ⟨some "w", none, none, TensorProto_DataType_UINT8,
        some ⟨4096, [1]⟩, none⟩ TensorProto.empty ⟨true⟩).1 rfl,
   (C5_missing_dims_or_raw ⟨some "w", none, some [1], TensorProto_DataType_UINT8,
        none, none⟩ TensorProto.empty ⟨false⟩).2 (by decide) rfl⟩

/-- The old value of the out-parameter plays no role in `LoadInitializerOrtFormat`:
it is cleared first. -/
theorem LoadInitializerOrtFormat_init (w : fbs.Tensor) (init init2 : TensorProto)
    (opts : OrtFormatLoadOptions) :
    LoadInitializerOrtFormat w init opts = LoadInitializerOrtFormat w init2 opts := rfl

/-- The decoded name is the wire name, on success and on failure alike. -/
theorem LoadInitializerOrtFormat_name (w : fbs.Tensor) (init : TensorProto)
    (opts : OrtFormatLoadOptions) :
    (LoadInitializerOrtFormat w init opts).2.name = w.name := by
  have hn : LOAD_STR_FROM_ORT_FORMAT none w.name = w.name := by
    cases w.name <;> rfl
  unfold LoadInitializerOrtFormat
  simp only [TensorProto.Clear, TensorProto.empty, hn]
  cases w.dims with
  | none => rfl
  | some d =>
    simp only
    split
    · cases w.string_data <;> rfl
    · cases w.raw_data with
      | none => rfl
      | some v => simp only; split <;> rfl

/-- Exactly when `LoadInitializerOrtFormat` succeeds: the dims are present and so is
the payload that the tag calls for. -/
theorem LoadInitializerOrtFormat_ok_iff (w : fbs.Tensor) (init : TensorProto)
    (opts : OrtFormatLoadOptions) :
    (LoadInitializerOrtFormat w init opts).1.IsOK = true ↔
      (w.dims.isSome = true ∧
        (if w.data_type = fbs.TensorDataType.STRING then w.string_data.isSome = true
         else w.raw_data.isSome = true)) := by
  cases hd : w.dims with
  | none => simp [LoadInitializerOrtFormat_no_dims w init opts hd]
  | some d =>
    by_cases ht : w.data_type = fbs.TensorDataType.STRING
    · cases hs : w.string_data with
      | none =>
        simp [LoadInitializerOrtFormat, hd, hs, ht, ORT_RETURN_IF_status_not_ok]
      | some l =>
        rw [LoadInitializerOrtFormat_string w init opts d l hd ht hs]
        simp [ht, Status.IsOK, Status.OK]
    · cases hr : w.raw_data with
      | none =>
        simp [LoadInitializerOrtFormat, hd, hr, ht, ORT_RETURN_IF_status_not_ok]
      | some v =>
        rw [LoadInitializerOrtFormat_raw w init opts d v hd ht hr]
        split <;> simp [ht, Status.IsOK, Status.OK]

/-- The decoded tag is the wire tag whenever the dims are present. -/
theorem LoadInitializerOrtFormat_data_type (w : fbs.Tensor) (init : TensorProto)
    (opts : OrtFormatLoadOptions) (h : (LoadInitializerOrtFormat w init opts).1.IsOK = true) :
    (LoadInitializerOrtFormat w init opts).2.data_type = w.data_type := by
  have hok := (LoadInitializerOrtFormat_ok_iff w init opts).1 h
  cases hd : w.dims with
  | none => simp [hd] at hok
  | some d =>
    by_cases ht : w.data_type = fbs.TensorDataType.STRING
    · cases hs : w.string_data with
      | none => simp [ht, hs] at hok
      | some l => rw [LoadInitializerOrtFormat_string w init opts d l hd ht hs]
    · cases hr : w.raw_data with
      | none => simp [ht, hr] at hok
      | some v =>
        rw [LoadInitializerOrtFormat_raw w init opts d v hd ht hr]
        split <;> rfl

/-- Counterexample to C6 as stated: the tag 99 is not a member of the element-type
enumeration, yet `LoadInitializerOrtFormat` decodes the tensor successfully and stores
the tag. -/
theorem C6_counterexample :
    wire_unknown_tag.data_type ∉ TensorDataType_values ∧
    (LoadInitializerOrtFormat wire_unknown_tag TensorProto.empty ⟨false⟩).1 = Status.OK ∧
    (LoadInitializerOrtFormat wire_unknown_tag TensorProto.empty ⟨false⟩).2.data_type = 99 ∧
    (LoadInitializerOrtFormat wire_unknown_tag TensorProto.empty ⟨false⟩).2.raw_data =
      some [7] := by
  have h := LoadInitializerOrtFormat_raw wire_unknown_tag TensorProto.empty ⟨false⟩ [1]
    ⟨4096, [7]⟩ rfl (by decide) rfl
  refine ⟨by decide, ?_, ?_, ?_⟩ <;> rw [h] <;> simp [wire_unknown_tag]

/-- Claim C6, amended. `LoadInitializerOrtFormat` does not validate the element-type
tag: for every wire tensor whose tag is not a member of the enumeration it treats the
tensor like any non-string tensor, so it succeeds exactly when the dims and the raw
payload are present, and the decoded record then carries the unrecognized tag
unchanged. -/
theorem C6_tag_not_validated (w : fbs.Tensor) (init : TensorProto)
    (opts : OrtFormatLoadOptions) (htag : w.data_type ∉ TensorDataType_values) :
    ((LoadInitializerOrtFormat w init opts).1.IsOK = true ↔
      (w.dims.isSome = true ∧ w.raw_data.isSome = true)) ∧
    ((LoadInitializerOrtFormat w init opts).1.IsOK = true →
      (LoadInitializerOrtFormat w init opts).2.data_type = w.data_type) := by
  have ht : w.data_type ≠ fbs.TensorDataType.STRING := by
    intro h
    apply htag
    rw [h]
    decide
  refine ⟨?_, LoadInitializerOrtFormat_data_type w init opts⟩
  rw [LoadInitializerOrtFormat_ok_iff w init opts, if_neg ht]

/-- Witness of the amended C6: the tensor with tag 99 is decoded. -/
theorem C6_tag_not_validated_witness :
    (LoadInitializerOrtFormat wire_unknown_tag TensorProto.empty ⟨true⟩).1.IsOK = true :=
  (C6_tag_not_validated wire_unknown_tag TensorProto.empty ⟨true⟩ (by decide)).1.2 ⟨rfl, rfl⟩

/-- The status of `LoadInitializerOrtFormat` does not depend on the name field. -/
theorem LoadInitializerOrtFormat_status_name (w : fbs.Tensor) (n : Option String)
    (init : TensorProto) (opts : OrtFormatLoadOptions) :
    (LoadInitializerOrtFormat { w with name := n } init opts).1 =
      (LoadInitializerOrtFormat w init opts).1 := by
  cases w with
  | mk nm doc dims ty raw str =>
    cases dims with
    | none => rfl
    | some d =>
      by_cases ht : ty = fbs.TensorDataType.STRING
      · cases str with
        | none => simp only [LoadInitializerOrtFormat, if_pos ht]
        | some l => simp only [LoadInitializerOrtFormat, if_pos ht]
      · cases raw with
        | none => simp only [LoadInitializerOrtFormat, if_neg ht]
        | some v =>
          rw [LoadInitializerOrtFormat_raw ⟨nm, doc, some d, ty, some v, str⟩ init opts d v rfl
              ht rfl,
            LoadInitializerOrtFormat_raw ⟨n, doc, some d, ty, some v, str⟩ init opts d v rfl
              ht rfl]
          split <;> rfl

/-- Counterexample to C7 as stated: `LoadInitializerOrtFormat` decodes a wire tensor
whose name is absent, and one whose name is the empty string, and
`LoadOrtValueOrtFormat` (with a type lookup and an unpacker that succeed) decodes one
whose name is the empty string. -/
theorem C7_counterexample :
    (wire_named none).name = none ∧
    (LoadInitializerOrtFormat (wire_named none) TensorProto.empty ⟨false⟩).1 = Status.OK ∧
    (LoadInitializerOrtFormat (wire_named none) TensorProto.empty ⟨false⟩).2.name = none ∧
    (wire_named (some "")).name = some "" ∧
    (LoadInitializerOrtFormat (wire_named (some "")) TensorProto.empty ⟨false⟩).1 =
      Status.OK ∧
    LoadOrtValueOrtFormat one_byte_types unpack_copy (wire_named (some "")) "old"
        OrtValue.unset =
      some (Status.OK, "",
        OrtValue.tensor ⟨⟨TensorProto_DataType_UINT8, 1⟩, [1], [7], cpu_alloc_info⟩) := by
  have h1 := LoadInitializerOrtFormat_raw (wire_named none) TensorProto.empty ⟨false⟩ [1]
    ⟨4096, [7]⟩ rfl (by decide) rfl
  have h2 := LoadInitializerOrtFormat_raw (wire_named (some "")) TensorProto.empty ⟨false⟩ [1]
    ⟨4096, [7]⟩ rfl (by decide) rfl
  refine ⟨rfl, ?_, ?_, rfl, ?_, ?_⟩
  · rw [h1]; simp
  · rw [h1]; simp [wire_named]
  · rw [h2]; simp
  · rfl

/-- Claim C7, amended. On load only the presence of the name is required, and only by
`LoadOrtValueOrtFormat`: for every wire tensor whose name is absent it returns an error
and leaves the name and value outputs untouched, while for a present name its outcome
does not depend on the text of the name (the empty string included).
`LoadInitializerOrtFormat` never rejects on the name: its status does not depend on the
name field and the decoded name is the wire name (unset when absent, empty when
empty). -/
theorem C7_name_on_load (w : fbs.Tensor) :
    (w.name = none →
      ∀ (tt : Int → MLDataType)
        (up : ElemT → TensorProto → List Byte → Int → Status × List Byte)
        (tn : String) (ov : OrtValue),
        ∃ st, LoadOrtValueOrtFormat tt up w tn ov = some (st, tn, ov) ∧ st.IsOK = false) ∧
    (∀ (n : String) (tt : Int → MLDataType)
        (up : ElemT → TensorProto → List Byte → Int → Status × List Byte)
        (tn : String) (ov : OrtValue),
        (LoadOrtValueOrtFormat tt up { w with name := some n } tn ov).map (fun r => r.1) =
        (LoadOrtValueOrtFormat tt up { w with name := some "" } tn ov).map (fun r => r.1)) ∧
    (∀ (n : Option String) (init : TensorProto) (opts : OrtFormatLoadOptions),
        (LoadInitializerOrtFormat { w with name := n } init opts).1 =
          (LoadInitializerOrtFormat w init opts).1) ∧
    (∀ (init : TensorProto) (opts : OrtFormatLoadOptions),
        (LoadInitializerOrtFormat w init opts).2.name = w.name) := by
  refine ⟨?_, ?_, fun n init opts => LoadInitializerOrtFormat_status_name w n init opts,
    fun init opts => LoadInitializerOrtFormat_name w init opts⟩
  · intro hn tt up tn ov
    refine ⟨ORT_RETURN_IF_status
      "Checkpoint is invalid. Expected: A valid tensor name. Acutal: nullptr.", ?_,
      ORT_RETURN_IF_status_not_ok _⟩
    simp only [LoadOrtValueOrtFormat, hn]
  · intro n tt up tn ov
    unfold LoadOrtValueOrtFormat
    simp only
    cases w.dims with
    | none => rfl
    | some d =>
      simp only
      by_cases hs : w.data_type ∈ TensorTypeFromONNXEnum_tags
      · simp only [hs, not_true_eq_false, if_false]
        cases LoadOrtValueOrtFormat_switch w.data_type with
        | none => rfl
        | some T =>
          simp only
          cases w.raw_data with
          | none => rfl
          | some v =>
            simp only
            split <;> rfl
      · simp only [hs, not_false_eq_true, if_true]

/-- Witness of the amended C7: a tensor without name is rejected by
`LoadOrtValueOrtFormat`. -/
theorem C7_name_on_load_witness :
    ∃ st, LoadOrtValueOrtFormat one_byte_types unpack_copy (wire_named none) "old"
        OrtValue.unset = some (st, "old", OrtValue.unset) ∧ st.IsOK = false :=
  (C7_name_on_load (wire_named none)).1 rfl one_byte_types unpack_copy "old" OrtValue.unset

/-- Claim C8. For every wire tensor with name, dims and raw payload present whose
element type is one of the four reserved narrow float formats, structural decode by
`LoadInitializerOrtFormat` succeeds (with either value of the zero-copy flag) and keeps
the tag, while typed materialization by `LoadOrtValueOrtFormat` returns the
NOT_IMPLEMENTED status and leaves the output value as it was. -/
theorem C8_float8_unimplemented (w : fbs.Tensor)
    (tt : Int → MLDataType)
    (up : ElemT → TensorProto → List Byte → Int → Status × List Byte)
    (tn : String) (ov : OrtValue) (init : TensorProto) (opts : OrtFormatLoadOptions)
    (n : String) (d : List Int) (v : fbs.ByteVector)
    (hn : w.name = some n) (hd : w.dims = some d) (hr : w.raw_data = some v)
    (ht : w.data_type ∈ Float8_values) :
    (LoadInitializerOrtFormat w init opts).1 = Status.OK ∧
    (LoadInitializerOrtFormat w init opts).2.data_type = w.data_type ∧
    LoadOrtValueOrtFormat tt up w tn ov =
      some (ORT_MAKE_STATUS StatusCode.NOT_IMPLEMENTED
        ("Cannot unpack tensor with type " ++ toString w.data_type), n, ov) ∧
    (ORT_MAKE_STATUS StatusCode.NOT_IMPLEMENTED
        ("Cannot unpack tensor with type " ++ toString w.data_type)).IsOK = false := by
  have hns : w.data_type ≠ fbs.TensorDataType.STRING := by
    intro h
    rw [h] at ht
    revert ht
    decide
  rw [LoadInitializerOrtFormat_raw w init opts d v hd hns hr]
  refine ⟨by split <;> rfl, by split <;> rfl, ?_, by simp [ORT_MAKE_STATUS, Status.IsOK]⟩
  simp only [Float8_values, List.mem_cons, List.mem_singleton, List.not_mem_nil, or_false] at ht
  rcases ht with h | h | h | h <;>
    simp [LoadOrtValueOrtFormat, LoadOrtValueOrtFormat_switch, hn, hd, h,
      TensorTypeFromONNXEnum_tags, TensorProto_DataType_FLOAT16,
      TensorProto_DataType_BFLOAT16, TensorProto_DataType_FLOAT8E4M3FN,
      TensorProto_DataType_FLOAT8E4M3FNUZ, TensorProto_DataType_FLOAT8E5M2,
      TensorProto_DataType_FLOAT8E5M2FNUZ, TensorProto_DataType_FLOAT,
      TensorProto_DataType_BOOL, TensorProto_DataType_DOUBLE, TensorProto_DataType_STRING,
      TensorProto_DataType_INT8, TensorProto_DataType_UINT8, TensorProto_DataType_INT16,
      TensorProto_DataType_UINT16, TensorProto_DataType_INT32, TensorProto_DataType_UINT32,
      TensorProto_DataType_INT64, TensorProto_DataType_UINT64]

/-- Witness of C8: a one-byte tensor in the first reserved narrow float format. -/
theorem C8_float8_unimplemented_witness :
    (LoadInitializerOrtFormat wire_float8 TensorProto.empty ⟨true⟩).1 = Status.OK ∧
    (LoadOrtValueOrtFormat one_byte_types unpack_copy wire_float8 "old" OrtValue.unset).map
      (fun r => (r.1.code, r.2)) = some (StatusCode.NOT_IMPLEMENTED, "f8", OrtValue.unset) := by
  have h := C8_float8_unimplemented wire_float8 one_byte_types unpack_copy "old"
    OrtValue.unset TensorProto.empty ⟨true⟩ "f8" [1] ⟨4096, [7]⟩ rfl rfl rfl (by decide)
  exact ⟨h.1, by rw [h.2.2.1]; rfl⟩

/-- Claim C9. For every tensor value whose element type is string, whatever the
data-transfer manager does, `SaveOrtValueOrtFormat` fails with a status that is not OK
and produces no wire tensor. -/
theorem C9_string_value_rejected (tensor_name : String) (t : Tensor)
    (dtm : DataTransferManager) (builder : FlatBufferBuilder)
    (hs : t.dtype.element_type = TensorProto_DataType_STRING) :
    ∃ e, SaveOrtValueOrtFormat tensor_name (OrtValue.tensor t) dtm builder = Except.error e ∧
      e.IsOK = false := by
  unfold SaveOrtValueOrtFormat
  simp only [List.length_replicate, ne_eq, not_true_eq_false, if_false]
  by_cases hc : (dtm.CopyTensor t
      ⟨t.dtype, t.shape, List.replicate t.SizeInBytes 0, cpu_alloc_info⟩).1.IsOK = true
  · refine ⟨ORT_RETURN_IF_status
      "TensorProto_DataType_STRING is not supported while saving a tensor to ORT format.",
      ?_, ORT_RETURN_IF_status_not_ok _⟩
    simp [hc, Tensor.IsDataTypeString, hs]
  · refine ⟨(dtm.CopyTensor t
      ⟨t.dtype, t.shape, List.replicate t.SizeInBytes 0, cpu_alloc_info⟩).1, ?_, ?_⟩
    · simp [hc]
    · simpa using hc

/-- Witness of C9: a string tensor on the CPU with a manager whose copy succeeds. -/
theorem C9_string_value_rejected_witness :
    ∃ e, SaveOrtValueOrtFormat "s" (OrtValue.tensor string_tensor) copying_manager
        builder_at_4096 = Except.error e ∧ e.IsOK = false :=
  C9_string_value_rejected "s" string_tensor copying_manager builder_at_4096 rfl

/-- Claim C10. `LoadSparseInitializerOrtFormat` succeeds if and only if the values
tensor, the indices tensor and the dense shape are all present on the wire, both
tensors are decoded successfully by `LoadInitializerOrtFormat`, and the decoded values
name is not empty; hence after every successful decode the name of the values tensor
of the result is not empty. -/
theorem C10_sparse_ok_iff (w : fbs.SparseTensor) (init : SparseTensorProto)
    (opts : OrtFormatLoadOptions) :
    ((LoadSparseInitializerOrtFormat w init opts).1.IsOK = true ↔
      ∃ v i d, w.values = some v ∧ w.indices = some i ∧ w.dims = some d ∧
        (LoadInitializerOrtFormat v TensorProto.empty opts).1.IsOK = true ∧
        (LoadInitializerOrtFormat i TensorProto.empty opts).1.IsOK = true ∧
        (LoadInitializerOrtFormat v TensorProto.empty opts).2.get_name ≠ "") ∧
    ((LoadSparseInitializerOrtFormat w init opts).1.IsOK = true →
      (LoadSparseInitializerOrtFormat w init opts).2.get_values.get_name ≠ "") := by
  cases hv : w.values with
  | none =>
    simp [LoadSparseInitializerOrtFormat, hv, ORT_RETURN_IF_status_not_ok]
  | some v =>
    by_cases h1 : (LoadInitializerOrtFormat v TensorProto.empty opts).1.IsOK = true
    · by_cases hname : (LoadInitializerOrtFormat v TensorProto.empty opts).2.get_name = ""
      · simp [LoadSparseInitializerOrtFormat, hv, h1, hname, ORT_RETURN_IF_status_not_ok,
          SparseTensorProto.get_values, SparseTensorProto.empty]
      · cases hi : w.indices with
        | none =>
          simp [LoadSparseInitializerOrtFormat, hv, h1, hname, hi,
            ORT_RETURN_IF_status_not_ok, SparseTensorProto.get_values,
            SparseTensorProto.empty]
        | some i =>
          by_cases h2 : (LoadInitializerOrtFormat i TensorProto.empty opts).1.IsOK = true
          · cases hd : w.dims with
            | none =>
              simp [LoadSparseInitializerOrtFormat, hv, h1, hname, hi, h2, hd,
                ORT_RETURN_IF_status_not_ok, SparseTensorProto.get_values,
                SparseTensorProto.get_indices, SparseTensorProto.empty]
            | some d =>
              simp [LoadSparseInitializerOrtFormat, hv, h1, hname, hi, h2, hd,
                SparseTensorProto.get_values, SparseTensorProto.get_indices,
                SparseTensorProto.empty, Status_OK_IsOK]
          · simp [LoadSparseInitializerOrtFormat, hv, h1, hname, hi, h2,
              SparseTensorProto.get_values, SparseTensorProto.get_indices,
              SparseTensorProto.empty]
    · simp [LoadSparseInitializerOrtFormat, hv, h1, SparseTensorProto.get_values,
        SparseTensorProto.empty]

/-- Witness of C10: a sparse tensor with all three parts present and a named values
tensor is decoded. -/
theorem C10_sparse_ok_iff_witness :
    (LoadSparseInitializerOrtFormat wire_sparse SparseTensorProto.empty ⟨false⟩).1.IsOK =
      true ∧
    (LoadSparseInitializerOrtFormat wire_sparse SparseTensorProto.empty
      ⟨false⟩).2.get_values.get_name ≠ "" := by
  have h := C10_sparse_ok_iff wire_sparse SparseTensorProto.empty ⟨false⟩
  have hok : (LoadSparseInitializerOrtFormat wire_sparse SparseTensorProto.empty
      ⟨false⟩).1.IsOK = true :=
    h.1.2 ⟨wire_named (some "v"), wire_named none, [4], rfl, rfl, rfl, rfl, rfl, by
      rw [TensorProto.get_name, LoadInitializerOrtFormat_name]
      decide⟩
  exact ⟨hok, h.2 hok⟩

/-- Counterexample to C12 as stated: the type UNDEFINED is outside the nine kinds, and
the error that `SaveAttributeOrtFormat` returns for it has the category
INVALID_ARGUMENT, not NOT_IMPLEMENTED. -/
theorem C12_counterexample :
    (attr_of_type AttributeProto_AttributeType_UNDEFINED).type ∉ AttributeType_nine_kinds ∧
    SaveAttributeOrtFormat unpack_raw serializer_ok enum_name_number builder_at_4096
        (attr_of_type AttributeProto_AttributeType_UNDEFINED) "" none =
      Except.error ⟨StatusCode.INVALID_ARGUMENT,
        "SaveAttributeOrtFormat: Unsupported attribute type: " ++ enum_name_number 0⟩ ∧
    StatusCode.INVALID_ARGUMENT ≠ StatusCode.NOT_IMPLEMENTED := by
  refine ⟨by decide, rfl, by decide⟩

/-- Claim C12, amended. For every attribute whose type is outside the nine kinds,
whatever the subgraph argument, `SaveAttributeOrtFormat` fails with the category
INVALID_ARGUMENT (not NOT_IMPLEMENTED) and emits no record; the message is the fixed
text about an unsupported attribute type followed by the name that
`EnumNameAttributeType` gives the type. -/
theorem C12_unsupported_attribute_type
    (unpack : TensorProto → Path → Except Status (List Byte))
    (ser : Graph → Except Status fbs.Graph) (enum_name : Int → String)
    (builder : FlatBufferBuilder) (attr_proto : AttributeProto) (model_path : Path)
    (subgraph : Option Graph) (ht : attr_proto.type ∉ AttributeType_nine_kinds) :
    SaveAttributeOrtFormat unpack ser enum_name builder attr_proto model_path subgraph =
      Except.error (ORT_MAKE_STATUS StatusCode.INVALID_ARGUMENT
        ("SaveAttributeOrtFormat: Unsupported attribute type: " ++
          enum_name attr_proto.type)) ∧
    (ORT_MAKE_STATUS StatusCode.INVALID_ARGUMENT
        ("SaveAttributeOrtFormat: Unsupported attribute type: " ++
          enum_name attr_proto.type)).IsOK = false := by
  simp only [AttributeType_nine_kinds, List.mem_cons, List.mem_singleton, List.not_mem_nil,
    or_false, not_or] at ht
  obtain ⟨h1, h2, h3, h4, h5, h6, h7, h8, h9⟩ := ht
  refine ⟨?_, by simp [ORT_MAKE_STATUS, Status.IsOK]⟩
  unfold SaveAttributeOrtFormat
  simp only [if_neg h1, if_neg h2, if_neg h3, if_neg h4, if_neg h5, if_neg h6, if_neg h7,
    if_neg h8, if_neg h9]

/-- Witness of the amended C12: an attribute of type SPARSE_TENSOR. -/
theorem C12_unsupported_attribute_type_witness :
    SaveAttributeOrtFormat unpack_raw serializer_ok enum_name_number builder_at_4096
        (attr_of_type AttributeProto_AttributeType_SPARSE_TENSOR) "" (some ⟨[]⟩) =
      Except.error (ORT_MAKE_STATUS StatusCode.INVALID_ARGUMENT
        ("SaveAttributeOrtFormat: Unsupported attribute type: " ++
          enum_name_number AttributeProto_AttributeType_SPARSE_TENSOR)) :=
  (C12_unsupported_attribute_type unpack_raw serializer_ok enum_name_number builder_at_4096
    (attr_of_type AttributeProto_AttributeType_SPARSE_TENSOR) "" (some ⟨[]⟩) (by decide)).1

/-- Claim C13. For each list-typed attribute kind (FLOATS, INTS, STRINGS, TENSORS),
`LoadAttributeOrtFormat` fails when the wire list of that kind is absent, and succeeds
with an attribute of that kind whose list is empty when the wire list is present but
empty. -/
theorem C13_list_attributes
    (LF : fbs.Graph → Graph → Node → OrtFormatLoadOptions → logging.Logger → Option Graph →
      Status × Option Graph)
    (fbs_attr : fbs.Attribute) (attr_proto : AttributeProto) (sub_graph : Option Graph)
    (graph : Graph) (node : Node) (opts : OrtFormatLoadOptions) (logger : logging.Logger) :
    (fbs_attr.type = AttributeProto_AttributeType_FLOATS →
      (fbs_attr.floats = none →
        (LoadAttributeOrtFormat LF fbs_attr attr_proto sub_graph graph node opts
          logger).1.IsOK = false) ∧
      (fbs_attr.floats = some [] →
        (LoadAttributeOrtFormat LF fbs_attr attr_proto sub_graph graph node opts logger).1 =
          Status.OK ∧
        (LoadAttributeOrtFormat LF fbs_attr attr_proto sub_graph graph node opts
          logger).2.1.type = AttributeProto_AttributeType_FLOATS ∧
        (LoadAttributeOrtFormat LF fbs_attr attr_proto sub_graph graph node opts
          logger).2.1.floats = [])) ∧
    (fbs_attr.type = AttributeProto_AttributeType_INTS →
      (fbs_attr.ints = none →
        (LoadAttributeOrtFormat LF fbs_attr attr_proto sub_graph graph node opts
          logger).1.IsOK = false) ∧
      (fbs_attr.ints = some [] →
        (LoadAttributeOrtFormat LF fbs_attr attr_proto sub_graph graph node opts logger).1 =
          Status.OK ∧
        (LoadAttributeOrtFormat LF fbs_attr attr_proto sub_graph graph node opts
          logger).2.1.type = AttributeProto_AttributeType_INTS ∧
        (LoadAttributeOrtFormat LF fbs_attr attr_proto sub_graph graph node opts
          logger).2.1.ints = [])) ∧
    (fbs_attr.type = AttributeProto_AttributeType_STRINGS →
      (fbs_attr.strings = none →
        (LoadAttributeOrtFormat LF fbs_attr attr_proto sub_graph graph node opts
          logger).1.IsOK = false) ∧
      (fbs_attr.strings = some [] →
        (LoadAttributeOrtFormat LF fbs_attr attr_proto sub_graph graph node opts logger).1 =
          Status.OK ∧
        (LoadAttributeOrtFormat LF fbs_attr attr_proto sub_graph graph node opts
          logger).2.1.type = AttributeProto_AttributeType_STRINGS ∧
        (LoadAttributeOrtFormat LF fbs_attr attr_proto sub_graph graph node opts
          logger).2.1.strings = [])) ∧
    (fbs_attr.type = AttributeProto_AttributeType_TENSORS →
      (fbs_attr.tensors = none →
        (LoadAttributeOrtFormat LF fbs_attr attr_proto sub_graph graph node opts
          logger).1.IsOK = false) ∧
      (fbs_attr.tensors = some [] →
        (LoadAttributeOrtFormat LF fbs_attr attr_proto sub_graph graph node opts logger).1 =
          Status.OK ∧
        (LoadAttributeOrtFormat LF fbs_attr attr_proto sub_graph graph node opts
          logger).2.1.type = AttributeProto_AttributeType_TENSORS ∧
        (LoadAttributeOrtFormat LF fbs_attr attr_proto sub_graph graph node opts
          logger).2.1.tensors = [])) := by
  refine ⟨fun ht => ⟨fun hl => ?_, fun hl => ?_⟩, fun ht => ⟨fun hl => ?_, fun hl => ?_⟩,
    fun ht => ⟨fun hl => ?_, fun hl => ?_⟩, fun ht => ⟨fun hl => ?_, fun hl => ?_⟩⟩ <;>
  simp [LoadAttributeOrtFormat, ht, hl, AttributeProto.Clear, AttributeProto.empty,
    ORT_RETURN_IF_status_not_ok, Status_OK_IsOK, LoadAttributeOrtFormat_strings,
    LoadAttributeOrtFormat_tensors,
    AttributeProto_AttributeType_FLOATS, AttributeProto_AttributeType_INTS,
    AttributeProto_AttributeType_STRINGS, AttributeProto_AttributeType_TENSORS,
    AttributeProto_AttributeType_FLOAT, AttributeProto_AttributeType_INT,
    AttributeProto_AttributeType_STRING, AttributeProto_AttributeType_TENSOR,
    AttributeProto_AttributeType_GRAPH]

/-- Witness of C13: a FLOATS attribute without list fails and a TENSORS attribute with
an empty list is decoded. -/
theorem C13_list_attributes_witness :
    (LoadAttributeOrtFormat deserializer_ok
        (wire_attr_of_type AttributeProto_AttributeType_FLOATS) AttributeProto.empty none
        ⟨[]⟩ ⟨0⟩ ⟨false⟩ ⟨0⟩).1.IsOK = false ∧
    (LoadAttributeOrtFormat deserializer_ok
        { wire_attr_of_type AttributeProto_AttributeType_TENSORS with tensors := some [] }
        AttributeProto.empty none ⟨[]⟩ ⟨0⟩ ⟨false⟩ ⟨0⟩).1 = Status.OK :=
  ⟨((C13_list_attributes deserializer_ok
      (wire_attr_of_type AttributeProto_AttributeType_FLOATS) AttributeProto.empty none
      ⟨[]⟩ ⟨0⟩ ⟨false⟩ ⟨0⟩).1 rfl).1 rfl,
   (((C13_list_attributes deserializer_ok
      { wire_attr_of_type AttributeProto_AttributeType_TENSORS with tensors := some [] }
      AttributeProto.empty none ⟨[]⟩ ⟨0⟩ ⟨false⟩ ⟨0⟩).2.2.2 rfl).2 rfl).1⟩

/-- Claim C14. For every wire attribute of type GRAPH: if the graph field is absent,
`LoadAttributeOrtFormat` fails; if it is present and the graph deserializer succeeds,
`LoadAttributeOrtFormat` returns OK, the attribute has the wire name and doc string,
the type GRAPH and as inline graph the fixed placeholder (the placeholder name and no
nodes) whatever the wire graph holds, and the `sub_graph` output is what the
deserializer delivered. -/
theorem C14_graph_attribute
    (LF : fbs.Graph → Graph → Node → OrtFormatLoadOptions → logging.Logger → Option Graph →
      Status × Option Graph)
    (fbs_attr : fbs.Attribute) (attr_proto : AttributeProto) (sub_graph : Option Graph)
    (graph : Graph) (node : Node) (opts : OrtFormatLoadOptions) (logger : logging.Logger)
    (ht : fbs_attr.type = AttributeProto_AttributeType_GRAPH) :
    (fbs_attr.g = none →
      (LoadAttributeOrtFormat LF fbs_attr attr_proto sub_graph graph node opts
        logger).1.IsOK = false) ∧
    (∀ fbs_graph, fbs_attr.g = some fbs_graph →
      (LF fbs_graph graph node opts logger sub_graph).1.IsOK = true →
      LoadAttributeOrtFormat LF fbs_attr attr_proto sub_graph graph node opts logger =
        (Status.OK,
         { AttributeProto.empty with
           name := fbs_attr.name, doc_string := fbs_attr.doc_string,
           type := AttributeProto_AttributeType_GRAPH, g := some placeholder_graph },
         (LF fbs_graph graph node opts logger sub_graph).2)) := by
  have hn : LOAD_STR_FROM_ORT_FORMAT none fbs_attr.name = fbs_attr.name := by
    cases fbs_attr.name <;> rfl
  have hdoc : LOAD_STR_FROM_ORT_FORMAT none fbs_attr.doc_string = fbs_attr.doc_string := by
    cases fbs_attr.doc_string <;> rfl
  constructor
  · intro hg
    simp [LoadAttributeOrtFormat, ht, hg, ORT_RETURN_IF_status_not_ok,
      AttributeProto_AttributeType_GRAPH, AttributeProto_AttributeType_FLOAT,
      AttributeProto_AttributeType_INT, AttributeProto_AttributeType_STRING,
      AttributeProto_AttributeType_TENSOR]
  · intro fbs_graph hg hok
    simp [LoadAttributeOrtFormat, ht, hg, hok, hn, hdoc, AttributeProto.Clear,
      AttributeProto.empty, AttributeProto.mutable_g, GraphProto.empty, placeholder_graph,
      AttributeProto_AttributeType_GRAPH, AttributeProto_AttributeType_FLOAT,
      AttributeProto_AttributeType_INT, AttributeProto_AttributeType_STRING,
      AttributeProto_AttributeType_TENSOR]

/-- Witness of C14: a GRAPH attribute with the wire graph 7 and a deserializer that
succeeds. -/
theorem C14_graph_attribute_witness :
    (LoadAttributeOrtFormat deserializer_ok
        { wire_attr_of_type AttributeProto_AttributeType_GRAPH with g := some ⟨7⟩ }
        AttributeProto.empty none ⟨[]⟩ ⟨0⟩ ⟨false⟩ ⟨0⟩).2.1.g = some placeholder_graph ∧
    (LoadAttributeOrtFormat deserializer_ok
        { wire_attr_of_type AttributeProto_AttributeType_GRAPH with g := some ⟨7⟩ }
        AttributeProto.empty none ⟨[]⟩ ⟨0⟩ ⟨false⟩ ⟨0⟩).2.2 = some ⟨["7"]⟩ := by
  have h := (C14_graph_attribute deserializer_ok
    { wire_attr_of_type AttributeProto_AttributeType_GRAPH with g := some ⟨7⟩ }
    AttributeProto.empty none ⟨[]⟩ ⟨0⟩ ⟨false⟩ ⟨0⟩ rfl).2 ⟨7⟩ rfl rfl
  rw [h]
  exact ⟨rfl, rfl⟩

/-! ### Name sets -/

/-- Membership in a set after `emplace`. -/
theorem std_set.mem_emplace (s : std_set) (x y : String) :
    y ∈ s.emplace x ↔ y = x ∨ y ∈ s := by
  unfold std_set.emplace
  by_cases h : x ∈ s
  · rw [if_pos h]
    constructor
    · exact fun hy => Or.inr hy
    · rintro (rfl | hy)
      · exact h
      · exact hy
  · rw [if_neg h, List.mem_orderedInsert]

/-- The method `emplace` keeps a set ascending without repetition. -/
theorem std_set.sorted_emplace (s : std_set) (x : String)
    (hs : List.Sorted (fun a b => a < b) s) :
    List.Sorted (fun a b => a < b) (s.emplace x) := by
  unfold std_set.emplace
  by_cases h : x ∈ s
  · rw [if_pos h]; exact hs
  · rw [if_neg h]
    have hle : List.Sorted (fun a b : String => a ≤ b) s := hs.le_of_lt
    have h1 : List.Sorted (fun a b : String => a ≤ b)
        (List.orderedInsert (fun a b => a ≤ b) x s) := hle.orderedInsert x s
    have h2 : (List.orderedInsert (fun a b : String => a ≤ b) x s).Nodup :=
      (List.perm_orderedInsert (fun a b : String => a ≤ b) x s).nodup_iff.2
        (List.nodup_cons.2 ⟨h, hs.nodup⟩)
    exact h1.lt_of_le h2

/-- The intersection of two ascending sets without repetition holds exactly their
common elements. -/
theorem std_set_intersection_mem (a b : List String)
    (ha : List.Sorted (fun x y => x < y) a) (hb : List.Sorted (fun x y => x < y) b)
    (x : String) : x ∈ std_set_intersection a b ↔ x ∈ a ∧ x ∈ b := by
  induction a, b using std_set_intersection.induct with
  | case1 b => simp [std_set_intersection]
  | case2 a as => simp [std_set_intersection]
  | case3 a as b bs hlt ih =>
    rw [std_set_intersection, if_pos hlt, ih (List.sorted_cons.1 ha).2 hb]
    have hb1 := (List.sorted_cons.1 hb).1
    constructor
    · rintro ⟨h1, h2⟩
      exact ⟨List.mem_cons_of_mem _ h1, h2⟩
    · rintro ⟨h1, h2⟩
      rcases List.mem_cons.1 h1 with rfl | h1
      · exfalso
        rcases List.mem_cons.1 h2 with rfl | h2
        · exact lt_irrefl _ hlt
        · exact lt_asymm hlt (hb1 _ h2)
      · exact ⟨h1, h2⟩
  | case4 a as b bs hlt hlt2 ih =>
    rw [std_set_intersection, if_neg hlt, if_pos hlt2, ih ha (List.sorted_cons.1 hb).2]
    have ha1 := (List.sorted_cons.1 ha).1
    constructor
    · rintro ⟨h1, h2⟩
      exact ⟨h1, List.mem_cons_of_mem _ h2⟩
    · rintro ⟨h1, h2⟩
      rcases List.mem_cons.1 h2 with rfl | h2
      · exfalso
        rcases List.mem_cons.1 h1 with rfl | h1
        · exact lt_irrefl _ hlt2
        · exact lt_asymm hlt2 (ha1 _ h1)
      · exact ⟨h1, h2⟩
  | case5 a as b bs hlt hlt2 ih =>
    have hab : a = b := le_antisymm (not_lt.1 hlt2) (not_lt.1 hlt)
    subst hab
    rw [std_set_intersection, if_neg hlt, if_neg hlt2, List.mem_cons,
      ih (List.sorted_cons.1 ha).2 (List.sorted_cons.1 hb).2]
    have ha1 := (List.sorted_cons.1 ha).1
    have hb1 := (List.sorted_cons.1 hb).1
    constructor
    · rintro (rfl | ⟨h1, h2⟩)
      · exact ⟨List.mem_cons_self _ _, List.mem_cons_self _ _⟩
      · exact ⟨List.mem_cons_of_mem _ h1, List.mem_cons_of_mem _ h2⟩
    · rintro ⟨h1, h2⟩
      rcases List.mem_cons.1 h1 with rfl | h1
      · exact Or.inl rfl
      · rcases List.mem_cons.1 h2 with rfl | h2
        · exact Or.inl rfl
        · exact Or.inr ⟨h1, h2⟩

/-- What `check_unique` does: it succeeds exactly when the names of the list are
pairwise distinct and none is in the set already, and then the set holds the old
elements and the names, ascending without repetition. -/
theorem check_unique_spec (l : List TensorProto) :
    ∀ s : std_set, List.Sorted (fun a b => a < b) s →
      (((Save.FromTensorProtos.check_unique l s).1.IsOK = true ↔
          (l.map TensorProto.get_name).Nodup ∧
            ∀ n ∈ l.map TensorProto.get_name, n ∉ s) ∧
        ((Save.FromTensorProtos.check_unique l s).1.IsOK = true →
          List.Sorted (fun a b => a < b) (Save.FromTensorProtos.check_unique l s).2 ∧
          ∀ y, y ∈ (Save.FromTensorProtos.check_unique l s).2 ↔
            y ∈ s ∨ y ∈ l.map TensorProto.get_name)) := by
  induction l with
  | nil =>
    intro s hs
    have hst : Save.FromTensorProtos.check_unique [] s = (Status.OK, s) := rfl
    rw [hst]
    exact ⟨⟨fun _ => ⟨List.nodup_nil, fun n hn => by cases hn⟩, fun _ => Status_OK_IsOK⟩,
      fun _ => ⟨hs, fun y => by simp⟩⟩
  | cons t rest ih =>
    intro s hs
    by_cases hmem : t.get_name ∈ s
    · have hst : Save.FromTensorProtos.check_unique (t :: rest) s =
          (ORT_RETURN_IF_status ("Duplicated tensor proto named " ++ t.get_name), s) := by
        simp only [Save.FromTensorProtos.check_unique, if_pos hmem]
      have hne : ¬ ((ORT_RETURN_IF_status
          ("Duplicated tensor proto named " ++ t.get_name)).IsOK = true) := by
        rw [ORT_RETURN_IF_status_not_ok]
        exact Bool.false_ne_true
      rw [hst]
      refine ⟨⟨fun h => absurd h hne, fun h => ?_⟩, fun h => absurd h hne⟩
      exact absurd hmem (h.2 t.get_name (by simp))
    · simp only [Save.FromTensorProtos.check_unique, if_neg hmem]
      obtain ⟨ih1, ih2⟩ := ih (s.emplace t.get_name) (std_set.sorted_emplace s _ hs)
      constructor
      · rw [ih1]
        simp only [List.map_cons, List.nodup_cons, List.mem_cons, std_set.mem_emplace]
        constructor
        · rintro ⟨hnd, hdis⟩
          refine ⟨⟨fun hin => (hdis _ hin) (Or.inl rfl), hnd⟩, ?_⟩
          rintro n (rfl | hn)
          · exact hmem
          · exact fun hns => hdis n hn (Or.inr hns)
        · rintro ⟨⟨hnot, hnd⟩, hdis⟩
          refine ⟨hnd, fun n hn => ?_⟩
          rintro (rfl | hns)
          · exact hnot hn
          · exact hdis n (Or.inr hn) hns
      · intro hok
        obtain ⟨hsorted, hmem2⟩ := ih2 hok
        refine ⟨hsorted, fun y => ?_⟩
        rw [hmem2, std_set.mem_emplace]
        simp only [List.map_cons, List.mem_cons]
        tauto

/-- Exactly when the name validation of `Save::FromTensorProtos` passes. -/
theorem check_names_ok_iff (tr ntr : List TensorProto) :
    (Save.FromTensorProtos.check_names tr ntr).IsOK = true ↔
      (tr.map TensorProto.get_name).Nodup ∧ (ntr.map TensorProto.get_name).Nodup ∧
        ∀ n ∈ tr.map TensorProto.get_name, n ∉ ntr.map TensorProto.get_name := by
  obtain ⟨h1, h1s⟩ := check_unique_spec tr [] List.sorted_nil
  obtain ⟨h2, h2s⟩ := check_unique_spec ntr [] List.sorted_nil
  unfold Save.FromTensorProtos.check_names
  by_cases hok1 : (Save.FromTensorProtos.check_unique tr []).1.IsOK = true
  · by_cases hok2 : (Save.FromTensorProtos.check_unique ntr []).1.IsOK = true
    · obtain ⟨hs1, hm1⟩ := h1s hok1
      obtain ⟨hs2, hm2⟩ := h2s hok2
      have hint := std_set_intersection_mem _ _ hs1 hs2
      simp only [hok1, hok2, Bool.not_true, Bool.false_eq_true, if_false]
      by_cases hemp : std_set_intersection (Save.FromTensorProtos.check_unique tr []).2
          (Save.FromTensorProtos.check_unique ntr []).2 = []
      · rw [hemp]
        simp only [List.isEmpty_nil, Bool.not_true, Bool.false_eq_true, if_false,
          Status_OK_IsOK, true_iff]
        refine ⟨(h1.1 hok1).1, (h2.1 hok2).1, fun n hn hn2 => ?_⟩
        have : n ∈ std_set_intersection (Save.FromTensorProtos.check_unique tr []).2
            (Save.FromTensorProtos.check_unique ntr []).2 :=
          (hint n).2 ⟨(hm1 n).2 (Or.inr hn), (hm2 n).2 (Or.inr hn2)⟩
        rw [hemp] at this
        cases this
      · have hne : (!(std_set_intersection (Save.FromTensorProtos.check_unique tr []).2
            (Save.FromTensorProtos.check_unique ntr []).2).isEmpty) = true := by
          cases hl : std_set_intersection (Save.FromTensorProtos.check_unique tr []).2
            (Save.FromTensorProtos.check_unique ntr []).2 with
          | nil => exact absurd hl hemp
          | cons a l => rfl
        rw [if_pos hne, ORT_RETURN_IF_status_not_ok]
        refine ⟨fun h => (Bool.false_ne_true h).elim, fun h => ?_⟩
        exfalso
        cases hl : std_set_intersection (Save.FromTensorProtos.check_unique tr []).2
            (Save.FromTensorProtos.check_unique ntr []).2 with
        | nil => exact hemp hl
        | cons a l =>
          have ha : a ∈ std_set_intersection (Save.FromTensorProtos.check_unique tr []).2
              (Save.FromTensorProtos.check_unique ntr []).2 := by rw [hl]; simp
          obtain ⟨ha1, ha2⟩ := (hint a).1 ha
          rcases (hm1 a).1 ha1 with h0 | ha1
          · cases h0
          · rcases (hm2 a).1 ha2 with h0 | ha2
            · cases h0
            · exact h.2.2 a ha1 ha2
    · simp only [hok1, hok2, Bool.not_true, Bool.false_eq_true, if_false, Bool.not_false,
        if_true]
      refine ⟨fun h => h.elim, fun h => ?_⟩
      exact absurd (h2.2 ⟨h.2.1, fun n _ hn => (List.not_mem_nil n hn).elim⟩) hok2
  · have hf : (Save.FromTensorProtos.check_unique tr []).1.IsOK = false := by
      simpa using hok1
    simp only [hf, Bool.not_false, if_true]
    refine ⟨fun h => (Bool.false_ne_true h).elim, fun h => ?_⟩
    exact absurd (h1.2 ⟨h.1, fun n _ hn => (List.not_mem_nil n hn).elim⟩) hok1

/-- Claim C15. The name validation of `Save::FromTensorProtos` passes if and only if
the tensor names are pairwise distinct within the trainable list, within the
non-trainable list, and across the two lists. When it does not pass, the function
returns the error of the validation and nothing is handed to the file stream, whatever
the other collaborators do. -/
theorem C15_name_validation (tr ntr : List TensorProto) :
    ((Save.FromTensorProtos.check_names tr ntr).IsOK = true ↔
      (tr.map TensorProto.get_name).Nodup ∧ (ntr.map TensorProto.get_name).Nodup ∧
        ∀ n ∈ tr.map TensorProto.get_name, n ∉ ntr.map TensorProto.get_name) ∧
    ((Save.FromTensorProtos.check_names tr ntr).IsOK = false →
      ∀ (unpack : TensorProto → Path → Except Status (List Byte))
        (byte_size : TensorProto → Nat) (new_builder : Nat → FlatBufferBuilder)
        (ofstream_write : PathString → fbs.Checkpoint → Bool) (path : PathString),
        Save.FromTensorProtos unpack byte_size new_builder ofstream_write tr ntr path =
          (Save.FromTensorProtos.check_names tr ntr, none)) := by
  refine ⟨check_names_ok_iff tr ntr, fun h unpack byte_size new_builder w path => ?_⟩
  unfold Save.FromTensorProtos
  simp only [h, Bool.not_false, if_true]

/-- Witness of C15: two lists that share the name `w` are rejected and nothing is
written; the lists `w` and `v` pass. -/
theorem C15_name_validation_witness :
    Save.FromTensorProtos unpack_raw raw_byte_size (fun _ => builder_at_4096) stream_good
        [named_proto "w"] [named_proto "w"] "ckpt" =
      (Save.FromTensorProtos.check_names [named_proto "w"] [named_proto "w"], none) ∧
    (Save.FromTensorProtos.check_names [named_proto "w"] [named_proto "v"]).IsOK = true := by
  have h1 := C15_name_validation [named_proto "w"] [named_proto "w"]
  have h2 := C15_name_validation [named_proto "w"] [named_proto "v"]
  constructor
  · apply h1.2
    cases hb : (Save.FromTensorProtos.check_names [named_proto "w"] [named_proto "w"]).IsOK
    · rfl
    · have := (h1.1.1 hb).2.2 "w" (by simp [named_proto, TensorProto.get_name])
      exact absurd (by simp [named_proto, TensorProto.get_name]) this
  · apply h2.1.2
    simp [named_proto, TensorProto.get_name, TensorProto.empty]

/-- When `check_unique` fails, its error names a name of the list. -/
theorem check_unique_fail (l : List TensorProto) :
    ∀ s : std_set, (Save.FromTensorProtos.check_unique l s).1.IsOK = false →
      ∃ n ∈ l.map TensorProto.get_name,
        (Save.FromTensorProtos.check_unique l s).1 =
          ORT_RETURN_IF_status ("Duplicated tensor proto named " ++ n) := by
  induction l with
  | nil =>
    intro s h
    have hst : Save.FromTensorProtos.check_unique [] s = (Status.OK, s) := rfl
    rw [hst, Status_OK_IsOK] at h
    cases h
  | cons t rest ih =>
    intro s h
    by_cases hmem : t.get_name ∈ s
    · refine ⟨t.get_name, by simp, ?_⟩
      simp only [Save.FromTensorProtos.check_unique, if_pos hmem]
    · simp only [Save.FromTensorProtos.check_unique, if_neg hmem] at h ⊢
      obtain ⟨n, hn, hst⟩ := ih _ h
      exact ⟨n, List.mem_cons_of_mem _ hn, hst⟩

/-- When either list is free of repeated names and the two lists share a name, the
name validation returns the fixed text about a name in both lists. -/
theorem check_names_shared (tr ntr : List TensorProto)
    (h1 : (tr.map TensorProto.get_name).Nodup) (h2 : (ntr.map TensorProto.get_name).Nodup)
    (hsh : ∃ n ∈ tr.map TensorProto.get_name, n ∈ ntr.map TensorProto.get_name) :
    Save.FromTensorProtos.check_names tr ntr =
      ORT_RETURN_IF_status
        "Tensor name exists in both trainable param list and non-trainable param list." := by
  obtain ⟨hi1, hs1⟩ := check_unique_spec tr [] List.sorted_nil
  obtain ⟨hi2, hs2⟩ := check_unique_spec ntr [] List.sorted_nil
  have hok1 : (Save.FromTensorProtos.check_unique tr []).1.IsOK = true :=
    hi1.2 ⟨h1, fun n _ hn => (List.not_mem_nil n hn).elim⟩
  have hok2 : (Save.FromTensorProtos.check_unique ntr []).1.IsOK = true :=
    hi2.2 ⟨h2, fun n _ hn => (List.not_mem_nil n hn).elim⟩
  obtain ⟨hso1, hm1⟩ := hs1 hok1
  obtain ⟨hso2, hm2⟩ := hs2 hok2
  obtain ⟨n, hn1, hn2⟩ := hsh
  have hin : n ∈ std_set_intersection (Save.FromTensorProtos.check_unique tr []).2
      (Save.FromTensorProtos.check_unique ntr []).2 :=
    (std_set_intersection_mem _ _ hso1 hso2 n).2
      ⟨(hm1 n).2 (Or.inr hn1), (hm2 n).2 (Or.inr hn2)⟩
  have hne : (!(std_set_intersection (Save.FromTensorProtos.check_unique tr []).2
      (Save.FromTensorProtos.check_unique ntr []).2).isEmpty) = true := by
    cases hl : std_set_intersection (Save.FromTensorProtos.check_unique tr []).2
      (Save.FromTensorProtos.check_unique ntr []).2 with
    | nil => rw [hl] at hin; cases hin
    | cons a l => rfl
  unfold Save.FromTensorProtos.check_names
  simp only [hok1, hok2, Bool.not_true, Bool.false_eq_true, if_false, hne, if_true]

/-- Counterexample to C16 as stated: two inputs that share the name `w`, respectively
the name `v`, across the lists get one and the same error, the fixed text, which
names neither. -/
theorem C16_counterexample :
    Save.FromTensorProtos.check_names [named_proto "w"] [named_proto "w"] =
      ⟨StatusCode.FAIL,
        "Tensor name exists in both trainable param list and non-trainable param list."⟩ ∧
    Save.FromTensorProtos.check_names [named_proto "v"] [named_proto "v"] =
      ⟨StatusCode.FAIL,
        "Tensor name exists in both trainable param list and non-trainable param list."⟩ :=
  ⟨check_names_shared [named_proto "w"] [named_proto "w"] (by simp) (by simp)
      ⟨"w", by simp [named_proto, TensorProto.get_name],
        by simp [named_proto, TensorProto.get_name]⟩,
   check_names_shared [named_proto "v"] [named_proto "v"] (by simp) (by simp)
      ⟨"v", by simp [named_proto, TensorProto.get_name],
        by simp [named_proto, TensorProto.get_name]⟩⟩

/-- Claim C16, amended. Whenever the trainable and the non-trainable list share a name,
the name validation of `Save::FromTensorProtos` fails. When neither list repeats a name
within itself, the error is the fixed text that a tensor name exists in both lists,
which names no tensor; a tensor name appears in the error only when one list repeats a
name within itself (the text about a duplicated tensor proto, followed by a name of
that list). -/
theorem C16_shared_name_error (tr ntr : List TensorProto)
    (hsh : ∃ n ∈ tr.map TensorProto.get_name, n ∈ ntr.map TensorProto.get_name) :
    (Save.FromTensorProtos.check_names tr ntr).IsOK = false ∧
    ((tr.map TensorProto.get_name).Nodup → (ntr.map TensorProto.get_name).Nodup →
      Save.FromTensorProtos.check_names tr ntr =
        ORT_RETURN_IF_status
          "Tensor name exists in both trainable param list and non-trainable param list.") ∧
    (¬ ((tr.map TensorProto.get_name).Nodup ∧ (ntr.map TensorProto.get_name).Nodup) →
      ∃ n ∈ tr.map TensorProto.get_name ++ ntr.map TensorProto.get_name,
        Save.FromTensorProtos.check_names tr ntr =
          ORT_RETURN_IF_status ("Duplicated tensor proto named " ++ n)) := by
  refine ⟨?_, fun h1 h2 => check_names_shared tr ntr h1 h2 hsh, fun hnd => ?_⟩
  · cases hb : (Save.FromTensorProtos.check_names tr ntr).IsOK
    · rfl
    · obtain ⟨n, hn1, hn2⟩ := hsh
      exact absurd hn2 (((check_names_ok_iff tr ntr).1 hb).2.2 n hn1)
  · obtain ⟨hi1, _⟩ := check_unique_spec tr [] List.sorted_nil
    obtain ⟨hi2, _⟩ := check_unique_spec ntr [] List.sorted_nil
    by_cases hok1 : (Save.FromTensorProtos.check_unique tr []).1.IsOK = true
    · have hok2 : (Save.FromTensorProtos.check_unique ntr []).1.IsOK = false := by
        cases hb : (Save.FromTensorProtos.check_unique ntr []).1.IsOK
        · rfl
        · exact absurd ⟨(hi1.1 hok1).1, (hi2.1 hb).1⟩ hnd
      obtain ⟨n, hn, hst⟩ := check_unique_fail ntr [] hok2
      refine ⟨n, List.mem_append_right _ hn, ?_⟩
      unfold Save.FromTensorProtos.check_names
      simp only [hok1, hst, ORT_RETURN_IF_status_not_ok, Bool.not_true, Bool.false_eq_true,
        if_false, Bool.not_false, if_true]
    · have hf : (Save.FromTensorProtos.check_unique tr []).1.IsOK = false := by
        simpa using hok1
      obtain ⟨n, hn, hst⟩ := check_unique_fail tr [] hf
      refine ⟨n, List.mem_append_left _ hn, ?_⟩
      unfold Save.FromTensorProtos.check_names
      simp only [hst, ORT_RETURN_IF_status_not_ok, Bool.not_false, if_true]

/-- Witness of the amended C16: the lists `w` and `w`. -/
theorem C16_shared_name_error_witness :
    (Save.FromTensorProtos.check_names [named_proto "w"] [named_proto "w"]).IsOK = false :=
  (C16_shared_name_error [named_proto "w"] [named_proto "w"]
    ⟨"w", by simp [named_proto, TensorProto.get_name],
      by simp [named_proto, TensorProto.get_name]⟩).1

/-- Without overflow the loops of the capacity computation add up the byte sizes. -/
theorem foldl_byte_sizes (f : TensorProto → Nat) (l : List TensorProto) :
    ∀ a : Nat, a + (l.map f).sum < size_t_range →
      l.foldl (fun acc t => (acc + f t) % size_t_range) a = a + (l.map f).sum := by
  induction l with
  | nil => intro a _; simp
  | cons t rest ih =>
    intro a h
    simp only [List.map_cons, List.sum_cons] at h
    have h1 : a + f t < size_t_range := by omega
    simp only [List.foldl_cons, List.map_cons, List.sum_cons, Nat.mod_eq_of_lt h1]
    rw [ih (a + f t) (by omega)]
    omega

/-- The capacity as a function of the sum of the byte sizes, when nothing overflows. -/
theorem fbs_buffer_size_eq (f : TensorProto → Nat) (tr ntr : List TensorProto)
    (h : (tr.map f).sum + (ntr.map f).sum + 2 ^ 20 - 1 < 2 ^ 64) :
    Save.FromTensorProtos.fbs_buffer_size f tr ntr =
      (max ((tr.map f).sum + (ntr.map f).sum) (2 ^ 20) + 2 ^ 20 - 1) / 2 ^ 20 * 2 ^ 20 := by
  have h1 : tr.foldl (fun acc t => (acc + f t) % size_t_range) 0 = (tr.map f).sum := by
    rw [foldl_byte_sizes f tr 0 (by unfold size_t_range; omega)]
    omega
  have h2 : ntr.foldl (fun acc t => (acc + f t) % size_t_range) (tr.map f).sum =
      (tr.map f).sum + (ntr.map f).sum :=
    foldl_byte_sizes f ntr _ (by unfold size_t_range; omega)
  unfold Save.FromTensorProtos.fbs_buffer_size
  simp only [h1, h2]
  generalize (tr.map f).sum + (ntr.map f).sum = S at h ⊢
  unfold size_t_range
  have e20 : (1024 * 1024 : Nat) = 2 ^ 20 := by norm_num
  rw [e20]
  have hm : max S (2 ^ 20) + 2 ^ 20 - 1 < 2 ^ 64 := by
    rcases le_total S (2 ^ 20) with hle | hle
    · rw [max_eq_right hle]; norm_num
    · rw [max_eq_left hle]; exact h
  rw [Nat.mod_eq_of_lt hm]
  apply Nat.mod_eq_of_lt
  exact lt_of_le_of_lt (Nat.div_mul_le_self _ _) hm

/-- Counterexample to C17 as stated: for two empty lists the sum of the byte sizes is 0,
whose round-up to a multiple of 1 MiB is 0, but the capacity computed is 1 MiB. -/
theorem C17_counterexample :
    (([] : List TensorProto).map raw_byte_size).sum +
      (([] : List TensorProto).map raw_byte_size).sum = 0 ∧
    (0 + 2 ^ 20 - 1) / 2 ^ 20 * 2 ^ 20 = 0 ∧
    Save.FromTensorProtos.fbs_buffer_size raw_byte_size [] [] = 2 ^ 20 := by
  refine ⟨rfl, by norm_num, ?_⟩
  rw [fbs_buffer_size_eq raw_byte_size [] [] (by norm_num)]
  norm_num

/-- Claim C17, amended. For every pair of tensor lists whose byte sizes sum to `S`
without `size_t` overflow, the builder capacity computed by `Save::FromTensorProtos` is
`max(S, 2^20)` rounded up to the next multiple of 1 MiB: it is the round-up
`ceil(S / 2^20) * 2^20` of `S` whenever `S` is positive, and 1 MiB when `S` is 0. -/
theorem C17_builder_capacity (byte_size : TensorProto → Nat) (tr ntr : List TensorProto)
    (h : (tr.map byte_size).sum + (ntr.map byte_size).sum + 2 ^ 20 - 1 < 2 ^ 64) :
    Save.FromTensorProtos.fbs_buffer_size byte_size tr ntr =
      (max ((tr.map byte_size).sum + (ntr.map byte_size).sum) (2 ^ 20) + 2 ^ 20 - 1) /
        2 ^ 20 * 2 ^ 20 ∧
    (0 < (tr.map byte_size).sum + (ntr.map byte_size).sum →
      Save.FromTensorProtos.fbs_buffer_size byte_size tr ntr =
        ((tr.map byte_size).sum + (ntr.map byte_size).sum + 2 ^ 20 - 1) / 2 ^ 20 * 2 ^ 20) ∧
    ((tr.map byte_size).sum + (ntr.map byte_size).sum = 0 →
      Save.FromTensorProtos.fbs_buffer_size byte_size tr ntr = 2 ^ 20) := by
  rw [fbs_buffer_size_eq byte_size tr ntr h]
  generalize (tr.map byte_size).sum + (ntr.map byte_size).sum = S at h ⊢
  refine ⟨rfl, fun hpos => ?_, fun h0 => ?_⟩
  · rcases le_total S (2 ^ 20) with hle | hle
    · rw [max_eq_right hle]
      norm_num at hle ⊢
      omega
    · rw [max_eq_left hle]
  · subst h0
    norm_num

/-- Witness of the amended C17: one tensor of three payload bytes gives 1 MiB. -/
theorem C17_builder_capacity_witness :
    Save.FromTensorProtos.fbs_buffer_size raw_byte_size [record_bytes] [] =
      (3 + 2 ^ 20 - 1) / 2 ^ 20 * 2 ^ 20 :=
  (C17_builder_capacity raw_byte_size [record_bytes] []
    (by simp [raw_byte_size, record_bytes])).2.1 (by simp [raw_byte_size, record_bytes])

/-! ### Maps -/

/-- The method `find` on a map with a first entry. -/
theorem InlinedHashMap.find_cons {V : Type} (k2 : String) (v : V) (rest : InlinedHashMap V)
    (k : String) :
    InlinedHashMap.find ((k2, v) :: rest) k =
      if k2 = k then some v else InlinedHashMap.find rest k := rfl

/-- A key is found exactly when it is one of the keys. -/
theorem InlinedHashMap.find_isSome {V : Type} (m : InlinedHashMap V) (k : String) :
    (InlinedHashMap.find m k).isSome = true ↔ k ∈ InlinedHashMap.keys m := by
  induction m with
  | nil => simp [InlinedHashMap.find, InlinedHashMap.keys]
  | cons e rest ih =>
    obtain ⟨k2, v⟩ := e
    rw [InlinedHashMap.find_cons]
    by_cases h : k2 = k
    · simp [h, InlinedHashMap.keys]
    · rw [if_neg h, ih]
      simp only [InlinedHashMap.keys, List.map_cons, List.mem_cons]
      constructor
      · exact fun hk => Or.inr hk
      · rintro (hk | hk)
        · exact absurd hk.symm h
        · exact hk

/-- In a map with pairwise distinct keys, `find` gives a value exactly when the pair is
an entry. -/
theorem InlinedHashMap.find_eq_some {V : Type} (m : InlinedHashMap V)
    (hm : (InlinedHashMap.keys m).Nodup) (k : String) (v : V) :
    InlinedHashMap.find m k = some v ↔ (k, v) ∈ m := by
  induction m with
  | nil => simp [InlinedHashMap.find]
  | cons e rest ih =>
    obtain ⟨k2, v2⟩ := e
    simp only [InlinedHashMap.keys, List.map_cons, List.nodup_cons] at hm
    rw [InlinedHashMap.find_cons]
    by_cases h : k2 = k
    · subst h
      rw [if_pos rfl]
      constructor
      · intro hv
        injection hv with hv
        subst hv
        exact List.mem_cons_self _ _
      · intro hmem
        rcases List.mem_cons.1 hmem with heq | hmem
        · injection heq with _ hv
          rw [hv]
        · exact absurd (List.mem_map_of_mem Prod.fst hmem) hm.1
    · rw [if_neg h, ih hm.2]
      constructor
      · exact fun hmem => List.mem_cons_of_mem _ hmem
      · intro hmem
        rcases List.mem_cons.1 hmem with heq | hmem
        · injection heq with hk _
          exact absurd hk.symm h
        · exact hmem

/-- Two maps with pairwise distinct keys and the same entries give the same value for
every key. -/
theorem InlinedHashMap.find_congr {V : Type} (m1 m2 : InlinedHashMap V)
    (h1 : (InlinedHashMap.keys m1).Nodup) (h2 : (InlinedHashMap.keys m2).Nodup)
    (h : ∀ e, e ∈ m1 ↔ e ∈ m2) (k : String) :
    InlinedHashMap.find m1 k = InlinedHashMap.find m2 k := by
  cases hf : InlinedHashMap.find m2 k with
  | some v =>
    exact (InlinedHashMap.find_eq_some m1 h1 k v).2
      ((h _).2 ((InlinedHashMap.find_eq_some m2 h2 k v).1 hf))
  | none =>
    cases hf1 : InlinedHashMap.find m1 k with
    | none => rfl
    | some v =>
      have := (InlinedHashMap.find_eq_some m2 h2 k v).2
        ((h _).1 ((InlinedHashMap.find_eq_some m1 h1 k v).1 hf1))
      rw [hf] at this
      cases this

/-- Adding a property under a name that is not present appends the entry. -/
theorem PropertyBag.AddProperty_new (m : InlinedHashMap PropertyDataType) (name : String)
    (val : PropertyDataType) (h : name ∉ InlinedHashMap.keys m) :
    PropertyBag.AddProperty ⟨m⟩ name val = ⟨m ++ [(name, val)]⟩ := by
  have hf : (InlinedHashMap.find m name).isSome = false := by
    cases hb : (InlinedHashMap.find m name).isSome
    · rfl
    · exact absurd ((InlinedHashMap.find_isSome m name).1 hb) h
  simp only [PropertyBag.AddProperty, hf, Bool.false_eq_true, if_false]

/-! ### Property bag -/

/-- Looking a key up after every value was changed by a function of key and value. -/
theorem InlinedHashMap.find_map {V W : Type} (f : String → V → W) (m : InlinedHashMap V)
    (k : String) :
    InlinedHashMap.find (m.map (fun e => (e.1, f e.1 e.2))) k =
      (InlinedHashMap.find m k).map (f k) := by
  induction m with
  | nil => rfl
  | cons e rest ih =>
    obtain ⟨k2, v⟩ := e
    simp only [List.map_cons, InlinedHashMap.find_cons]
    by_cases h : k2 = k
    · subst h; simp
    · simp [h, ih]

/-- What the loop of `Save::FromPropertyBag` returns when no entry is valueless: each
vector grows by the entries of its alternative, in order, with every float as its
field gives it back. -/
theorem FromPropertyBag_loop_ok (l : List (String × PropertyDataType))
    (hl : ∀ e ∈ l, e.2 ≠ PropertyDataType.valueless) :
    ∀ v : Save.FromPropertyBag.vectors,
      ∃ is fs ss,
        Save.FromPropertyBag.loop l v =
          Except.ok ⟨v.ints ++ is, v.floats ++ fs, v.strings ++ ss⟩ ∧
        is.map (fun p => (p.name.getD "", PropertyDataType.int64 p.value)) =
          (l.map (fun e => (e.1, e.2.stored))).filter (fun e => e.2.isInt64) ∧
        (∀ p ∈ is, p.name.isSome = true) ∧
        fs.map (fun p => (p.name.getD "", PropertyDataType.float p.value)) =
          (l.map (fun e => (e.1, e.2.stored))).filter (fun e => e.2.isFloat) ∧
        (∀ p ∈ fs, p.name.isSome = true) ∧
        ss.map (fun p => (p.name.getD "", PropertyDataType.string (p.value.getD ""))) =
          (l.map (fun e => (e.1, e.2.stored))).filter (fun e => e.2.isString) ∧
        (∀ p ∈ ss, p.name.isSome = true ∧ p.value.isSome = true) := by
  induction l with
  | nil =>
    intro v
    exact ⟨[], [], [], by simp [Save.FromPropertyBag.loop], rfl, by simp, rfl, by simp, rfl,
      by simp⟩
  | cons e rest ih =>
    intro v
    have hrest : ∀ e ∈ rest, e.2 ≠ PropertyDataType.valueless :=
      fun e he => hl e (List.mem_cons_of_mem _ he)
    obtain ⟨name, val⟩ := e
    cases val with
    | int64 x =>
      obtain ⟨is, fs, ss, h0, h1, h2, h3, h4, h5, h6⟩ :=
        ih hrest { v with ints := v.ints ++ [⟨some name, x⟩] }
      refine ⟨⟨some name, x⟩ :: is, fs, ss, ?_, ?_, ?_, ?_, h4, ?_, h6⟩
      · simp only [Save.FromPropertyBag.loop, h0, List.append_assoc, List.singleton_append]
      · simp [PropertyDataType.isInt64, PropertyDataType.stored, h1]
      · intro p hp
        rcases List.mem_cons.1 hp with rfl | hp
        · rfl
        · exact h2 p hp
      · simp [PropertyDataType.isFloat, PropertyDataType.stored, h3]
      · simp [PropertyDataType.isString, PropertyDataType.stored, h5]
    | float x =>
      obtain ⟨is, fs, ss, h0, h1, h2, h3, h4, h5, h6⟩ :=
        ih hrest { v with floats := v.floats ++ [⟨some name, AddElement_float x⟩] }
      refine ⟨is, ⟨some name, AddElement_float x⟩ :: fs, ss, ?_, ?_, h2, ?_, ?_, ?_, h6⟩
      · simp only [Save.FromPropertyBag.loop, h0, List.append_assoc, List.singleton_append]
      · simp [PropertyDataType.isInt64, PropertyDataType.stored, h1]
      · simp [PropertyDataType.isFloat, PropertyDataType.stored, h3]
      · intro p hp
        rcases List.mem_cons.1 hp with rfl | hp
        · rfl
        · exact h4 p hp
      · simp [PropertyDataType.isString, PropertyDataType.stored, h5]
    | string x =>
      obtain ⟨is, fs, ss, h0, h1, h2, h3, h4, h5, h6⟩ :=
        ih hrest { v with strings := v.strings ++ [⟨some name, some x⟩] }
      refine ⟨is, fs, ⟨some name, some x⟩ :: ss, ?_, ?_, h2, ?_, h4, ?_, ?_⟩
      · simp only [Save.FromPropertyBag.loop, h0, List.append_assoc, List.singleton_append]
      · simp [PropertyDataType.isInt64, PropertyDataType.stored, h1]
      · simp [PropertyDataType.isFloat, PropertyDataType.stored, h3]
      · simp [PropertyDataType.isString, PropertyDataType.stored, h5]
      · intro p hp
        rcases List.mem_cons.1 hp with rfl | hp
        · exact ⟨rfl, rfl⟩
        · exact h6 p hp
    | valueless => exact absurd rfl (hl _ (List.mem_cons_self _ _))

/-- The entries of a bag without valueless values, sorted by alternative, are a
rearrangement of the entries. -/
theorem filter_three_perm (l : List (String × PropertyDataType))
    (hl : ∀ e ∈ l, e.2 ≠ PropertyDataType.valueless) :
    (l.filter (fun e => e.2.isInt64) ++ l.filter (fun e => e.2.isFloat) ++
      l.filter (fun e => e.2.isString)).Perm l := by
  induction l with
  | nil => exact List.Perm.refl _
  | cons e rest ih =>
    have hrest := ih (fun e he => hl e (List.mem_cons_of_mem _ he))
    obtain ⟨name, val⟩ := e
    cases val with
    | int64 x =>
      simp only [List.filter_cons, PropertyDataType.isInt64, PropertyDataType.isFloat,
        PropertyDataType.isString, if_true, Bool.false_eq_true, if_false, List.cons_append]
      exact List.Perm.cons _ hrest
    | float x =>
      simp only [List.filter_cons, PropertyDataType.isInt64, PropertyDataType.isFloat,
        PropertyDataType.isString, if_true, Bool.false_eq_true, if_false, List.append_assoc,
        List.cons_append]
      refine List.Perm.trans List.perm_middle (List.Perm.cons _ ?_)
      rw [← List.append_assoc]
      exact hrest
    | string x =>
      simp only [List.filter_cons, PropertyDataType.isInt64, PropertyDataType.isFloat,
        PropertyDataType.isString, if_true, Bool.false_eq_true, if_false]
      exact List.Perm.trans List.perm_middle (List.Perm.cons _ hrest)
    | valueless => exact absurd rfl (hl _ (List.mem_cons_self _ _))

/-- The int loop of `Load::ToPropertyBag` on named properties whose names are new and
pairwise distinct appends them in order. -/
theorem ToPropertyBag_ints_ok (is : List fbs.IntProperty)
    (hn : ∀ p ∈ is, p.name.isSome = true) :
    ∀ m : InlinedHashMap PropertyDataType,
      (InlinedHashMap.keys
        (m ++ is.map (fun p => (p.name.getD "", PropertyDataType.int64 p.value)))).Nodup →
      Load.ToPropertyBag.ints (is.map some) ⟨m⟩ =
        some ⟨m ++ is.map (fun p => (p.name.getD "", PropertyDataType.int64 p.value))⟩ := by
  induction is with
  | nil => intro m _; simp [Load.ToPropertyBag.ints]
  | cons p rest ih =>
    intro m hnd
    have hp := hn p (List.mem_cons_self _ _)
    cases hname : p.name with
    | none => rw [hname] at hp; cases hp
    | some name =>
      have hnew : name ∉ InlinedHashMap.keys m := by
        intro hin
        simp only [InlinedHashMap.keys, List.map_append, List.map_cons, hname,
          Option.getD_some] at hnd
        exact (List.nodup_append.1 hnd).2.2 hin (List.mem_cons_self _ _)
      simp only [List.map_cons, Load.ToPropertyBag.ints, hname, Option.getD_some,
        PropertyBag.AddProperty_new m name _ hnew]
      rw [ih (fun q hq => hn q (List.mem_cons_of_mem _ hq))]
      · simp
      · simpa [hname] using hnd

/-- The float loop of `Load::ToPropertyBag` on named properties whose names are new and
pairwise distinct appends them in order. -/
theorem ToPropertyBag_floats_ok (fs : List fbs.FloatProperty)
    (hn : ∀ p ∈ fs, p.name.isSome = true) :
    ∀ m : InlinedHashMap PropertyDataType,
      (InlinedHashMap.keys
        (m ++ fs.map (fun p => (p.name.getD "", PropertyDataType.float p.value)))).Nodup →
      Load.ToPropertyBag.floats (fs.map some) ⟨m⟩ =
        some ⟨m ++ fs.map (fun p => (p.name.getD "", PropertyDataType.float p.value))⟩ := by
  induction fs with
  | nil => intro m _; simp [Load.ToPropertyBag.floats]
  | cons p rest ih =>
    intro m hnd
    have hp := hn p (List.mem_cons_self _ _)
    cases hname : p.name with
    | none => rw [hname] at hp; cases hp
    | some name =>
      have hnew : name ∉ InlinedHashMap.keys m := by
        intro hin
        simp only [InlinedHashMap.keys, List.map_append, List.map_cons, hname,
          Option.getD_some] at hnd
        exact (List.nodup_append.1 hnd).2.2 hin (List.mem_cons_self _ _)
      simp only [List.map_cons, Load.ToPropertyBag.floats, hname, Option.getD_some,
        PropertyBag.AddProperty_new m name _ hnew]
      rw [ih (fun q hq => hn q (List.mem_cons_of_mem _ hq))]
      · simp
      · simpa [hname] using hnd

/-- The string loop of `Load::ToPropertyBag` on properties with name and value whose
names are new and pairwise distinct appends them in order. -/
theorem ToPropertyBag_strings_ok (ss : List fbs.StringProperty)
    (hn : ∀ p ∈ ss, p.name.isSome = true ∧ p.value.isSome = true) :
    ∀ m : InlinedHashMap PropertyDataType,
      (InlinedHashMap.keys
        (m ++ ss.map
          (fun p => (p.name.getD "", PropertyDataType.string (p.value.getD ""))))).Nodup →
      Load.ToPropertyBag.strings (ss.map some) ⟨m⟩ =
        some ⟨m ++ ss.map
          (fun p => (p.name.getD "", PropertyDataType.string (p.value.getD "")))⟩ := by
  induction ss with
  | nil => intro m _; simp [Load.ToPropertyBag.strings]
  | cons p rest ih =>
    intro m hnd
    have hp := hn p (List.mem_cons_self _ _)
    cases hname : p.name with
    | none => rw [hname] at hp; cases hp.1
    | some name =>
      cases hval : p.value with
      | none => rw [hval] at hp; cases hp.2
      | some value =>
        have hnew : name ∉ InlinedHashMap.keys m := by
          intro hin
          simp only [InlinedHashMap.keys, List.map_append, List.map_cons, hname,
            Option.getD_some] at hnd
          exact (List.nodup_append.1 hnd).2.2 hin (List.mem_cons_self _ _)
        simp only [List.map_cons, Load.ToPropertyBag.strings, hname, hval, Option.getD_some,
          PropertyBag.AddProperty_new m name _ hnew]
        rw [ih (fun q hq => hn q (List.mem_cons_of_mem _ hq))]
        · simp
        · simpa [hname, hval] using hnd

/-- The stored form of a property value is not valueless when the value is not. -/
theorem PropertyDataType.stored_ne_valueless (v : PropertyDataType)
    (h : v ≠ PropertyDataType.valueless) : v.stored ≠ PropertyDataType.valueless := by
  cases v with
  | int64 x => simp [PropertyDataType.stored]
  | float x => simp [PropertyDataType.stored]
  | string x => simp [PropertyDataType.stored]
  | valueless => exact absurd rfl h

/-- The stored form of a property value other than the float `-0.0f` is the value. -/
theorem PropertyDataType.stored_property_eq (v : PropertyDataType)
    (h : v ≠ PropertyDataType.float f32.negative_zero) : v.stored = v := by
  cases v with
  | int64 x => rfl
  | float x =>
    have hx : x ≠ f32.negative_zero := fun hx => h (by rw [hx])
    simp [PropertyDataType.stored, AddElement_float, hx]
  | string x => rfl
  | valueless => rfl

/-- What the round trip of a property bag gives for a bag with pairwise distinct names
without valueless values: the save succeeds, the load into an empty bag succeeds, and
the loaded entries are a rearrangement of the entries of the bag with every value in
its stored form. -/
theorem property_bag_roundtrip_stored (bag : PropertyBag)
    (hk : (InlinedHashMap.keys bag.named_properties).Nodup)
    (hv : ∀ e ∈ bag.named_properties, e.2 ≠ PropertyDataType.valueless) :
    ∃ w loaded,
      Save.FromPropertyBag bag = Except.ok w ∧
      Load.ToPropertyBag (some w) ⟨[]⟩ = some (Status.OK, loaded) ∧
      loaded.named_properties.Perm
        (bag.named_properties.map (fun e => (e.1, e.2.stored))) ∧
      (InlinedHashMap.keys loaded.named_properties).Nodup ∧
      ∀ name, InlinedHashMap.find loaded.named_properties name =
        (InlinedHashMap.find bag.named_properties name).map PropertyDataType.stored := by
  obtain ⟨is, fs, ss, h0, h1, h2, h3, h4, h5, h6⟩ :=
    FromPropertyBag_loop_ok bag.named_properties hv ⟨[], [], []⟩
  have hv2 : ∀ e ∈ bag.named_properties.map (fun e => (e.1, e.2.stored)),
      e.2 ≠ PropertyDataType.valueless := by
    intro e he
    obtain ⟨e0, he0, rfl⟩ := List.mem_map.1 he
    exact PropertyDataType.stored_ne_valueless _ (hv e0 he0)
  have hk2 : (InlinedHashMap.keys
      (bag.named_properties.map (fun e => (e.1, e.2.stored)))).Nodup := by
    have : InlinedHashMap.keys (bag.named_properties.map (fun e => (e.1, e.2.stored))) =
        InlinedHashMap.keys bag.named_properties := by
      simp [InlinedHashMap.keys, Function.comp_def]
    rw [this]; exact hk
  generalize hL : bag.named_properties.map (fun e => (e.1, e.2.stored)) = L at h1 h3 h5 hv2 hk2
  have hperm := filter_three_perm L hv2
  have hnd : (InlinedHashMap.keys
      (L.filter (fun e => e.2.isInt64) ++ L.filter (fun e => e.2.isFloat) ++
        L.filter (fun e => e.2.isString))).Nodup :=
    ((hperm.map Prod.fst).nodup_iff).2 hk2
  have hnd2 : (InlinedHashMap.keys
      (L.filter (fun e => e.2.isInt64) ++ L.filter (fun e => e.2.isFloat))).Nodup := by
    simp only [InlinedHashMap.keys, List.map_append] at hnd ⊢
    exact (List.nodup_append.1 hnd).1
  have hnd1 : (InlinedHashMap.keys (L.filter (fun e => e.2.isInt64))).Nodup := by
    simp only [InlinedHashMap.keys, List.map_append] at hnd2 ⊢
    exact (List.nodup_append.1 hnd2).1
  have e1 := ToPropertyBag_ints_ok is h2 [] (by rw [h1]; simpa using hnd1)
  have e2 := ToPropertyBag_floats_ok fs h4
    (L.filter (fun e => e.2.isInt64)) (by rw [h3]; exact hnd2)
  have e3 := ToPropertyBag_strings_ok ss h6
    (L.filter (fun e => e.2.isInt64) ++ L.filter (fun e => e.2.isFloat))
    (by rw [h5]; exact hnd)
  rw [h1, List.nil_append] at e1
  rw [h3] at e2
  rw [h5] at e3
  refine ⟨⟨some (is.map some), some (fs.map some), some (ss.map some)⟩,
    ⟨L.filter (fun e => e.2.isInt64) ++ L.filter (fun e => e.2.isFloat) ++
      L.filter (fun e => e.2.isString)⟩, ?_, ?_, hperm, hnd, ?_⟩
  · simp only [Save.FromPropertyBag, h0, List.nil_append]
  · simp only [Load.ToPropertyBag, e1, e2, e3]
  · intro name
    rw [InlinedHashMap.find_congr _ _ hnd hk2 (fun e => hperm.mem_iff) name, ← hL]
    exact InlinedHashMap.find_map (fun _ v => v.stored) bag.named_properties name

/-- Counterexample to C18 as stated: the bag with the one float property `z` of value
`-0.0f` is saved and loaded with success, and the loaded bag holds `0.0f` under `z`,
which is another value. -/
theorem C18_counterexample :
    ∃ w loaded,
      Save.FromPropertyBag bag_negative_zero = Except.ok w ∧
      Load.ToPropertyBag (some w) ⟨[]⟩ = some (Status.OK, loaded) ∧
      InlinedHashMap.find loaded.named_properties "z" =
        some (PropertyDataType.float f32.zero) ∧
      InlinedHashMap.find bag_negative_zero.named_properties "z" =
        some (PropertyDataType.float f32.negative_zero) ∧
      PropertyDataType.float f32.zero ≠ PropertyDataType.float f32.negative_zero :=
  ⟨_, _, rfl, rfl, by decide, by decide, by decide⟩

/-- Claim C18, amended. Round trip of the property bag: for every bag with pairwise
distinct names whose values are int64, float or string, `Save::FromPropertyBag`
succeeds and `Load::ToPropertyBag` decodes its result into an empty bag with status
OK; the loaded bag has exactly the names of the original, possibly in another order,
and under every name the same tag and the same value, except that a float `-0.0f` is
loaded as `0.0f`. So for a bag without a float `-0.0f` the loaded bag has exactly the
entries of the original and every name gives the same value in both. -/
theorem C18_property_bag_roundtrip (bag : PropertyBag)
    (hk : (InlinedHashMap.keys bag.named_properties).Nodup)
    (hv : ∀ e ∈ bag.named_properties, e.2 ≠ PropertyDataType.valueless) :
    ∃ w loaded,
      Save.FromPropertyBag bag = Except.ok w ∧
      Load.ToPropertyBag (some w) ⟨[]⟩ = some (Status.OK, loaded) ∧
      loaded.named_properties.Perm
        (bag.named_properties.map (fun e => (e.1, e.2.stored))) ∧
      (InlinedHashMap.keys loaded.named_properties).Nodup ∧
      (∀ name, InlinedHashMap.find loaded.named_properties name =
        (InlinedHashMap.find bag.named_properties name).map PropertyDataType.stored) ∧
      ((∀ e ∈ bag.named_properties, e.2 ≠ PropertyDataType.float f32.negative_zero) →
        loaded.named_properties.Perm bag.named_properties ∧
        ∀ name, InlinedHashMap.find loaded.named_properties name =
          InlinedHashMap.find bag.named_properties name) := by
  obtain ⟨w, loaded, hs, hl, hperm, hnd, hfind⟩ := property_bag_roundtrip_stored bag hk hv
  refine ⟨w, loaded, hs, hl, hperm, hnd, hfind, fun hnz => ?_⟩
  have hid : bag.named_properties.map (fun e => (e.1, e.2.stored)) =
      bag.named_properties := by
    conv_rhs => rw [← List.map_id bag.named_properties]
    apply List.map_congr_left
    intro e he
    rw [PropertyDataType.stored_property_eq e.2 (hnz e he)]
    rfl
  rw [hid] at hperm
  refine ⟨hperm, fun name => ?_⟩
  exact InlinedHashMap.find_congr _ _ hnd hk (fun e => hperm.mem_iff) name

/-- Witness of C18: a bag with one int, one float and one string property. -/
theorem C18_property_bag_roundtrip_witness :
    ∃ w loaded,
      Save.FromPropertyBag bag_three = Except.ok w ∧
      Load.ToPropertyBag (some w) ⟨[]⟩ = some (Status.OK, loaded) ∧
      loaded.named_properties.Perm bag_three.named_properties ∧
      ∀ name, InlinedHashMap.find loaded.named_properties name =
        InlinedHashMap.find bag_three.named_properties name :=
  match C18_property_bag_roundtrip bag_three (by decide) (by decide) with
  | ⟨w, loaded, hs, hl, _, _, _, hexact⟩ =>
    ⟨w, loaded, hs, hl, (hexact (by decide)).1, (hexact (by decide)).2⟩

/-! ### Tensor values through the checkpoint -/

/-- Emplacing under a key that is not present appends the entry. -/
theorem InlinedHashMap.emplace_new {V : Type} (m : InlinedHashMap V) (k : String) (v : V)
    (h : k ∉ InlinedHashMap.keys m) : InlinedHashMap.emplace m k v = m ++ [(k, v)] := by
  have hf : (InlinedHashMap.find m k).isSome = false := by
    cases hb : (InlinedHashMap.find m k).isSome
    · rfl
    · exact absurd ((InlinedHashMap.find_isSome m k).1 hb) h
  simp only [InlinedHashMap.emplace, hf, Bool.false_eq_true, if_false]

/-- A buffer of the size of the data holds the data after the data was written. -/
theorem buffer_after_write_eq (data : List Byte) :
    buffer_after_write data.length data = data := by
  simp [buffer_after_write]

/-- Saving a host tensor of a supported type gives its wire record. -/
theorem SaveOrtValueOrtFormat_host (mgr : DataTransferManager)
    (tt : Int → MLDataType)
    (up : ElemT → TensorProto → List Byte → Int → Status × List Byte)
    (builder : FlatBufferBuilder) (name : String) (v : OrtValue)
    (hv : HostSupportedTensor mgr tt up v) :
    SaveOrtValueOrtFormat name v mgr builder = Except.ok (wire_of_tensor builder name v) := by
  obtain ⟨t, T, rfl, _, hlen, hns, _, hcopy, _, _, _⟩ := hv
  have hc := hcopy ⟨t.dtype, t.shape, List.replicate t.SizeInBytes 0, cpu_alloc_info⟩
  have hstr : ∀ d : List Byte, Tensor.IsDataTypeString
      { dtype := t.dtype, shape := t.shape, data := d, location := cpu_alloc_info } =
      false := by
    intro d
    simp [Tensor.IsDataTypeString, hns]
  have hbuf : buffer_after_write t.SizeInBytes t.data = t.data := by
    rw [← hlen]; exact buffer_after_write_eq t.data
  unfold SaveOrtValueOrtFormat
  simp only [List.length_replicate, ne_eq, not_true_eq_false, if_false, hc.1, hc.2,
    Bool.not_true, Bool.false_eq_true, hstr, hbuf, wire_of_tensor, SaveDims,
    Tensor.GetElementType]

/-- Materializing the wire record of a host tensor of a supported type gives the name
and the tensor back. -/
theorem LoadOrtValueOrtFormat_host (mgr : DataTransferManager)
    (tt : Int → MLDataType)
    (up : ElemT → TensorProto → List Byte → Int → Status × List Byte)
    (builder : FlatBufferBuilder) (name : String) (v : OrtValue)
    (hv : HostSupportedTensor mgr tt up v) (tn : String) (ov : OrtValue) :
    LoadOrtValueOrtFormat tt up (wire_of_tensor builder name v) tn ov =
      some (Status.OK, name, v) := by
  obtain ⟨t, T, rfl, hloc, _, _, hsw, _, htt, hu1, hu2⟩ := hv
  have ht : (⟨t.dtype, t.shape, t.data, cpu_alloc_info⟩ : Tensor) = t := by
    cases t
    simp only at hloc
    rw [hloc]
  have hmem := LoadOrtValueOrtFormat_switch_tags _ _ hsw
  simp only [LoadOrtValueOrtFormat, wire_of_tensor, hmem, not_true_eq_false, hsw,
    FlatBufferBuilder.CreateVector, hu1, hu2, htt, ht, Bool.not_true, Bool.false_eq_true,
    if_false]

/-- Saving a map of host tensors of supported types appends their wire records. -/
theorem FlatbufferTensorsFromOrtValues_host (mgr : DataTransferManager)
    (tt : Int → MLDataType)
    (up : ElemT → TensorProto → List Byte → Int → Status × List Byte)
    (builder : FlatBufferBuilder) (m : InlinedHashMap OrtValue)
    (hm : ∀ e ∈ m, HostSupportedTensor mgr tt up e.2) :
    ∀ acc : List fbs.Tensor,
      FlatbufferTensorsFromOrtValues mgr builder m acc =
        (Status.OK, acc ++ m.map (fun e => wire_of_tensor builder e.1 e.2)) := by
  induction m with
  | nil => intro acc; simp [FlatbufferTensorsFromOrtValues]
  | cons e rest ih =>
    intro acc
    obtain ⟨name, v⟩ := e
    have hs := SaveOrtValueOrtFormat_host mgr tt up builder name v
      (hm (name, v) (List.mem_cons_self _ _))
    simp only [FlatbufferTensorsFromOrtValues, hs,
      ih (fun e he => hm e (List.mem_cons_of_mem _ he)), List.map_cons, List.append_assoc,
      List.singleton_append]

/-- Loading the wire records of a map of host tensors of supported types, whose names
are new and pairwise distinct, appends the entries of the map. -/
theorem OrtValuesFromFlatbufferTensors_host (mgr : DataTransferManager)
    (tt : Int → MLDataType)
    (up : ElemT → TensorProto → List Byte → Int → Status × List Byte)
    (builder : FlatBufferBuilder) (m : InlinedHashMap OrtValue)
    (hm : ∀ e ∈ m, HostSupportedTensor mgr tt up e.2) :
    ∀ m0 : InlinedHashMap OrtValue, (InlinedHashMap.keys (m0 ++ m)).Nodup →
      OrtValuesFromFlatbufferTensors tt up
          (some ((m.map (fun e => wire_of_tensor builder e.1 e.2)).map some)) m0 =
        some (Status.OK, m0 ++ m) := by
  induction m with
  | nil =>
    intro m0 _
    simp [OrtValuesFromFlatbufferTensors, OrtValuesFromFlatbufferTensors.loop]
  | cons e rest ih =>
    intro m0 hnd
    obtain ⟨name, v⟩ := e
    have hl := LoadOrtValueOrtFormat_host mgr tt up builder name v
      (hm (name, v) (List.mem_cons_self _ _)) "" OrtValue.unset
    have hnew : name ∉ InlinedHashMap.keys m0 := by
      intro hin
      simp only [InlinedHashMap.keys, List.map_append, List.map_cons] at hnd
      exact (List.nodup_append.1 hnd).2.2 hin (List.mem_cons_self _ _)
    have hrec := ih (fun e he => hm e (List.mem_cons_of_mem _ he)) (m0 ++ [(name, v)])
      (by simpa using hnd)
    simp only [OrtValuesFromFlatbufferTensors] at hrec ⊢
    simp only [List.map_cons, OrtValuesFromFlatbufferTensors.loop, hl, Status_OK_IsOK,
      Bool.not_true, Bool.false_eq_true, if_false, InlinedHashMap.emplace_new m0 name v hnew,
      hrec, List.append_assoc, List.singleton_append]

/-- The float tensors used as examples are carried through unchanged. -/
theorem float_tensor_host (b : Byte) :
    HostSupportedTensor copying_manager four_byte_types unpack_copy
      (OrtValue.tensor (float_tensor b)) :=
  ⟨float_tensor b, ElemT.float, rfl, rfl, rfl,
    (by decide : TensorProto_DataType_FLOAT ≠ TensorProto_DataType_STRING), rfl,
    fun _ => ⟨rfl, rfl⟩, rfl, rfl, rfl⟩

/-! ### Module state -/

/-- The partition loop of `Save::FromModuleState` on parameters whose names are new and
pairwise distinct: the values go to the end of the map of their flag, in order. -/
theorem FromModuleState_partition_spec (l : List (String × Parameter)) :
    ∀ rg fp : InlinedHashMap OrtValue,
      (InlinedHashMap.keys rg ++ InlinedHashMap.keys l).Nodup →
      (InlinedHashMap.keys fp ++ InlinedHashMap.keys l).Nodup →
      Save.FromModuleState.partition l (rg, fp) =
        (rg ++ (l.filter (fun e => e.2.requires_grad)).map (fun e => (e.1, e.2.data)),
         fp ++ (l.filter (fun e => !e.2.requires_grad)).map (fun e => (e.1, e.2.data))) := by
  induction l with
  | nil => intro rg fp _ _; simp [Save.FromModuleState.partition]
  | cons e rest ih =>
    intro rg fp h1 h2
    obtain ⟨name, p⟩ := e
    simp only [InlinedHashMap.keys, List.map_cons] at h1 h2
    have hn1 : name ∉ InlinedHashMap.keys rg := fun hin =>
      (List.nodup_append.1 h1).2.2 hin (List.mem_cons_self _ _)
    have hn2 : name ∉ InlinedHashMap.keys fp := fun hin =>
      (List.nodup_append.1 h2).2.2 hin (List.mem_cons_self _ _)
    have h1r : (List.map Prod.fst rg ++ List.map Prod.fst rest).Nodup :=
      (List.nodup_cons.1 (List.nodup_middle.1 h1)).2
    have h2r : (List.map Prod.fst fp ++ List.map Prod.fst rest).Nodup :=
      (List.nodup_cons.1 (List.nodup_middle.1 h2)).2
    cases hp : p.requires_grad with
    | true =>
      have h1' : (InlinedHashMap.keys (rg ++ [(name, p.data)]) ++
          InlinedHashMap.keys rest).Nodup := by
        simpa [InlinedHashMap.keys] using h1
      simp only [Save.FromModuleState.partition, Parameter.RequiresGrad, Parameter.Data, hp,
        if_true, InlinedHashMap.emplace_new rg name p.data hn1, ih _ _ h1' h2r,
        List.filter_cons, Bool.not_true, Bool.false_eq_true, if_false, List.map_cons,
        List.append_assoc, List.singleton_append]
    | false =>
      have h2' : (InlinedHashMap.keys (fp ++ [(name, p.data)]) ++
          InlinedHashMap.keys rest).Nodup := by
        simpa [InlinedHashMap.keys] using h2
      simp only [Save.FromModuleState.partition, Parameter.RequiresGrad, Parameter.Data, hp,
        Bool.false_eq_true, if_false, InlinedHashMap.emplace_new fp name p.data hn2,
        ih _ _ h1r h2', List.filter_cons, Bool.not_false, if_true, List.map_cons,
        List.append_assoc, List.singleton_append]

/-- The parameter loops of `Load::ToModuleState` on values whose names are new and
pairwise distinct append the parameters in order. -/
theorem ToModuleState_emplace_all_spec (flag : Bool) (l : List (String × OrtValue)) :
    ∀ m0 : InlinedHashMap Parameter,
      (InlinedHashMap.keys m0 ++ InlinedHashMap.keys l).Nodup →
      Load.ToModuleState.emplace_all flag l m0 =
        m0 ++ l.map (fun e => (e.1, (⟨e.1, e.2, flag⟩ : Parameter))) := by
  induction l with
  | nil => intro m0 _; simp [Load.ToModuleState.emplace_all]
  | cons e rest ih =>
    intro m0 h
    obtain ⟨name, v⟩ := e
    simp only [InlinedHashMap.keys, List.map_cons] at h
    have hn : name ∉ InlinedHashMap.keys m0 := fun hin =>
      (List.nodup_append.1 h).2.2 hin (List.mem_cons_self _ _)
    have h' : (InlinedHashMap.keys (m0 ++ [(name, (⟨name, v, flag⟩ : Parameter))]) ++
        InlinedHashMap.keys rest).Nodup := by
      simpa [InlinedHashMap.keys] using h
    simp only [Load.ToModuleState.emplace_all, InlinedHashMap.emplace_new m0 name _ hn,
      ih _ h', List.map_cons, List.append_assoc, List.singleton_append]

/-- What `Save::FromModuleState` returns for host tensors of supported types under
pairwise distinct names: the records of the trainable parameters and those of the
frozen ones, each in the order of the collection. -/
theorem FromModuleState_host (mgr : DataTransferManager) (tt : Int → MLDataType)
    (up : ElemT → TensorProto → List Byte → Int → Status × List Byte)
    (builder : FlatBufferBuilder) (module_state : ModuleCheckpointState)
    (hmgr : module_state.named_parameters ≠ [] →
      module_state.train_session_data_transfer_mgr = some mgr)
    (hk : (InlinedHashMap.keys module_state.named_parameters).Nodup)
    (hv : ∀ e ∈ module_state.named_parameters, HostSupportedTensor mgr tt up e.2.data) :
    Save.FromModuleState module_state builder =
      Except.ok
        ⟨some ((((module_state.named_parameters.filter (fun e => e.2.requires_grad)).map
            (fun e => (e.1, e.2.data))).map
            (fun e => wire_of_tensor builder e.1 e.2)).map some),
         some ((((module_state.named_parameters.filter (fun e => !e.2.requires_grad)).map
            (fun e => (e.1, e.2.data))).map
            (fun e => wire_of_tensor builder e.1 e.2)).map some)⟩ := by
  cases hl : module_state.named_parameters with
  | nil => simp [Save.FromModuleState, hl]
  | cons e rest =>
    have hm := hmgr (by rw [hl]; exact List.cons_ne_nil _ _)
    rw [hl] at hk hv
    have hpart := FromModuleState_partition_spec (e :: rest) [] []
      (by simpa [InlinedHashMap.keys] using hk) (by simpa [InlinedHashMap.keys] using hk)
    have hA : ∀ x ∈ ((e :: rest).filter (fun e => e.2.requires_grad)).map
        (fun e => (e.1, e.2.data)), HostSupportedTensor mgr tt up x.2 := by
      intro x hx
      obtain ⟨y, hy, rfl⟩ := List.mem_map.1 hx
      exact hv y (List.mem_of_mem_filter hy)
    have hB : ∀ x ∈ ((e :: rest).filter (fun e => !e.2.requires_grad)).map
        (fun e => (e.1, e.2.data)), HostSupportedTensor mgr tt up x.2 := by
      intro x hx
      obtain ⟨y, hy, rfl⟩ := List.mem_map.1 hx
      exact hv y (List.mem_of_mem_filter hy)
    simp only [Save.FromModuleState, hl, List.isEmpty_cons, Bool.false_eq_true, if_false, hm,
      hpart, List.nil_append, FlatbufferTensorsFromOrtValues_host mgr tt up builder _ hA,
      FlatbufferTensorsFromOrtValues_host mgr tt up builder _ hB, Status_OK_IsOK,
      Bool.not_true]

/-- What `Load::ToModuleState` makes of the records of two maps of host tensors of
supported types whose names are pairwise distinct, starting from an empty collection:
the parameters of the first map with the flag set, then those of the second map with
the flag cleared. -/
theorem ToModuleState_host (mgr : DataTransferManager) (tt : Int → MLDataType)
    (up : ElemT → TensorProto → List Byte → Int → Status × List Byte)
    (builder : FlatBufferBuilder) (A B : InlinedHashMap OrtValue)
    (hA : ∀ e ∈ A, HostSupportedTensor mgr tt up e.2)
    (hB : ∀ e ∈ B, HostSupportedTensor mgr tt up e.2)
    (hnd : (InlinedHashMap.keys A ++ InlinedHashMap.keys B).Nodup)
    (dest_mgr : Option DataTransferManager) :
    Load.ToModuleState tt up
        (some ⟨some ((A.map (fun e => wire_of_tensor builder e.1 e.2)).map some),
               some ((B.map (fun e => wire_of_tensor builder e.1 e.2)).map some)⟩)
        ⟨[], dest_mgr⟩ =
      some (Status.OK,
        ⟨A.map (fun e => (e.1, (⟨e.1, e.2, true⟩ : Parameter))) ++
          B.map (fun e => (e.1, (⟨e.1, e.2, false⟩ : Parameter))), dest_mgr⟩) := by
  have hndA : (InlinedHashMap.keys A).Nodup := (List.nodup_append.1 hnd).1
  have hndB : (InlinedHashMap.keys B).Nodup := (List.nodup_append.1 hnd).2.1
  have e1 := OrtValuesFromFlatbufferTensors_host mgr tt up builder A hA []
    (by simpa using hndA)
  have e2 := OrtValuesFromFlatbufferTensors_host mgr tt up builder B hB []
    (by simpa using hndB)
  have e3 := ToModuleState_emplace_all_spec true A [] (by simpa [InlinedHashMap.keys] using hndA)
  have e4 := ToModuleState_emplace_all_spec false B
    (A.map (fun e => (e.1, (⟨e.1, e.2, true⟩ : Parameter))))
    (by
      have : InlinedHashMap.keys (A.map (fun e => (e.1, (⟨e.1, e.2, true⟩ : Parameter)))) =
          InlinedHashMap.keys A := by
        simp [InlinedHashMap.keys, Function.comp_def]
      rw [this]
      exact hnd)
  rw [List.nil_append] at e1 e2 e3
  simp only [Load.ToModuleState, e1, e2, e3, e4, Status_OK_IsOK, Bool.not_true,
    Bool.false_eq_true, if_false]

/-- Claim C20. Round trip of the module state: for every module state whose parameters
have pairwise distinct names and are host-resident tensors of supported non-string
element types (with a valid data-transfer manager when there is a parameter),
`Save::FromModuleState` succeeds and `Load::ToModuleState` decodes its result into an
empty module state with status OK; the loaded collection has the same names, and under
every name the same tensor value (dims, element type, bytes) and the same
requires-gradient flag as the original. -/
theorem C20_module_state_roundtrip (mgr : DataTransferManager) (tt : Int → MLDataType)
    (up : ElemT → TensorProto → List Byte → Int → Status × List Byte)
    (builder : FlatBufferBuilder) (module_state : ModuleCheckpointState)
    (dest_mgr : Option DataTransferManager)
    (hmgr : module_state.named_parameters ≠ [] →
      module_state.train_session_data_transfer_mgr = some mgr)
    (hk : (InlinedHashMap.keys module_state.named_parameters).Nodup)
    (hv : ∀ e ∈ module_state.named_parameters, HostSupportedTensor mgr tt up e.2.data) :
    ∃ w loaded,
      Save.FromModuleState module_state builder = Except.ok w ∧
      Load.ToModuleState tt up (some w) ⟨[], dest_mgr⟩ = some (Status.OK, loaded) ∧
      (InlinedHashMap.keys loaded.named_parameters).Perm
        (InlinedHashMap.keys module_state.named_parameters) ∧
      ∀ name, InlinedHashMap.find loaded.named_parameters name =
        (InlinedHashMap.find module_state.named_parameters name).map
          (fun p => (⟨name, p.data, p.requires_grad⟩ : Parameter)) := by
  have hsave := FromModuleState_host mgr tt up builder module_state hmgr hk hv
  generalize hl : module_state.named_parameters = l at hsave hk hv
  have hperm : (l.filter (fun e => e.2.requires_grad) ++
      l.filter (fun e => !e.2.requires_grad)).Perm l := List.filter_append_perm _ l
  have hkeys : ∀ l2 : List (String × Parameter),
      InlinedHashMap.keys (l2.map (fun e => (e.1, e.2.data))) = InlinedHashMap.keys l2 := by
    intro l2
    simp [InlinedHashMap.keys, Function.comp_def]
  have hA : ∀ x ∈ (l.filter (fun e => e.2.requires_grad)).map
      (fun e => (e.1, e.2.data)), HostSupportedTensor mgr tt up x.2 := by
    intro x hx
    obtain ⟨y, hy, rfl⟩ := List.mem_map.1 hx
    exact hv y (List.mem_of_mem_filter hy)
  have hB : ∀ x ∈ (l.filter (fun e => !e.2.requires_grad)).map
      (fun e => (e.1, e.2.data)), HostSupportedTensor mgr tt up x.2 := by
    intro x hx
    obtain ⟨y, hy, rfl⟩ := List.mem_map.1 hx
    exact hv y (List.mem_of_mem_filter hy)
  have hnd : (InlinedHashMap.keys ((l.filter (fun e => e.2.requires_grad)).map
        (fun e => (e.1, e.2.data))) ++
      InlinedHashMap.keys ((l.filter (fun e => !e.2.requires_grad)).map
        (fun e => (e.1, e.2.data)))).Nodup := by
    rw [hkeys, hkeys]
    have := ((hperm.map Prod.fst).nodup_iff).2 hk
    simpa [InlinedHashMap.keys] using this
  have hload := ToModuleState_host mgr tt up builder _ _ hA hB hnd dest_mgr
  have hshape : List.map (fun e : String × OrtValue => (e.1, (⟨e.1, e.2, true⟩ : Parameter)))
        ((l.filter (fun e => e.2.requires_grad)).map (fun e => (e.1, e.2.data))) =
      (l.filter (fun e => e.2.requires_grad)).map
        (fun e => (e.1, (⟨e.1, e.2.data, e.2.requires_grad⟩ : Parameter))) := by
    rw [List.map_map]
    apply List.map_congr_left
    intro e he
    have := (List.mem_filter.1 he).2
    simp only [Function.comp_apply]
    rw [this]
  have hshape2 : List.map
        (fun e : String × OrtValue => (e.1, (⟨e.1, e.2, false⟩ : Parameter)))
        ((l.filter (fun e => !e.2.requires_grad)).map (fun e => (e.1, e.2.data))) =
      (l.filter (fun e => !e.2.requires_grad)).map
        (fun e => (e.1, (⟨e.1, e.2.data, e.2.requires_grad⟩ : Parameter))) := by
    rw [List.map_map]
    apply List.map_congr_left
    intro e he
    have := (List.mem_filter.1 he).2
    simp only [Function.comp_apply]
    have h2 : e.2.requires_grad = false := by simpa using this
    rw [h2]
  rw [hshape, hshape2, ← List.map_append] at hload
  have hperm2 := hperm.map (fun e => (e.1, (⟨e.1, e.2.data, e.2.requires_grad⟩ : Parameter)))
  have hkeys2 : ∀ l2 : List (String × Parameter),
      InlinedHashMap.keys (l2.map
        (fun e => (e.1, (⟨e.1, e.2.data, e.2.requires_grad⟩ : Parameter)))) =
      InlinedHashMap.keys l2 := by
    intro l2
    simp [InlinedHashMap.keys, Function.comp_def]
  refine ⟨_, _, hsave, hload, ?_, fun name => ?_⟩
  · show (InlinedHashMap.keys (List.map _ _)).Perm _
    rw [hkeys2]
    exact hperm.map Prod.fst
  · show InlinedHashMap.find (List.map _ _) name = _
    rw [← InlinedHashMap.find_map
      (fun n (p : Parameter) => (⟨n, p.data, p.requires_grad⟩ : Parameter)) l name]
    apply InlinedHashMap.find_congr
    · rw [hkeys2]
      exact ((hperm.map Prod.fst).nodup_iff).2 hk
    · rw [hkeys2]
      exact hk
    · exact fun e => hperm2.mem_iff

/-- Witness of C20: a module state with a trainable and a frozen float parameter. -/
theorem C20_module_state_roundtrip_witness :
    ∃ w loaded,
      Save.FromModuleState module_two builder_at_4096 = Except.ok w ∧
      Load.ToModuleState four_byte_types unpack_copy (some w) ⟨[], none⟩ =
        some (Status.OK, loaded) ∧
      (InlinedHashMap.keys loaded.named_parameters).Perm
        (InlinedHashMap.keys module_two.named_parameters) ∧
      ∀ name, InlinedHashMap.find loaded.named_parameters name =
        (InlinedHashMap.find module_two.named_parameters name).map
          (fun p => (⟨name, p.data, p.requires_grad⟩ : Parameter)) :=
  C20_module_state_roundtrip copying_manager four_byte_types unpack_copy builder_at_4096
    module_two none (fun _ => rfl) (by decide)
    (by
      intro e he
      simp only [module_two, List.mem_cons, List.mem_singleton, List.not_mem_nil,
        or_false] at he
      rcases he with rfl | rfl
      · exact float_tensor_host 1
      · exact float_tensor_host 2)

/-! ### Optimizer state -/

/-- After an entry was appended under a new key, the key finds its value. -/
theorem InlinedHashMap.find_append_new {V : Type} (m : InlinedHashMap V) (k : String) (v : V)
    (h : k ∉ InlinedHashMap.keys m) : InlinedHashMap.find (m ++ [(k, v)]) k = some v := by
  induction m with
  | nil => simp [InlinedHashMap.find]
  | cons e rest ih =>
    obtain ⟨k2, v2⟩ := e
    simp only [InlinedHashMap.keys, List.map_cons, List.mem_cons, not_or] at h
    have hne : ¬ k2 = k := fun hk => h.1 hk.symm
    simp only [List.cons_append, InlinedHashMap.find_cons, if_neg hne]
    exact ih h.2

/-- Changing the value under a key that was appended last changes the last entry. -/
theorem InlinedHashMap.modify_append_new {V : Type} (m : InlinedHashMap V) (k : String)
    (v : V) (f : V → V) (h : k ∉ InlinedHashMap.keys m) :
    InlinedHashMap.modify (m ++ [(k, v)]) k f = m ++ [(k, f v)] := by
  have hm : m.map (fun e => if e.1 = k then (e.1, f e.2) else e) = m := by
    conv_rhs => rw [← List.map_id m]
    apply List.map_congr_left
    intro e he
    have hne : ¬ e.1 = k := by
      intro hk
      exact h (hk ▸ List.mem_map_of_mem Prod.fst he)
    simp [hne]
  simp only [InlinedHashMap.modify, List.map_append, hm, List.map_cons, List.map_nil, if_true]

/-- The parameter loop of `Save::FromOptimizerState` on a group of host tensors of
supported types appends the records of the parameters. -/
theorem FromOptimizerState_params_host (mgr : DataTransferManager) (tt : Int → MLDataType)
    (up : ElemT → TensorProto → List Byte → Int → Status × List Byte)
    (builder : FlatBufferBuilder) (P : List (String × InlinedHashMap OrtValue))
    (hP : ∀ p ∈ P, ∀ e ∈ p.2, HostSupportedTensor mgr tt up e.2) :
    ∀ acc : List fbs.ParameterOptimizerState,
      Save.FromOptimizerState.params mgr builder P acc =
        (Status.OK, acc ++ P.map (wire_of_param builder)) := by
  induction P with
  | nil => intro acc; simp [Save.FromOptimizerState.params]
  | cons p rest ih =>
    intro acc
    obtain ⟨pn, mm⟩ := p
    have h1 := FlatbufferTensorsFromOrtValues_host mgr tt up builder mm
      (hP (pn, mm) (List.mem_cons_self _ _)) []
    simp only [Save.FromOptimizerState.params, h1, Status_OK_IsOK, Bool.not_true,
      Bool.false_eq_true, if_false, List.nil_append,
      ih (fun p hp => hP p (List.mem_cons_of_mem _ hp)), List.map_cons, wire_of_param,
      List.append_assoc, List.singleton_append]

/-- The group loop of `Save::FromOptimizerState` on groups of host tensors of supported
types appends the records of the groups, each with the learning rate as its field
gives it back. -/
theorem FromOptimizerState_groups_host (mgr : DataTransferManager) (tt : Int → MLDataType)
    (up : ElemT → TensorProto → List Byte → Int → Status × List Byte)
    (builder : FlatBufferBuilder) (G : List (String × GroupOptimizerState))
    (hG : ∀ g ∈ G, HostSupportedGroup mgr tt up g.2) :
    ∀ acc : List fbs.OptimizerGroup,
      Save.FromOptimizerState.groups mgr builder G acc =
        (Status.OK, acc ++ G.map (fun e => wire_of_group builder (e.1, e.2.stored))) := by
  induction G with
  | nil => intro acc; simp [Save.FromOptimizerState.groups]
  | cons g rest ih =>
    intro acc
    obtain ⟨gn, gs⟩ := g
    have h1 := FromOptimizerState_params_host mgr tt up builder
      gs.param_named_optimizer_states
      (fun p hp => ((hG (gn, gs) (List.mem_cons_self _ _)).2 p hp).2) []
    simp only [Save.FromOptimizerState.groups, h1, Status_OK_IsOK, Bool.not_true,
      Bool.false_eq_true, if_false, List.nil_append,
      ih (fun g hg => hG g (List.mem_cons_of_mem _ hg)), List.map_cons, wire_of_group,
      GroupOptimizerState.stored, List.append_assoc, List.singleton_append]

/-- The parameter loop of `Load::ToOptimizerState` on the records of parameters with
new, pairwise distinct names and host tensors of supported types appends the
parameters with their momentum maps to the group. -/
theorem ToOptimizerState_params_host (mgr : DataTransferManager) (tt : Int → MLDataType)
    (up : ElemT → TensorProto → List Byte → Int → Status × List Byte)
    (builder : FlatBufferBuilder) (P : List (String × InlinedHashMap OrtValue))
    (hP : ∀ p ∈ P, (InlinedHashMap.keys p.2).Nodup ∧
      ∀ e ∈ p.2, HostSupportedTensor mgr tt up e.2) :
    ∀ g0 : GroupOptimizerState,
      (InlinedHashMap.keys (g0.param_named_optimizer_states ++ P)).Nodup →
      Load.ToOptimizerState.params tt up ((P.map (wire_of_param builder)).map some) g0 =
        some (Status.OK,
          { g0 with param_named_optimizer_states := g0.param_named_optimizer_states ++ P }) := by
  induction P with
  | nil =>
    intro g0 _
    simp [Load.ToOptimizerState.params]
  | cons p rest ih =>
    intro g0 hnd
    obtain ⟨pn, mm⟩ := p
    obtain ⟨hmk, hmv⟩ := hP (pn, mm) (List.mem_cons_self _ _)
    have hnew : pn ∉ InlinedHashMap.keys g0.param_named_optimizer_states := by
      intro hin
      simp only [InlinedHashMap.keys, List.map_append, List.map_cons] at hnd
      exact (List.nodup_append.1 hnd).2.2 hin (List.mem_cons_self _ _)
    have h1 := OrtValuesFromFlatbufferTensors_host mgr tt up builder mm hmv []
      (by simpa using hmk)
    rw [List.nil_append] at h1
    have hrec := ih (fun p hp => hP p (List.mem_cons_of_mem _ hp))
      { g0 with
        param_named_optimizer_states := g0.param_named_optimizer_states ++ [(pn, mm)] }
      (by simpa using hnd)
    simp only [List.map_cons, Load.ToOptimizerState.params, wire_of_param,
      InlinedHashMap.emplace_new _ pn _ hnew, InlinedHashMap.find_append_new _ pn _ hnew,
      Option.getD_some, h1, InlinedHashMap.modify_append_new _ pn _ _ hnew, Status_OK_IsOK,
      Bool.not_true, Bool.false_eq_true, if_false]
    simp only [wire_of_param] at hrec
    rw [hrec]
    simp

/-- The group loop of `Load::ToOptimizerState` on the records of groups with new,
pairwise distinct names that are carried through unchanged appends the groups to the
state. -/
theorem ToOptimizerState_groups_host (mgr : DataTransferManager) (tt : Int → MLDataType)
    (up : ElemT → TensorProto → List Byte → Int → Status × List Byte)
    (builder : FlatBufferBuilder) (G : List (String × GroupOptimizerState))
    (hG : ∀ g ∈ G, HostSupportedGroup mgr tt up g.2) :
    ∀ s0 : OptimizerCheckpointState,
      (InlinedHashMap.keys (s0.group_named_optimizer_states ++ G)).Nodup →
      Load.ToOptimizerState.groups tt up ((G.map (wire_of_group builder)).map some) s0 =
        some (Status.OK,
          { s0 with group_named_optimizer_states := s0.group_named_optimizer_states ++ G }) := by
  induction G with
  | nil =>
    intro s0 _
    simp [Load.ToOptimizerState.groups]
  | cons g rest ih =>
    intro s0 hnd
    obtain ⟨gn, gs⟩ := g
    obtain ⟨hgk, hgv⟩ := hG (gn, gs) (List.mem_cons_self _ _)
    have hnew : gn ∉ InlinedHashMap.keys s0.group_named_optimizer_states := by
      intro hin
      simp only [InlinedHashMap.keys, List.map_append, List.map_cons] at hnd
      exact (List.nodup_append.1 hnd).2.2 hin (List.mem_cons_self _ _)
    have h1 := ToOptimizerState_params_host mgr tt up builder
      gs.param_named_optimizer_states hgv
      { GroupOptimizerState.fresh with step := gs.step, initial_lr := gs.initial_lr }
      (by simpa [GroupOptimizerState.fresh] using hgk)
    have hrec := ih (fun g hg => hG g (List.mem_cons_of_mem _ hg))
      { s0 with
        group_named_optimizer_states := s0.group_named_optimizer_states ++ [(gn, gs)] }
      (by simpa using hnd)
    simp only [GroupOptimizerState.fresh, List.nil_append] at h1
    simp only [List.map_cons, Load.ToOptimizerState.groups, wire_of_group,
      InlinedHashMap.emplace_new _ gn _ hnew, InlinedHashMap.modify_append_new _ gn _ _ hnew,
      InlinedHashMap.find_append_new _ gn _ hnew, Option.getD_some,
      GroupOptimizerState.fresh, h1, Status_OK_IsOK, Bool.not_true, Bool.false_eq_true,
      if_false]
    simp only [wire_of_group] at hrec
    rw [hrec]
    simp

/-- The stored form of a group whose learning rate is not `-0.0f` is the group. -/
theorem GroupOptimizerState.stored_group_eq (g : GroupOptimizerState)
    (h : g.initial_lr ≠ f32.negative_zero) : g.stored = g := by
  simp [GroupOptimizerState.stored, AddElement_float, h]

/-- What the round trip of an optimizer state gives for groups, parameters and momentum
tensors with pairwise distinct names and host tensors of supported types: the save
succeeds, the load into an empty state succeeds, and the loaded groups are the groups
of the state, each in its stored form. -/
theorem optimizer_state_roundtrip_stored (mgr : DataTransferManager)
    (tt : Int → MLDataType)
    (up : ElemT → TensorProto → List Byte → Int → Status × List Byte)
    (builder : FlatBufferBuilder) (optimizer_state : OptimizerCheckpointState)
    (dest_mgr : Option DataTransferManager)
    (hmgr : optimizer_state.group_named_optimizer_states ≠ [] →
      optimizer_state.optimizer_session_data_transfer_mgr = some mgr)
    (hk : (InlinedHashMap.keys optimizer_state.group_named_optimizer_states).Nodup)
    (hG : ∀ g ∈ optimizer_state.group_named_optimizer_states,
      HostSupportedGroup mgr tt up g.2) :
    ∃ w,
      Save.FromOptimizerState optimizer_state builder [] = (Status.OK, w) ∧
      Load.ToOptimizerState tt up (some (w.map some)) ⟨[], dest_mgr⟩ =
        some (Status.OK,
          ⟨optimizer_state.group_named_optimizer_states.map (fun e => (e.1, e.2.stored)),
            dest_mgr⟩) := by
  have hG2 : ∀ g ∈ optimizer_state.group_named_optimizer_states.map
      (fun e => (e.1, e.2.stored)), HostSupportedGroup mgr tt up g.2 := by
    intro g hg
    obtain ⟨g0, hg0, rfl⟩ := List.mem_map.1 hg
    exact hG g0 hg0
  have hk2 : (InlinedHashMap.keys (optimizer_state.group_named_optimizer_states.map
      (fun e => (e.1, e.2.stored)))).Nodup := by
    have : InlinedHashMap.keys (optimizer_state.group_named_optimizer_states.map
        (fun e => (e.1, e.2.stored))) =
        InlinedHashMap.keys optimizer_state.group_named_optimizer_states := by
      simp [InlinedHashMap.keys, Function.comp_def]
    rw [this]; exact hk
  have hload := ToOptimizerState_groups_host mgr tt up builder
    (optimizer_state.group_named_optimizer_states.map (fun e => (e.1, e.2.stored))) hG2
    ⟨[], dest_mgr⟩ (by simpa using hk2)
  have hmm : (optimizer_state.group_named_optimizer_states.map
      (fun e => (e.1, e.2.stored))).map (wire_of_group builder) =
      optimizer_state.group_named_optimizer_states.map
        (fun e => wire_of_group builder (e.1, e.2.stored)) := by
    rw [List.map_map]; rfl
  rw [List.nil_append, hmm] at hload
  refine ⟨optimizer_state.group_named_optimizer_states.map
    (fun (e : String × GroupOptimizerState) => wire_of_group builder (e.1, e.2.stored)),
    ?_, hload⟩
  cases hl : optimizer_state.group_named_optimizer_states with
  | nil => simp [Save.FromOptimizerState, hl]
  | cons g rest =>
    have hm := hmgr (by rw [hl]; exact List.cons_ne_nil _ _)
    rw [hl] at hG
    have hs := FromOptimizerState_groups_host mgr tt up builder (g :: rest) hG []
    simp only [Save.FromOptimizerState, hl, List.isEmpty_cons, Bool.false_eq_true, if_false,
      hm, hs, List.nil_append]

/-- Counterexample to C19 as stated: the state with the one group `group0` at step 5
with learning rate `-0.0f` is saved and loaded with success, and the loaded group has
the learning rate `0.0f`, which is another value. -/
theorem C19_counterexample :
    ∃ w,
      Save.FromOptimizerState optimizer_negative_zero builder_at_4096 [] = (Status.OK, w) ∧
      Load.ToOptimizerState four_byte_types unpack_copy (some (w.map some)) ⟨[], none⟩ =
        some (Status.OK, ⟨[("group0", ⟨f32.zero, 5, []⟩)], none⟩) ∧
      optimizer_negative_zero.group_named_optimizer_states =
        [("group0", ⟨f32.negative_zero, 5, []⟩)] ∧
      f32.zero ≠ f32.negative_zero :=
  ⟨_, rfl, rfl, rfl, by decide⟩

/-- Claim C19, amended. Round trip of the optimizer state: for every optimizer state
whose group names, parameter names and momentum names are pairwise distinct and whose
momentum tensors are host-resident with supported non-string element types (with a
valid data-transfer manager when there is a group), `Save::FromOptimizerState`
succeeds and `Load::ToOptimizerState` decodes its result into an empty state with
status OK; the loaded state has the same groups, each with the same step, the same
mapping from parameter name to momentum name to tensor, and the same initial learning
rate, except that a learning rate `-0.0f` is loaded as `0.0f`. So when no group has
the learning rate `-0.0f` the loaded groups are exactly the groups of the state. -/
theorem C19_optimizer_state_roundtrip (mgr : DataTransferManager) (tt : Int → MLDataType)
    (up : ElemT → TensorProto → List Byte → Int → Status × List Byte)
    (builder : FlatBufferBuilder) (optimizer_state : OptimizerCheckpointState)
    (dest_mgr : Option DataTransferManager)
    (hmgr : optimizer_state.group_named_optimizer_states ≠ [] →
      optimizer_state.optimizer_session_data_transfer_mgr = some mgr)
    (hk : (InlinedHashMap.keys optimizer_state.group_named_optimizer_states).Nodup)
    (hG : ∀ g ∈ optimizer_state.group_named_optimizer_states,
      HostSupportedGroup mgr tt up g.2) :
    ∃ w,
      Save.FromOptimizerState optimizer_state builder [] = (Status.OK, w) ∧
      Load.ToOptimizerState tt up (some (w.map some)) ⟨[], dest_mgr⟩ =
        some (Status.OK,
          ⟨optimizer_state.group_named_optimizer_states.map
            (fun e => (e.1, { e.2 with initial_lr := AddElement_float e.2.initial_lr })),
            dest_mgr⟩) ∧
      ((∀ g ∈ optimizer_state.group_named_optimizer_states,
          g.2.initial_lr ≠ f32.negative_zero) →
        Load.ToOptimizerState tt up (some (w.map some)) ⟨[], dest_mgr⟩ =
          some (Status.OK, ⟨optimizer_state.group_named_optimizer_states, dest_mgr⟩)) := by
  obtain ⟨w, hs, hl⟩ :=
    optimizer_state_roundtrip_stored mgr tt up builder optimizer_state dest_mgr hmgr hk hG
  refine ⟨w, hs, hl, fun hnz => ?_⟩
  have hid : optimizer_state.group_named_optimizer_states.map
      (fun e => (e.1, e.2.stored)) = optimizer_state.group_named_optimizer_states := by
    conv_rhs => rw [← List.map_id optimizer_state.group_named_optimizer_states]
    apply List.map_congr_left
    intro e he
    rw [GroupOptimizerState.stored_group_eq e.2 (hnz e he)]
    rfl
  rw [hl, hid]

/-- Witness of C19: the group `group0` at step 5 with learning rate 0.01 and the
parameter `w` with two momentum tensors. -/
theorem C19_optimizer_state_roundtrip_witness :
    ∃ w,
      Save.FromOptimizerState optimizer_one builder_at_4096 [] = (Status.OK, w) ∧
      Load.ToOptimizerState four_byte_types unpack_copy (some (w.map some)) ⟨[], none⟩ =
        some (Status.OK, ⟨optimizer_one.group_named_optimizer_states, none⟩) :=
  match C19_optimizer_state_roundtrip copying_manager four_byte_types unpack_copy
    builder_at_4096 optimizer_one none (fun _ => rfl) (by decide)
    (by
      intro g hg
      simp only [optimizer_one, List.mem_singleton] at hg
      subst hg
      refine ⟨by decide, fun p hp => ?_⟩
      simp only [List.mem_singleton] at hp
      subst hp
      refine ⟨by decide, fun e he => ?_⟩
      simp only [List.mem_cons, List.mem_singleton, List.not_mem_nil, or_false] at he
      rcases he with rfl | rfl
      · exact float_tensor_host 1
      · exact float_tensor_host 2) with
  | ⟨w, hs, _, hexact⟩ => ⟨w, hs, hexact (by decide)⟩

/-! ### Maps with keys that are present already -/

/-- The method `find` on two maps laid end to end: the first map is asked first. -/
theorem InlinedHashMap.find_append {V : Type} (m1 m2 : InlinedHashMap V) (k : String) :
    InlinedHashMap.find (m1 ++ m2) k =
      (InlinedHashMap.find m1 k).or (InlinedHashMap.find m2 k) := by
  induction m1 with
  | nil => simp [InlinedHashMap.find]
  | cons e rest ih =>
    obtain ⟨k2, v⟩ := e
    simp only [List.cons_append, InlinedHashMap.find_cons]
    by_cases h : k2 = k
    · simp [h]
    · simp [h, ih]

/-- The method `find` after the value under a key was changed. -/
theorem InlinedHashMap.find_modify {V : Type} (m : InlinedHashMap V) (k : String) (f : V → V)
    (k2 : String) :
    InlinedHashMap.find (InlinedHashMap.modify m k f) k2 =
      if k = k2 then (InlinedHashMap.find m k).map f else InlinedHashMap.find m k2 := by
  induction m with
  | nil => simp [InlinedHashMap.find, InlinedHashMap.modify]
  | cons e rest ih =>
    obtain ⟨k3, v⟩ := e
    simp only [InlinedHashMap.modify, List.map_cons] at ih ⊢
    by_cases h3 : k3 = k
    · subst h3
      simp only [if_true, InlinedHashMap.find_cons]
      by_cases h : k3 = k2
      · simp [h]
      · simp only [if_neg h]
        rw [ih, if_neg h]
    · simp only [if_neg h3, InlinedHashMap.find_cons]
      by_cases h : k3 = k2
      · subst h
        have hne : ¬ k = k3 := fun hk => h3 hk.symm
        simp [hne]
      · simp only [if_neg h]
        rw [ih]

/-- The method `find` after `emplace`: an entry that was there is found as before, and
the new value is found only when the key was not there. -/
theorem InlinedHashMap.find_emplace {V : Type} (m : InlinedHashMap V) (k : String) (v : V)
    (k2 : String) :
    InlinedHashMap.find (InlinedHashMap.emplace m k v) k2 =
      (InlinedHashMap.find m k2).or (if k = k2 then some v else none) := by
  unfold InlinedHashMap.emplace
  by_cases h : (InlinedHashMap.find m k).isSome = true
  · rw [if_pos h]
    by_cases hk : k = k2
    · subst hk
      cases hf : InlinedHashMap.find m k with
      | none => rw [hf] at h; cases h
      | some x => simp
    · simp [hk]
  · rw [if_neg h, InlinedHashMap.find_append]
    simp [InlinedHashMap.find_cons, InlinedHashMap.find]

/-- The keys after the value under a key was changed. -/
theorem InlinedHashMap.keys_modify {V : Type} (m : InlinedHashMap V) (k : String)
    (f : V → V) : InlinedHashMap.keys (InlinedHashMap.modify m k f) = InlinedHashMap.keys m := by
  induction m with
  | nil => rfl
  | cons e rest ih =>
    simp only [InlinedHashMap.modify, InlinedHashMap.keys, List.map_cons] at ih ⊢
    rw [ih]
    by_cases h : e.1 = k <;> simp [h]

/-! ### Property bag with repeated names -/

/-- The method `find` after `AddProperty`: the name added has the new value, every
other name its old one. -/
theorem PropertyBag.find_AddProperty (bag : PropertyBag) (name : String)
    (val : PropertyDataType) (k : String) :
    InlinedHashMap.find (bag.AddProperty name val).named_properties k =
      if name = k then some val else InlinedHashMap.find bag.named_properties k := by
  unfold PropertyBag.AddProperty
  by_cases h : (InlinedHashMap.find bag.named_properties name).isSome = true
  · rw [if_pos h]
    simp only [InlinedHashMap.find_modify]
    by_cases hk : name = k
    · rw [if_pos hk, if_pos hk]
      cases hf : InlinedHashMap.find bag.named_properties name with
      | none => rw [hf] at h; cases h
      | some x => rfl
    · rw [if_neg hk, if_neg hk]
  · rw [if_neg h]
    simp only [InlinedHashMap.find_append, InlinedHashMap.find_cons, InlinedHashMap.find]
    by_cases hk : name = k
    · subst hk
      have hn : InlinedHashMap.find bag.named_properties name = none := by
        cases hf : InlinedHashMap.find bag.named_properties name with
        | none => rfl
        | some x => rw [hf] at h; exact absurd rfl h
      simp [hn]
    · simp [hk]

/-- The method `AddProperty` keeps the names of a bag pairwise distinct. -/
theorem PropertyBag.nodup_AddProperty (bag : PropertyBag) (name : String)
    (val : PropertyDataType) (h : (InlinedHashMap.keys bag.named_properties).Nodup) :
    (InlinedHashMap.keys (bag.AddProperty name val).named_properties).Nodup := by
  unfold PropertyBag.AddProperty
  by_cases hf : (InlinedHashMap.find bag.named_properties name).isSome = true
  · rw [if_pos hf]
    simp only [InlinedHashMap.keys_modify]
    exact h
  · rw [if_neg hf]
    have hnot : name ∉ InlinedHashMap.keys bag.named_properties :=
      fun hin => hf ((InlinedHashMap.find_isSome _ _).2 hin)
    simp only [InlinedHashMap.keys, List.map_append, List.map_cons, List.map_nil]
    exact List.nodup_append.2 ⟨h, List.nodup_singleton _, by
      intro a ha hb
      rw [List.mem_singleton.1 hb] at ha
      exact hnot ha⟩

/-- The int loop of `Load::ToPropertyBag` on named properties never fails, and leaves
under every name the value of the last insertion. -/
theorem ToPropertyBag_ints_last (ints : List (String × Int)) :
    ∀ bag : PropertyBag, ∃ bag2,
      Load.ToPropertyBag.ints (ints.map (fun e => some ⟨some e.1, e.2⟩)) bag = some bag2 ∧
      ((InlinedHashMap.keys bag.named_properties).Nodup →
        (InlinedHashMap.keys bag2.named_properties).Nodup) ∧
      ∀ name, InlinedHashMap.find bag2.named_properties name =
        last_write (ints.map (fun e => (e.1, PropertyDataType.int64 e.2))) name
          (InlinedHashMap.find bag.named_properties name) := by
  induction ints with
  | nil => intro bag; exact ⟨bag, rfl, fun h => h, fun _ => rfl⟩
  | cons e rest ih =>
    intro bag
    obtain ⟨bag2, h1, h2, h3⟩ := ih (bag.AddProperty e.1 (PropertyDataType.int64 e.2))
    refine ⟨bag2, ?_, fun h => h2 (PropertyBag.nodup_AddProperty _ _ _ h), fun name => ?_⟩
    · simp only [List.map_cons, Load.ToPropertyBag.ints, h1]
    · rw [h3, PropertyBag.find_AddProperty]
      simp only [last_write, List.map_cons, List.foldl_cons]

/-- The float loop of `Load::ToPropertyBag` on named properties never fails, and leaves
under every name the value of the last insertion. -/
theorem ToPropertyBag_floats_last (floats : List (String × f32)) :
    ∀ bag : PropertyBag, ∃ bag2,
      Load.ToPropertyBag.floats (floats.map (fun e => some ⟨some e.1, e.2⟩)) bag =
        some bag2 ∧
      ((InlinedHashMap.keys bag.named_properties).Nodup →
        (InlinedHashMap.keys bag2.named_properties).Nodup) ∧
      ∀ name, InlinedHashMap.find bag2.named_properties name =
        last_write (floats.map (fun e => (e.1, PropertyDataType.float e.2))) name
          (InlinedHashMap.find bag.named_properties name) := by
  induction floats with
  | nil => intro bag; exact ⟨bag, rfl, fun h => h, fun _ => rfl⟩
  | cons e rest ih =>
    intro bag
    obtain ⟨bag2, h1, h2, h3⟩ := ih (bag.AddProperty e.1 (PropertyDataType.float e.2))
    refine ⟨bag2, ?_, fun h => h2 (PropertyBag.nodup_AddProperty _ _ _ h), fun name => ?_⟩
    · simp only [List.map_cons, Load.ToPropertyBag.floats, h1]
    · rw [h3, PropertyBag.find_AddProperty]
      simp only [last_write, List.map_cons, List.foldl_cons]

/-- The string loop of `Load::ToPropertyBag` on properties with name and value never
fails, and leaves under every name the value of the last insertion. -/
theorem ToPropertyBag_strings_last (strings : List (String × String)) :
    ∀ bag : PropertyBag, ∃ bag2,
      Load.ToPropertyBag.strings (strings.map (fun e => some ⟨some e.1, some e.2⟩)) bag =
        some bag2 ∧
      ((InlinedHashMap.keys bag.named_properties).Nodup →
        (InlinedHashMap.keys bag2.named_properties).Nodup) ∧
      ∀ name, InlinedHashMap.find bag2.named_properties name =
        last_write (strings.map (fun e => (e.1, PropertyDataType.string e.2))) name
          (InlinedHashMap.find bag.named_properties name) := by
  induction strings with
  | nil => intro bag; exact ⟨bag, rfl, fun h => h, fun _ => rfl⟩
  | cons e rest ih =>
    intro bag
    obtain ⟨bag2, h1, h2, h3⟩ := ih (bag.AddProperty e.1 (PropertyDataType.string e.2))
    refine ⟨bag2, ?_, fun h => h2 (PropertyBag.nodup_AddProperty _ _ _ h), fun name => ?_⟩
    · simp only [List.map_cons, Load.ToPropertyBag.strings, h1]
    · rw [h3, PropertyBag.find_AddProperty]
      simp only [last_write, List.map_cons, List.foldl_cons]

/-- Claim C21. `Load::ToPropertyBag` inserts the int properties, then the float
properties, then the string properties, each list in wire order, into the one named
map of the bag, without any uniqueness check: for all wire lists of named properties
and every bag to load into it returns OK, also when names repeat within a list, across
the lists or are in the bag already; the names of the loaded bag stay pairwise
distinct, and under every name the loaded bag holds the value of the last insertion
in that order (the old value when the name was not inserted). -/
theorem C21_property_bag_last_write_wins (ints : List (String × Int))
    (floats : List (String × f32)) (strings : List (String × String)) (bag : PropertyBag) :
    ∃ loaded,
      Load.ToPropertyBag (some (wire_bag ints floats strings)) bag = some (Status.OK, loaded) ∧
      ((InlinedHashMap.keys bag.named_properties).Nodup →
        (InlinedHashMap.keys loaded.named_properties).Nodup) ∧
      ∀ name, InlinedHashMap.find loaded.named_properties name =
        last_write (ToPropertyBag_insertions ints floats strings) name
          (InlinedHashMap.find bag.named_properties name) := by
  obtain ⟨b1, h1, n1, f1⟩ := ToPropertyBag_ints_last ints bag
  obtain ⟨b2, h2, n2, f2⟩ := ToPropertyBag_floats_last floats b1
  obtain ⟨b3, h3, n3, f3⟩ := ToPropertyBag_strings_last strings b2
  refine ⟨b3, ?_, fun h => n3 (n2 (n1 h)), fun name => ?_⟩
  · simp only [Load.ToPropertyBag, wire_bag, h1, h2, h3]
  · rw [f3, f2, f1]
    simp only [last_write, ToPropertyBag_insertions, List.foldl_append]

/-- Witness of C21: the name `a` is inserted twice as an int and once as a string; the
load succeeds and the string, inserted last, is what the bag holds. -/
theorem C21_property_bag_last_write_wins_witness :
    ∃ loaded,
      Load.ToPropertyBag (some (wire_bag [("a", 1), ("a", 2)] [] [("a", "x")])) ⟨[]⟩ =
        some (Status.OK, loaded) ∧
      InlinedHashMap.find loaded.named_properties "a" = some (PropertyDataType.string "x") := by
  obtain ⟨loaded, h1, _, h3⟩ :=
    C21_property_bag_last_write_wins [("a", 1), ("a", 2)] [] [("a", "x")] ⟨[]⟩
  refine ⟨loaded, h1, ?_⟩
  rw [h3]
  decide

/-! ### Optimizer state with repeated names -/

/-- Loading the wire records of a map of host tensors of supported types into a map
that may hold some of the names already: the load succeeds, an entry that was there
stays, and a new name gets the tensor of its first record. -/
theorem OrtValuesFromFlatbufferTensors_merge (mgr : DataTransferManager)
    (tt : Int → MLDataType)
    (up : ElemT → TensorProto → List Byte → Int → Status × List Byte)
    (builder : FlatBufferBuilder) (m : InlinedHashMap OrtValue)
    (hm : ∀ e ∈ m, HostSupportedTensor mgr tt up e.2) :
    ∀ m0 : InlinedHashMap OrtValue, ∃ r,
      OrtValuesFromFlatbufferTensors tt up
          (some ((m.map (fun e => wire_of_tensor builder e.1 e.2)).map some)) m0 =
        some (Status.OK, r) ∧
      ∀ k, InlinedHashMap.find r k =
        (InlinedHashMap.find m0 k).or (InlinedHashMap.find m k) := by
  induction m with
  | nil =>
    intro m0
    exact ⟨m0, by simp [OrtValuesFromFlatbufferTensors, OrtValuesFromFlatbufferTensors.loop],
      fun k => by simp [InlinedHashMap.find]⟩
  | cons e rest ih =>
    intro m0
    obtain ⟨name, v⟩ := e
    have hl := LoadOrtValueOrtFormat_host mgr tt up builder name v
      (hm (name, v) (List.mem_cons_self _ _)) "" OrtValue.unset
    obtain ⟨r, hr, hf⟩ := ih (fun e he => hm e (List.mem_cons_of_mem _ he))
      (InlinedHashMap.emplace m0 name v)
    refine ⟨r, ?_, fun k => ?_⟩
    · simp only [OrtValuesFromFlatbufferTensors] at hr ⊢
      simp only [List.map_cons, OrtValuesFromFlatbufferTensors.loop, hl, Status_OK_IsOK,
        Bool.not_true, Bool.false_eq_true, if_false, hr]
    · rw [hf, InlinedHashMap.find_emplace, InlinedHashMap.find_cons, Option.or_assoc]
      by_cases hk : name = k
      · simp [hk]
      · simp [hk]

/-- The parameter loop of `Load::ToOptimizerState` on the records of parameters with
pairwise distinct names and host tensors of supported types, acting on a group that may
hold some of the parameters already: the load succeeds, step and learning rate stay,
a tensor that was there stays, and a new momentum name gets its tensor. -/
theorem ToOptimizerState_params_merge (mgr : DataTransferManager) (tt : Int → MLDataType)
    (up : ElemT → TensorProto → List Byte → Int → Status × List Byte)
    (builder : FlatBufferBuilder) (P : List (String × InlinedHashMap OrtValue))
    (hk : (InlinedHashMap.keys P).Nodup)
    (hP : ∀ p ∈ P, ∀ e ∈ p.2, HostSupportedTensor mgr tt up e.2) :
    ∀ g0 : GroupOptimizerState, ∃ r,
      Load.ToOptimizerState.params tt up ((P.map (wire_of_param builder)).map some) g0 =
        some (Status.OK, r) ∧
      r.step = g0.step ∧ r.initial_lr = g0.initial_lr ∧
      ∀ p m, lookup2 r.param_named_optimizer_states p m =
        (lookup2 g0.param_named_optimizer_states p m).or (lookup2 P p m) := by
  induction P with
  | nil =>
    intro g0
    exact ⟨g0, by simp [Load.ToOptimizerState.params], rfl, rfl,
      fun p m => by simp [lookup2, InlinedHashMap.find]⟩
  | cons e rest ih =>
    intro g0
    obtain ⟨pn, mm⟩ := e
    simp only [InlinedHashMap.keys, List.map_cons, List.nodup_cons] at hk
    have hfs : InlinedHashMap.find
        (InlinedHashMap.emplace g0.param_named_optimizer_states pn []) pn =
        (InlinedHashMap.find g0.param_named_optimizer_states pn).or (some []) := by
      rw [InlinedHashMap.find_emplace, if_pos rfl]
    obtain ⟨r1, hr1, hf1⟩ := OrtValuesFromFlatbufferTensors_merge mgr tt up builder mm
      (hP (pn, mm) (List.mem_cons_self _ _))
      ((InlinedHashMap.find
        (InlinedHashMap.emplace g0.param_named_optimizer_states pn []) pn).getD [])
    obtain ⟨r, hr, hs, hlr, hf⟩ := ih hk.2 (fun p hp => hP p (List.mem_cons_of_mem _ hp))
      { g0 with
        param_named_optimizer_states :=
          InlinedHashMap.modify
            (InlinedHashMap.emplace g0.param_named_optimizer_states pn []) pn (fun _ => r1) }
    refine ⟨r, ?_, hs, hlr, fun p m => ?_⟩
    · simp only [List.map_cons, Load.ToOptimizerState.params, wire_of_param, hr1,
        Status_OK_IsOK, Bool.not_true, Bool.false_eq_true, if_false]
      exact hr
    · rw [hf]
      have hrest : InlinedHashMap.find rest pn = none := by
        cases hfr : InlinedHashMap.find rest pn with
        | none => rfl
        | some x =>
          have : (InlinedHashMap.find rest pn).isSome = true := by rw [hfr]; rfl
          exact absurd ((InlinedHashMap.find_isSome rest pn).1 this) hk.1
      by_cases hp : pn = p
      · subst hp
        simp only [lookup2, InlinedHashMap.find_modify, if_true, hfs, InlinedHashMap.find_cons,
          hrest, Option.bind_none, Option.or_none]
        cases hg : InlinedHashMap.find g0.param_named_optimizer_states pn with
        | none =>
          simp only [hg, hfs, Option.none_or, Option.getD_some, InlinedHashMap.find] at hf1
          simp [hf1]
        | some x =>
          simp only [hg, hfs, Option.or_some, Option.getD_some] at hf1
          simp [hf1]
      · simp only [lookup2, InlinedHashMap.find_modify, if_neg hp, InlinedHashMap.find_emplace,
          InlinedHashMap.find_cons, Option.or_none]

/-- The method `emplace` on an empty map makes the entry. -/
theorem InlinedHashMap.emplace_nil {V : Type} (k : String) (v : V) :
    InlinedHashMap.emplace ([] : InlinedHashMap V) k v = [(k, v)] := rfl

/-- The method `find` on a map with one entry, at its key. -/
theorem InlinedHashMap.find_singleton {V : Type} (k : String) (v : V) :
    InlinedHashMap.find [(k, v)] k = some v := by
  simp [InlinedHashMap.find]

/-- The method `emplace` leaves a map with one entry as it is at the key of the entry. -/
theorem InlinedHashMap.emplace_singleton {V : Type} (k : String) (v v2 : V) :
    InlinedHashMap.emplace [(k, v)] k v2 = [(k, v)] := by
  simp [InlinedHashMap.emplace, InlinedHashMap.find]

/-- Changing the value under the key of a map with one entry. -/
theorem InlinedHashMap.modify_singleton {V : Type} (k : String) (v : V) (f : V → V) :
    InlinedHashMap.modify [(k, v)] k f = [(k, f v)] := by
  simp [InlinedHashMap.modify]

/-- Two optimizer groups of the same name loaded one after the other into an empty
state: one group results, with the step and the learning rate of the second, and every
momentum tensor is the one of the first group where the first group has it, otherwise
the one of the second group. -/
theorem ToOptimizerState_two_groups (mgr : DataTransferManager) (tt : Int → MLDataType)
    (up : ElemT → TensorProto → List Byte → Int → Status × List Byte)
    (builder : FlatBufferBuilder) (name : String) (g1 g2 : GroupOptimizerState)
    (h1 : HostSupportedGroup mgr tt up g1) (h2 : HostSupportedGroup mgr tt up g2)
    (dest_mgr : Option DataTransferManager) :
    ∃ merged,
      Load.ToOptimizerState tt up
          (some [some (wire_of_group builder (name, g1)),
                 some (wire_of_group builder (name, g2))]) ⟨[], dest_mgr⟩ =
        some (Status.OK, ⟨[(name, merged)], dest_mgr⟩) ∧
      merged.step = g2.step ∧ merged.initial_lr = g2.initial_lr ∧
      ∀ p m, lookup2 merged.param_named_optimizer_states p m =
        (lookup2 g1.param_named_optimizer_states p m).or
          (lookup2 g2.param_named_optimizer_states p m) := by
  have hA := ToOptimizerState_params_host mgr tt up builder g1.param_named_optimizer_states
    h1.2 { GroupOptimizerState.fresh with step := g1.step, initial_lr := g1.initial_lr }
    (by simpa [GroupOptimizerState.fresh] using h1.1)
  simp only [GroupOptimizerState.fresh, List.nil_append] at hA
  obtain ⟨r, hr, hs, hlr, hf⟩ := ToOptimizerState_params_merge mgr tt up builder
    g2.param_named_optimizer_states h2.1 (fun p hp => (h2.2 p hp).2)
    { g1 with step := g2.step, initial_lr := g2.initial_lr }
  refine ⟨r, ?_, hs, hlr, hf⟩
  simp only [Load.ToOptimizerState, Load.ToOptimizerState.groups, wire_of_group,
    InlinedHashMap.emplace_nil, InlinedHashMap.find_singleton, InlinedHashMap.emplace_singleton,
    InlinedHashMap.modify_singleton, Option.getD_some, GroupOptimizerState.fresh, hA, hr,
    Status_OK_IsOK, Bool.not_true, Bool.false_eq_true, if_false]

/-- A group with the one parameter `w` and the one momentum `m` holding a float tensor
is carried through by the copying manager and the four-byte types. -/
theorem single_momentum_group_host (lr : f32) (step : Int) (b : Byte) :
    HostSupportedGroup copying_manager four_byte_types unpack_copy
      ⟨lr, step, [("w", [("m", OrtValue.tensor (float_tensor b))])]⟩ := by
  refine ⟨by simp [InlinedHashMap.keys], fun p hp => ?_⟩
  simp only [List.mem_singleton] at hp
  subst hp
  refine ⟨by simp [InlinedHashMap.keys], fun e he => ?_⟩
  simp only [List.mem_singleton] at he
  subst he
  exact float_tensor_host b

/-- Counterexample to C22 as stated: two wire groups named `g`, both with the parameter
`w` and the momentum `m`, load with status OK into one group that has the step of the
second wire group, while the momentum tensor of `w` is the one of the first wire
group, which differs from the one of the second. -/
theorem C22_counterexample :
    ∃ merged,
      Load.ToOptimizerState four_byte_types unpack_copy (some two_groups_same_name)
          ⟨[], none⟩ = some (Status.OK, ⟨[("g", merged)], none⟩) ∧
      merged.step = 2 ∧
      lookup2 merged.param_named_optimizer_states "w" "m" =
        some (OrtValue.tensor (float_tensor 1)) ∧
      OrtValue.tensor (float_tensor 1) ≠ OrtValue.tensor (float_tensor 2) := by
  obtain ⟨merged, hload, hs, _, hf⟩ := ToOptimizerState_two_groups copying_manager
    four_byte_types unpack_copy builder_at_4096 "g"
    ⟨⟨1⟩, 1, [("w", [("m", OrtValue.tensor (float_tensor 1))])]⟩
    ⟨⟨2⟩, 2, [("w", [("m", OrtValue.tensor (float_tensor 2))])]⟩
    (single_momentum_group_host _ _ _) (single_momentum_group_host _ _ _) none
  refine ⟨merged, hload, hs, ?_, ?_⟩
  · rw [hf "w" "m"]
    simp [lookup2, InlinedHashMap.find]
  · intro h
    simp [float_tensor] at h

/-- Claim C22, amended. Loading two optimizer groups with the same group name into an
empty state succeeds without a uniqueness error when the momentum tensors of both are
host tensors of supported types, and one group results under the name. Its step and
its learning rate are those of the second (last) wire group. Its momentum tensors are
not replaced: under every parameter name and momentum name the loaded tensor is the
one of the first wire group when the first group has that momentum, and the one of the
second group only otherwise (first-write-wins per momentum, and parameters that only
the first group has stay). -/
theorem C22_duplicate_group (mgr : DataTransferManager) (tt : Int → MLDataType)
    (up : ElemT → TensorProto → List Byte → Int → Status × List Byte)
    (builder : FlatBufferBuilder) (name : String) (g1 g2 : GroupOptimizerState)
    (h1 : HostSupportedGroup mgr tt up g1) (h2 : HostSupportedGroup mgr tt up g2)
    (dest_mgr : Option DataTransferManager) :
    ∃ merged,
      Load.ToOptimizerState tt up
          (some [some (wire_of_group builder (name, g1)),
                 some (wire_of_group builder (name, g2))]) ⟨[], dest_mgr⟩ =
        some (Status.OK, ⟨[(name, merged)], dest_mgr⟩) ∧
      merged.step = g2.step ∧ merged.initial_lr = g2.initial_lr ∧
      ∀ p m, lookup2 merged.param_named_optimizer_states p m =
        (lookup2 g1.param_named_optimizer_states p m).or
          (lookup2 g2.param_named_optimizer_states p m) :=
  ToOptimizerState_two_groups mgr tt up builder name g1 g2 h1 h2 dest_mgr

/-- Witness of C22: two groups named `g` with the parameter `w` and the momentum `m`. -/
theorem C22_duplicate_group_witness :
    ∃ merged,
      Load.ToOptimizerState four_byte_types unpack_copy
          (some [some (wire_of_group builder_at_4096
                   ("g", ⟨⟨1⟩, 1, [("w", [("m", OrtValue.tensor (float_tensor 1))])]⟩)),
                 some (wire_of_group builder_at_4096
                   ("g", ⟨⟨2⟩, 2, [("w", [("m", OrtValue.tensor (float_tensor 2))])]⟩))])
          ⟨[], none⟩ = some (Status.OK, ⟨[("g", merged)], none⟩) ∧
      merged.step = 2 ∧ merged.initial_lr = ⟨2⟩ ∧
      ∀ p m, lookup2 merged.param_named_optimizer_states p m =
        (lookup2 [("w", [("m", OrtValue.tensor (float_tensor 1))])] p m).or
          (lookup2 [("w", [("m", OrtValue.tensor (float_tensor 2))])] p m) :=
  C22_duplicate_group copying_manager four_byte_types unpack_copy builder_at_4096 "g"
    ⟨⟨1⟩, 1, [("w", [("m", OrtValue.tensor (float_tensor 1))])]⟩
    ⟨⟨2⟩, 2, [("w", [("m", OrtValue.tensor (float_tensor 2))])]⟩
    (single_momentum_group_host _ _ _) (single_momentum_group_host _ _ _) none

/-! ### Subgraph references of attributes -/

/-- Claim C27. For every attribute whose type is not GRAPH (in particular for the
eight other supported kinds) the result of `SaveAttributeOrtFormat` is the same for
every subgraph argument, null or not, and for every graph serializer, so the
serializer is not consulted, and a record that is produced carries no subgraph
reference. For a GRAPH attribute with a subgraph the result is decided by the graph
serializer on that subgraph: its error is returned, and its reference is the one
stored in the record. -/
theorem C27_subgraph_only_for_graph
    (unpack : TensorProto → Path → Except Status (List Byte))
    (ser ser2 : Graph → Except Status fbs.Graph) (en : Int → String)
    (builder : FlatBufferBuilder) (attr_proto : AttributeProto) (model_path : Path) :
    (attr_proto.type ≠ AttributeProto_AttributeType_GRAPH →
      (∀ sg sg2 : Option Graph,
        SaveAttributeOrtFormat unpack ser en builder attr_proto model_path sg =
          SaveAttributeOrtFormat unpack ser2 en builder attr_proto model_path sg2) ∧
      (∀ (sg : Option Graph) (w : fbs.Attribute),
        SaveAttributeOrtFormat unpack ser en builder attr_proto model_path sg = Except.ok w →
          w.g = none)) ∧
    (attr_proto.type = AttributeProto_AttributeType_GRAPH →
      ∀ sg : Graph,
        SaveAttributeOrtFormat unpack ser en builder attr_proto model_path (some sg) =
          match ser sg with
          | Except.error e => Except.error e
          | Except.ok fbs_graph =>
            Except.ok
              { fbs.Attribute.empty with
                name := SaveStringToOrtFormat attr_proto.has_name attr_proto.get_name,
                doc_string :=
                  SaveStringToOrtFormat attr_proto.has_doc_string attr_proto.get_doc_string,
                type := AttributeProto_AttributeType_GRAPH,
                g := some fbs_graph }) := by
  refine ⟨fun hng => ⟨fun sg sg2 => ?_, fun sg w hw => ?_⟩, fun hg sg => ?_⟩
  · simp only [SaveAttributeOrtFormat, if_neg hng]
  · simp only [SaveAttributeOrtFormat, if_neg hng, GET_FBS_ATTR] at hw
    split_ifs at hw
    · cases hw; rfl
    · cases hw; rfl
    · cases hw; rfl
    · split at hw
      · cases hw
      · cases hw; rfl
    · cases hw; rfl
    · cases hw; rfl
    · cases hw; rfl
    · split at hw
      · cases hw
      · cases hw; rfl
  · have h1 : ¬ attr_proto.type = AttributeProto_AttributeType_FLOAT := by
      rw [hg]; decide
    have h2 : ¬ attr_proto.type = AttributeProto_AttributeType_INT := by
      rw [hg]; decide
    have h3 : ¬ attr_proto.type = AttributeProto_AttributeType_STRING := by
      rw [hg]; decide
    have h4 : ¬ attr_proto.type = AttributeProto_AttributeType_TENSOR := by
      rw [hg]; decide
    simp only [SaveAttributeOrtFormat, if_neg h1, if_neg h2, if_neg h3, if_neg h4, if_pos hg,
      GET_FBS_ATTR]
    cases ser sg <;> simp [hg]

/-- Witness of C27: an INT attribute gives the same result for every subgraph argument
and a failing serializer, and a GRAPH attribute stores the reference 1 that the
serializer returns. -/
theorem C27_subgraph_only_for_graph_witness :
    ((∀ sg sg2 : Option Graph,
        SaveAttributeOrtFormat unpack_raw serializer_ok enum_name_number builder_at_4096
            (attr_of_type AttributeProto_AttributeType_INT) "model.ort" sg =
          SaveAttributeOrtFormat unpack_raw
            (fun _ => Except.error (Status.mk StatusCode.FAIL "")) enum_name_number
            builder_at_4096 (attr_of_type AttributeProto_AttributeType_INT) "model.ort" sg2) ∧
      (∀ (sg : Option Graph) (w : fbs.Attribute),
        SaveAttributeOrtFormat unpack_raw serializer_ok enum_name_number builder_at_4096
            (attr_of_type AttributeProto_AttributeType_INT) "model.ort" sg = Except.ok w →
          w.g = none)) ∧
    SaveAttributeOrtFormat unpack_raw serializer_ok enum_name_number builder_at_4096
        (attr_of_type AttributeProto_AttributeType_GRAPH) "model.ort" (some ⟨[]⟩) =
      Except.ok
        { fbs.Attribute.empty with
          name := some "a", type := AttributeProto_AttributeType_GRAPH, g := some ⟨1⟩ } :=
  ⟨(C27_subgraph_only_for_graph unpack_raw serializer_ok
      (fun _ => Except.error (Status.mk StatusCode.FAIL "")) enum_name_number builder_at_4096
      (attr_of_type AttributeProto_AttributeType_INT) "model.ort").1 (by decide),
   (C27_subgraph_only_for_graph unpack_raw serializer_ok serializer_ok enum_name_number
      builder_at_4096 (attr_of_type AttributeProto_AttributeType_GRAPH) "model.ort").2 rfl
      ⟨[]⟩⟩

/-! ### Partition of the parameters on save -/

/-- An error that `SaveOrtValueOrtFormat` returns is not the OK status. -/
theorem SaveOrtValueOrtFormat_error_not_ok (name : String) (v : OrtValue)
    (mgr : DataTransferManager) (builder : FlatBufferBuilder) (e : Status)
    (h : SaveOrtValueOrtFormat name v mgr builder = Except.error e) : e.IsOK = false := by
  cases v with
  | tensor t =>
    simp only [SaveOrtValueOrtFormat] at h
    split_ifs at h with h1 h2 h3
    · cases h; exact ORT_RETURN_IF_status_not_ok _
    · cases h; simpa using h2
    · cases h; exact ORT_RETURN_IF_status_not_ok _
  | unset => simp only [SaveOrtValueOrtFormat] at h; cases h; exact ORT_RETURN_IF_status_not_ok _
  | non_tensor =>
    simp only [SaveOrtValueOrtFormat] at h; cases h; exact ORT_RETURN_IF_status_not_ok _

/-- A record that `SaveOrtValueOrtFormat` produces carries the given name. -/
theorem SaveOrtValueOrtFormat_name (name : String) (v : OrtValue)
    (mgr : DataTransferManager) (builder : FlatBufferBuilder) (w : fbs.Tensor)
    (h : SaveOrtValueOrtFormat name v mgr builder = Except.ok w) : w.name = some name := by
  cases v with
  | tensor t =>
    simp only [SaveOrtValueOrtFormat] at h
    split_ifs at h with h1 h2 h3
    cases h; rfl
  | unset => simp only [SaveOrtValueOrtFormat] at h; cases h
  | non_tensor => simp only [SaveOrtValueOrtFormat] at h; cases h

/-- When `FlatbufferTensorsFromOrtValues` succeeds, it has appended one record per
entry of the map, in iteration order, each under the name of its entry. -/
theorem FlatbufferTensorsFromOrtValues_names (mgr : DataTransferManager)
    (builder : FlatBufferBuilder) (m : InlinedHashMap OrtValue) :
    ∀ acc : List fbs.Tensor,
      (FlatbufferTensorsFromOrtValues mgr builder m acc).1.IsOK = true →
      (FlatbufferTensorsFromOrtValues mgr builder m acc).2.map (fun t => t.name) =
        acc.map (fun t => t.name) ++ (InlinedHashMap.keys m).map some := by
  induction m with
  | nil => intro acc _; simp [FlatbufferTensorsFromOrtValues, InlinedHashMap.keys]
  | cons e rest ih =>
    intro acc hok
    obtain ⟨name, v⟩ := e
    cases hs : SaveOrtValueOrtFormat name v mgr builder with
    | error err =>
      have hn := SaveOrtValueOrtFormat_error_not_ok name v mgr builder err hs
      simp only [FlatbufferTensorsFromOrtValues, hs, hn] at hok
      cases hok
    | ok w =>
      have hw := SaveOrtValueOrtFormat_name name v mgr builder w hs
      simp only [FlatbufferTensorsFromOrtValues, hs] at hok ⊢
      rw [ih _ hok]
      simp [InlinedHashMap.keys, hw]

/-- The entries with the flag set followed by those without are a rearrangement of
all entries. -/
theorem filter_flag_perm {A : Type} (p : A → Bool) (l : List A) :
    (l.filter p ++ l.filter (fun e => !p e)).Perm l := by
  induction l with
  | nil => exact List.Perm.refl _
  | cons e rest ih =>
    cases hp : p e with
    | true =>
      simp only [List.filter_cons, hp, if_true, Bool.not_true, Bool.false_eq_true, if_false,
        List.cons_append]
      exact List.Perm.cons _ ih
    | false =>
      simp only [List.filter_cons, hp, Bool.false_eq_true, if_false, Bool.not_false, if_true]
      exact List.perm_middle.trans (List.Perm.cons _ ih)

/-- Claim C28. For every non-empty collection of named parameters (names pairwise
distinct, as in a map) that `Save::FromModuleState` saves with success, the trainable
list of the record holds exactly the parameters whose requires-gradient flag is set
and the frozen list exactly the others, each under its name and in the order of the
collection; so the names of the two lists together are a rearrangement of the
parameter names (their union is the set of parameter names) and no name occurs twice
in them (each parameter is encoded once, and the two name sets are disjoint). -/
theorem C28_module_state_partition (module_state : ModuleCheckpointState)
    (builder : FlatBufferBuilder) (w : fbs.ModuleState)
    (hne : module_state.named_parameters ≠ [])
    (hk : (InlinedHashMap.keys module_state.named_parameters).Nodup)
    (hsave : Save.FromModuleState module_state builder = Except.ok w) :
    ∃ trainable frozen : List fbs.Tensor,
      w.requires_grad = some (trainable.map some) ∧
      w.frozen_params = some (frozen.map some) ∧
      trainable.map (fun t => t.name) =
        (module_state.named_parameters.filter (fun e => e.2.RequiresGrad)).map
          (fun e => some e.1) ∧
      frozen.map (fun t => t.name) =
        (module_state.named_parameters.filter (fun e => !e.2.RequiresGrad)).map
          (fun e => some e.1) ∧
      (trainable.map (fun t => t.name) ++ frozen.map (fun t => t.name)).Perm
        ((InlinedHashMap.keys module_state.named_parameters).map some) ∧
      (trainable.map (fun t => t.name) ++ frozen.map (fun t => t.name)).Nodup := by
  have hempty : module_state.named_parameters.isEmpty = false := by
    cases hl : module_state.named_parameters with
    | nil => exact absurd hl hne
    | cons _ _ => rfl
  have hpart := FromModuleState_partition_spec module_state.named_parameters [] []
    (by simpa [InlinedHashMap.keys] using hk) (by simpa [InlinedHashMap.keys] using hk)
  simp only [List.nil_append] at hpart
  cases hm : module_state.train_session_data_transfer_mgr with
  | none =>
    simp only [Save.FromModuleState, hempty, hm, Bool.false_eq_true, if_false] at hsave
    cases hsave
  | some mgr =>
    simp only [Save.FromModuleState, hempty, hm, Bool.false_eq_true, if_false, hpart] at hsave
    split_ifs at hsave with h1 h2
    have h1' : (FlatbufferTensorsFromOrtValues mgr builder
        ((module_state.named_parameters.filter (fun e => e.2.requires_grad)).map
          (fun e => (e.1, e.2.data))) []).1.IsOK = true := by simpa using h1
    have h2' : (FlatbufferTensorsFromOrtValues mgr builder
        ((module_state.named_parameters.filter (fun e => !e.2.requires_grad)).map
          (fun e => (e.1, e.2.data))) []).1.IsOK = true := by simpa using h2
    have n1 := FlatbufferTensorsFromOrtValues_names mgr builder _ [] h1'
    have n2 := FlatbufferTensorsFromOrtValues_names mgr builder _ [] h2'
    simp only [List.map_nil, List.nil_append, InlinedHashMap.keys, List.map_map] at n1 n2
    have hperm : ((module_state.named_parameters.filter (fun e => e.2.requires_grad)).map
          (fun e => some e.1) ++
        (module_state.named_parameters.filter (fun e => !e.2.requires_grad)).map
          (fun e => some e.1)).Perm
        ((InlinedHashMap.keys module_state.named_parameters).map some) := by
      rw [← List.map_append]
      simp only [InlinedHashMap.keys, List.map_map]
      exact (filter_flag_perm (fun e : String × Parameter => e.2.requires_grad)
        module_state.named_parameters).map _
    have hnd : ((InlinedHashMap.keys module_state.named_parameters).map some).Nodup :=
      hk.map (Option.some_injective _)
    cases hsave
    refine ⟨_, _, rfl, rfl, ?_, ?_, ?_, ?_⟩
    · rw [n1]; rfl
    · rw [n2]; rfl
    · rw [n1, n2]; exact hperm
    · rw [n1, n2]; exact hperm.nodup_iff.2 hnd

/-- Witness of C28: the trainable parameter `w` and the frozen parameter `b`. -/
theorem C28_module_state_partition_witness :
    ∃ trainable frozen : List fbs.Tensor,
      (fbs.ModuleState.mk
          (some [some (wire_of_tensor builder_at_4096 "w" (OrtValue.tensor (float_tensor 1)))])
          (some [some (wire_of_tensor builder_at_4096 "b" (OrtValue.tensor (float_tensor 2)))])
        ).requires_grad = some (trainable.map some) ∧
      (fbs.ModuleState.mk
          (some [some (wire_of_tensor builder_at_4096 "w" (OrtValue.tensor (float_tensor 1)))])
          (some [some (wire_of_tensor builder_at_4096 "b" (OrtValue.tensor (float_tensor 2)))])
        ).frozen_params = some (frozen.map some) ∧
      trainable.map (fun t => t.name) =
        (module_two.named_parameters.filter (fun e => e.2.RequiresGrad)).map
          (fun e => some e.1) ∧
      frozen.map (fun t => t.name) =
        (module_two.named_parameters.filter (fun e => !e.2.RequiresGrad)).map
          (fun e => some e.1) ∧
      (trainable.map (fun t => t.name) ++ frozen.map (fun t => t.name)).Perm
        ((InlinedHashMap.keys module_two.named_parameters).map some) ∧
      (trainable.map (fun t => t.name) ++ frozen.map (fun t => t.name)).Nodup :=
  C28_module_state_partition module_two builder_at_4096 _ (by decide) (by decide) rfl

/-! ### The record of a saved tensor value -/

/-- A buffer after a write has the size it had before. -/
theorem buffer_after_write_length (n : Nat) (written : List Byte) :
    (buffer_after_write n written).length = n := by
  simp [buffer_after_write]

/-- Claim C29. For every tensor value whose element type is not string and for which
the copy to the host buffer succeeds, `SaveOrtValueOrtFormat` returns a wire tensor
with the given name, an empty doc string, dims equal to the shape of the tensor, the
element type of the tensor, no string data, and a raw payload that is the host buffer
after the copy. The length of the payload is element count times element size, the
size of the tensor in bytes; and the payload is equal to the bytes of the tensor when
the copy writes those bytes and they fill the size of the tensor. -/
theorem C29_save_ort_value_record (tensor_name : String) (t : Tensor)
    (mgr : DataTransferManager) (builder : FlatBufferBuilder)
    (hns : t.IsDataTypeString = false)
    (hcopy : (mgr.CopyTensor t
      ⟨t.dtype, t.shape, List.replicate t.SizeInBytes 0, cpu_alloc_info⟩).1.IsOK = true) :
    ∃ payload : List Byte,
      SaveOrtValueOrtFormat tensor_name (OrtValue.tensor t) mgr builder =
        Except.ok ⟨some tensor_name, some "", some t.shape, t.GetElementType,
          some (builder.CreateVector payload), none⟩ ∧
      payload = buffer_after_write t.SizeInBytes
        (mgr.CopyTensor t
          ⟨t.dtype, t.shape, List.replicate t.SizeInBytes 0, cpu_alloc_info⟩).2 ∧
      payload.length = (TensorShape_Size t.shape).toNat * t.dtype.size ∧
      ((mgr.CopyTensor t
          ⟨t.dtype, t.shape, List.replicate t.SizeInBytes 0, cpu_alloc_info⟩).2 = t.data →
        t.data.length = t.SizeInBytes → payload = t.data) := by
  have hstr : ∀ d : List Byte, Tensor.IsDataTypeString
      { dtype := t.dtype, shape := t.shape, data := d, location := cpu_alloc_info } =
      false := by
    intro d
    simpa [Tensor.IsDataTypeString] using hns
  refine ⟨_, ?_, rfl, ?_, ?_⟩
  · unfold SaveOrtValueOrtFormat
    simp only [List.length_replicate, ne_eq, not_true_eq_false, if_false, hcopy,
      Bool.not_true, Bool.false_eq_true, hstr, SaveDims, Tensor.GetElementType]
  · rw [buffer_after_write_length]; rfl
  · intro hd hlen
    rw [hd, ← hlen]
    exact buffer_after_write_eq t.data

/-- Witness of C29: a float tensor of one element with the bytes 7, 0, 0, 0 under the
copying manager. -/
theorem C29_save_ort_value_record_witness :
    ∃ payload : List Byte,
      SaveOrtValueOrtFormat "w" (OrtValue.tensor (float_tensor 7)) copying_manager
          builder_at_4096 =
        Except.ok ⟨some "w", some "", some [1], TensorProto_DataType_FLOAT,
          some (builder_at_4096.CreateVector payload), none⟩ ∧
      payload.length = 4 ∧ payload = [7, 0, 0, 0] :=
  match C29_save_ort_value_record "w" (float_tensor 7) copying_manager builder_at_4096
      rfl rfl with
  | ⟨payload, hsave, _, hlen, hdata⟩ => ⟨payload, hsave, hlen, hdata rfl rfl⟩

/-! ### Sparse tensors -/

/-- Round trip of the tensor codec with zero-copy disabled, as one equation: the saved
record decodes with status OK into the record made of the fields of `x` and the bytes
that the unpacker read. -/
theorem tensor_codec_roundtrip
    (unpack : TensorProto → Path → Except Status (List Byte)) (builder : FlatBufferBuilder)
    (x : TensorProto) (model_path : Path) (w : fbs.Tensor)
    (hsave : SaveInitializerOrtFormat unpack builder x model_path = Except.ok w) :
    ∃ bytes,
      (x.data_type ≠ TensorProto_DataType_STRING → unpack x model_path = Except.ok bytes) ∧
      ∀ init, LoadInitializerOrtFormat w init ⟨false⟩ = (Status.OK, decoded_record x bytes) := by
  obtain ⟨hn, hdoc, hd, hty, hstr, hraw⟩ :=
    SaveInitializerOrtFormat_ok unpack builder x model_path w hsave
  by_cases ht : x.data_type = TensorProto_DataType_STRING
  · obtain ⟨hs, _⟩ := hstr ht
    have htw : w.data_type = fbs.TensorDataType.STRING := by rw [hty]; exact ht
    refine ⟨[], fun h => absurd ht h, fun init => ?_⟩
    rw [LoadInitializerOrtFormat_string w init ⟨false⟩ x.dims x.string_data hd htw hs]
    simp [decoded_record, ht, hn, hdoc, hty]
  · obtain ⟨bytes, hu, hr, _⟩ := hraw ht
    have htw : w.data_type ≠ fbs.TensorDataType.STRING := by rw [hty]; exact ht
    refine ⟨bytes, fun _ => hu, fun init => ?_⟩
    rw [LoadInitializerOrtFormat_raw w init ⟨false⟩ x.dims _ hd htw hr]
    simp [decoded_record, ht, hn, hdoc, hty, FlatBufferBuilder.CreateVector]

/-- The record that the codec gives back is the record itself when it satisfies the
record invariant and its raw bytes are the bytes read. -/
theorem decoded_record_eq (x : TensorProto) (bytes : List Byte) (hrec : IsTensorRecord x)
    (hb : x.data_type ≠ TensorProto_DataType_STRING → x.raw_data = some bytes) :
    decoded_record x bytes = x := by
  obtain ⟨hloc, hext, hsr, hss⟩ := hrec
  by_cases ht : x.data_type = TensorProto_DataType_STRING
  · have h1 := hsr ht
    cases x
    simp only at hloc hext h1 ht
    simp [decoded_record, ht, hloc, hext, h1]
  · have h1 := hss ht
    have h2 := hb ht
    cases x
    simp only at hloc hext h1 h2 ht
    simp [decoded_record, ht, hloc, hext, h1, h2]

/-- Claim C30. Round trip of the sparse tensor codec with zero-copy disabled: whenever
`SaveSparseInitializerOrtFormat` produces a wire record from a sparse record whose
values tensor has a non-empty name, `LoadSparseInitializerOrtFormat` decodes it with
status OK into a sparse record with the same dense shape whose values and indices are
the round-tripped values and indices: the same name, doc string, dims and element
type, the same strings for the string element type and otherwise the bytes that the
unpacker read. When the values and the indices satisfy the record invariant and their
raw bytes are what the unpacker reads, they are the values and indices of the saved
record. -/
theorem C30_sparse_roundtrip
    (unpack : TensorProto → Path → Except Status (List Byte)) (builder : FlatBufferBuilder)
    (x : SparseTensorProto) (model_path : Path) (w : fbs.SparseTensor)
    (init : SparseTensorProto)
    (hsave : SaveSparseInitializerOrtFormat unpack builder x model_path = Except.ok w)
    (hname : x.get_values.get_name ≠ "") :
    ∃ vbytes ibytes,
      (x.get_values.data_type ≠ TensorProto_DataType_STRING →
        unpack x.get_values model_path = Except.ok vbytes) ∧
      (x.get_indices.data_type ≠ TensorProto_DataType_STRING →
        unpack x.get_indices model_path = Except.ok ibytes) ∧
      LoadSparseInitializerOrtFormat w init ⟨false⟩ =
        (Status.OK,
          ⟨some (decoded_record x.get_values vbytes),
           some (decoded_record x.get_indices ibytes), x.dims⟩) ∧
      (IsTensorRecord x.get_values →
        (∀ bytes, unpack x.get_values model_path = Except.ok bytes →
          x.get_values.raw_data = some bytes) →
        decoded_record x.get_values vbytes = x.get_values) ∧
      (IsTensorRecord x.get_indices →
        (∀ bytes, unpack x.get_indices model_path = Except.ok bytes →
          x.get_indices.raw_data = some bytes) →
        decoded_record x.get_indices ibytes = x.get_indices) := by
  unfold SaveSparseInitializerOrtFormat at hsave
  cases hv : SaveInitializerOrtFormat unpack builder x.get_values model_path with
  | error e => simp only [hv] at hsave; cases hsave
  | ok wv =>
    cases hi : SaveInitializerOrtFormat unpack builder x.get_indices model_path with
    | error e => simp only [hv, hi] at hsave; cases hsave
    | ok wi =>
      simp only [hv, hi, SaveDims] at hsave
      cases hsave
      obtain ⟨vbytes, hvu, hvl⟩ := tensor_codec_roundtrip unpack builder x.get_values
        model_path wv hv
      obtain ⟨ibytes, hiu, hil⟩ := tensor_codec_roundtrip unpack builder x.get_indices
        model_path wi hi
      have hdn : (decoded_record x.get_values vbytes).get_name = x.get_values.get_name := by
        unfold decoded_record
        split_ifs <;> rfl
      have hne : ¬ (decoded_record x.get_values vbytes).get_name = "" := by
        rw [hdn]; exact hname
      refine ⟨vbytes, ibytes, hvu, hiu, ?_, ?_, ?_⟩
      · simp only [LoadSparseInitializerOrtFormat, hvl, hil, Status_OK_IsOK, Bool.not_true,
          Bool.false_eq_true, if_false, hne, SparseTensorProto.empty, List.nil_append]
      · intro hrec hb
        exact decoded_record_eq _ _ hrec (fun ht => hb _ (hvu ht))
      · intro hrec hb
        exact decoded_record_eq _ _ hrec (fun ht => hb _ (hiu ht))

/-- Witness of C30: the record `sparse_record` is saved, and loading the saved wire
record gives `sparse_record` back. -/
theorem C30_sparse_roundtrip_witness :
    SaveSparseInitializerOrtFormat unpack_raw builder_at_4096 sparse_record "" =
      Except.ok
        ⟨some ⟨some "w", some "weights", some [3], TensorProto_DataType_UINT8,
           some ⟨4096, [1, 2, 3]⟩, none⟩,
         some ⟨some "idx", none, some [3], TensorProto_DataType_UINT8,
           some ⟨4096, [0, 1, 3]⟩, none⟩,
         some [4]⟩ ∧
    LoadSparseInitializerOrtFormat
        ⟨some ⟨some "w", some "weights", some [3], TensorProto_DataType_UINT8,
           some ⟨4096, [1, 2, 3]⟩, none⟩,
         some ⟨some "idx", none, some [3], TensorProto_DataType_UINT8,
           some ⟨4096, [0, 1, 3]⟩, none⟩,
         some [4]⟩ SparseTensorProto.empty ⟨false⟩ = (Status.OK, sparse_record) := by
  obtain ⟨vbytes, ibytes, hvu, hiu, hload, hv, hi⟩ :=
    C30_sparse_roundtrip unpack_raw builder_at_4096 sparse_record ""
      ⟨some ⟨some "w", some "weights", some [3], TensorProto_DataType_UINT8,
         some ⟨4096, [1, 2, 3]⟩, none⟩,
       some ⟨some "idx", none, some [3], TensorProto_DataType_UINT8,
         some ⟨4096, [0, 1, 3]⟩, none⟩,
       some [4]⟩ SparseTensorProto.empty rfl (by decide)
  refine ⟨rfl, ?_⟩
  have hvb : ∀ bytes, unpack_raw sparse_record.get_values "" = Except.ok bytes →
      sparse_record.get_values.raw_data = some bytes := by
    intro bytes hu
    have hb : (Except.ok [1, 2, 3] : Except Status (List Byte)) = Except.ok bytes := hu
    injection hb with h3
    rw [← h3]; rfl
  have hib : ∀ bytes, unpack_raw sparse_record.get_indices "" = Except.ok bytes →
      sparse_record.get_indices.raw_data = some bytes := by
    intro bytes hu
    have hb : (Except.ok [0, 1, 3] : Except Status (List Byte)) = Except.ok bytes := hu
    injection hb with h3
    rw [← h3]; rfl
  rw [hload, hv (by decide) hvb, hi (by decide) hib]
  rfl

/-! ### Reading a checkpoint file -/

/-- When `Load::FromFile` fails, `Load::ToCheckpointState` returns its status and the
state as it was. -/
theorem ToCheckpointState_file_error (files : CheckpointFiles) (tt : Int → MLDataType)
    (up : ElemT → TensorProto → List Byte → Int → Status × List Byte)
    (checkpoint_path : PathString) (state : CheckpointState)
    (h : (Load.FromFile files checkpoint_path [] []).1.IsOK = false) :
    Load.ToCheckpointState files tt up checkpoint_path state =
      some ((Load.FromFile files checkpoint_path [] []).1, state) := by
  simp only [Load.ToCheckpointState, h, Bool.not_false, if_true]

/-- When `Load::FromFile` fails, `Load::ToModelProto` returns its status and the model
as it was. -/
theorem ToModelProto_file_error (files : CheckpointFiles)
    (checkpoint_path : PathString) (model_proto : ModelProto)
    (h : (Load.FromFile files checkpoint_path [] []).1.IsOK = false) :
    Load.ToModelProto files checkpoint_path model_proto =
      some ((Load.FromFile files checkpoint_path [] []).1, model_proto) := by
  simp only [Load.ToModelProto, h, Bool.not_false, if_true]

/-- When the file is there and is read, and the verifier rejects the bytes read,
`Load::FromFile` returns the verification failure. -/
theorem FromFile_rejected (files : CheckpointFiles) (checkpoint_path : PathString)
    (hex : files.filesystem_exists checkpoint_path = true)
    (hlen : (files.GetFileLength checkpoint_path).1.IsOK = true)
    (hread : (files.ifstream_read checkpoint_path
      (files.GetFileLength checkpoint_path).2).1 = true)
    (hver : files.VerifyCheckpointBuffer
      (Load.FromFile files checkpoint_path [] []).2.1 = false) :
    (Load.FromFile files checkpoint_path [] []).1 =
      ORT_RETURN_IF_status "Checkpoint verification failed." := by
  simp only [Load.FromFile, hex, hlen, hread, Bool.not_true, Bool.false_eq_true,
    if_false] at hver ⊢
  split_ifs at hver ⊢ with h1
  · rfl
  · simp only [Bool.not_eq_true, Bool.not_eq_false_eq_eq_true] at h1
    rw [h1] at hver
    exact absurd hver (by decide)

/-- Claim C24. Structural verification gates every field access: whenever the file
exists, its length is obtained, the read succeeds, and the verifier rejects the bytes
read, `LoadCheckpoint` and `LoadCheckpointToModel` both return the failure with the
message of the failed verification, which is not OK, and the state of the caller and
the model of the caller are left as they were; the result is the same for every root
accessor, so no field of the checkpoint is read. -/
theorem C24_verification_gates_access (files : CheckpointFiles) (tt : Int → MLDataType)
    (up : ElemT → TensorProto → List Byte → Int → Status × List Byte)
    (checkpoint_path : PathString) (state : CheckpointState) (model_proto : ModelProto)
    (hex : files.filesystem_exists checkpoint_path = true)
    (hlen : (files.GetFileLength checkpoint_path).1.IsOK = true)
    (hread : (files.ifstream_read checkpoint_path
      (files.GetFileLength checkpoint_path).2).1 = true)
    (hver : files.VerifyCheckpointBuffer
      (Load.FromFile files checkpoint_path [] []).2.1 = false) :
    LoadCheckpoint files tt up checkpoint_path state =
      some (ORT_RETURN_IF_status "Checkpoint verification failed.", state) ∧
    LoadCheckpointToModel files checkpoint_path model_proto =
      some (ORT_RETURN_IF_status "Checkpoint verification failed.", model_proto) ∧
    (ORT_RETURN_IF_status "Checkpoint verification failed.").IsOK = false ∧
    ∀ get : List Byte → Option fbs.Checkpoint,
      LoadCheckpoint { files with GetCheckpoint := get } tt up checkpoint_path state =
        LoadCheckpoint files tt up checkpoint_path state ∧
      LoadCheckpointToModel { files with GetCheckpoint := get } checkpoint_path model_proto =
        LoadCheckpointToModel files checkpoint_path model_proto := by
  have key : ∀ f : CheckpointFiles, f.filesystem_exists checkpoint_path = true →
      (f.GetFileLength checkpoint_path).1.IsOK = true →
      (f.ifstream_read checkpoint_path (f.GetFileLength checkpoint_path).2).1 = true →
      f.VerifyCheckpointBuffer (Load.FromFile f checkpoint_path [] []).2.1 = false →
      LoadCheckpoint f tt up checkpoint_path state =
        some (ORT_RETURN_IF_status "Checkpoint verification failed.", state) ∧
      LoadCheckpointToModel f checkpoint_path model_proto =
        some (ORT_RETURN_IF_status "Checkpoint verification failed.", model_proto) := by
    intro f h1 h2 h3 h4
    have hs := FromFile_rejected f checkpoint_path h1 h2 h3 h4
    have hn : (Load.FromFile f checkpoint_path [] []).1.IsOK = false := by
      rw [hs]; exact ORT_RETURN_IF_status_not_ok _
    refine ⟨?_, ?_⟩
    · rw [LoadCheckpoint, ToCheckpointState_file_error f tt up checkpoint_path state hn, hs]
    · rw [LoadCheckpointToModel, ToModelProto_file_error f checkpoint_path model_proto hn, hs]
  obtain ⟨k1, k2⟩ := key files hex hlen hread hver
  refine ⟨k1, k2, ORT_RETURN_IF_status_not_ok _, fun get => ?_⟩
  obtain ⟨g1, g2⟩ := key { files with GetCheckpoint := get } hex hlen hread hver
  exact ⟨g1.trans k1.symm, g2.trans k2.symm⟩

/-- Witness of C24: a file of three bytes that the verifier rejects. -/
theorem C24_verification_gates_access_witness :
    LoadCheckpoint (checkpoint_files false ⟨none, none, none⟩) four_byte_types unpack_copy
        "checkpoint" CheckpointState.blank =
      some (ORT_RETURN_IF_status "Checkpoint verification failed.", CheckpointState.blank) ∧
    LoadCheckpointToModel (checkpoint_files false ⟨none, none, none⟩) "checkpoint"
        ⟨some [record_bytes]⟩ =
      some (ORT_RETURN_IF_status "Checkpoint verification failed.", ⟨some [record_bytes]⟩) :=
  ⟨(C24_verification_gates_access (checkpoint_files false ⟨none, none, none⟩)
      four_byte_types unpack_copy "checkpoint" CheckpointState.blank ⟨some [record_bytes]⟩
      rfl rfl rfl rfl).1,
   (C24_verification_gates_access (checkpoint_files false ⟨none, none, none⟩)
      four_byte_types unpack_copy "checkpoint" CheckpointState.blank ⟨some [record_bytes]⟩
      rfl rfl rfl rfl).2.1⟩

/-! ### Loading a checkpoint into a model -/

/-- The tensor loop of `Load::ToModelProto` on tensors that have a name and decode:
the loop succeeds, a name that was in the map keeps its record, and a new name gets
the decoding of the first tensor of that name. -/
theorem ToModelProto_tensors_loop (l : List fbs.Tensor)
    (hl : ∀ t ∈ l, t.name.isSome = true ∧
      (LoadInitializerOrtFormat t TensorProto.empty ⟨false⟩).1.IsOK = true) :
    ∀ m : InlinedHashMap TensorProto, ∃ r,
      Load.ToModelProto.flatbuffer_tensors_to_tensor_protos.loop (l.map some) m =
        some (Status.OK, r) ∧
      ∀ k, InlinedHashMap.find r k =
        (InlinedHashMap.find m k).or
          ((l.find? (fun t => decide (t.name = some k))).map
            (fun t => (LoadInitializerOrtFormat t TensorProto.empty ⟨false⟩).2)) := by
  induction l with
  | nil =>
    intro m
    exact ⟨m, by simp [Load.ToModelProto.flatbuffer_tensors_to_tensor_protos.loop],
      fun k => by simp⟩
  | cons t rest ih =>
    intro m
    obtain ⟨hn, hok⟩ := hl t (List.mem_cons_self _ _)
    cases htn : t.name with
    | none => rw [htn] at hn; cases hn
    | some n =>
      obtain ⟨r, hr, hf⟩ := ih (fun t ht => hl t (List.mem_cons_of_mem _ ht))
        (InlinedHashMap.insert m n (LoadInitializerOrtFormat t TensorProto.empty ⟨false⟩).2)
      refine ⟨r, ?_, fun k => ?_⟩
      · simp only [List.map_cons, Load.ToModelProto.flatbuffer_tensors_to_tensor_protos.loop,
          hok, Bool.not_true, Bool.false_eq_true, if_false, htn, hr]
      · rw [hf, InlinedHashMap.insert, InlinedHashMap.find_emplace, Option.or_assoc,
          List.find?_cons]
        by_cases hk : n = k
        · simp [hk, htn]
        · simp [hk, htn]

/-- The lambda of `Load::ToModelProto` on a list that is null or holds tensors that
have a name and decode. -/
theorem ToModelProto_tensors (tensors : Option (List (Option fbs.Tensor)))
    (l : List fbs.Tensor) (htensors : tensors.getD [] = l.map some)
    (hl : ∀ t ∈ l, t.name.isSome = true ∧
      (LoadInitializerOrtFormat t TensorProto.empty ⟨false⟩).1.IsOK = true) :
    ∀ m : InlinedHashMap TensorProto, ∃ r,
      Load.ToModelProto.flatbuffer_tensors_to_tensor_protos tensors m =
        some (Status.OK, r) ∧
      ∀ k, InlinedHashMap.find r k =
        (InlinedHashMap.find m k).or
          ((l.find? (fun t => decide (t.name = some k))).map
            (fun t => (LoadInitializerOrtFormat t TensorProto.empty ⟨false⟩).2)) := by
  intro m
  cases ht : tensors with
  | none =>
    rw [ht] at htensors
    have hnil : l = [] := by
      cases l with
      | nil => rfl
      | cons _ _ => simp at htensors
    subst hnil
    exact ⟨m, rfl, fun k => by simp⟩
  | some ts =>
    rw [ht] at htensors
    simp only [Option.getD_some] at htensors
    subst htensors
    exact ToModelProto_tensors_loop l hl m

/-- The initializer loop of `Load::ToModelProto` on initializers that all have names:
it succeeds, and every initializer is replaced by the loaded tensor of its name when
there is one and stays otherwise. -/
theorem ToModelProto_copy_initializers (P : InlinedHashMap TensorProto)
    (inits : List TensorProto) (hn : ∀ init ∈ inits, init.has_name = true) :
    Load.ToModelProto.copy_initializers P inits =
      (Status.OK, inits.map (fun init => (InlinedHashMap.find P init.get_name).getD init)) := by
  induction inits with
  | nil => rfl
  | cons init rest ih =>
    have h1 := hn init (List.mem_cons_self _ _)
    have h2 := ih (fun i hi => hn i (List.mem_cons_of_mem _ hi))
    cases hf : InlinedHashMap.find P init.get_name with
    | none =>
      simp only [Load.ToModelProto.copy_initializers, h1, Bool.not_true, Bool.false_eq_true,
        if_false, hf, h2, List.map_cons, Option.getD_none]
    | some loaded =>
      simp only [Load.ToModelProto.copy_initializers, h1, Bool.not_true, Bool.false_eq_true,
        if_false, hf, h2, List.map_cons, Option.getD_some]

/-- What `Load::ToModelProto` returns for a file that is read and verified, tensors
that are not null, have a name and decode, and initializers that all have names: OK,
and every initializer is replaced by the decoding of the first module-state tensor of
its name or stays when there is none. -/
theorem ToModelProto_initializers (files : CheckpointFiles) (checkpoint_path : PathString)
    (model_proto : ModelProto) (bytes span : List Byte) (checkpoint : fbs.Checkpoint)
    (trainable frozen : List fbs.Tensor)
    (hfile : Load.FromFile files checkpoint_path [] [] = (Status.OK, bytes, span))
    (hget : files.GetCheckpoint span = some checkpoint)
    (htr : (checkpoint.module_state.bind (fun ms => ms.requires_grad)).getD [] =
      trainable.map some)
    (hfr : (checkpoint.module_state.bind (fun ms => ms.frozen_params)).getD [] =
      frozen.map some)
    (hdec : ∀ t ∈ trainable ++ frozen, t.name.isSome = true ∧
      (LoadInitializerOrtFormat t TensorProto.empty ⟨false⟩).1.IsOK = true)
    (hnames : ∀ init ∈ model_proto.get_initializer, init.has_name = true) :
    ∃ loaded : ModelProto,
      Load.ToModelProto files checkpoint_path model_proto = some (Status.OK, loaded) ∧
      loaded.get_initializer =
        model_proto.get_initializer.map (fun init =>
          match (trainable ++ frozen).find? (fun t => decide (t.name = init.name)) with
          | some t => (LoadInitializerOrtFormat t TensorProto.empty ⟨false⟩).2
          | none => init) := by
  cases hms : checkpoint.module_state with
  | none =>
    rw [hms] at htr hfr
    have h1 : trainable = [] := by
      cases trainable with
      | nil => rfl
      | cons _ _ => simp at htr
    have h2 : frozen = [] := by
      cases frozen with
      | nil => rfl
      | cons _ _ => simp at hfr
    subst h1 h2
    refine ⟨model_proto, ?_, ?_⟩
    · simp only [Load.ToModelProto, hfile, Status_OK_IsOK, Bool.not_true,
        Bool.false_eq_true, if_false, hget, hms]
    · simp
  | some ms =>
    rw [hms] at htr hfr
    change ms.requires_grad.getD [] = trainable.map some at htr
    change ms.frozen_params.getD [] = frozen.map some at hfr
    obtain ⟨r1, hr1, hf1⟩ := ToModelProto_tensors ms.requires_grad trainable htr
      (fun t ht => hdec t (List.mem_append_left _ ht)) []
    obtain ⟨r2, hr2, hf2⟩ := ToModelProto_tensors ms.frozen_params frozen hfr
      (fun t ht => hdec t (List.mem_append_right _ ht)) r1
    have hcopy := ToModelProto_copy_initializers r2 model_proto.get_initializer hnames
    refine ⟨{ model_proto with graph := some (model_proto.get_initializer.map
      (fun init => (InlinedHashMap.find r2 init.get_name).getD init)) }, ?_, ?_⟩
    · simp only [Load.ToModelProto, hfile, Status_OK_IsOK, Bool.not_true,
        Bool.false_eq_true, if_false, hget, hms, hr1, hr2, hcopy]
    · simp only [ModelProto.get_initializer, Option.getD_some]
      apply List.map_congr_left
      intro init hinit
      have hn := hnames init hinit
      cases hname : init.name with
      | none => simp [TensorProto.has_name, hname] at hn
      | some n =>
        have hg : init.get_name = n := by simp [TensorProto.get_name, hname]
        rw [hg, hf2, hf1, List.find?_append]
        simp only [InlinedHashMap.find, Option.none_or]
        cases List.find? (fun t => decide (t.name = some n)) trainable with
        | some t => simp
        | none =>
          cases List.find? (fun t => decide (t.name = some n)) frozen with
          | some t => simp
          | none => simp

/-- The lambda of `Load::ToModelProto` on a list that is null or holds the tensors `l`
is the loop over `l`. -/
theorem ToModelProto_tensors_eq_loop (tensors : Option (List (Option fbs.Tensor)))
    (l : List fbs.Tensor) (htensors : tensors.getD [] = l.map some)
    (m : InlinedHashMap TensorProto) :
    Load.ToModelProto.flatbuffer_tensors_to_tensor_protos tensors m =
      Load.ToModelProto.flatbuffer_tensors_to_tensor_protos.loop (l.map some) m := by
  cases ht : tensors with
  | none =>
    rw [ht] at htensors
    have hnil : l = [] := by
      cases l with
      | nil => rfl
      | cons _ _ => simp at htensors
    subst hnil
    rfl
  | some ts =>
    rw [ht] at htensors
    simp only [Option.getD_some] at htensors
    subst htensors
    rfl

/-- The tensor loop of `Load::ToModelProto` on tensors that all have a name returns a
status. -/
theorem ToModelProto_tensors_loop_returns (l : List fbs.Tensor)
    (hl : ∀ t ∈ l, t.name.isSome = true) :
    ∀ m : InlinedHashMap TensorProto, ∃ st r,
      Load.ToModelProto.flatbuffer_tensors_to_tensor_protos.loop (l.map some) m =
        some (st, r) := by
  induction l with
  | nil => intro m; exact ⟨_, _, rfl⟩
  | cons t rest ih =>
    intro m
    have hn := hl t (List.mem_cons_self _ _)
    cases htn : t.name with
    | none => rw [htn] at hn; cases hn
    | some n =>
      cases hok : (LoadInitializerOrtFormat t TensorProto.empty ⟨false⟩).1.IsOK with
      | true =>
        obtain ⟨st, r, hr⟩ := ih (fun t ht => hl t (List.mem_cons_of_mem _ ht))
          (InlinedHashMap.insert m n
            (LoadInitializerOrtFormat t TensorProto.empty ⟨false⟩).2)
        exact ⟨st, r, by
          simp only [List.map_cons, Load.ToModelProto.flatbuffer_tensors_to_tensor_protos.loop,
            hok, Bool.not_true, Bool.false_eq_true, if_false, htn, hr]⟩
      | false =>
        exact ⟨(LoadInitializerOrtFormat t TensorProto.empty ⟨false⟩).1, m, by
          simp only [List.map_cons, Load.ToModelProto.flatbuffer_tensors_to_tensor_protos.loop,
            hok, Bool.not_false, if_true]⟩

/-- The tensor loop of `Load::ToModelProto` on tensors that all have a name, one of
which does not decode, returns an error. -/
theorem ToModelProto_tensors_loop_fails (l : List fbs.Tensor)
    (hl : ∀ t ∈ l, t.name.isSome = true)
    (hf : ∃ t ∈ l, (LoadInitializerOrtFormat t TensorProto.empty ⟨false⟩).1.IsOK = false) :
    ∀ m : InlinedHashMap TensorProto, ∃ st r,
      Load.ToModelProto.flatbuffer_tensors_to_tensor_protos.loop (l.map some) m =
        some (st, r) ∧ st.IsOK = false := by
  induction l with
  | nil =>
    obtain ⟨t, ht, _⟩ := hf
    cases ht
  | cons t rest ih =>
    intro m
    have hn := hl t (List.mem_cons_self _ _)
    cases htn : t.name with
    | none => rw [htn] at hn; cases hn
    | some n =>
      cases hok : (LoadInitializerOrtFormat t TensorProto.empty ⟨false⟩).1.IsOK with
      | true =>
        have hf2 : ∃ t2 ∈ rest,
            (LoadInitializerOrtFormat t2 TensorProto.empty ⟨false⟩).1.IsOK = false := by
          obtain ⟨t2, ht2, hbad⟩ := hf
          rcases List.mem_cons.1 ht2 with h | h
          · subst h; rw [hok] at hbad; cases hbad
          · exact ⟨t2, h, hbad⟩
        obtain ⟨st, r, hr, hst⟩ := ih (fun t ht => hl t (List.mem_cons_of_mem _ ht)) hf2
          (InlinedHashMap.insert m n
            (LoadInitializerOrtFormat t TensorProto.empty ⟨false⟩).2)
        exact ⟨st, r, by
          simp only [List.map_cons, Load.ToModelProto.flatbuffer_tensors_to_tensor_protos.loop,
            hok, Bool.not_true, Bool.false_eq_true, if_false, htn, hr], hst⟩
      | false =>
        exact ⟨(LoadInitializerOrtFormat t TensorProto.empty ⟨false⟩).1, m, by
          simp only [List.map_cons, Load.ToModelProto.flatbuffer_tensors_to_tensor_protos.loop,
            hok, Bool.not_false, if_true], hok⟩

/-- An error of `Load::ToModelProto` on a model whose initializers all have names
leaves the model as it was: the tensors are all decoded before the first initializer is
written, and the loop over named initializers does not fail. -/
theorem ToModelProto_error_unchanged (files : CheckpointFiles)
    (checkpoint_path : PathString) (model_proto : ModelProto)
    (hnames : ∀ init ∈ model_proto.get_initializer, init.has_name = true)
    (st : Status) (loaded : ModelProto)
    (h : Load.ToModelProto files checkpoint_path model_proto = some (st, loaded))
    (hst : st.IsOK = false) : loaded = model_proto := by
  have hcopy : ∀ P, (Load.ToModelProto.copy_initializers P
      model_proto.get_initializer).1 = Status.OK := fun P => by
    rw [ToModelProto_copy_initializers P model_proto.get_initializer hnames]
  have hOK : ∀ x : Status, x = st → x.IsOK = true → False := fun x hx hxo => by
    rw [hx, hst] at hxo; cases hxo
  unfold Load.ToModelProto at h
  simp only at h
  split_ifs at h with h1
  · injection h with h; injection h with _ h; exact h.symm
  · cases hg : files.GetCheckpoint (Load.FromFile files checkpoint_path [] []).2.2 with
    | none =>
      rw [hg] at h
      injection h with h; injection h with _ h; exact h.symm
    | some ckpt =>
      rw [hg] at h
      simp only at h
      cases hms : ckpt.module_state with
      | none =>
        rw [hms] at h
        injection h with h; injection h with h _
        exact (hOK _ h Status_OK_IsOK).elim
      | some ms =>
        rw [hms] at h
        simp only at h
        cases hr1 : Load.ToModelProto.flatbuffer_tensors_to_tensor_protos
            ms.requires_grad [] with
        | none => rw [hr1] at h; cases h
        | some r1 =>
          rw [hr1] at h
          simp only at h
          split_ifs at h with h2
          · injection h with h; injection h with _ h; exact h.symm
          · cases hr2 : Load.ToModelProto.flatbuffer_tensors_to_tensor_protos
                ms.frozen_params r1.2 with
            | none => rw [hr2] at h; cases h
            | some r2 =>
              rw [hr2] at h
              simp only at h
              split_ifs at h with h3
              · injection h with h; injection h with _ h; exact h.symm
              · injection h with h; injection h with h _
                exact (hOK _ h (by rw [hcopy]; exact Status_OK_IsOK)).elim

/-- What `Load::ToModelProto` returns for a file that is read and verified when the
module-state tensors are not null and have a name and one of them does not decode: the
error, with the model as it was. -/
theorem ToModelProto_decode_failure (files : CheckpointFiles) (checkpoint_path : PathString)
    (model_proto : ModelProto) (bytes span : List Byte) (checkpoint : fbs.Checkpoint)
    (trainable frozen : List fbs.Tensor)
    (hfile : Load.FromFile files checkpoint_path [] [] = (Status.OK, bytes, span))
    (hget : files.GetCheckpoint span = some checkpoint)
    (htr : (checkpoint.module_state.bind (fun ms => ms.requires_grad)).getD [] =
      trainable.map some)
    (hfr : (checkpoint.module_state.bind (fun ms => ms.frozen_params)).getD [] =
      frozen.map some)
    (hn : ∀ t ∈ trainable ++ frozen, t.name.isSome = true)
    (hf : ∃ t ∈ trainable ++ frozen,
      (LoadInitializerOrtFormat t TensorProto.empty ⟨false⟩).1.IsOK = false) :
    ∃ st, Load.ToModelProto files checkpoint_path model_proto = some (st, model_proto) ∧
      st.IsOK = false := by
  cases hms : checkpoint.module_state with
  | none =>
    rw [hms] at htr hfr
    have h1 : trainable = [] := by
      cases trainable with
      | nil => rfl
      | cons _ _ => simp at htr
    have h2 : frozen = [] := by
      cases frozen with
      | nil => rfl
      | cons _ _ => simp at hfr
    subst h1 h2
    obtain ⟨t, ht, _⟩ := hf
    cases ht
  | some ms =>
    rw [hms] at htr hfr
    change ms.requires_grad.getD [] = trainable.map some at htr
    change ms.frozen_params.getD [] = frozen.map some at hfr
    have e1 := ToModelProto_tensors_eq_loop ms.requires_grad trainable htr
    have e2 := ToModelProto_tensors_eq_loop ms.frozen_params frozen hfr
    obtain ⟨st1, r1, hr1⟩ := ToModelProto_tensors_loop_returns trainable
      (fun t ht => hn t (List.mem_append_left _ ht)) []
    cases hst1 : st1.IsOK with
    | false =>
      exact ⟨st1, by
        simp only [Load.ToModelProto, hfile, Status_OK_IsOK, Bool.not_true,
          Bool.false_eq_true, if_false, hget, hms, e1, hr1, hst1, Bool.not_false, if_true],
        hst1⟩
    | true =>
      have hf2 : ∃ t ∈ frozen,
          (LoadInitializerOrtFormat t TensorProto.empty ⟨false⟩).1.IsOK = false := by
        obtain ⟨t, ht, hbad⟩ := hf
        rcases List.mem_append.1 ht with h | h
        · obtain ⟨st, r, hr, hst⟩ := ToModelProto_tensors_loop_fails trainable
            (fun t ht => hn t (List.mem_append_left _ ht)) ⟨t, h, hbad⟩ []
          rw [hr1] at hr
          injection hr with hr; injection hr with hr _
          rw [hr, hst] at hst1; cases hst1
        · exact ⟨t, h, hbad⟩
      obtain ⟨st2, r2, hr2, hst2⟩ := ToModelProto_tensors_loop_fails frozen
        (fun t ht => hn t (List.mem_append_right _ ht)) hf2 r1
      exact ⟨st2, by
        simp only [Load.ToModelProto, hfile, Status_OK_IsOK, Bool.not_true,
          Bool.false_eq_true, if_false, hget, hms, e1, hr1, hst1, e2, hr2, hst2,
          Bool.not_false, if_true],
        hst2⟩

/-- Counterexample to C23 as stated: the checkpoint is read and verified and holds the
trainable tensor `w` and the frozen tensor `unused`, which has no dims; the model has
the named initializers `w` and `b`. The tensor `unused` matches no initializer, and it
is not skipped without error: `Load::ToModelProto` returns an error, and the model is
as it was, so the initializer `w` is not the decoding of the tensor `w`. -/
theorem C23_counterexample :
    ∃ st decoded,
      Load.FromFile (checkpoint_files true checkpoint_unmatched_no_dims) "checkpoint" [] [] =
        (Status.OK, [1, 2, 3], [1, 2, 3]) ∧
      (∀ init ∈ model_two_initializers.get_initializer, init.has_name = true) ∧
      (∀ init ∈ model_two_initializers.get_initializer, init.name ≠ some "unused") ∧
      Load.ToModelProto (checkpoint_files true checkpoint_unmatched_no_dims) "checkpoint"
          model_two_initializers = some (st, model_two_initializers) ∧
      st.IsOK = false ∧
      LoadInitializerOrtFormat (wire_named (some "w")) TensorProto.empty ⟨false⟩ =
        (Status.OK, decoded) ∧
      model_two_initializers.get_initializer.head? = some record_bytes ∧
      record_bytes.name = (wire_named (some "w")).name ∧
      record_bytes ≠ decoded :=
  ⟨_, _, rfl, by decide, by decide, rfl, rfl, rfl, rfl, rfl, by decide⟩

/-- Claim C23, amended. For every checkpoint file that is read and verified, whose
module-state tensors (trainable list, then frozen list; a null list is empty) are not
null, and for every model whose initializers all have names: when every module-state
tensor has a name and decodes with zero-copy off, `Load::ToModelProto` returns OK, and
the initializers of the model afterwards are the initializers before, one for one in
the same order, where every initializer whose name matches a module-state tensor is the
decoding of the first such tensor and every initializer whose name matches none is
unchanged; module-state tensors without a matching initializer then add nothing and
cause no error. When every module-state tensor has a name and one of them, with or
without a matching initializer, does not decode, the call returns an error. Whenever
the call returns an error the model is as it was before the call. -/
theorem C23_model_initializers (files : CheckpointFiles) (checkpoint_path : PathString)
    (model_proto : ModelProto) (bytes span : List Byte) (checkpoint : fbs.Checkpoint)
    (trainable frozen : List fbs.Tensor)
    (hfile : Load.FromFile files checkpoint_path [] [] = (Status.OK, bytes, span))
    (hget : files.GetCheckpoint span = some checkpoint)
    (htr : (checkpoint.module_state.bind (fun ms => ms.requires_grad)).getD [] =
      trainable.map some)
    (hfr : (checkpoint.module_state.bind (fun ms => ms.frozen_params)).getD [] =
      frozen.map some)
    (hnames : ∀ init ∈ model_proto.get_initializer, init.has_name = true) :
    ((∀ t ∈ trainable ++ frozen, t.name.isSome = true ∧
        (LoadInitializerOrtFormat t TensorProto.empty ⟨false⟩).1.IsOK = true) →
      ∃ loaded : ModelProto,
        Load.ToModelProto files checkpoint_path model_proto = some (Status.OK, loaded) ∧
        loaded.get_initializer =
          model_proto.get_initializer.map (fun init =>
            match (trainable ++ frozen).find? (fun t => decide (t.name = init.name)) with
            | some t => (LoadInitializerOrtFormat t TensorProto.empty ⟨false⟩).2
            | none => init) ∧
        loaded.get_initializer.length = model_proto.get_initializer.length) ∧
    ((∀ t ∈ trainable ++ frozen, t.name.isSome = true) →
      (∃ t ∈ trainable ++ frozen,
        (LoadInitializerOrtFormat t TensorProto.empty ⟨false⟩).1.IsOK = false) →
      ∃ st, Load.ToModelProto files checkpoint_path model_proto = some (st, model_proto) ∧
        st.IsOK = false) ∧
    (∀ st loaded, Load.ToModelProto files checkpoint_path model_proto = some (st, loaded) →
      st.IsOK = false → loaded = model_proto) := by
  refine ⟨fun hdec => ?_, fun hn hf => ?_, fun st loaded h hst => ?_⟩
  · obtain ⟨loaded, h1, h2⟩ := ToModelProto_initializers files checkpoint_path model_proto
      bytes span checkpoint trainable frozen hfile hget htr hfr hdec hnames
    exact ⟨loaded, h1, h2, by rw [h2, List.length_map]⟩
  · exact ToModelProto_decode_failure files checkpoint_path model_proto bytes span
      checkpoint trainable frozen hfile hget htr hfr hn hf
  · exact ToModelProto_error_unchanged files checkpoint_path model_proto hnames st loaded
      h hst

/-- Witness of C23: the checkpoint holds the tensors `w` and `unused`, the model the
initializers `w` and `b`; `w` is overwritten with the decoded tensor, `b` stays, and
`unused` is passed over. -/
theorem C23_model_initializers_witness :
    ∃ loaded : ModelProto,
      Load.ToModelProto (checkpoint_files true checkpoint_two_tensors) "checkpoint"
          model_two_initializers = some (Status.OK, loaded) ∧
      loaded.get_initializer =
        [⟨some "w", none, [1], TensorProto_DataType_UINT8, [], some [7],
           TensorProto_DataLocation.DEFAULT, []⟩, named_proto "b"] ∧
      loaded.get_initializer.length = 2 :=
  match (C23_model_initializers (checkpoint_files true checkpoint_two_tensors) "checkpoint"
      model_two_initializers [1, 2, 3] [1, 2, 3] checkpoint_two_tensors
      [wire_named (some "w")] [wire_named (some "unused")] rfl rfl rfl rfl
      (by decide)).1 (by decide) with
  | ⟨loaded, h1, h2, h3⟩ => ⟨loaded, h1, h2, h3⟩

/-! ### Decode failures of `Load::ToCheckpointState` -/

/-- Counterexample to C25 as stated: for a verified checkpoint whose module state holds the
trainable tensor `w` and a null frozen list, `Load::ToCheckpointState` called on a
blank state returns an error, and the state of the caller holds the decoded parameter
`w` afterwards, while it held no parameter before the call. -/
theorem C25_counterexample :
    ∃ e state,
      Load.ToCheckpointState (checkpoint_files true checkpoint_half_module) four_byte_types
          unpack_copy "checkpoint" CheckpointState.blank = some (e, state) ∧
      e.IsOK = false ∧
      state.module_checkpoint_state.named_parameters =
        [("w", ⟨"w", OrtValue.tensor (float_tensor 1), true⟩)] ∧
      CheckpointState.blank.module_checkpoint_state.named_parameters = [] :=
  ⟨_, _, rfl, rfl, rfl, rfl⟩

/-- The function `Load::ToPropertyBag` returns no status but OK. -/
theorem ToPropertyBag_status (fbs_property_bag : Option fbs.PropertyBag) (bag : PropertyBag)
    (s : Status) (b : PropertyBag)
    (h : Load.ToPropertyBag fbs_property_bag bag = some (s, b)) : s = Status.OK := by
  unfold Load.ToPropertyBag at h
  split at h
  · cases h; rfl
  · simp only at h
    split at h
    · cases h
    · split at h
      · cases h
      · split at h
        · cases h
        · cases h; rfl

/-- Claim C25, amended. When `Load::ToCheckpointState` has read and verified the file
and a section fails to decode, it returns the error of that section and decodes no
later section, but the state of the caller is not rolled back. If the module state is
null or its trainable list fails, the state is as before the call. If the frozen list
fails, the trainable parameters that were decoded stay in the module state, and the
optimizer state and the property bag are as before. If the optimizer groups fail, the
module state is the decoded one, the optimizer state is as the failing decode left it,
and the property bag is as before. Decoding the property bag returns no error. -/
theorem C25_decode_failure (files : CheckpointFiles) (tt : Int → MLDataType)
    (up : ElemT → TensorProto → List Byte → Int → Status × List Byte)
    (checkpoint_path : PathString) (state : CheckpointState) (bytes span : List Byte)
    (checkpoint : fbs.Checkpoint)
    (hfile : Load.FromFile files checkpoint_path [] [] = (Status.OK, bytes, span))
    (hget : files.GetCheckpoint span = some checkpoint) :
    (checkpoint.module_state = none →
      ∃ e, e.IsOK = false ∧
        Load.ToCheckpointState files tt up checkpoint_path state = some (e, state)) ∧
    (∀ ms e partly, checkpoint.module_state = some ms →
      OrtValuesFromFlatbufferTensors tt up ms.requires_grad [] = some (e, partly) →
      e.IsOK = false →
      Load.ToCheckpointState files tt up checkpoint_path state = some (e, state)) ∧
    (∀ ms s trainable_params e partly, checkpoint.module_state = some ms →
      OrtValuesFromFlatbufferTensors tt up ms.requires_grad [] = some (s, trainable_params) →
      s.IsOK = true →
      OrtValuesFromFlatbufferTensors tt up ms.frozen_params [] = some (e, partly) →
      e.IsOK = false →
      Load.ToCheckpointState files tt up checkpoint_path state =
        some (e,
          { state with
            module_checkpoint_state :=
              { state.module_checkpoint_state with
                named_parameters :=
                  Load.ToModuleState.emplace_all true trainable_params
                    state.module_checkpoint_state.named_parameters } })) ∧
    (∀ s module_state e optimizer_state,
      Load.ToModuleState tt up checkpoint.module_state state.module_checkpoint_state =
        some (s, module_state) →
      s.IsOK = true →
      Load.ToOptimizerState tt up checkpoint.optimizer_groups
        state.optimizer_checkpoint_state = some (e, optimizer_state) →
      e.IsOK = false →
      Load.ToCheckpointState files tt up checkpoint_path state =
        some (e,
          { state with
            module_checkpoint_state := module_state,
            optimizer_checkpoint_state := optimizer_state })) ∧
    (∀ (bag : PropertyBag) (s : Status) (b : PropertyBag),
      Load.ToPropertyBag checkpoint.property_bag bag = some (s, b) → s = Status.OK) := by
  refine ⟨fun hms => ?_, fun ms e partly hms h1 he => ?_,
    fun ms s tp e partly hms h1 hs h2 he => ?_, fun s m e o hm hs ho he => ?_,
    fun bag s b h => ToPropertyBag_status _ bag s b h⟩
  · refine ⟨ORT_RETURN_IF_status
      ("Checkpoint is invalid. Expected: Valid checkpoint module state flatbuffer. " ++
        "Acutal: nullptr."), ORT_RETURN_IF_status_not_ok _, ?_⟩
    simp only [Load.ToCheckpointState, hfile, Status_OK_IsOK, Bool.not_true,
      Bool.false_eq_true, if_false, hget, hms, Load.ToModuleState,
      ORT_RETURN_IF_status_not_ok, Bool.not_false, if_true]
  · simp only [Load.ToCheckpointState, hfile, Status_OK_IsOK, Bool.not_true,
      Bool.false_eq_true, if_false, hget, hms, Load.ToModuleState, h1, he, Bool.not_false,
      if_true]
  · simp only [Load.ToCheckpointState, hfile, Status_OK_IsOK, Bool.not_true,
      Bool.false_eq_true, if_false, hget, hms, Load.ToModuleState, h1, hs, h2, he,
      Bool.not_false, if_true]
  · simp only [Load.ToCheckpointState, hfile, Status_OK_IsOK, Bool.not_true,
      Bool.false_eq_true, if_false, hget, hm, hs, ho, he, Bool.not_false, if_true]

/-- Witness of C25: the null frozen list fails after the trainable parameter `w` was
decoded, and the parameter stays in the state that is returned with the error. -/
theorem C25_decode_failure_witness :
    Load.ToCheckpointState (checkpoint_files true checkpoint_half_module) four_byte_types
        unpack_copy "checkpoint" CheckpointState.blank =
      some (ORT_RETURN_IF_status
          ("Expected: Both trainable and non trainable tensors must exist." ++
            " Actual: Encountered a nullptr. Checkpoint file is invalid"),
        { CheckpointState.blank with
          module_checkpoint_state :=
            { CheckpointState.blank.module_checkpoint_state with
              named_parameters :=
                Load.ToModuleState.emplace_all true
                  [("w", OrtValue.tensor (float_tensor 1))]
                  CheckpointState.blank.module_checkpoint_state.named_parameters } }) :=
  (C25_decode_failure (checkpoint_files true checkpoint_half_module) four_byte_types
    unpack_copy "checkpoint" CheckpointState.blank [1, 2, 3] [1, 2, 3] checkpoint_half_module
    rfl rfl).2.2.1
    ⟨some [some (wire_of_tensor builder_at_4096 "w" (OrtValue.tensor (float_tensor 1)))],
      none⟩
    Status.OK [("w", OrtValue.tensor (float_tensor 1))]
    (ORT_RETURN_IF_status
      ("Expected: Both trainable and non trainable tensors must exist." ++
        " Actual: Encountered a nullptr. Checkpoint file is invalid"))
    [] rfl rfl rfl rfl rfl

/-! ### Bounds of the builder capacity -/

/-- Claim C38. For every pair of tensor lists whose byte sizes sum to `S` with
`S + 2^20 - 1` not overflowing `size_t`, the builder capacity `C` computed by
`Save::FromTensorProtos` is a positive multiple of `2^20` with
`max(S, 2^20) <= C < max(S, 2^20) + 2^20`; in particular `C = 2^20` for every
`S <= 2^20`, `S = 0` included. -/
theorem C38_capacity_bounds (byte_size : TensorProto → Nat) (tr ntr : List TensorProto)
    (h : (tr.map byte_size).sum + (ntr.map byte_size).sum + 2 ^ 20 - 1 < 2 ^ 64) :
    Save.FromTensorProtos.fbs_buffer_size byte_size tr ntr % 2 ^ 20 = 0 ∧
    0 < Save.FromTensorProtos.fbs_buffer_size byte_size tr ntr ∧
    max ((tr.map byte_size).sum + (ntr.map byte_size).sum) (2 ^ 20) ≤
      Save.FromTensorProtos.fbs_buffer_size byte_size tr ntr ∧
    Save.FromTensorProtos.fbs_buffer_size byte_size tr ntr <
      max ((tr.map byte_size).sum + (ntr.map byte_size).sum) (2 ^ 20) + 2 ^ 20 ∧
    ((tr.map byte_size).sum + (ntr.map byte_size).sum ≤ 2 ^ 20 →
      Save.FromTensorProtos.fbs_buffer_size byte_size tr ntr = 2 ^ 20) := by
  rw [fbs_buffer_size_eq byte_size tr ntr h]
  generalize (tr.map byte_size).sum + (ntr.map byte_size).sum = S at h ⊢
  have hlast : S ≤ 2 ^ 20 → (max S (2 ^ 20) + 2 ^ 20 - 1) / 2 ^ 20 * 2 ^ 20 = 2 ^ 20 := by
    intro hS
    rw [max_eq_right hS]
    norm_num
  have hM : 2 ^ 20 ≤ max S (2 ^ 20) := le_max_right _ _
  generalize max S (2 ^ 20) = M at hM hlast ⊢
  have hdm := Nat.div_add_mod (M + 2 ^ 20 - 1) (2 ^ 20)
  have hlt := Nat.mod_lt (M + 2 ^ 20 - 1) (by norm_num : 0 < 2 ^ 20)
  have hmul : (M + 2 ^ 20 - 1) / 2 ^ 20 * 2 ^ 20 = 2 ^ 20 * ((M + 2 ^ 20 - 1) / 2 ^ 20) :=
    Nat.mul_comm _ _
  refine ⟨Nat.mul_mod_left _ _, ?_, ?_, ?_, ?_⟩
  · omega
  · omega
  · omega
  · exact hlast

/-- Witness of C38: one tensor of three payload bytes gives a capacity of 1 MiB. -/
theorem C38_capacity_bounds_witness :
    Save.FromTensorProtos.fbs_buffer_size raw_byte_size [record_bytes] [] = 2 ^ 20 :=
  (C38_capacity_bounds raw_byte_size [record_bytes] []
    (by simp [raw_byte_size, record_bytes])).2.2.2.2 (by simp [raw_byte_size, record_bytes])

/-! ### The location of a saved tensor -/

/-- Claim C32. The result of `SaveOrtValueOrtFormat` does not depend on the location of
the tensor: for every tensor of a non-string element type at any location, also one
that is neither on CPU, in CPU input or output memory, nor on GPU, whose copy through
the data-transfer manager succeeds, the function returns OK with the wire tensor made
of the name, the shape, the element type and the copied bytes; and two tensors that
differ only in their location and are copied alike give the same result. -/
theorem C32_device_not_checked (tensor_name : String) (t : Tensor) (loc : OrtMemoryInfo)
    (mgr : DataTransferManager) (builder : FlatBufferBuilder)
    (hns : t.IsDataTypeString = false)
    (hcopy : (mgr.CopyTensor { t with location := loc }
      ⟨t.dtype, t.shape, List.replicate t.SizeInBytes 0, cpu_alloc_info⟩).1.IsOK = true) :
    SaveOrtValueOrtFormat tensor_name (OrtValue.tensor { t with location := loc }) mgr
        builder =
      Except.ok ⟨some tensor_name, some "", some t.shape, t.GetElementType,
        some (builder.CreateVector (buffer_after_write t.SizeInBytes
          (mgr.CopyTensor { t with location := loc }
            ⟨t.dtype, t.shape, List.replicate t.SizeInBytes 0, cpu_alloc_info⟩).2)),
        none⟩ ∧
    ∀ loc2 : OrtMemoryInfo,
      mgr.CopyTensor { t with location := loc2 }
          ⟨t.dtype, t.shape, List.replicate t.SizeInBytes 0, cpu_alloc_info⟩ =
        mgr.CopyTensor { t with location := loc }
          ⟨t.dtype, t.shape, List.replicate t.SizeInBytes 0, cpu_alloc_info⟩ →
      SaveOrtValueOrtFormat tensor_name (OrtValue.tensor { t with location := loc2 }) mgr
          builder =
        SaveOrtValueOrtFormat tensor_name (OrtValue.tensor { t with location := loc }) mgr
          builder := by
  have hstr : ∀ d : List Byte, Tensor.IsDataTypeString
      { dtype := t.dtype, shape := t.shape, data := d, location := cpu_alloc_info } =
      false := by
    intro d
    simpa [Tensor.IsDataTypeString] using hns
  have hsize : ∀ l : OrtMemoryInfo,
      Tensor.SizeInBytes { t with location := l } = t.SizeInBytes := fun _ => rfl
  refine ⟨?_, fun loc2 h2 => ?_⟩
  · unfold SaveOrtValueOrtFormat
    simp only [hsize, List.length_replicate, ne_eq, not_true_eq_false, if_false, hcopy,
      Bool.not_true, Bool.false_eq_true, hstr, SaveDims, Tensor.GetElementType]
  · unfold SaveOrtValueOrtFormat
    simp only [hsize, h2]

/-- Witness of C32: a float tensor on a device that is neither CPU nor GPU, in default
memory, is saved with status OK under the copying manager. -/
theorem C32_device_not_checked_witness :
    (other_device_info.device.device_type ≠ OrtDevice.CPU ∧
      other_device_info.mem_type ≠ OrtMemTypeCPUInput ∧
      other_device_info.mem_type ≠ OrtMemTypeCPUOutput ∧
      other_device_info.device.device_type ≠ OrtDevice.GPU) ∧
    SaveOrtValueOrtFormat "w"
        (OrtValue.tensor { float_tensor 7 with location := other_device_info })
        copying_manager builder_at_4096 =
      Except.ok ⟨some "w", some "", some [1], TensorProto_DataType_FLOAT,
        some ⟨4096, [7, 0, 0, 0]⟩, none⟩ :=
  ⟨by decide,
   (C32_device_not_checked "w" (float_tensor 7) other_device_info copying_manager
      builder_at_4096 rfl rfl).1⟩

/-! ### The output of a failed sparse decode -/

/-- Claim C33. `LoadSparseInitializerOrtFormat` is atomic on failure: whenever it
returns a status that is not OK (values, indices or dims missing, an empty values name,
or a failing tensor decode), the sparse tensor of the caller is exactly what it was
before the call; whenever it succeeds, the status is `Status::OK()` and the sparse
tensor of the caller is the decoded record, made of the decoded values, the decoded
indices and the wire dims, with nothing of its old value. -/
theorem C33_sparse_atomic (w : fbs.SparseTensor) (init : SparseTensorProto)
    (opts : OrtFormatLoadOptions) :
    ((LoadSparseInitializerOrtFormat w init opts).1.IsOK = false →
      (LoadSparseInitializerOrtFormat w init opts).2 = init) ∧
    ((LoadSparseInitializerOrtFormat w init opts).1.IsOK = true →
      (LoadSparseInitializerOrtFormat w init opts).1 = Status.OK ∧
      ∃ v i d, w.values = some v ∧ w.indices = some i ∧ w.dims = some d ∧
        (LoadSparseInitializerOrtFormat w init opts).2 =
          ⟨some (LoadInitializerOrtFormat v TensorProto.empty opts).2,
           some (LoadInitializerOrtFormat i TensorProto.empty opts).2, d⟩) := by
  cases hv : w.values with
  | none =>
    simp [LoadSparseInitializerOrtFormat, hv, ORT_RETURN_IF_status_not_ok]
  | some v =>
    by_cases h1 : (LoadInitializerOrtFormat v TensorProto.empty opts).1.IsOK = true
    · by_cases hname : (LoadInitializerOrtFormat v TensorProto.empty opts).2.get_name = ""
      · simp [LoadSparseInitializerOrtFormat, hv, h1, hname, ORT_RETURN_IF_status_not_ok,
          SparseTensorProto.get_values, SparseTensorProto.empty]
      · cases hi : w.indices with
        | none =>
          simp [LoadSparseInitializerOrtFormat, hv, h1, hname, hi,
            ORT_RETURN_IF_status_not_ok, SparseTensorProto.get_values,
            SparseTensorProto.empty]
        | some i =>
          by_cases h2 : (LoadInitializerOrtFormat i TensorProto.empty opts).1.IsOK = true
          · cases hd : w.dims with
            | none =>
              simp [LoadSparseInitializerOrtFormat, hv, h1, hname, hi, h2, hd,
                ORT_RETURN_IF_status_not_ok, SparseTensorProto.get_values,
                SparseTensorProto.get_indices, SparseTensorProto.empty]
            | some d =>
              simp [LoadSparseInitializerOrtFormat, hv, h1, hname, hi, h2, hd,
                SparseTensorProto.get_values, SparseTensorProto.get_indices,
                SparseTensorProto.empty, Status_OK_IsOK]
          · simp [LoadSparseInitializerOrtFormat, hv, h1, hname, hi, h2,
              SparseTensorProto.get_values, SparseTensorProto.get_indices,
              SparseTensorProto.empty]
    · simp [LoadSparseInitializerOrtFormat, hv, h1, SparseTensorProto.get_values,
        SparseTensorProto.empty]

/-- Witness of C33: a wire record without indices leaves the sparse tensor of the
caller as it was, and a complete wire record replaces it. -/
theorem C33_sparse_atomic_witness :
    (LoadSparseInitializerOrtFormat ⟨some (wire_named (some "v")), none, some [4]⟩
        sparse_record ⟨false⟩).2 = sparse_record ∧
    (LoadSparseInitializerOrtFormat wire_sparse sparse_record ⟨false⟩).1 = Status.OK :=
  ⟨(C33_sparse_atomic ⟨some (wire_named (some "v")), none, some [4]⟩ sparse_record
      ⟨false⟩).1 rfl,
   ((C33_sparse_atomic wire_sparse sparse_record ⟨false⟩).2 rfl).1⟩

/-! ### Attribute types outside the nine kinds -/

/-- Claim C34. For every wire attribute whose type tag is outside the nine kinds,
`LoadAttributeOrtFormat` returns OK with an attribute that has the name, the doc
string and the type tag of the wire attribute and no payload, and leaves `sub_graph`
as it was, whatever the load options; while `SaveAttributeOrtFormat` fails for every
attribute of such a type and emits no record. -/
theorem C34_unknown_type_decodes
    (LF : fbs.Graph → Graph → Node → OrtFormatLoadOptions → logging.Logger → Option Graph →
      Status × Option Graph)
    (fbs_attr : fbs.Attribute) (attr_proto : AttributeProto) (sub_graph : Option Graph)
    (graph : Graph) (node : Node) (opts : OrtFormatLoadOptions) (logger : logging.Logger)
    (ht : fbs_attr.type ∉ AttributeType_nine_kinds) :
    LoadAttributeOrtFormat LF fbs_attr attr_proto sub_graph graph node opts logger =
      (Status.OK,
        { AttributeProto.empty with
          name := fbs_attr.name, doc_string := fbs_attr.doc_string, type := fbs_attr.type },
        sub_graph) ∧
    ∀ (unpack : TensorProto → Path → Except Status (List Byte))
      (ser : Graph → Except Status fbs.Graph) (enum_name : Int → String)
      (builder : FlatBufferBuilder) (saved : AttributeProto) (model_path : Path)
      (subgraph : Option Graph), saved.type = fbs_attr.type →
      ∃ e, SaveAttributeOrtFormat unpack ser enum_name builder saved model_path subgraph =
        Except.error e ∧ e.IsOK = false := by
  simp only [AttributeType_nine_kinds, List.mem_cons, List.mem_singleton, List.not_mem_nil,
    or_false, not_or] at ht
  obtain ⟨h1, h2, h3, h4, h5, h6, h7, h8, h9⟩ := ht
  have hn : LOAD_STR_FROM_ORT_FORMAT none fbs_attr.name = fbs_attr.name := by
    cases fbs_attr.name <;> rfl
  have hdoc : LOAD_STR_FROM_ORT_FORMAT none fbs_attr.doc_string = fbs_attr.doc_string := by
    cases fbs_attr.doc_string <;> rfl
  refine ⟨?_, fun unpack ser enum_name builder saved model_path subgraph hs => ?_⟩
  · unfold LoadAttributeOrtFormat
    simp only [if_neg h1, if_neg h2, if_neg h3, if_neg h4, if_neg h5, if_neg h6, if_neg h7,
      if_neg h8, if_neg h9, AttributeProto.Clear, AttributeProto.empty, hn, hdoc]
  · rw [← hs] at h1 h2 h3 h4 h5 h6 h7 h8 h9
    refine ⟨ORT_MAKE_STATUS StatusCode.INVALID_ARGUMENT
      ("SaveAttributeOrtFormat: Unsupported attribute type: " ++ enum_name saved.type),
      ?_, ?_⟩
    · unfold SaveAttributeOrtFormat
      simp only [if_neg h1, if_neg h2, if_neg h3, if_neg h4, if_neg h5, if_neg h6, if_neg h7,
        if_neg h8, if_neg h9]
    · simp [ORT_MAKE_STATUS, Status.IsOK]

/-- Witness of C34: a wire attribute of type SPARSE_TENSOR is decoded to an attribute
with name and type only. -/
theorem C34_unknown_type_decodes_witness :
    LoadAttributeOrtFormat deserializer_ok
        (wire_attr_of_type AttributeProto_AttributeType_SPARSE_TENSOR) AttributeProto.empty
        none ⟨[]⟩ ⟨0⟩ ⟨false⟩ ⟨0⟩ =
      (Status.OK,
        { AttributeProto.empty with
          name := some "a", type := AttributeProto_AttributeType_SPARSE_TENSOR }, none) :=
  (C34_unknown_type_decodes deserializer_ok
    (wire_attr_of_type AttributeProto_AttributeType_SPARSE_TENSOR) AttributeProto.empty
    none ⟨[]⟩ ⟨0⟩ ⟨false⟩ ⟨0⟩ (by decide)).1

/-! ### The element types of typed materialization -/

/-- The `switch` of `LoadOrtValueOrtFormat` falls to its `default` label exactly for
the tags outside the twelve that have a case. -/
theorem LoadOrtValueOrtFormat_switch_none_iff (tag : Int) :
    LoadOrtValueOrtFormat_switch tag = none ↔ tag ∉ materialized_element_types := by
  constructor
  · intro hs hin
    simp only [materialized_element_types, List.mem_cons, List.mem_singleton,
      List.not_mem_nil, or_false] at hin
    rcases hin with h | h | h | h | h | h | h | h | h | h | h | h <;>
      (rw [h] at hs; revert hs; decide)
  · intro hout
    simp only [materialized_element_types, List.mem_cons, List.mem_singleton,
      List.not_mem_nil, or_false, not_or] at hout
    obtain ⟨h1, h2, h3, h4, h5, h6, h7, h8, h9, h10, h11, h12⟩ := hout
    simp only [LoadOrtValueOrtFormat_switch, if_neg h1, if_neg h2, if_neg h3, if_neg h4,
      if_neg h5, if_neg h6, if_neg h7, if_neg h8, if_neg h9, if_neg h10, if_neg h11,
      if_neg h12]

/-- The tags named before the `default` label are tags for which the type lookup has a
type, and none of them has a case of its own. -/
theorem unimplemented_element_types_spec (tag : Int)
    (h : tag ∈ unimplemented_element_types) :
    tag ∈ TensorTypeFromONNXEnum_tags ∧ tag ∉ materialized_element_types := by
  simp only [unimplemented_element_types, List.mem_cons, List.mem_singleton,
    List.not_mem_nil, or_false] at h
  rcases h with h | h | h | h | h | h <;> (rw [h]; decide)

/-- A tag for which the type lookup has a type has a case of its own or is named before
the `default` label. -/
theorem TensorTypeFromONNXEnum_tags_spec (tag : Int)
    (h : tag ∈ TensorTypeFromONNXEnum_tags) :
    tag ∈ materialized_element_types ∨ tag ∈ unimplemented_element_types := by
  simp only [TensorTypeFromONNXEnum_tags, List.mem_cons, List.mem_singleton,
    List.not_mem_nil, or_false] at h
  rcases h with h | h | h | h | h | h | h | h | h | h | h | h | h | h | h | h | h | h <;>
    (rw [h]; decide)

/-- Materialization of a wire tensor with name and dims whose tag is named before the
`default` label: NOT_IMPLEMENTED, with the value of the caller as it was. -/
theorem LoadOrtValueOrtFormat_unimplemented (tt : Int → MLDataType)
    (up : ElemT → TensorProto → List Byte → Int → Status × List Byte)
    (x : fbs.Tensor) (tn : String) (ov : OrtValue) (xn : String) (xd : List Int)
    (hxn : x.name = some xn) (hxd : x.dims = some xd)
    (hx : x.data_type ∈ unimplemented_element_types) :
    LoadOrtValueOrtFormat tt up x tn ov =
      some (ORT_MAKE_STATUS StatusCode.NOT_IMPLEMENTED
        ("Cannot unpack tensor with type " ++ toString x.data_type), xn, ov) := by
  obtain ⟨hmem, hout⟩ := unimplemented_element_types_spec x.data_type hx
  have hs := (LoadOrtValueOrtFormat_switch_none_iff x.data_type).2 hout
  simp only [LoadOrtValueOrtFormat, hxn, hxd, hmem, not_true_eq_false, if_false, hs]

/-- Materialization of a wire tensor with name and dims for whose tag the type lookup
has no type: the call returns no status. -/
theorem LoadOrtValueOrtFormat_no_type (tt : Int → MLDataType)
    (up : ElemT → TensorProto → List Byte → Int → Status × List Byte)
    (x : fbs.Tensor) (tn : String) (ov : OrtValue) (xn : String) (xd : List Int)
    (hxn : x.name = some xn) (hxd : x.dims = some xd)
    (hx : x.data_type ∉ TensorTypeFromONNXEnum_tags) :
    LoadOrtValueOrtFormat tt up x tn ov = none := by
  simp only [LoadOrtValueOrtFormat, hxn, hxd, hx, not_false_eq_true, if_true]

/-- Counterexample to C35 as stated: the wire tensor `w` of one byte with name, dims and
the tag 99, which is none of the twelve tags. The type lookup, which runs before the
`switch`, has no type for the tag 99, so with any collaborators
`LoadOrtValueOrtFormat` returns no status, and so not NOT_IMPLEMENTED. -/
theorem C35_counterexample :
    wire_unknown_tag.name = some "w" ∧ wire_unknown_tag.dims = some [1] ∧
    wire_unknown_tag.data_type = 99 ∧
    wire_unknown_tag.data_type ∉ materialized_element_types ∧
    ∀ (tt : Int → MLDataType)
      (up : ElemT → TensorProto → List Byte → Int → Status × List Byte)
      (tn : String) (ov : OrtValue),
      LoadOrtValueOrtFormat tt up wire_unknown_tag tn ov = none ∧
      LoadOrtValueOrtFormat tt up wire_unknown_tag tn ov ≠
        some (ORT_MAKE_STATUS StatusCode.NOT_IMPLEMENTED
          ("Cannot unpack tensor with type " ++ toString wire_unknown_tag.data_type),
          "w", ov) := by
  refine ⟨rfl, rfl, rfl, by decide, fun tt up tn ov => ?_⟩
  have h := LoadOrtValueOrtFormat_no_type tt up wire_unknown_tag tn ov "w" [1] rfl rfl
    (by decide)
  exact ⟨h, by rw [h]; exact fun hc => Option.noConfusion hc⟩

/-- Claim C35, amended. Typed materialization accepts exactly twelve element types.
For a wire tensor with name and dims present, `LoadOrtValueOrtFormat` hands the bytes
of a raw payload that is present to `UnpackTensor` at the element type of the tag, and
returns its error or OK with the tensor, for each of the twelve tags FLOAT, BOOL,
DOUBLE, STRING and the signed and unsigned integers of 8, 16, 32 and 64 bits. It
returns the NOT_IMPLEMENTED of its `default` label, leaving the value of the caller as
it was, for the six tags FLOAT16, BFLOAT16 and the four FLOAT8 formats. For every tag
outside these eighteen the type lookup, which runs before the `switch`, has no type
and the call returns no status. Hence for every tensor of element type FLOAT16 or
BFLOAT16 whose copy succeeds, `SaveOrtValueOrtFormat` succeeds and
`LoadOrtValueOrtFormat` fails on the saved record with NOT_IMPLEMENTED. -/
theorem C35_twelve_element_types (tt : Int → MLDataType)
    (up : ElemT → TensorProto → List Byte → Int → Status × List Byte)
    (w : fbs.Tensor) (tn : String) (ov : OrtValue) (n : String) (d : List Int)
    (hn : w.name = some n) (hd : w.dims = some d) :
    (w.data_type ∈ unimplemented_element_types →
      LoadOrtValueOrtFormat tt up w tn ov =
        some (ORT_MAKE_STATUS StatusCode.NOT_IMPLEMENTED
          ("Cannot unpack tensor with type " ++ toString w.data_type), n, ov)) ∧
    (w.data_type ∉ materialized_element_types →
      w.data_type ∉ unimplemented_element_types →
      LoadOrtValueOrtFormat tt up w tn ov = none) ∧
    (w.data_type ∈ materialized_element_types →
      ∀ raw, w.raw_data = some raw →
        ∃ T, LoadOrtValueOrtFormat_switch w.data_type = some T ∧
          LoadOrtValueOrtFormat tt up w tn ov =
            some (if (up T { TensorProto.empty with data_type := w.data_type } raw.elems
                  (TensorShape_Size d)).1.IsOK = true then
                (Status.OK, n,
                  OrtValue.tensor ⟨tt w.data_type, d,
                    (up T { TensorProto.empty with data_type := w.data_type } raw.elems
                      (TensorShape_Size d)).2, cpu_alloc_info⟩)
              else
                ((up T { TensorProto.empty with data_type := w.data_type } raw.elems
                  (TensorShape_Size d)).1, n, ov))) ∧
    (∀ (t : Tensor) (mgr : DataTransferManager) (builder : FlatBufferBuilder),
      (t.dtype.element_type = TensorProto_DataType_FLOAT16 ∨
        t.dtype.element_type = TensorProto_DataType_BFLOAT16) →
      (mgr.CopyTensor t
        ⟨t.dtype, t.shape, List.replicate t.SizeInBytes 0, cpu_alloc_info⟩).1.IsOK = true →
      ∃ saved,
        SaveOrtValueOrtFormat n (OrtValue.tensor t) mgr builder = Except.ok saved ∧
        LoadOrtValueOrtFormat tt up saved tn ov =
          some (ORT_MAKE_STATUS StatusCode.NOT_IMPLEMENTED
            ("Cannot unpack tensor with type " ++ toString t.dtype.element_type), n, ov)) ∧
    (ORT_MAKE_STATUS StatusCode.NOT_IMPLEMENTED
      ("Cannot unpack tensor with type " ++ toString w.data_type)).IsOK = false := by
  refine ⟨LoadOrtValueOrtFormat_unimplemented tt up w tn ov n d hn hd,
    fun h1 h2 => LoadOrtValueOrtFormat_no_type tt up w tn ov n d hn hd
      (fun hin => (TensorTypeFromONNXEnum_tags_spec _ hin).elim h1 h2),
    fun hin raw hraw => ?_, fun t mgr builder ht hcopy => ?_,
    by simp [ORT_MAKE_STATUS, Status.IsOK]⟩
  · cases hs : LoadOrtValueOrtFormat_switch w.data_type with
    | none => exact absurd hin ((LoadOrtValueOrtFormat_switch_none_iff _).1 hs)
    | some T =>
      refine ⟨T, rfl, ?_⟩
      have hmem := LoadOrtValueOrtFormat_switch_tags _ _ hs
      simp only [LoadOrtValueOrtFormat, hn, hd, hmem, not_true_eq_false, if_false, hs, hraw]
      by_cases hok : (up T { TensorProto.empty with data_type := w.data_type } raw.elems
          (TensorShape_Size d)).1.IsOK = true
      · simp [hok]
      · simp [hok]
  · have hns : t.IsDataTypeString = false := by
      rcases ht with h | h <;> simp [Tensor.IsDataTypeString, h,
        TensorProto_DataType_FLOAT16, TensorProto_DataType_BFLOAT16,
        TensorProto_DataType_STRING]
    have hstr : ∀ b : List Byte, Tensor.IsDataTypeString
        { dtype := t.dtype, shape := t.shape, data := b, location := cpu_alloc_info } =
        false := by
      intro b
      simpa [Tensor.IsDataTypeString] using hns
    refine ⟨⟨some n, some "", some t.shape, t.dtype.element_type,
      some (builder.CreateVector (buffer_after_write t.SizeInBytes
        (mgr.CopyTensor t
          ⟨t.dtype, t.shape, List.replicate t.SizeInBytes 0, cpu_alloc_info⟩).2)), none⟩,
      ?_, ?_⟩
    · unfold SaveOrtValueOrtFormat
      simp only [List.length_replicate, ne_eq, not_true_eq_false, if_false, hcopy,
        Bool.not_true, Bool.false_eq_true, hstr, SaveDims, Tensor.GetElementType]
    · refine LoadOrtValueOrtFormat_unimplemented tt up _ tn ov n t.shape rfl rfl ?_
      rcases ht with h | h <;> (simp only [h]; decide)

/-- Witness of C35: a 16-bit float tensor is saved with status OK, and the saved record
is not materialized. -/
theorem C35_twelve_element_types_witness :
    ∃ saved,
      SaveOrtValueOrtFormat "h" (OrtValue.tensor half_tensor) copying_manager
          builder_at_4096 = Except.ok saved ∧
      LoadOrtValueOrtFormat four_byte_types unpack_copy saved "old" OrtValue.unset =
        some (ORT_MAKE_STATUS StatusCode.NOT_IMPLEMENTED
          ("Cannot unpack tensor with type " ++ toString TensorProto_DataType_FLOAT16),
          "h", OrtValue.unset) :=
  (C35_twelve_element_types four_byte_types unpack_copy (wire_named (some "h")) "old"
    OrtValue.unset "h" [1] rfl rfl).2.2.2.1 half_tensor copying_manager builder_at_4096
    (Or.inl rfl) rfl

/-! ### Duplicate names in a module state -/

/-- The parameter loops of `Load::ToModuleState` on any values: a name that is in the
collection keeps its parameter, and a new name gets the first value of that name. -/
theorem ToModuleState_emplace_all_find (flag : Bool) (l : List (String × OrtValue)) :
    ∀ (m0 : InlinedHashMap Parameter) (k : String),
      InlinedHashMap.find (Load.ToModuleState.emplace_all flag l m0) k =
        (InlinedHashMap.find m0 k).or
          ((InlinedHashMap.find l k).map (fun v => (⟨k, v, flag⟩ : Parameter))) := by
  induction l with
  | nil => intro m0 k; simp [Load.ToModuleState.emplace_all, InlinedHashMap.find]
  | cons e rest ih =>
    intro m0 k
    obtain ⟨name, v⟩ := e
    simp only [Load.ToModuleState.emplace_all]
    rw [ih, InlinedHashMap.find_emplace, InlinedHashMap.find_cons, Option.or_assoc]
    by_cases hk : name = k
    · subst hk
      simp
    · simp [hk]

/-- Claim C36. `Load::ToModuleState` never rejects duplicate tensor names and resolves
them first-write-wins. For every trainable and frozen wire list of host tensors of
supported types, with any repetition of names within and across the lists, and every
destination collection, the load returns OK, and under every name the loaded
collection holds the parameter that the destination held already; otherwise the first
trainable tensor of that name with the requires-gradient flag set; otherwise the first
frozen tensor of that name with the flag cleared. -/
theorem C36_module_state_first_write_wins (mgr : DataTransferManager)
    (tt : Int → MLDataType)
    (up : ElemT → TensorProto → List Byte → Int → Status × List Byte)
    (builder : FlatBufferBuilder) (trainable frozen : List (String × OrtValue))
    (htr : ∀ e ∈ trainable, HostSupportedTensor mgr tt up e.2)
    (hfr : ∀ e ∈ frozen, HostSupportedTensor mgr tt up e.2)
    (dest : ModuleCheckpointState) :
    ∃ loaded : InlinedHashMap Parameter,
      Load.ToModuleState tt up
          (some ⟨some ((trainable.map (fun e => wire_of_tensor builder e.1 e.2)).map some),
                 some ((frozen.map (fun e => wire_of_tensor builder e.1 e.2)).map some)⟩)
          dest =
        some (Status.OK, { dest with named_parameters := loaded }) ∧
      ∀ k, InlinedHashMap.find loaded k =
        (InlinedHashMap.find dest.named_parameters k).or
          (((InlinedHashMap.find trainable k).map (fun v => (⟨k, v, true⟩ : Parameter))).or
            ((InlinedHashMap.find frozen k).map (fun v => (⟨k, v, false⟩ : Parameter)))) := by
  obtain ⟨r1, hr1, hf1⟩ := OrtValuesFromFlatbufferTensors_merge mgr tt up builder trainable
    htr []
  obtain ⟨r2, hr2, hf2⟩ := OrtValuesFromFlatbufferTensors_merge mgr tt up builder frozen
    hfr []
  refine ⟨Load.ToModuleState.emplace_all false r2
    (Load.ToModuleState.emplace_all true r1 dest.named_parameters), ?_, fun k => ?_⟩
  · simp only [Load.ToModuleState, hr1, hr2, Status_OK_IsOK, Bool.not_true,
      Bool.false_eq_true, if_false]
  · rw [ToModuleState_emplace_all_find, ToModuleState_emplace_all_find, hf1, hf2,
      Option.or_assoc]
    simp [InlinedHashMap.find]

/-- Witness of C36: the name `w` occurs twice in the trainable list and once in the
frozen list, and the name `b` is in the destination already; `w` is loaded as the first
trainable tensor and `b` keeps the parameter of the destination. -/
theorem C36_module_state_first_write_wins_witness :
    ∃ loaded : InlinedHashMap Parameter,
      Load.ToModuleState four_byte_types unpack_copy
          (some ⟨some [some (wire_of_tensor builder_at_4096 "w"
                    (OrtValue.tensor (float_tensor 1))),
                  some (wire_of_tensor builder_at_4096 "w"
                    (OrtValue.tensor (float_tensor 2)))],
                 some [some (wire_of_tensor builder_at_4096 "w"
                    (OrtValue.tensor (float_tensor 3))),
                  some (wire_of_tensor builder_at_4096 "b"
                    (OrtValue.tensor (float_tensor 4)))]⟩)
          ⟨[("b", ⟨"b", OrtValue.tensor (float_tensor 5), true⟩)], none⟩ =
        some (Status.OK, ⟨loaded, none⟩) ∧
      InlinedHashMap.find loaded "w" = some ⟨"w", OrtValue.tensor (float_tensor 1), true⟩ ∧
      InlinedHashMap.find loaded "b" = some ⟨"b", OrtValue.tensor (float_tensor 5), true⟩ :=
  match C36_module_state_first_write_wins copying_manager four_byte_types unpack_copy
      builder_at_4096
      [("w", OrtValue.tensor (float_tensor 1)), ("w", OrtValue.tensor (float_tensor 2))]
      [("w", OrtValue.tensor (float_tensor 3)), ("b", OrtValue.tensor (float_tensor 4))]
      (fun e he => by
        simp only [List.mem_cons, List.mem_singleton, List.not_mem_nil, or_false] at he
        rcases he with rfl | rfl
        · exact float_tensor_host 1
        · exact float_tensor_host 2)
      (fun e he => by
        simp only [List.mem_cons, List.mem_singleton, List.not_mem_nil, or_false] at he
        rcases he with rfl | rfl
        · exact float_tensor_host 3
        · exact float_tensor_host 4)
      ⟨[("b", ⟨"b", OrtValue.tensor (float_tensor 5), true⟩)], none⟩ with
  | ⟨loaded, hload, hfind⟩ =>
    ⟨loaded, hload, (hfind "w").trans (by decide), (hfind "b").trans (by decide)⟩

/-! ### Ownership of the bytes of overwritten initializers -/

/-- With zero-copy off a successful `LoadInitializerOrtFormat` records no external
reference, whatever the size of the payload, and for a tag other than string the
record owns the raw bytes of the wire tensor. -/
theorem LoadInitializerOrtFormat_owned (w : fbs.Tensor) (init : TensorProto)
    (h : (LoadInitializerOrtFormat w init ⟨false⟩).1.IsOK = true) :
    (LoadInitializerOrtFormat w init ⟨false⟩).2.data_location =
      TensorProto_DataLocation.DEFAULT ∧
    (LoadInitializerOrtFormat w init ⟨false⟩).2.external_data = [] ∧
    (w.data_type ≠ fbs.TensorDataType.STRING →
      ∃ v, w.raw_data = some v ∧
        (LoadInitializerOrtFormat w init ⟨false⟩).2.raw_data = some v.elems) := by
  have hok := (LoadInitializerOrtFormat_ok_iff w init ⟨false⟩).1 h
  cases hd : w.dims with
  | none => simp [hd] at hok
  | some d =>
    by_cases ht : w.data_type = fbs.TensorDataType.STRING
    · cases hs : w.string_data with
      | none => simp [ht, hs] at hok
      | some l =>
        rw [LoadInitializerOrtFormat_string w init ⟨false⟩ d l hd ht hs]
        exact ⟨rfl, rfl, fun hne => absurd ht hne⟩
    · cases hr : w.raw_data with
      | none => simp [ht, hr] at hok
      | some v =>
        rw [LoadInitializerOrtFormat_raw w init ⟨false⟩ d v hd ht hr]
        simp

/-- Claim C37. `Load::ToModelProto` always decodes with zero-copy off. For a file that
is read and verified, module-state tensors that are not null, have a name and decode,
and a model whose initializers all have names, the call returns OK, and every
initializer that it overwrites (one whose name matches a module-state tensor) has the
default data location and no external-data entries, and for an element type other
than string it owns the raw bytes of the wire tensor, whatever their number; so no
overwritten initializer refers to the checkpoint buffer. -/
theorem C37_overwritten_initializers_own_bytes (files : CheckpointFiles)
    (checkpoint_path : PathString) (model_proto : ModelProto) (bytes span : List Byte)
    (checkpoint : fbs.Checkpoint) (trainable frozen : List fbs.Tensor)
    (hfile : Load.FromFile files checkpoint_path [] [] = (Status.OK, bytes, span))
    (hget : files.GetCheckpoint span = some checkpoint)
    (htr : (checkpoint.module_state.bind (fun ms => ms.requires_grad)).getD [] =
      trainable.map some)
    (hfr : (checkpoint.module_state.bind (fun ms => ms.frozen_params)).getD [] =
      frozen.map some)
    (hdec : ∀ t ∈ trainable ++ frozen, t.name.isSome = true ∧
      (LoadInitializerOrtFormat t TensorProto.empty ⟨false⟩).1.IsOK = true)
    (hnames : ∀ init ∈ model_proto.get_initializer, init.has_name = true) :
    ∃ loaded : ModelProto,
      Load.ToModelProto files checkpoint_path model_proto = some (Status.OK, loaded) ∧
      List.Forall₂
        (fun (init out : TensorProto) =>
          ∀ t : fbs.Tensor,
            (trainable ++ frozen).find? (fun x => decide (x.name = init.name)) = some t →
            out.data_location = TensorProto_DataLocation.DEFAULT ∧
            out.external_data = [] ∧
            (t.data_type ≠ fbs.TensorDataType.STRING →
              ∃ v, t.raw_data = some v ∧ out.raw_data = some v.elems))
        model_proto.get_initializer loaded.get_initializer := by
  obtain ⟨loaded, h1, h2⟩ := ToModelProto_initializers files checkpoint_path model_proto
    bytes span checkpoint trainable frozen hfile hget htr hfr hdec hnames
  refine ⟨loaded, h1, ?_⟩
  rw [h2, List.forall₂_map_right_iff, List.forall₂_same]
  intro init _ t ht
  simp only [ht]
  exact LoadInitializerOrtFormat_owned t TensorProto.empty
    (hdec t (List.mem_of_find?_eq_some ht)).2

/-- Witness of C37: a tensor `w` of 200 payload bytes overwrites the initializer `w`,
which then owns the 200 bytes and has no external data location. -/
theorem C37_overwritten_initializers_own_bytes_witness :
    ∃ (loaded : ModelProto) (out : TensorProto),
      Load.ToModelProto (checkpoint_files true checkpoint_large_tensor) "checkpoint"
          ⟨some [record_bytes]⟩ = some (Status.OK, loaded) ∧
      loaded.get_initializer = [out] ∧
      out.data_location = TensorProto_DataLocation.DEFAULT ∧
      out.external_data = [] ∧
      out.raw_data = some (List.replicate 200 0) := by
  obtain ⟨loaded, h1, h2⟩ := C37_overwritten_initializers_own_bytes
    (checkpoint_files true checkpoint_large_tensor) "checkpoint" ⟨some [record_bytes]⟩
    [1, 2, 3] [1, 2, 3] checkpoint_large_tensor [wire_bytes 200] [] rfl rfl rfl rfl
    (by decide) (by decide)
  have h3 : ModelProto.get_initializer ⟨some [record_bytes]⟩ = [record_bytes] := rfl
  rw [h3, List.forall₂_cons_left_iff] at h2
  obtain ⟨out, rest, hhead, htail, hl⟩ := h2
  rw [List.forall₂_nil_left_iff] at htail
  subst htail
  obtain ⟨ha, hb, hc⟩ := hhead (wire_bytes 200) rfl
  obtain ⟨v, hv, hraw⟩ := hc (by decide)
  have hv2 : v = ⟨4096, List.replicate 200 0⟩ := by
    have h4 : (some ⟨4096, List.replicate 200 0⟩ : Option fbs.ByteVector) = some v := hv
    injection h4 with h5
    exact h5.symm
  subst hv2
  exact ⟨loaded, out, h1, hl, ha, hb, hraw⟩

/-! ### Round trip of attributes -/

/-- Round trip of the tensor codec with zero-copy off, with the bytes of the unpacker
named: the saved record decodes with status OK into the record made of the fields of
`x` and the bytes that the unpacker read. -/
theorem tensor_codec_roundtrip_unpacked
    (unpack : TensorProto → Path → Except Status (List Byte)) (builder : FlatBufferBuilder)
    (x : TensorProto) (model_path : Path) (w : fbs.Tensor)
    (hsave : SaveInitializerOrtFormat unpack builder x model_path = Except.ok w) :
    ∀ init, LoadInitializerOrtFormat w init ⟨false⟩ =
      (Status.OK, decoded_record x (unpacked_bytes unpack model_path x)) := by
  obtain ⟨bytes, hu, hl⟩ := tensor_codec_roundtrip unpack builder x model_path w hsave
  intro init
  rw [hl init]
  by_cases ht : x.data_type = TensorProto_DataType_STRING
  · simp [decoded_record, ht]
  · simp [unpacked_bytes, hu ht]

/-- The string loop of `LoadAttributeOrtFormat` on strings that are all present adds
them in order. -/
theorem LoadAttributeOrtFormat_strings_all (l : List String) :
    ∀ acc : List String,
      LoadAttributeOrtFormat_strings (l.map some) acc = (Status.OK, acc ++ l) := by
  induction l with
  | nil => intro acc; simp [LoadAttributeOrtFormat_strings]
  | cons s rest ih =>
    intro acc
    simp only [List.map_cons, LoadAttributeOrtFormat_strings, ih, List.append_assoc,
      List.singleton_append]

/-- When the tensor loop of `SaveAttributeOrtFormat` succeeds, it has appended one
record per tensor, in order, each the saved record of its tensor. -/
theorem SaveAttributeOrtFormat_tensors_ok
    (unpack : TensorProto → Path → Except Status (List Byte)) (builder : FlatBufferBuilder)
    (model_path : Path) (l : List TensorProto) :
    ∀ (acc ws : List fbs.Tensor),
      SaveAttributeOrtFormat_tensors unpack builder model_path l acc = Except.ok ws →
      ∃ saved, ws = acc ++ saved ∧
        List.Forall₂
          (fun x w => SaveInitializerOrtFormat unpack builder x model_path = Except.ok w)
          l saved := by
  induction l with
  | nil =>
    intro acc ws h
    simp only [SaveAttributeOrtFormat_tensors] at h
    cases h
    exact ⟨[], by simp, List.Forall₂.nil⟩
  | cons x rest ih =>
    intro acc ws h
    cases hs : SaveInitializerOrtFormat unpack builder x model_path with
    | error e => simp only [SaveAttributeOrtFormat_tensors, hs] at h; cases h
    | ok w =>
      simp only [SaveAttributeOrtFormat_tensors, hs] at h
      obtain ⟨saved, hws, hall⟩ := ih _ _ h
      exact ⟨w :: saved, by rw [hws]; simp, List.Forall₂.cons hs hall⟩

/-- The tensor loop of `LoadAttributeOrtFormat` with zero-copy off on saved records adds
the round-tripped tensors in order. -/
theorem LoadAttributeOrtFormat_tensors_saved
    (unpack : TensorProto → Path → Except Status (List Byte)) (builder : FlatBufferBuilder)
    (model_path : Path) (l : List TensorProto) (saved : List fbs.Tensor)
    (h : List.Forall₂
      (fun x w => SaveInitializerOrtFormat unpack builder x model_path = Except.ok w)
      l saved) :
    ∀ acc : List TensorProto,
      LoadAttributeOrtFormat_tensors ⟨false⟩ (saved.map some) acc =
        (Status.OK,
          acc ++ l.map (fun x => decoded_record x (unpacked_bytes unpack model_path x))) := by
  induction h with
  | nil => intro acc; simp [LoadAttributeOrtFormat_tensors]
  | cons hs _ ih =>
    intro acc
    simp only [List.map_cons, LoadAttributeOrtFormat_tensors,
      tensor_codec_roundtrip_unpacked unpack builder _ model_path _ hs, Status_OK_IsOK,
      Bool.not_true, Bool.false_eq_true, if_false, ih, List.append_assoc,
      List.singleton_append]

/-- A saved record that satisfies the record invariant and whose raw bytes are what
the unpacker reads is its own round trip. -/
theorem decoded_record_unpacked_eq
    (unpack : TensorProto → Path → Except Status (List Byte)) (builder : FlatBufferBuilder)
    (x : TensorProto) (model_path : Path) (w : fbs.Tensor)
    (hsave : SaveInitializerOrtFormat unpack builder x model_path = Except.ok w)
    (hrec : IsTensorRecord x)
    (hb : ∀ bytes, unpack x model_path = Except.ok bytes → x.raw_data = some bytes) :
    decoded_record x (unpacked_bytes unpack model_path x) = x := by
  apply decoded_record_eq x _ hrec
  intro ht
  obtain ⟨bytes, hu, _⟩ :=
    (SaveInitializerOrtFormat_ok unpack builder x model_path w hsave).2.2.2.2.2 ht
  simp [unpacked_bytes, hu, hb bytes hu]

/-- Saved records that satisfy the record invariant and whose raw bytes are what the
unpacker reads are their own round trips. -/
theorem decoded_records_unpacked_eq
    (unpack : TensorProto → Path → Except Status (List Byte)) (builder : FlatBufferBuilder)
    (model_path : Path) (l : List TensorProto) (saved : List fbs.Tensor)
    (h : List.Forall₂
      (fun x w => SaveInitializerOrtFormat unpack builder x model_path = Except.ok w)
      l saved)
    (hl : ∀ x ∈ l, IsTensorRecord x ∧
      ∀ bytes, unpack x model_path = Except.ok bytes → x.raw_data = some bytes) :
    l.map (fun x => decoded_record x (unpacked_bytes unpack model_path x)) = l := by
  induction h with
  | nil => rfl
  | @cons x w rest saved_rest hs _ ih =>
    have hx := hl x (List.mem_cons_self _ _)
    rw [List.map_cons, decoded_record_unpacked_eq unpack builder x model_path w hs hx.1 hx.2,
      ih (fun y hy => hl y (List.mem_cons_of_mem _ hy))]

/-- Counterexample to C31 as stated: the FLOAT attribute `a` with the value `-0.0f` is
saved, and the saved record is decoded with status OK to an attribute whose float is
`0.0f`, which is another value. -/
theorem C31_counterexample :
    ∃ w loaded,
      SaveAttributeOrtFormat unpack_raw serializer_ok enum_name_number builder_at_4096
        attr_negative_zero "" none = Except.ok w ∧
      LoadAttributeOrtFormat deserializer_ok w AttributeProto.empty none ⟨[]⟩ ⟨0⟩ ⟨false⟩
        ⟨0⟩ = (Status.OK, loaded, none) ∧
      loaded.type = AttributeProto_AttributeType_FLOAT ∧
      loaded.f = some f32.zero ∧
      attr_negative_zero.f = some f32.negative_zero ∧
      f32.zero ≠ f32.negative_zero :=
  ⟨_, _, rfl, rfl, rfl, rfl, rfl, by decide⟩

/-- Claim C31, amended. Round trip of the attribute codec with zero-copy off for the
eight kinds other than GRAPH: whenever `SaveAttributeOrtFormat` produces a record from
an attribute of type FLOAT, INT, STRING, TENSOR, FLOATS, INTS, STRINGS or TENSORS,
`LoadAttributeOrtFormat` decodes it with status OK, leaves `sub_graph` as it was, and
yields an attribute with the same name, doc string and type and the payload of that
type: the float, except that `-0.0f` is decoded as `0.0f`, the integer, the string,
the list of floats, integers or strings with the same elements in the same order, and
for TENSOR and TENSORS the round-tripped tensors in the same order, which are the
saved tensors when these satisfy the record invariant and their raw bytes are what the
unpacker reads. -/
theorem C31_attribute_roundtrip
    (unpack : TensorProto → Path → Except Status (List Byte))
    (ser : Graph → Except Status fbs.Graph) (enum_name : Int → String)
    (LF : fbs.Graph → Graph → Node → OrtFormatLoadOptions → logging.Logger → Option Graph →
      Status × Option Graph)
    (builder : FlatBufferBuilder) (attr_proto : AttributeProto) (model_path : Path)
    (subgraph : Option Graph) (w : fbs.Attribute) (init : AttributeProto)
    (sub_graph : Option Graph) (graph : Graph) (node : Node) (logger : logging.Logger)
    (hkind : attr_proto.type ∈ AttributeType_nine_kinds)
    (hng : attr_proto.type ≠ AttributeProto_AttributeType_GRAPH)
    (hsave : SaveAttributeOrtFormat unpack ser enum_name builder attr_proto model_path
      subgraph = Except.ok w) :
    ∃ loaded : AttributeProto,
      LoadAttributeOrtFormat LF w init sub_graph graph node ⟨false⟩ logger =
        (Status.OK, loaded, sub_graph) ∧
      loaded.name = attr_proto.name ∧ loaded.doc_string = attr_proto.doc_string ∧
      loaded.type = attr_proto.type ∧
      (attr_proto.type = AttributeProto_AttributeType_FLOAT →
        loaded.f = some (AddElement_float attr_proto.get_f) ∧
        (attr_proto.get_f ≠ f32.negative_zero → loaded.f = some attr_proto.get_f)) ∧
      (attr_proto.type = AttributeProto_AttributeType_INT →
        loaded.i = some attr_proto.get_i) ∧
      (attr_proto.type = AttributeProto_AttributeType_STRING →
        loaded.s = some attr_proto.get_s) ∧
      (attr_proto.type = AttributeProto_AttributeType_FLOATS →
        loaded.floats = attr_proto.floats) ∧
      (attr_proto.type = AttributeProto_AttributeType_INTS →
        loaded.ints = attr_proto.ints) ∧
      (attr_proto.type = AttributeProto_AttributeType_STRINGS →
        loaded.strings = attr_proto.strings) ∧
      (attr_proto.type = AttributeProto_AttributeType_TENSOR →
        loaded.t = some (decoded_record attr_proto.get_t
          (unpacked_bytes unpack model_path attr_proto.get_t)) ∧
        (IsTensorRecord attr_proto.get_t →
          (∀ bytes, unpack attr_proto.get_t model_path = Except.ok bytes →
            attr_proto.get_t.raw_data = some bytes) →
          loaded.t = some attr_proto.get_t)) ∧
      (attr_proto.type = AttributeProto_AttributeType_TENSORS →
        loaded.tensors = attr_proto.tensors.map
          (fun x => decoded_record x (unpacked_bytes unpack model_path x)) ∧
        ((∀ x ∈ attr_proto.tensors, IsTensorRecord x ∧
            ∀ bytes, unpack x model_path = Except.ok bytes → x.raw_data = some bytes) →
          loaded.tensors = attr_proto.tensors)) := by
  have hn : SaveStringToOrtFormat attr_proto.has_name attr_proto.get_name =
      attr_proto.name := by
    cases h : attr_proto.name <;> simp [SaveStringToOrtFormat, AttributeProto.has_name,
      AttributeProto.get_name, h]
  have hdoc : SaveStringToOrtFormat attr_proto.has_doc_string attr_proto.get_doc_string =
      attr_proto.doc_string := by
    cases h : attr_proto.doc_string <;> simp [SaveStringToOrtFormat,
      AttributeProto.has_doc_string, AttributeProto.get_doc_string, h]
  have hln : ∀ o : Option String, LOAD_STR_FROM_ORT_FORMAT none o = o := by
    intro o; cases o <;> rfl
  simp only [AttributeType_nine_kinds, List.mem_cons, List.mem_singleton,
    List.not_mem_nil, or_false] at hkind
  rcases hkind with h | h | h | h | h | h | h | h | h
  · simp [SaveAttributeOrtFormat, h, GET_FBS_ATTR, hn, hdoc,
      AttributeProto_AttributeType_FLOAT, AttributeProto_AttributeType_INT,
      AttributeProto_AttributeType_STRING, AttributeProto_AttributeType_TENSOR,
      AttributeProto_AttributeType_GRAPH, AttributeProto_AttributeType_FLOATS,
      AttributeProto_AttributeType_INTS, AttributeProto_AttributeType_STRINGS,
      AttributeProto_AttributeType_TENSORS] at hsave
    subst hsave
    refine ⟨{ AttributeProto.empty with
      name := attr_proto.name, doc_string := attr_proto.doc_string,
      type := attr_proto.type, f := some (AddElement_float attr_proto.get_f) }, ?_, ?_⟩
    · simp [LoadAttributeOrtFormat, hln, AttributeProto.Clear, AttributeProto.empty, h,
        LoadAttributeOrtFormat_strings_all,
        AttributeProto_AttributeType_FLOAT, AttributeProto_AttributeType_INT,
      AttributeProto_AttributeType_STRING, AttributeProto_AttributeType_TENSOR,
      AttributeProto_AttributeType_GRAPH, AttributeProto_AttributeType_FLOATS,
      AttributeProto_AttributeType_INTS, AttributeProto_AttributeType_STRINGS,
      AttributeProto_AttributeType_TENSORS]
    · simp [h,
        AttributeProto_AttributeType_FLOAT, AttributeProto_AttributeType_INT,
      AttributeProto_AttributeType_STRING, AttributeProto_AttributeType_TENSOR,
      AttributeProto_AttributeType_GRAPH, AttributeProto_AttributeType_FLOATS,
      AttributeProto_AttributeType_INTS, AttributeProto_AttributeType_STRINGS,
      AttributeProto_AttributeType_TENSORS]
      intro hne
      simp [AddElement_float, hne]
  · simp [SaveAttributeOrtFormat, h, GET_FBS_ATTR, hn, hdoc,
      AttributeProto_AttributeType_FLOAT, AttributeProto_AttributeType_INT,
      AttributeProto_AttributeType_STRING, AttributeProto_AttributeType_TENSOR,
      AttributeProto_AttributeType_GRAPH, AttributeProto_AttributeType_FLOATS,
      AttributeProto_AttributeType_INTS, AttributeProto_AttributeType_STRINGS,
      AttributeProto_AttributeType_TENSORS] at hsave
    subst hsave
    refine ⟨{ AttributeProto.empty with
      name := attr_proto.name, doc_string := attr_proto.doc_string,
      type := attr_proto.type, i := some attr_proto.get_i }, ?_, ?_⟩
    · simp [LoadAttributeOrtFormat, hln, AttributeProto.Clear, AttributeProto.empty, h,
        LoadAttributeOrtFormat_strings_all,
        AttributeProto_AttributeType_FLOAT, AttributeProto_AttributeType_INT,
      AttributeProto_AttributeType_STRING, AttributeProto_AttributeType_TENSOR,
      AttributeProto_AttributeType_GRAPH, AttributeProto_AttributeType_FLOATS,
      AttributeProto_AttributeType_INTS, AttributeProto_AttributeType_STRINGS,
      AttributeProto_AttributeType_TENSORS]
    · simp [h,
        AttributeProto_AttributeType_FLOAT, AttributeProto_AttributeType_INT,
      AttributeProto_AttributeType_STRING, AttributeProto_AttributeType_TENSOR,
      AttributeProto_AttributeType_GRAPH, AttributeProto_AttributeType_FLOATS,
      AttributeProto_AttributeType_INTS, AttributeProto_AttributeType_STRINGS,
      AttributeProto_AttributeType_TENSORS]
  · simp [SaveAttributeOrtFormat, h, GET_FBS_ATTR, hn, hdoc,
      AttributeProto_AttributeType_FLOAT, AttributeProto_AttributeType_INT,
      AttributeProto_AttributeType_STRING, AttributeProto_AttributeType_TENSOR,
      AttributeProto_AttributeType_GRAPH, AttributeProto_AttributeType_FLOATS,
      AttributeProto_AttributeType_INTS, AttributeProto_AttributeType_STRINGS,
      AttributeProto_AttributeType_TENSORS] at hsave
    subst hsave
    refine ⟨{ AttributeProto.empty with
      name := attr_proto.name, doc_string := attr_proto.doc_string,
      type := attr_proto.type, s := some attr_proto.get_s }, ?_, ?_⟩
    · simp [LoadAttributeOrtFormat, hln, AttributeProto.Clear, AttributeProto.empty, h,
        LoadAttributeOrtFormat_strings_all,
        AttributeProto_AttributeType_FLOAT, AttributeProto_AttributeType_INT,
      AttributeProto_AttributeType_STRING, AttributeProto_AttributeType_TENSOR,
      AttributeProto_AttributeType_GRAPH, AttributeProto_AttributeType_FLOATS,
      AttributeProto_AttributeType_INTS, AttributeProto_AttributeType_STRINGS,
      AttributeProto_AttributeType_TENSORS]
    · simp [h,
        AttributeProto_AttributeType_FLOAT, AttributeProto_AttributeType_INT,
      AttributeProto_AttributeType_STRING, AttributeProto_AttributeType_TENSOR,
      AttributeProto_AttributeType_GRAPH, AttributeProto_AttributeType_FLOATS,
      AttributeProto_AttributeType_INTS, AttributeProto_AttributeType_STRINGS,
      AttributeProto_AttributeType_TENSORS]
  · cases hs : SaveInitializerOrtFormat unpack builder attr_proto.get_t model_path with
    | error e =>
      simp [SaveAttributeOrtFormat, h, hs,
        AttributeProto_AttributeType_FLOAT, AttributeProto_AttributeType_INT,
      AttributeProto_AttributeType_STRING, AttributeProto_AttributeType_TENSOR,
      AttributeProto_AttributeType_GRAPH, AttributeProto_AttributeType_FLOATS,
      AttributeProto_AttributeType_INTS, AttributeProto_AttributeType_STRINGS,
      AttributeProto_AttributeType_TENSORS] at hsave
    | ok wt =>
      simp [SaveAttributeOrtFormat, h, GET_FBS_ATTR, hn, hdoc, hs,
        AttributeProto_AttributeType_FLOAT, AttributeProto_AttributeType_INT,
      AttributeProto_AttributeType_STRING, AttributeProto_AttributeType_TENSOR,
      AttributeProto_AttributeType_GRAPH, AttributeProto_AttributeType_FLOATS,
      AttributeProto_AttributeType_INTS, AttributeProto_AttributeType_STRINGS,
      AttributeProto_AttributeType_TENSORS] at hsave
      subst hsave
      have hrt := tensor_codec_roundtrip_unpacked unpack builder attr_proto.get_t model_path
        wt hs
      refine ⟨{ AttributeProto.empty with
        name := attr_proto.name, doc_string := attr_proto.doc_string,
        type := attr_proto.type,
        t := some (decoded_record attr_proto.get_t
          (unpacked_bytes unpack model_path attr_proto.get_t)) }, ?_, ?_⟩
      · simp [LoadAttributeOrtFormat, hln, AttributeProto.Clear, AttributeProto.empty, h,
          hrt, Status_OK_IsOK,
          AttributeProto_AttributeType_FLOAT, AttributeProto_AttributeType_INT,
      AttributeProto_AttributeType_STRING, AttributeProto_AttributeType_TENSOR,
      AttributeProto_AttributeType_GRAPH, AttributeProto_AttributeType_FLOATS,
      AttributeProto_AttributeType_INTS, AttributeProto_AttributeType_STRINGS,
      AttributeProto_AttributeType_TENSORS]
      · have hx : ∀ {P : Prop} (c : Int), AttributeProto_AttributeType_TENSOR ≠ c →
            attr_proto.type = c → P :=
          fun c hc h2 => absurd (h.symm.trans h2) hc
        exact ⟨rfl, rfl, rfl, hx _ (by decide), hx _ (by decide), hx _ (by decide),
          hx _ (by decide), hx _ (by decide), hx _ (by decide),
          fun _ => ⟨rfl, fun hrec hb => congrArg some
            (decoded_record_unpacked_eq unpack builder _ model_path wt hs hrec hb)⟩,
          hx _ (by decide)⟩
  · exact absurd h hng
  · simp [SaveAttributeOrtFormat, h, GET_FBS_ATTR, hn, hdoc,
      AttributeProto_AttributeType_FLOAT, AttributeProto_AttributeType_INT,
      AttributeProto_AttributeType_STRING, AttributeProto_AttributeType_TENSOR,
      AttributeProto_AttributeType_GRAPH, AttributeProto_AttributeType_FLOATS,
      AttributeProto_AttributeType_INTS, AttributeProto_AttributeType_STRINGS,
      AttributeProto_AttributeType_TENSORS] at hsave
    subst hsave
    refine ⟨{ AttributeProto.empty with
      name := attr_proto.name, doc_string := attr_proto.doc_string,
      type := attr_proto.type, floats := attr_proto.floats }, ?_, ?_⟩
    · simp [LoadAttributeOrtFormat, hln, AttributeProto.Clear, AttributeProto.empty, h,
        LoadAttributeOrtFormat_strings_all,
        AttributeProto_AttributeType_FLOAT, AttributeProto_AttributeType_INT,
      AttributeProto_AttributeType_STRING, AttributeProto_AttributeType_TENSOR,
      AttributeProto_AttributeType_GRAPH, AttributeProto_AttributeType_FLOATS,
      AttributeProto_AttributeType_INTS, AttributeProto_AttributeType_STRINGS,
      AttributeProto_AttributeType_TENSORS]
    · simp [h,
        AttributeProto_AttributeType_FLOAT, AttributeProto_AttributeType_INT,
      AttributeProto_AttributeType_STRING, AttributeProto_AttributeType_TENSOR,
      AttributeProto_AttributeType_GRAPH, AttributeProto_AttributeType_FLOATS,
      AttributeProto_AttributeType_INTS, AttributeProto_AttributeType_STRINGS,
      AttributeProto_AttributeType_TENSORS]
  · simp [SaveAttributeOrtFormat, h, GET_FBS_ATTR, hn, hdoc,
      AttributeProto_AttributeType_FLOAT, AttributeProto_AttributeType_INT,
      AttributeProto_AttributeType_STRING, AttributeProto_AttributeType_TENSOR,
      AttributeProto_AttributeType_GRAPH, AttributeProto_AttributeType_FLOATS,
      AttributeProto_AttributeType_INTS, AttributeProto_AttributeType_STRINGS,
      AttributeProto_AttributeType_TENSORS] at hsave
    subst hsave
    refine ⟨{ AttributeProto.empty with
      name := attr_proto.name, doc_string := attr_proto.doc_string,
      type := attr_proto.type, ints := attr_proto.ints }, ?_, ?_⟩
    · simp [LoadAttributeOrtFormat, hln, AttributeProto.Clear, AttributeProto.empty, h,
        LoadAttributeOrtFormat_strings_all,
        AttributeProto_AttributeType_FLOAT, AttributeProto_AttributeType_INT,
      AttributeProto_AttributeType_STRING, AttributeProto_AttributeType_TENSOR,
      AttributeProto_AttributeType_GRAPH, AttributeProto_AttributeType_FLOATS,
      AttributeProto_AttributeType_INTS, AttributeProto_AttributeType_STRINGS,
      AttributeProto_AttributeType_TENSORS]
    · simp [h,
        AttributeProto_AttributeType_FLOAT, AttributeProto_AttributeType_INT,
      AttributeProto_AttributeType_STRING, AttributeProto_AttributeType_TENSOR,
      AttributeProto_AttributeType_GRAPH, AttributeProto_AttributeType_FLOATS,
      AttributeProto_AttributeType_INTS, AttributeProto_AttributeType_STRINGS,
      AttributeProto_AttributeType_TENSORS]
  · simp [SaveAttributeOrtFormat, h, GET_FBS_ATTR, hn, hdoc,
      AttributeProto_AttributeType_FLOAT, AttributeProto_AttributeType_INT,
      AttributeProto_AttributeType_STRING, AttributeProto_AttributeType_TENSOR,
      AttributeProto_AttributeType_GRAPH, AttributeProto_AttributeType_FLOATS,
      AttributeProto_AttributeType_INTS, AttributeProto_AttributeType_STRINGS,
      AttributeProto_AttributeType_TENSORS] at hsave
    subst hsave
    refine ⟨{ AttributeProto.empty with
      name := attr_proto.name, doc_string := attr_proto.doc_string,
      type := attr_proto.type, strings := attr_proto.strings }, ?_, ?_⟩
    · simp [LoadAttributeOrtFormat, hln, AttributeProto.Clear, AttributeProto.empty, h,
        LoadAttributeOrtFormat_strings_all,
        AttributeProto_AttributeType_FLOAT, AttributeProto_AttributeType_INT,
      AttributeProto_AttributeType_STRING, AttributeProto_AttributeType_TENSOR,
      AttributeProto_AttributeType_GRAPH, AttributeProto_AttributeType_FLOATS,
      AttributeProto_AttributeType_INTS, AttributeProto_AttributeType_STRINGS,
      AttributeProto_AttributeType_TENSORS]
    · simp [h,
        AttributeProto_AttributeType_FLOAT, AttributeProto_AttributeType_INT,
      AttributeProto_AttributeType_STRING, AttributeProto_AttributeType_TENSOR,
      AttributeProto_AttributeType_GRAPH, AttributeProto_AttributeType_FLOATS,
      AttributeProto_AttributeType_INTS, AttributeProto_AttributeType_STRINGS,
      AttributeProto_AttributeType_TENSORS]
  · cases hs : SaveAttributeOrtFormat_tensors unpack builder model_path attr_proto.tensors
        [] with
    | error e =>
      simp [SaveAttributeOrtFormat, h, hs,
        AttributeProto_AttributeType_FLOAT, AttributeProto_AttributeType_INT,
      AttributeProto_AttributeType_STRING, AttributeProto_AttributeType_TENSOR,
      AttributeProto_AttributeType_GRAPH, AttributeProto_AttributeType_FLOATS,
      AttributeProto_AttributeType_INTS, AttributeProto_AttributeType_STRINGS,
      AttributeProto_AttributeType_TENSORS] at hsave
    | ok ws =>
      obtain ⟨saved, hws, hall⟩ := SaveAttributeOrtFormat_tensors_ok unpack builder
        model_path attr_proto.tensors [] ws hs
      rw [List.nil_append] at hws
      subst hws
      simp [SaveAttributeOrtFormat, h, GET_FBS_ATTR, hn, hdoc, hs,
        AttributeProto_AttributeType_FLOAT, AttributeProto_AttributeType_INT,
      AttributeProto_AttributeType_STRING, AttributeProto_AttributeType_TENSOR,
      AttributeProto_AttributeType_GRAPH, AttributeProto_AttributeType_FLOATS,
      AttributeProto_AttributeType_INTS, AttributeProto_AttributeType_STRINGS,
      AttributeProto_AttributeType_TENSORS] at hsave
      subst hsave
      have hl := LoadAttributeOrtFormat_tensors_saved unpack builder model_path
        attr_proto.tensors ws hall []
      refine ⟨{ AttributeProto.empty with
        name := attr_proto.name, doc_string := attr_proto.doc_string,
        type := attr_proto.type,
        tensors := attr_proto.tensors.map
          (fun x => decoded_record x (unpacked_bytes unpack model_path x)) }, ?_, ?_⟩
      · simp [LoadAttributeOrtFormat, hln, AttributeProto.Clear, AttributeProto.empty, h,
          hl, Status_OK_IsOK,
          AttributeProto_AttributeType_FLOAT, AttributeProto_AttributeType_INT,
      AttributeProto_AttributeType_STRING, AttributeProto_AttributeType_TENSOR,
      AttributeProto_AttributeType_GRAPH, AttributeProto_AttributeType_FLOATS,
      AttributeProto_AttributeType_INTS, AttributeProto_AttributeType_STRINGS,
      AttributeProto_AttributeType_TENSORS]
      · have hx : ∀ {P : Prop} (c : Int), AttributeProto_AttributeType_TENSORS ≠ c →
            attr_proto.type = c → P :=
          fun c hc h2 => absurd (h.symm.trans h2) hc
        exact ⟨rfl, rfl, rfl, hx _ (by decide), hx _ (by decide), hx _ (by decide),
          hx _ (by decide), hx _ (by decide), hx _ (by decide), hx _ (by decide),
          fun _ => ⟨rfl, fun hall2 => decoded_records_unpacked_eq unpack builder model_path
            attr_proto.tensors ws hall hall2⟩⟩

/-- Witness of C31: a TENSORS attribute with two tensor records is saved, and the saved
record is decoded to an attribute with the same name, doc string, type and tensors. -/
theorem C31_attribute_roundtrip_witness :
    ∃ loaded : AttributeProto,
      LoadAttributeOrtFormat deserializer_ok
          { fbs.Attribute.empty with
            name := some "a", doc_string := some "two",
            type := AttributeProto_AttributeType_TENSORS,
            tensors := some
              [some ⟨some "w", some "weights", some [3], TensorProto_DataType_UINT8,
                 some ⟨4096, [1, 2, 3]⟩, none⟩,
               some ⟨some "v", some "weights", some [3], TensorProto_DataType_UINT8,
                 some ⟨4096, [1, 2, 3]⟩, none⟩] }
          AttributeProto.empty none ⟨[]⟩ ⟨0⟩ ⟨false⟩ ⟨0⟩ = (Status.OK, loaded, none) ∧
      loaded.name = some "a" ∧ loaded.doc_string = some "two" ∧
      loaded.type = AttributeProto_AttributeType_TENSORS ∧
      loaded.tensors = [record_bytes, { record_bytes with name := some "v" }] := by
  obtain ⟨loaded, hload, hname, hdoc, htype, _, _, _, _, _, _, _, htensors⟩ :=
    C31_attribute_roundtrip unpack_raw serializer_ok enum_name_number deserializer_ok
      builder_at_4096 attr_tensors "" none
      { fbs.Attribute.empty with
        name := some "a", doc_string := some "two",
        type := AttributeProto_AttributeType_TENSORS,
        tensors := some
          [some ⟨some "w", some "weights", some [3], TensorProto_DataType_UINT8,
             some ⟨4096, [1, 2, 3]⟩, none⟩,
           some ⟨some "v", some "weights", some [3], TensorProto_DataType_UINT8,
             some ⟨4096, [1, 2, 3]⟩, none⟩] }
      AttributeProto.empty none ⟨[]⟩ ⟨0⟩ ⟨0⟩ (by decide) (by decide) rfl
  refine ⟨loaded, hload, hname, hdoc, htype, ?_⟩
  refine (htensors rfl).2 ?_
  intro x hx
  simp only [attr_tensors, AttributeProto.empty, List.mem_cons, List.mem_singleton,
    List.not_mem_nil, or_false] at hx
  rcases hx with rfl | rfl
  · refine ⟨by decide, fun bytes hu => ?_⟩
    have hb : (Except.ok [1, 2, 3] : Except Status (List Byte)) = Except.ok bytes := hu
    injection hb with h3
    rw [← h3]; rfl
  · refine ⟨by decide, fun bytes hu => ?_⟩
    have hb : (Except.ok [1, 2, 3] : Except Status (List Byte)) = Except.ok bytes := hu
    injection hb with h3
    rw [← h3]; rfl

end onnxruntime
